import Mathlib

/-!
# REACHER firmware: event timing and reward orchestration

A shallow embedding of the fixed-ratio firmware (`src/operant_FR`, with the
class bodies that only exist under `src/operant_PR`).  Machine integers are
mathematical integers with explicit wraparound: an `int32_t` is an `Int`
stored through `toInt32`, a `uint32_t` is a `Nat` stored through `toUInt32`.
`HIGH` is `true`, `LOW` is `false`.  The millisecond clock `millis()` is the
argument `now`; one call of a function reads one clock value.  Serial
output, pin writes and the entries of the functions that the properties
count are collected in the trace `Session.out`.
-/

namespace Reacher

/-! ## Machine integers -/

/-- Value held by an `int32_t` after the integer `x` is stored in it. -/
def toInt32 (x : Int) : Int := (x + 2147483648) % 4294967296 - 2147483648

/-- Value held by a `uint32_t` after the integer `x` is stored in it. -/
def toUInt32 (x : Int) : Nat := (x % 4294967296).toNat

/-- Unsigned 32-bit subtraction `a - b`. -/
def subU32 (a b : Nat) : Nat := (a + 4294967296 - b % 4294967296) % 4294967296

/-! ## Trace -/

/-- Functions whose entry is recorded in the trace. -/
inductive Fn
  | deliverReward
  | definePressActivity
  | pressingDataEntry
  | setLickTouchTimestamp
  | setLickReleaseTimestamp
  deriving DecidableEq, Repr

/-- Observable effects, in program order. -/
inductive Event
  | tone (pin : Nat) (frequency : Int)
  | noTone (pin : Nat)
  | digitalWrite (pin : Nat) (level : Bool)
  | println (line : String)
  | call (f : Fn)
  deriving DecidableEq, Repr

/-! ## Devices (Device.h, Cue.h, Pump.h, Laser.h, Lever.h, LickCircuit.h) -/

/-- Class `Cue` (Cue.h), with the `pin` and `armed` members of `Device`. -/
structure Cue where
  pin : Nat
  armed : Bool
  running : Bool
  frequency : Int
  duration : Int
  onTimestamp : Int
  offTimestamp : Int
  deriving DecidableEq, Repr

/-- Class `Pump` (Pump.h); the two `float` members take no part in timing. -/
structure Pump where
  pin : Nat
  armed : Bool
  running : Bool
  infusionDuration : Int
  infusionStartTimestamp : Int
  infusionEndTimestamp : Int
  deriving DecidableEq, Repr

inductive MODE
  | CYCLE
  | ACTIVE_PRESS
  deriving DecidableEq, Repr

inductive STATE
  | INACTIVE
  | ACTIVE
  deriving DecidableEq, Repr

inductive ACTION
  | OFF
  | ON
  deriving DecidableEq, Repr

/-- Class `Laser` (operant_FR/Laser.h). -/
structure Laser where
  pin : Nat
  armed : Bool
  duration : Nat
  frequency : Nat
  stimStart : Nat
  stimEnd : Nat
  halfCycleStart : Nat
  halfCycleEnd : Nat
  logged : Bool
  cycleUp : Bool
  laserMode : MODE
  laserState : STATE
  laserAction : ACTION
  deriving DecidableEq, Repr

/-- Class `Lever` (operant_FR/Lever.h). -/
structure Lever where
  pin : Nat
  armed : Bool
  previousLeverState : Bool
  stableLeverState : Bool
  pressTimestamp : Int
  releaseTimestamp : Int
  orientation : String
  pressType : String
  deriving DecidableEq, Repr

/-- Class `LickCircuit` (operant_FR/LickCircuit.h). -/
structure LickCircuit where
  pin : Nat
  armed : Bool
  previousLickState : Bool
  stableLickState : Bool
  lickTimestamp : Int
  releaseTimestamp : Int
  deriving DecidableEq, Repr

/-- Which of the two lever objects a `Lever*` argument points to. -/
inductive LeverId
  | RH
  | LH
  deriving DecidableEq, Repr

/-- The global objects and counters of one session, the function-local
`static` debounce timers of `monitorPressing` and `monitorLicking`, and the
trace. -/
structure Session where
  leverRH : Lever
  leverLH : Lever
  cs : Cue
  pump : Pump
  laser : Laser
  lickCircuit : LickCircuit
  timeoutIntervalStart : Nat
  timeoutIntervalEnd : Nat
  timeoutIntervalLength : Nat
  pressCount : Int
  fRatio : Int
  differenceFromStartTime : Nat
  traceIntervalLength : Nat
  programIsRunning : Bool
  leverLastDebounceTime : Nat
  lickLastDebounceTime : Nat
  out : List Event
  deriving DecidableEq, Repr

namespace Session

def emit (s : Session) (e : Event) : Session := { s with out := s.out ++ [e] }

def lever (s : Session) : LeverId → Lever
  | .RH => s.leverRH
  | .LH => s.leverLH

def setLever (s : Session) (id : LeverId) (l : Lever) : Session :=
  match id with
  | .RH => { s with leverRH := l }
  | .LH => { s with leverLH := l }

def setCs (s : Session) (c : Cue) : Session := { s with cs := c }

def setPump (s : Session) (p : Pump) : Session := { s with pump := p }

def setLaser (s : Session) (l : Laser) : Session := { s with laser := l }

def setLickCircuit (s : Session) (l : LickCircuit) : Session := { s with lickCircuit := l }

def setPressCount (s : Session) (v : Int) : Session := { s with pressCount := v }

def setTimeoutInterval (s : Session) (start stop : Nat) : Session :=
  { s with timeoutIntervalStart := start, timeoutIntervalEnd := stop }

def setLeverLastDebounceTime (s : Session) (t : Nat) : Session :=
  { s with leverLastDebounceTime := t }

def setLickLastDebounceTime (s : Session) (t : Nat) : Session :=
  { s with lickLastDebounceTime := t }

end Session

/-! ## Constructors (Cue.cpp, Pump.cpp, Laser.cpp, Lever.cpp, LickCircuit.cpp) -/

def Cue.init (initPin : Nat) : Cue :=
  { pin := initPin, armed := false, running := false, frequency := 8000,
    duration := 1600, onTimestamp := 0, offTimestamp := 0 }

def Pump.init (initPin : Nat) : Pump :=
  { pin := initPin, armed := false, running := false, infusionDuration := 2000,
    infusionStartTimestamp := 0, infusionEndTimestamp := 0 }

def Laser.init (initPin : Nat) : Laser :=
  { pin := initPin, armed := false, duration := 30000, frequency := 20,
    stimStart := 0, stimEnd := 0, halfCycleStart := 0, halfCycleEnd := 0,
    logged := true, cycleUp := false, laserMode := MODE.CYCLE,
    laserState := STATE.INACTIVE, laserAction := ACTION.OFF }

def Lever.init (initPin : Nat) : Lever :=
  { pin := initPin, armed := false, previousLeverState := true,
    stableLeverState := true, pressTimestamp := 0, releaseTimestamp := 0,
    orientation := "", pressType := "NO CONDITION" }

def LickCircuit.init (initPin : Nat) : LickCircuit :=
  { pin := initPin, armed := false, previousLickState := false,
    stableLickState := false, lickTimestamp := 0, releaseTimestamp := 0 }

/-! ## Setters -/

/-- `Cue::setRunning`. -/
def Cue.setRunning (c : Cue) (initRunning : Bool) : Cue := { c with running := initRunning }

/-- `Cue::setOnTimestamp`. -/
def Cue.setOnTimestamp (c : Cue) (currentTimestamp : Int) : Cue :=
  { c with onTimestamp := currentTimestamp }

/-- `Cue::setOffTimestamp`: `offTimestamp = currentTimestamp + duration`. -/
def Cue.setOffTimestamp (c : Cue) (currentTimestamp : Int) : Cue :=
  { c with offTimestamp := toInt32 (currentTimestamp + c.duration) }

/-- `Pump::setRunning` (operant_PR/Pump.cpp). -/
def Pump.setRunning (p : Pump) (initRunning : Bool) : Pump := { p with running := initRunning }

/-- `Pump::setInfusionPeriod` (operant_PR/Pump.cpp). -/
def Pump.setInfusionPeriod (p : Pump) (cueOffTimestamp traceInterval : Int) : Pump :=
  let infusionStartTimestamp := toInt32 (cueOffTimestamp + traceInterval)
  { p with infusionStartTimestamp := infusionStartTimestamp,
           infusionEndTimestamp := toInt32 (infusionStartTimestamp + p.infusionDuration) }

/-- `Laser::setStimPeriod`. -/
def Laser.setStimPeriod (l : Laser) (currentMillis : Nat) : Laser :=
  { l with stimStart := currentMillis,
           stimEnd := (currentMillis + l.duration) % 4294967296 }

/-- `Laser::setStimState`. -/
def Laser.setStimState (l : Laser) (state : STATE) : Laser :=
  { l with laserState := state }

/-- `Lever::setPreviousLeverState`. -/
def Lever.setPreviousLeverState (l : Lever) (initState : Bool) : Lever :=
  { l with previousLeverState := initState }

/-- `Lever::setStableLeverState`. -/
def Lever.setStableLeverState (l : Lever) (state : Bool) : Lever :=
  { l with stableLeverState := state }

/-- `Lever::setPressTimestamp`. -/
def Lever.setPressTimestamp (l : Lever) (initTimestamp : Int) : Lever :=
  { l with pressTimestamp := initTimestamp }

/-- `Lever::setReleaseTimestamp`. -/
def Lever.setReleaseTimestamp (l : Lever) (initTimestamp : Int) : Lever :=
  { l with releaseTimestamp := initTimestamp }

/-- `Lever::setPressType`. -/
def Lever.setPressType (l : Lever) (initPressType : String) : Lever :=
  { l with pressType := initPressType }

/-- `LickCircuit::setPreviousLickState` (operant_PR/LickCircuit.cpp). -/
def LickCircuit.setPreviousLickState (l : LickCircuit) (initState : Bool) : LickCircuit :=
  { l with previousLickState := initState }

/-- `LickCircuit::setStableLickState`. -/
def LickCircuit.setStableLickState (l : LickCircuit) (state : Bool) : LickCircuit :=
  { l with stableLickState := state }

/-- `LickCircuit::setLickTouchTimestamp`. -/
def LickCircuit.setLickTouchTimestamp (l : LickCircuit) (initTimestamp : Int) : LickCircuit :=
  { l with lickTimestamp := initTimestamp }

/-- `LickCircuit::setLickReleaseTimestamp`. -/
def LickCircuit.setLickReleaseTimestamp (l : LickCircuit) (initTimestamp : Int) : LickCircuit :=
  { l with releaseTimestamp := initTimestamp }

/-! ## Program_Utils.cpp -/

/-- `deliverReward(lever, cue, pump, laser)` at clock value `now`.  A pointer
argument is `true` when it points to the session object and `false` when it
is `nullptr`; the `lever` argument is not used by the body.  The pump branch
reads `cue->getOffTimestamp()` without a null test: with `cue = nullptr`
there is no result.  (Line 69 of the source carries two stray non-ASCII
characters in front of `cue->setOnTimestamp(timestamp)`; it is read as that
call.) -/
def deliverReward (s : Session) (now : Nat) (cue pump laser : Bool) : Option Session :=
  let timestamp := toInt32 now
  let s0 := s.emit (.call .deliverReward)
  let s1 := if cue && s0.cs.armed then
      s0.setCs ((s0.cs.setOnTimestamp timestamp).setOffTimestamp timestamp)
    else s0
  let s2 : Option Session := if pump && s1.pump.armed then
      (if cue then
        some (s1.setPump
          (s1.pump.setInfusionPeriod s1.cs.offTimestamp (toInt32 s1.traceIntervalLength)))
      else none)
    else some s1
  s2.map fun s2 =>
    if laser && s2.laser.armed then
      s2.setLaser ((s2.laser.setStimPeriod (toUInt32 timestamp)).setStimState STATE.ACTIVE)
    else s2

/-! ## Cue_Utils.cpp, Pump_Utils.cpp -/

/-- `manageCue(cue)` at clock value `now`. -/
def manageCue (s : Session) (now : Nat) (cue : Bool) : Session :=
  let timestamp := toInt32 now
  if cue then
    if s.cs.armed then
      if decide (timestamp ≤ s.cs.offTimestamp) && decide (timestamp ≥ s.cs.onTimestamp) then
        (s.emit (.tone s.cs.pin s.cs.frequency)).setCs (s.cs.setRunning true)
      else
        (s.emit (.noTone s.cs.pin)).setCs (s.cs.setRunning false)
    else s
  else s

/-- `managePump(pump)` at clock value `now`. -/
def managePump (s : Session) (now : Nat) (pump : Bool) : Session :=
  let timestamp := toInt32 now
  if pump && s.pump.armed then
    if decide (timestamp ≤ s.pump.infusionEndTimestamp)
        && decide (timestamp ≥ s.pump.infusionStartTimestamp) then
      (s.emit (.digitalWrite s.pump.pin true)).setPump (s.pump.setRunning true)
    else
      (s.emit (.digitalWrite s.pump.pin false)).setPump (s.pump.setRunning false)
  else s

/-! ## Lever_Utils.cpp -/

/-- Decimal text of `int32_t value - differenceFromStartTime`, an unsigned
32-bit difference. -/
def offsetString (value : Int) (differenceFromStartTime : Nat) : String :=
  toString (toUInt32 (value - differenceFromStartTime))

/-- `pressingDataEntry(lever, pump)` at clock value `now`. -/
def pressingDataEntry (s : Session) (now : Nat) (lever : LeverId) : Session :=
  let s0 := s.emit (.call .pressingDataEntry)
  let lv := (s0.lever lever).setReleaseTimestamp (toInt32 now)
  let s1 := s0.setLever lever lv
  let pressEntry := lv.orientation ++ "_LEVER," ++ (lv.pressType ++ "_PRESS,")
  let pressEntry := if s1.differenceFromStartTime ≠ 0 then
      pressEntry ++ (offsetString lv.pressTimestamp s1.differenceFromStartTime ++ ",")
        ++ offsetString lv.releaseTimestamp s1.differenceFromStartTime
    else
      pressEntry ++ (toString lv.pressTimestamp ++ ",") ++ toString lv.releaseTimestamp
  s1.emit (.println pressEntry)

/-- `lever->setPressType(t)` on the lever the pointer designates. -/
def setPressType (s : Session) (lever : LeverId) (t : String) : Session :=
  s.setLever lever ((s.lever lever).setPressType t)

/-- The two assignments guarded by `if (programRunning)` after a reward. -/
def advanceTimeout (s : Session) (programRunning : Bool) : Session :=
  if programRunning then
    let timeoutIntervalStart := toUInt32 s.cs.offTimestamp
    s.setTimeoutInterval timeoutIntervalStart
      ((timeoutIntervalStart + s.timeoutIntervalLength) % 4294967296)
  else s

/-- The `PUMP,INFUSION,start,end` line printed in the cue-and-pump branch. -/
def infusionEntry (s : Session) : String :=
  let start := if s.differenceFromStartTime ≠ 0 then
      offsetString s.pump.infusionStartTimestamp s.differenceFromStartTime
    else toString s.pump.infusionStartTimestamp
  let stop := if s.differenceFromStartTime ≠ 0 then
      offsetString s.pump.infusionEndTimestamp s.differenceFromStartTime
    else toString s.pump.infusionEndTimestamp
  "PUMP,INFUSION," ++ start ++ "," ++ stop

/-- The test `timestamp >= timeoutIntervalStart && timestamp <= timeoutIntervalEnd`:
the `int32_t` timestamp is converted to `uint32_t` for both comparisons. -/
def inTimeoutInterval (s : Session) (timestamp : Int) : Bool :=
  decide (toUInt32 timestamp ≥ s.timeoutIntervalStart)
    && decide (toUInt32 timestamp ≤ s.timeoutIntervalEnd)

/-- The body run after `lever->setPressType("ACTIVE")`, the same in both
armed branches except for the `PUMP,INFUSION` line (`logInfusion`). -/
def countActivePress (s : Session) (now : Nat) (programRunning : Bool)
    (cue pump laser : Bool) (logInfusion : Bool) : Option Session :=
  if s.pressCount = toInt32 (s.fRatio - 1) then
    (deliverReward (s.setPressCount 0) now cue pump laser).map fun s =>
      advanceTimeout (if logInfusion then s.emit (.println (infusionEntry s)) else s)
        programRunning
  else
    some (s.setPressCount (toInt32 (s.pressCount + 1)))

/-- `definePressActivity(programRunning, lever, cue, pump, laser)` at clock
value `now`.  The reward call passes `activeLever`, which `deliverReward`
ignores. -/
def definePressActivity (s : Session) (now : Nat) (programRunning : Bool) (lever : LeverId)
    (cue pump laser : Bool) : Option Session :=
  let timestamp := toInt32 now
  let s := s.emit (.call .definePressActivity)
  if (cue && s.cs.armed) && (!pump || !s.pump.armed) then
    if (decide (timestamp ≥ s.cs.onTimestamp) && decide (timestamp ≤ s.cs.offTimestamp))
        || inTimeoutInterval s timestamp then
      some (setPressType s lever "TIMEOUT")
    else
      countActivePress (setPressType s lever "ACTIVE") now programRunning cue pump laser false
  else if (cue && s.cs.armed) && (pump && s.pump.armed) then
    if (decide (timestamp ≥ s.cs.onTimestamp)
          && decide (timestamp ≤ s.pump.infusionEndTimestamp))
        || inTimeoutInterval s timestamp then
      some (setPressType s lever "TIMEOUT")
    else
      countActivePress (setPressType s lever "ACTIVE") now programRunning cue pump laser true
  else
    some (setPressType s lever "INACTIVE")

/-- The `debounceDelay` constant of `monitorPressing`. -/
def leverDebounceDelay : Nat := 100

/-- `monitorPressing(programRunning, lever, cue, pump, laser)` at clock value
`now`, where `raw` is the level returned by `digitalRead(lever->getPin())`. -/
def monitorPressing (s : Session) (now : Nat) (raw : Bool) (programRunning : Bool)
    (lever : LeverId) (cue pump laser : Bool) : Option Session :=
  let s := manageCue s now cue
  let s := managePump s now pump
  if (s.lever lever).armed then
    let currentLeverState := raw
    let s := if currentLeverState ≠ (s.lever lever).previousLeverState then
        s.setLeverLastDebounceTime now
      else s
    let r : Option Session :=
      if subU32 now s.leverLastDebounceTime > leverDebounceDelay then
        if currentLeverState ≠ (s.lever lever).stableLeverState then
          let s := s.setLever lever ((s.lever lever).setStableLeverState currentLeverState)
          if currentLeverState = false then
            let s := s.setLever lever ((s.lever lever).setPressTimestamp (toInt32 now))
            definePressActivity s now programRunning lever cue pump laser
          else
            let s := s.setLever lever ((s.lever lever).setReleaseTimestamp (toInt32 now))
            some (pressingDataEntry s now lever)
        else some s
      else some s
    r.map fun s => s.setLever lever ((s.lever lever).setPreviousLeverState currentLeverState)
  else some s

/-! ## LickCircuit_Utils.cpp -/

/-- The `debounceDelay` constant of `monitorLicking`. -/
def lickDebounceDelay : Nat := 25

/-- The `LICK_CIRCUIT,LICK,touch,release` line. -/
def lickEntry (s : Session) : String :=
  "LICK_CIRCUIT,LICK,"
    ++ offsetString s.lickCircuit.lickTimestamp s.differenceFromStartTime ++ ","
    ++ offsetString s.lickCircuit.releaseTimestamp s.differenceFromStartTime

/-- `monitorLicking(lickSpout)` at clock value `now`, where `raw` is the
level returned by `digitalRead(lickSpout.getPin())`. -/
def monitorLicking (s : Session) (now : Nat) (raw : Bool) : Session :=
  if s.lickCircuit.armed then
    let currentLickState := raw
    let s := if currentLickState ≠ s.lickCircuit.previousLickState then
        s.setLickLastDebounceTime now
      else s
    let s :=
      if subU32 now s.lickLastDebounceTime > lickDebounceDelay then
        if currentLickState ≠ s.lickCircuit.stableLickState then
          let s := s.setLickCircuit (s.lickCircuit.setStableLickState currentLickState)
          if currentLickState = true then
            let s := s.emit (.call .setLickTouchTimestamp)
            s.setLickCircuit (s.lickCircuit.setLickTouchTimestamp (toInt32 now))
          else
            let s := s.emit (.call .setLickReleaseTimestamp)
            let s := s.setLickCircuit (s.lickCircuit.setLickReleaseTimestamp (toInt32 now))
            s.emit (.println (lickEntry s))
        else s
      else s
    s.setLickCircuit (s.lickCircuit.setPreviousLickState currentLickState)
  else s

/-! ## Laser_Utils.cpp -/

/-- `inStimPeriod(currentMillis)`, on the global `laser`. -/
def inStimPeriod (s : Session) (currentMillis : Nat) : Bool :=
  decide (currentMillis > s.laser.stimStart) && decide (currentMillis < s.laser.stimEnd)

/-! ## Single-precision arithmetic of `Laser::setStimHalfCyclePeriod`

The half-cycle length is computed in `float`.  The values that occur are
positive and normal, so a `float` is modelled as `m * 2^e` with a 24-bit
mantissa `2^23 ≤ m < 2^24`, and every operation rounds its exact result to
the nearest such value, ties to even (IEEE 754 binary32). -/

/-- A positive normal binary32 value `m * 2^e`. -/
structure F32 where
  m : Nat
  e : Int
  deriving DecidableEq, Repr

/-- The integer nearest to `n / d`, ties to even. -/
def roundNearestEven (n d : Nat) : Nat :=
  if 2 * (n % d) < d then n / d
  else if d < 2 * (n % d) then n / d + 1
  else n / d + (n / d) % 2

namespace F32

/-- Doubles `n` (and lowers the exponent) until `n / d ≥ 2^23`. -/
def scaleUp : Nat → Nat → Nat → Int → Nat × Int
  | 0, n, _, e => (n, e)
  | fuel + 1, n, d, e =>
    if n < 8388608 * d then scaleUp fuel (2 * n) d (e - 1) else (n, e)

/-- Doubles `d` (and raises the exponent) until `n / d < 2^24`. -/
def scaleDown : Nat → Nat → Nat → Int → Nat × Int
  | 0, _, d, e => (d, e)
  | fuel + 1, n, d, e =>
    if 16777216 * d ≤ n then scaleDown fuel n (2 * d) (e + 1) else (d, e)

/-- The binary32 value nearest to the positive rational `(n / d) * 2^e`. -/
def round (n d : Nat) (e : Int) : F32 :=
  let up := scaleUp 64 n d e
  let down := scaleDown 64 up.1 d up.2
  let mant := roundNearestEven up.1 down.1
  if mant = 16777216 then { m := 8388608, e := down.2 + 1 } else { m := mant, e := down.2 }

/-- Conversion of a positive `uint32_t` to `float`. -/
def ofUInt32 (x : Nat) : F32 := round x 1 0

/-- Single-precision quotient `x / y`. -/
def div (x y : F32) : F32 := round x.m y.m (x.e - y.e)

/-- Single-precision product `x * y`. -/
def mul (x y : F32) : F32 := round (x.m * y.m) 1 (x.e + y.e)

/-- The literal `1.0f`. -/
def one : F32 := { m := 8388608, e := -23 }

/-- The literal `2.0f`. -/
def two : F32 := { m := 8388608, e := -22 }

/-- The literal `1000.0f`. -/
def thousand : F32 := { m := 16384000, e := -14 }

/-- The integer part of a value, `static_cast<uint32_t>` of a `float` below 2^32. -/
def trunc (x : F32) : Nat :=
  if 0 ≤ x.e then x.m * 2 ^ x.e.toNat else x.m / 2 ^ (-x.e).toNat

/-- The rational number a `float` stands for. -/
def val (x : F32) : ℚ := (x.m : ℚ) * (2 : ℚ) ^ x.e

end F32

/-- The value `static_cast<uint32_t>((1.0f / frequency) / 2.0f * 1000.0f)`.
With `frequency = 0` the quotient is infinite and its conversion to
`uint32_t` is undefined: there is no result. -/
def halfCycleLength (frequency : Nat) : Option Nat :=
  if frequency = 0 then none
  else
    some (F32.trunc
      (F32.mul (F32.div (F32.div F32.one (F32.ofUInt32 frequency)) F32.two) F32.thousand))

/-! ## Laser.cpp, Device.cpp: remaining setters -/

/-- `Laser::setDuration`: seconds to milliseconds. -/
def Laser.setDuration (l : Laser) (initDuration : Nat) : Laser :=
  { l with duration := (initDuration * 1000) % 4294967296 }

/-- `Laser::setFrequency`. -/
def Laser.setFrequency (l : Laser) (initFrequency : Nat) : Laser :=
  { l with frequency := initFrequency }

/-- `Laser::setStimHalfCyclePeriod`. -/
def Laser.setStimHalfCyclePeriod (l : Laser) (currentMillis : Nat) : Option Laser :=
  (halfCycleLength l.frequency).map fun halfCycleLength =>
    { l with halfCycleStart := currentMillis,
             halfCycleEnd := (currentMillis + halfCycleLength) % 4294967296 }

/-- `Laser::setStimLogged`. -/
def Laser.setStimLogged (l : Laser) (log : Bool) : Laser := { l with logged := log }

/-- `Laser::setCycleUp`. -/
def Laser.setCycleUp (l : Laser) (cycle : Bool) : Laser := { l with cycleUp := cycle }

/-- `Laser::setStimMode`. -/
def Laser.setStimMode (l : Laser) (mode : MODE) : Laser := { l with laserMode := mode }

/-- `Laser::setStimAction`. -/
def Laser.setStimAction (l : Laser) (action : ACTION) : Laser := { l with laserAction := action }

/-- The line printed by `Device::arm` and `Device::disarm`. -/
def deviceLine (text : String) (pin : Nat) : Event := Event.println (text ++ toString pin)

/-- `cs.disarm()` (`Device::disarm` on the cue). -/
def disarmCs (s : Session) : Session :=
  (s.setCs { s.cs with armed := false }).emit (deviceLine "DEVICE DISARMED AT PIN: " s.cs.pin)

/-- `pump.disarm()` (`Device::disarm` on the pump). -/
def disarmPump (s : Session) : Session :=
  (s.setPump { s.pump with armed := false }).emit
    (deviceLine "DEVICE DISARMED AT PIN: " s.pump.pin)

/-! ## Laser_Utils.cpp: drivers -/

/-- `manageLaser(laser)`. -/
def manageLaser (s : Session) : Session :=
  if s.laser.laserState = STATE.ACTIVE ∧ s.laser.laserAction = ACTION.ON then
    s.emit (.digitalWrite s.laser.pin true)
  else
    s.emit (.digitalWrite s.laser.pin false)

/-- The `LASER,STIM,start,end` line of `logStim`; the differences are
unsigned 32-bit. -/
def stimLogLine (s : Session) : String :=
  if s.differenceFromStartTime ≠ 0 then
    "LASER,STIM," ++ (toString (subU32 s.laser.stimStart s.differenceFromStartTime) ++ ",")
      ++ toString (subU32 s.laser.stimEnd s.differenceFromStartTime)
  else
    "LASER,STIM," ++ (toString s.laser.stimStart ++ ",") ++ toString s.laser.stimEnd

/-- `logStim(laser)`. -/
def logStim (s : Session) : Session :=
  if s.laser.logged = false then
    (s.emit (.println (stimLogLine s))).setLaser (s.laser.setStimLogged true)
  else s

/-- `stim(laser, currentMillis)`; the argument is the global laser, which
`inStimPeriod` reads. -/
def stim (s : Session) (currentMillis : Nat) : Option Session :=
  let r : Option Session :=
    if inStimPeriod s currentMillis && s.laser.cycleUp then
      let s := s.setLaser ((s.laser.setStimState STATE.ACTIVE).setStimLogged false)
      if s.laser.frequency = 1 then
        some (s.setLaser (s.laser.setStimAction ACTION.ON))
      else if currentMillis > s.laser.halfCycleEnd then
        (s.laser.setStimHalfCyclePeriod currentMillis).map fun l =>
          s.setLaser (l.setStimAction (if l.laserAction = ACTION.ON then ACTION.OFF
            else ACTION.ON))
      else some s
    else
      let s := s.setLaser ((s.laser.setStimState STATE.INACTIVE).setStimAction ACTION.OFF)
      if s.laser.logged = false then
        let s := logStim s
        some (s.setLaser (s.laser.setStimLogged true))
      else some s
  r.map manageLaser

/-- `manageStim(laser)` at clock value `now`. -/
def manageStim (s : Session) (now : Nat) : Option Session :=
  if s.laser.armed && s.programIsRunning then
    let currentMillis := now
    let s :=
      match s.laser.laserMode with
      | MODE.CYCLE =>
        if s.laser.stimStart = 0 ∨ currentMillis ≥ s.laser.stimEnd then
          let s := s.setLaser (s.laser.setStimPeriod currentMillis)
          s.setLaser (s.laser.setCycleUp (!s.laser.cycleUp))
        else s
      | MODE.ACTIVE_PRESS => s.setLaser (s.laser.setCycleUp true)
    stim s currentMillis
  else some s

/-- Runs `stim` once per clock value of `ticks`, in order. -/
def runStim (s : Session) : List Nat → Option Session
  | [] => some s
  | t :: rest => (stim s t).bind fun s1 => runStim s1 rest

/-- The clock values of `ticks`, run in order from `s`, at which `stim`
changes `laserAction`. -/
def toggleTimes (s : Session) : List Nat → List Nat
  | [] => []
  | t :: rest =>
    match stim s t with
    | some s1 =>
      (if s1.laser.laserAction ≠ s.laser.laserAction then [t] else []) ++ toggleTimes s1 rest
    | none => []

/-- The lines printed in a trace. -/
def printedLines (out : List Event) : List String :=
  out.filterMap fun e =>
    match e with
    | Event.println line => some line
    | _ => none

/-! ## Program_Utils.cpp: end of the session -/

/-- `lever.disarm()` (`Device::disarm` on one of the levers). -/
def disarmLever (s : Session) (id : LeverId) : Session :=
  (s.setLever id { s.lever id with armed := false }).emit
    (deviceLine "DEVICE DISARMED AT PIN: " (s.lever id).pin)

/-- `lickCircuit.disarm()` (`Device::disarm` on the lick circuit). -/
def disarmLickCircuit (s : Session) : Session :=
  (s.setLickCircuit { s.lickCircuit with armed := false }).emit
    (deviceLine "DEVICE DISARMED AT PIN: " s.lickCircuit.pin)

/-- `laser.off()` (`Laser::off`): the pin is written LOW, no member is written. -/
def laserOff (s : Session) : Session := s.emit (.digitalWrite s.laser.pin false)

/-- `endProgram(pin)`.  The `delay(50)` between the two writes of the trigger
pin only lets time pass. -/
def endProgram (s : Session) (pin : Nat) : Session :=
  let s := s.emit (.println "")
  let s := s.emit (.println "========== PROGRAM END ==========")
  let s := s.emit (.println "")
  let s := s.emit (.digitalWrite pin true)
  let s := s.emit (.digitalWrite pin false)
  let s := disarmLever s LeverId.RH
  let s := disarmLever s LeverId.LH
  let s := disarmCs s
  let s := disarmPump s
  let s := disarmLickCircuit s
  laserOff s

/-! ## Cue.cpp, Pump.cpp: durations -/

/-- `Cue::setDuration`, the member it writes; the parameter is an `int32_t`. -/
def Cue.setDuration (c : Cue) (initDuration : Int) : Cue := { c with duration := initDuration }

/-- `cs.setDuration(initDuration)` with the line it prints. -/
def csSetDuration (s : Session) (initDuration : Int) : Session :=
  (s.setCs (s.cs.setDuration initDuration)).emit
    (.println ("SET CUE DURATION TO: " ++ toString initDuration))

/-- `Pump::setInfusionDuration` (operant_PR/Pump.cpp); the parameter is an
`int32_t`. -/
def Pump.setInfusionDuration (p : Pump) (initDuration : Int) : Pump :=
  { p with infusionDuration := initDuration }

/-- `pump.setInfusionDuration(initDuration)` on the session pump. -/
def pumpSetInfusionDuration (s : Session) (initDuration : Int) : Session :=
  s.setPump (s.pump.setInfusionDuration initDuration)

/-! ## operant_VI/Lever.cpp: the lever of the variable-interval paradigm -/

namespace VI

/-- Class `Lever` of operant_VI/Lever.h, with the two members of `Device`. -/
structure Lever where
  pin : Nat
  armed : Bool
  previousLeverState : Bool
  stableLeverState : Bool
  pressTimestamp : Int
  releaseTimestamp : Int
  orientation : String
  pressType : String
  intervalStartTime : Nat
  randomInterval : Nat
  activePressOccurred : Bool
  deriving DecidableEq, Repr

/-- `Lever::Lever(initPin)`. -/
def Lever.init (initPin : Nat) : Lever :=
  { pin := initPin, armed := false, previousLeverState := true, stableLeverState := true,
    pressTimestamp := 0, releaseTimestamp := 0, orientation := "",
    pressType := "NO CONDITION", intervalStartTime := 0, randomInterval := 0,
    activePressOccurred := false }

/-- `Lever::setPreviousLeverState`. -/
def Lever.setPreviousLeverState (l : Lever) (initState : Bool) : Lever :=
  { l with previousLeverState := initState }

/-- `Lever::setStableLeverState`. -/
def Lever.setStableLeverState (l : Lever) (state : Bool) : Lever :=
  { l with stableLeverState := state }

/-- `Lever::setPressTimestamp`. -/
def Lever.setPressTimestamp (l : Lever) (initTimestamp : Int) : Lever :=
  { l with pressTimestamp := initTimestamp }

/-- `Lever::setReleaseTimestamp`. -/
def Lever.setReleaseTimestamp (l : Lever) (initTimestamp : Int) : Lever :=
  { l with releaseTimestamp := initTimestamp }

/-- `Lever::setOrientation`. -/
def Lever.setOrientation (l : Lever) (initOrientation : String) : Lever :=
  { l with orientation := initOrientation }

/-- `Lever::setPressType`. -/
def Lever.setPressType (l : Lever) (initPressType : String) : Lever :=
  { l with pressType := initPressType }

/-- `Lever::setActivePressOccurred`. -/
def Lever.setActivePressOccurred (l : Lever) (state : Bool) : Lever :=
  { l with activePressOccurred := state }

/-- `Device::arm` on the lever (the printed line is left out). -/
def Lever.arm (l : Lever) : Lever := { l with armed := true }

/-- `Device::disarm` on the lever (the printed line is left out). -/
def Lever.disarm (l : Lever) : Lever := { l with armed := false }

/-- Arduino `random(howsmall, howbig)` (core file WMath.cpp): `howsmall` when
`howsmall >= howbig`, and otherwise `random() % (howbig - howsmall) + howsmall`,
where `raw` is the `long` that `random()` of the C library returns, between 0
and 2147483647. -/
def arduinoRandom (raw : Nat) (howsmall howbig : Int) : Int :=
  if howsmall ≥ howbig then howsmall else (raw : Int) % (howbig - howsmall) + howsmall

/-- `Lever::resetInterval()` at clock value `now`, `raw` being the value the
generator returns for this draw. -/
def Lever.resetInterval (l : Lever) (now raw : Nat) : Lever :=
  { l with intervalStartTime := now,
           randomInterval := toUInt32 (arduinoRandom raw 0 15000),
           activePressOccurred := false }

/-- The member functions of the lever that write a member, other than
`setActivePressOccurred` and `resetInterval`. -/
inductive Setter
  | setPreviousLeverState (initState : Bool)
  | setStableLeverState (state : Bool)
  | setPressTimestamp (initTimestamp : Int)
  | setReleaseTimestamp (initTimestamp : Int)
  | setOrientation (initOrientation : String)
  | setPressType (initPressType : String)
  | arm
  | disarm
  deriving DecidableEq, Repr

/-- One call of a setter. -/
def Lever.call (l : Lever) : Setter → Lever
  | .setPreviousLeverState b => l.setPreviousLeverState b
  | .setStableLeverState b => l.setStableLeverState b
  | .setPressTimestamp t => l.setPressTimestamp t
  | .setReleaseTimestamp t => l.setReleaseTimestamp t
  | .setOrientation o => l.setOrientation o
  | .setPressType t => l.setPressType t
  | .arm => l.arm
  | .disarm => l.disarm

/-- A sequence of setter calls, in order. -/
def Lever.calls (l : Lever) (cs : List Setter) : Lever := cs.foldl Lever.call l

end VI

/-! ## Utils.cpp: the frame signal

`frameSignalISR` runs on an external interrupt; `handleFrameSignal` runs in
the main loop.  The main loop is modelled statement by statement, and a
schedule interleaves its steps with interrupt requests.  `noInterrupts()`
and `interrupts()` clear and set the global interrupt enable; a request
raised while interrupts are disabled is latched (one flag) and served when
they are enabled again; an interrupt service routine runs to completion. -/

namespace Frame

/-- The variables `frameSignalISR` shares with the main loop. -/
inductive Shared
  | frameSignalReceived
  | frameSignalTimestamp
  deriving DecidableEq, Repr

/-- One main-loop access to a shared variable: which variable, whether it is
a write, and whether interrupts were disabled at that moment. -/
structure Access where
  var : Shared
  write : Bool
  guarded : Bool
  deriving DecidableEq, Repr

/-- The statement of `handleFrameSignal` the main loop executes next.  After
the read of `frameSignalTimestamp` the value read is kept; the local
`int32_t timestamp` is its `int32_t` conversion. -/
inductive Pc
  | idle
  | testFlag
  | disable
  | clear
  | readTimestamp
  | enable (read : Nat)
  | print (read : Nat)
  deriving DecidableEq, Repr

/-- The globals of Utils.cpp, the interrupt hardware, the position of the
main loop and the serial output, with three ghost lists: the main-loop
accesses to shared variables, the timestamps stored by the runs of the
service routine, and the values read for the printed records. -/
structure State where
  frameSignalReceived : Bool
  frameSignalTimestamp : Nat
  collectFrames : Bool
  differenceFromStartTime : Nat
  interruptsEnabled : Bool
  pending : Bool
  pc : Pc
  out : List String
  accesses : List Access
  signals : List Nat
  logged : List Nat
  deriving DecidableEq, Repr

/-- `frameSignalISR()` at clock value `now`. -/
def frameSignalISR (s : State) (now : Nat) : State :=
  { s with frameSignalReceived := true,
           frameSignalTimestamp := subU32 now s.differenceFromStartTime,
           signals := s.signals ++ [subU32 now s.differenceFromStartTime] }

/-- The line `handleFrameSignal` prints for the value read from
`frameSignalTimestamp`. -/
def frameRecord (read : Nat) : String := "FRAME_TIMESTAMP," ++ toString (toInt32 read)

/-- What a schedule is made of: an interrupt request of the frame pin at
clock value `now`, or the next statement of the main loop, executed at clock
value `now`. -/
inductive Action
  | irq (now : Nat)
  | main (now : Nat)
  deriving DecidableEq, Repr

/-- One statement of `handleFrameSignal()`, called again and again by the
main loop. -/
def mainStep (s : State) (now : Nat) : State :=
  match s.pc with
  | .idle => if s.collectFrames then { s with pc := .testFlag } else s
  | .testFlag =>
    let s := { s with accesses := s.accesses ++
      [({ var := .frameSignalReceived, write := false,
          guarded := !s.interruptsEnabled } : Access)] }
    if s.frameSignalReceived then { s with pc := .disable } else { s with pc := .idle }
  | .disable => { s with interruptsEnabled := false, pc := .clear }
  | .clear =>
    { s with frameSignalReceived := false,
             accesses := s.accesses ++
               [({ var := .frameSignalReceived, write := true,
                   guarded := !s.interruptsEnabled } : Access)],
             pc := .readTimestamp }
  | .readTimestamp =>
    { s with accesses := s.accesses ++
               [({ var := .frameSignalTimestamp, write := false,
                   guarded := !s.interruptsEnabled } : Access)],
             pc := .enable s.frameSignalTimestamp }
  | .enable read =>
    let s := { s with interruptsEnabled := true, pc := .print read }
    if s.pending then frameSignalISR { s with pending := false } now else s
  | .print read =>
    { s with out := s.out ++ [frameRecord read], logged := s.logged ++ [read], pc := .idle }

/-- One action of a schedule. -/
def step (s : State) : Action → State
  | .irq now => if s.interruptsEnabled then frameSignalISR s now else { s with pending := true }
  | .main now => mainStep s now

/-- A whole schedule, in order. -/
def run (s : State) (schedule : List Action) : State := schedule.foldl step s

/-- The state at boot: no signal yet, interrupts enabled, and the main loop
about to call `handleFrameSignal`. -/
def init (collectFrames : Bool) (differenceFromStartTime : Nat) : State :=
  { frameSignalReceived := false, frameSignalTimestamp := 0, collectFrames := collectFrames,
    differenceFromStartTime := differenceFromStartTime, interruptsEnabled := true,
    pending := false, pc := .idle, out := [], accesses := [], signals := [], logged := [] }

/-- The flag is set for the latest signal, which is not logged yet. -/
def Flagged (s : State) : Prop :=
  s.signals.getLast? = some s.frameSignalTimestamp ∧ List.Sublist s.logged s.signals.dropLast

/-- Every signal is logged or was overwritten by a later one, and the latest
signal is logged. -/
def Quiet (s : State) : Prop :=
  List.Sublist s.logged s.signals ∧ s.logged.getLast? = s.signals.getLast?

/-- The relation kept by every step between the flag, the timestamp, the
position of the main loop, the signals stored and the records printed. -/
def Consistent (s : State) : Prop :=
  s.out = s.logged.map frameRecord
    ∧ (s.interruptsEnabled = true → s.pending = false)
    ∧ (∀ a ∈ s.accesses, a.guarded = (a.write || decide (a.var = Shared.frameSignalTimestamp)))
    ∧ match s.pc with
      | .idle => s.interruptsEnabled = true
          ∧ (if s.frameSignalReceived then Flagged s else Quiet s)
      | .testFlag => s.interruptsEnabled = true
          ∧ (if s.frameSignalReceived then Flagged s else Quiet s)
      | .disable => s.interruptsEnabled = true ∧ s.frameSignalReceived = true ∧ Flagged s
      | .clear => s.interruptsEnabled = false ∧ s.frameSignalReceived = true ∧ Flagged s
      | .readTimestamp =>
        s.interruptsEnabled = false ∧ s.frameSignalReceived = false ∧ Flagged s
      | .enable read => s.interruptsEnabled = false ∧ s.frameSignalReceived = false
          ∧ read = s.frameSignalTimestamp ∧ Flagged s
      | .print read => s.interruptsEnabled = true
          ∧ (if s.frameSignalReceived then
              s.signals.getLast? = some s.frameSignalTimestamp
                ∧ List.Sublist (s.logged ++ [read]) s.signals.dropLast
            else
              s.signals.getLast? = some read ∧ List.Sublist s.logged s.signals.dropLast)

/-- What the action `a`, executed in state `s`, reads from
`frameSignalTimestamp`: the statement `int32_t timestamp =
frameSignalTimestamp` reads the value stored at that moment; it is listed
with the timestamps the service routine has stored up to that moment. -/
def readAt (s : State) : Action → List (List Nat × Nat)
  | .irq _ => []
  | .main _ =>
    match s.pc with
    | .readTimestamp => [(s.signals, s.frameSignalTimestamp)]
    | _ => []

/-- The reads of `frameSignalTimestamp` the main loop makes along a schedule
run from `s`, in order. -/
def reads (s : State) : List Action → List (List Nat × Nat)
  | [] => []
  | a :: rest => readAt s a ++ reads (step s a) rest

/-- The value the handler has read from `frameSignalTimestamp` and not
printed yet. -/
def inFlight : Pc → List Nat
  | .enable read => [read]
  | .print read => [read]
  | _ => []

/-- A stored timestamp is waiting for the handler: the flag is set, or the
handler has cleared the flag and reads the timestamp next. -/
def Waiting (s : State) : Prop := s.frameSignalReceived = true ∨ s.pc = Pc.readTimestamp

/-- The relation kept by every step between the state and the reads `R`
made so far: the values read are the values printed plus the one in flight;
every read took the timestamp of the latest signal stored at its moment;
later reads saw more signals; and the latest signal either waits for the
handler or has been read. -/
def Accounted (s : State) (R : List (List Nat × Nat)) : Prop :=
  s.logged ++ inFlight s.pc = R.map Prod.snd
    ∧ (∀ p ∈ R, List.IsPrefix p.1 s.signals ∧ p.1.getLast? = some p.2)
    ∧ List.Pairwise (fun a b => a.1.length < b.1.length) R
    ∧ (Waiting s → ∀ p ∈ R, p.1.length < s.signals.length)
    ∧ (¬ Waiting s → s.signals ≠ [] → ∃ p ∈ R, p.1 = s.signals)

end Frame

/-! ## Debounce filter: reference update and poll sequences -/

/-- The three variables of one debounce filter. -/
structure DebounceState where
  previous : Bool
  stable : Bool
  lastDebounceTime : Nat
  deriving DecidableEq, Repr

/-- A committed transition of a debounced input. -/
inductive Transition
  | pressed
  | released
  deriving DecidableEq, Repr

/-- Reference update of the debounce filter, written from the rule of the
specification: a sampled change restarts the timer; then, when more than
`debounceDelay` has elapsed on the 32-bit clock and the sample differs from
the stable level, the sample is committed and one transition is emitted
(`pressed` when the level is the contact level); last, the sample becomes
the previous sample. -/
def debounceUpdate (debounceDelay : Nat) (contact : Bool) (d : DebounceState)
    (raw : Bool) (now : Nat) : DebounceState × Option Transition :=
  let lastChange := if raw ≠ d.previous then now else d.lastDebounceTime
  if subU32 now lastChange > debounceDelay ∧ raw ≠ d.stable then
    ({ previous := raw, stable := raw, lastDebounceTime := lastChange },
      some (if raw = contact then Transition.pressed else Transition.released))
  else
    ({ previous := raw, stable := d.stable, lastDebounceTime := lastChange }, none)

/-- The debounce variables of a lever: its two members and the timer of
`monitorPressing`. -/
def leverDebounce (s : Session) (lever : LeverId) : DebounceState :=
  { previous := (s.lever lever).previousLeverState,
    stable := (s.lever lever).stableLeverState,
    lastDebounceTime := s.leverLastDebounceTime }

/-- The debounce variables of the lick circuit. -/
def lickDebounce (s : Session) : DebounceState :=
  { previous := s.lickCircuit.previousLickState,
    stable := s.lickCircuit.stableLickState,
    lastDebounceTime := s.lickLastDebounceTime }

/-- The lever transitions handled in a trace: `definePressActivity` is the
press handler, `pressingDataEntry` the release handler. -/
def leverTransitions (out : List Event) : List Transition :=
  out.filterMap fun e =>
    match e with
    | Event.call Fn.definePressActivity => some Transition.pressed
    | Event.call Fn.pressingDataEntry => some Transition.released
    | _ => none

/-- The lick transitions handled in a trace. -/
def lickTransitions (out : List Event) : List Transition :=
  out.filterMap fun e =>
    match e with
    | Event.call Fn.setLickTouchTimestamp => some Transition.pressed
    | Event.call Fn.setLickReleaseTimestamp => some Transition.released
    | _ => none

/-- The arguments of one `monitorPressing` call on a given lever, the clock
value it reads and the level it samples. -/
structure LeverPoll where
  now : Nat
  raw : Bool
  programRunning : Bool
  cue : Bool
  pump : Bool
  laser : Bool
  deriving DecidableEq, Repr

/-- Runs `monitorPressing` on `lever` once per element of `polls`, in order. -/
def runPolls (s : Session) (lever : LeverId) : List LeverPoll → Option Session
  | [] => some s
  | p :: rest =>
    (monitorPressing s p.now p.raw p.programRunning lever p.cue p.pump p.laser).bind
      fun s1 => runPolls s1 lever rest

/-- Number of polls of `polls`, run in order from `s`, at which
`stableLeverState` of `lever` changes. -/
def stableChanges (s : Session) (lever : LeverId) : List LeverPoll → Nat
  | [] => 0
  | p :: rest =>
    match monitorPressing s p.now p.raw p.programRunning lever p.cue p.pump p.laser with
    | some s1 =>
      (if (s1.lever lever).stableLeverState ≠ (s.lever lever).stableLeverState then 1 else 0)
        + stableChanges s1 lever rest
    | none => 0

/-- A poll sequence whose sampled level keeps bouncing: `previous` is the
last sample, `lastFlip` the clock value of the most recent poll at which the
sample changed.  Every poll reads a 32-bit clock value, and every poll that
repeats the previous sample after a change comes less than `debounceDelay`
after that change. -/
def bouncing (debounceDelay : Nat) (previous : Bool) (lastFlip : Option Nat) :
    List LeverPoll → Bool
  | [] => true
  | p :: rest =>
    decide (p.now < 4294967296) &&
      if p.raw ≠ previous then bouncing debounceDelay p.raw (some p.now) rest
      else
        (match lastFlip with
          | none => true
          | some t0 => decide (t0 ≤ p.now) && decide (p.now - t0 < debounceDelay))
        && bouncing debounceDelay previous lastFlip rest

/-- A poll sequence that holds the level `level` from clock value `t0` on. -/
def heldFrom (level : Bool) (t0 : Nat) (polls : List LeverPoll) : Prop :=
  ∀ p ∈ polls, p.raw = level ∧ t0 ≤ p.now ∧ p.now < 4294967296

instance (level : Bool) (t0 : Nat) (polls : List LeverPoll) :
    Decidable (heldFrom level t0 polls) := by
  unfold heldFrom
  infer_instance

/-- Runs `monitorPressing` once per element of `polls`, in order, each on
the lever it names: the levers are polled in turn through the one function,
which owns the one `static` debounce timer. -/
def runLeverPolls (s : Session) : List (LeverId × LeverPoll) → Option Session
  | [] => some s
  | q :: rest =>
    (monitorPressing s q.2.now q.2.raw q.2.programRunning q.1 q.2.cue q.2.pump q.2.laser).bind
      fun s1 => runLeverPolls s1 rest

/-- The clock values of `polls` are 32-bit values that never decrease, start
at `lo` or later and stay at `hi` or earlier. -/
def ascendingWithin (lo hi : Nat) : List (LeverId × LeverPoll) → Bool
  | [] => true
  | q :: rest =>
    decide (q.2.now < 4294967296) && decide (lo ≤ q.2.now) && decide (q.2.now ≤ hi)
      && ascendingWithin q.2.now hi rest

/-- Number of polls of `polls`, run in order from `s` each on the lever it
names, at which `stableLeverState` of `lever` changes. -/
def leverStableChanges (s : Session) (lever : LeverId) : List (LeverId × LeverPoll) → Nat
  | [] => 0
  | q :: rest =>
    match monitorPressing s q.2.now q.2.raw q.2.programRunning q.1 q.2.cue q.2.pump q.2.laser with
    | some s1 =>
      (if (s1.lever lever).stableLeverState ≠ (s.lever lever).stableLeverState then 1 else 0)
        + leverStableChanges s1 lever rest
    | none => 0

/-! ## Sequences of calls and example sessions -/

/-- The arguments of one `definePressActivity` call and the clock value it reads. -/
structure PressCall where
  now : Nat
  programRunning : Bool
  lever : LeverId
  cue : Bool
  pump : Bool
  laser : Bool
  deriving DecidableEq, Repr

/-- Runs `definePressActivity` once per element of `calls`, in order. -/
def runPresses (s : Session) : List PressCall → Option Session
  | [] => some s
  | c :: rest =>
    (definePressActivity s c.now c.programRunning c.lever c.cue c.pump c.laser).bind
      fun s1 => runPresses s1 rest

/-- Whether the call `c` made in state `s` leaves `pressType = "ACTIVE"` on its lever. -/
def classifiedActive (s : Session) (c : PressCall) : Bool :=
  match definePressActivity s c.now c.programRunning c.lever c.cue c.pump c.laser with
  | some s1 => decide ((s1.lever c.lever).pressType = "ACTIVE")
  | none => false

/-- Number of calls of `calls`, run in order from `s`, that are classified ACTIVE. -/
def activeCount (s : Session) : List PressCall → Nat
  | [] => 0
  | c :: rest =>
    (if classifiedActive s c then 1 else 0) +
      match definePressActivity s c.now c.programRunning c.lever c.cue c.pump c.laser with
      | some s1 => activeCount s1 rest
      | none => 0

/-- Number of recorded entries of the function `f` in a trace. -/
def callCount (f : Fn) (out : List Event) : Nat := out.count (Event.call f)

/-- What one `definePressActivity` call on `lever` does to the ratio counter
and to the number of `deliverReward` entries, from state `s` to state `r`. -/
def PressStep (s r : Session) (lever : LeverId) : Prop :=
  r.fRatio = s.fRatio
    ∧ (if (r.lever lever).pressType = "ACTIVE" then
        (if s.pressCount = toInt32 (s.fRatio - 1) then
          r.pressCount = 0
            ∧ callCount Fn.deliverReward r.out = callCount Fn.deliverReward s.out + 1
        else
          r.pressCount = toInt32 (s.pressCount + 1)
            ∧ callCount Fn.deliverReward r.out = callCount Fn.deliverReward s.out)
      else
        r.pressCount = s.pressCount
          ∧ callCount Fn.deliverReward r.out = callCount Fn.deliverReward s.out)

/-- What the timeout window is after a `definePressActivity` call from `s`
to `r` that delivered a reward. -/
def TimeoutAdvanced (s r : Session) (now : Nat) (programRunning : Bool) : Prop :=
  r.cs.offTimestamp = toInt32 (toInt32 now + s.cs.duration)
    ∧ r.timeoutIntervalLength = s.timeoutIntervalLength
    ∧ (programRunning = true →
        r.timeoutIntervalStart = toUInt32 r.cs.offTimestamp
          ∧ r.timeoutIntervalEnd
              = (r.timeoutIntervalStart + r.timeoutIntervalLength) % 4294967296)
    ∧ (programRunning = false →
        r.timeoutIntervalStart = s.timeoutIntervalStart
          ∧ r.timeoutIntervalEnd = s.timeoutIntervalEnd)

instance (s r : Session) (now : Nat) (programRunning : Bool) :
    Decidable (TimeoutAdvanced s r now programRunning) := by
  unfold TimeoutAdvanced
  infer_instance

instance (s r : Session) (lever : LeverId) : Decidable (PressStep s r lever) := by
  unfold PressStep
  infer_instance

/-- The `int32_t` range. -/
def InInt32 (x : Int) : Prop := -2147483648 ≤ x ∧ x ≤ 2147483647

instance (x : Int) : Decidable (InInt32 x) := by
  unfold InInt32
  infer_instance

/-- A session as the constructors leave it, with example pin numbers, a
fixed ratio of 1, a 20 s timeout length and a 500 ms trace interval. -/
def bootSession : Session :=
  { leverRH := { Lever.init 10 with orientation := "RH" },
    leverLH := { Lever.init 13 with orientation := "LH" },
    cs := Cue.init 3,
    pump := Pump.init 4,
    laser := Laser.init 6,
    lickCircuit := LickCircuit.init 5,
    timeoutIntervalStart := 0,
    timeoutIntervalEnd := 0,
    timeoutIntervalLength := 20000,
    pressCount := 0,
    fRatio := 1,
    differenceFromStartTime := 0,
    traceIntervalLength := 500,
    programIsRunning := false,
    leverLastDebounceTime := 0,
    lickLastDebounceTime := 0,
    out := [] }

/-- The boot session after `arm()` on both levers, the cue, the pump and the lick
circuit (the `DEVICE ARMED` lines are left out of the trace). -/
def armedSession : Session :=
  { bootSession with
    leverRH := { bootSession.leverRH with armed := true },
    leverLH := { bootSession.leverLH with armed := true },
    cs := { bootSession.cs with armed := true },
    pump := { bootSession.pump with armed := true },
    lickCircuit := { bootSession.lickCircuit with armed := true } }

/-- The armed session with the windows a reward at clock value 1000 leaves:
cue window 1000 to 2600, infusion window 3100 to 5100. -/
def rewardedSession : Session :=
  { armedSession with
    cs := { armedSession.cs with onTimestamp := 1000, offTimestamp := 2600 },
    pump := { armedSession.pump with
      infusionStartTimestamp := 3100, infusionEndTimestamp := 5100 } }

/-- The armed session with the cue disarmed after an earlier reward left its
window at 5400 to 7000. -/
def staleCueSession : Session :=
  { armedSession with
    cs := { armedSession.cs with armed := false, onTimestamp := 5400, offTimestamp := 7000 } }

/-- The armed session with the program running and the laser armed in its
boot settings: CYCLE mode, 30000 ms periods, 20 Hz, no period started. -/
def cycleSession : Session :=
  { armedSession with
    programIsRunning := true,
    laser := { armedSession.laser with armed := true } }

/-- The cycle session with the laser in ACTIVE_PRESS mode at 5 Hz and a
1000 ms stimulation window armed at clock value 7000. -/
def oscillationSession : Session :=
  { cycleSession with
    laser := { cycleSession.laser with
      frequency := 5, duration := 1000, laserMode := MODE.ACTIVE_PRESS,
      stimStart := 7000, stimEnd := 8000, cycleUp := true,
      laserState := STATE.ACTIVE } }

/-- The cycle session in the middle of a stimulating period: the period runs
from 1 to 30001, `cycleUp` is true, and a tick at 2 inside the window left the
laser ACTIVE and ON, not logged, with the half-cycle 2 to 27. -/
def stimulatingSession : Session :=
  { cycleSession with
    laser := { cycleSession.laser with
      stimStart := 1, stimEnd := 30001, cycleUp := true, logged := false,
      halfCycleStart := 2, halfCycleEnd := 27,
      laserState := STATE.ACTIVE, laserAction := ACTION.ON } }

/-- The armed session with a fixed ratio of 3. -/
def ratioThreeSession : Session := { armedSession with fRatio := 3 }

/-- The session with fixed ratio 3 in which the right lever has read LOW since
clock value 1000 and the press is not yet committed. -/
def heldLowSession : Session :=
  { ratioThreeSession with
    leverRH := { ratioThreeSession.leverRH with previousLeverState := false },
    leverLastDebounceTime := 1000 }

/-- The armed session whose right lever holds an ACTIVE press committed at
1234. -/
def pressedSession : Session :=
  { armedSession with
    leverRH := { armedSession.leverRH with
      previousLeverState := false, stableLeverState := false,
      pressTimestamp := 1234, pressType := "ACTIVE" } }

/-- The armed session in which a lick touch was committed at 100 and the
spout has read LOW since 220. -/
def touchedSession : Session :=
  { armedSession with
    lickCircuit := { armedSession.lickCircuit with
      previousLickState := false, stableLickState := true, lickTimestamp := 100 },
    lickLastDebounceTime := 220 }

/-- A press call on the right lever with cue, pump and laser passed. -/
def pressAt (now : Nat) : PressCall :=
  { now := now, programRunning := true, lever := LeverId.RH,
    cue := true, pump := true, laser := true }

/-- A poll with cue and pump passed and no laser. -/
def pollAt (now : Nat) (raw : Bool) : LeverPoll :=
  { now := now, raw := raw, programRunning := true, cue := true, pump := true, laser := false }

/-! # Theorems -/

/-! ## Frame lemmas for the session setters -/

/-- Fields of a session after `emit`: only the trace grows. -/
@[simp] theorem Session.emit_fields (s : Session) (e : Event) :
    (s.emit e).leverRH = s.leverRH
      ∧ (s.emit e).leverLH = s.leverLH
      ∧ (s.emit e).cs = s.cs
      ∧ (s.emit e).pump = s.pump
      ∧ (s.emit e).laser = s.laser
      ∧ (s.emit e).lickCircuit = s.lickCircuit
      ∧ (s.emit e).timeoutIntervalStart = s.timeoutIntervalStart
      ∧ (s.emit e).timeoutIntervalEnd = s.timeoutIntervalEnd
      ∧ (s.emit e).timeoutIntervalLength = s.timeoutIntervalLength
      ∧ (s.emit e).pressCount = s.pressCount
      ∧ (s.emit e).fRatio = s.fRatio
      ∧ (s.emit e).differenceFromStartTime = s.differenceFromStartTime
      ∧ (s.emit e).traceIntervalLength = s.traceIntervalLength
      ∧ (s.emit e).programIsRunning = s.programIsRunning
      ∧ (s.emit e).leverLastDebounceTime = s.leverLastDebounceTime
      ∧ (s.emit e).lickLastDebounceTime = s.lickLastDebounceTime
      ∧ (s.emit e).out = s.out ++ [e]
      ∧ (∀ id, (s.emit e).lever id = s.lever id) :=
  ⟨rfl, rfl, rfl, rfl, rfl, rfl, rfl, rfl, rfl, rfl, rfl, rfl, rfl, rfl, rfl, rfl, rfl, fun id => by cases id <;> rfl⟩

/-- Fields of a session after `setCs`. -/
@[simp] theorem Session.setCs_fields (s : Session) (c : Cue) :
    (s.setCs c).leverRH = s.leverRH
      ∧ (s.setCs c).leverLH = s.leverLH
      ∧ (s.setCs c).cs = c
      ∧ (s.setCs c).pump = s.pump
      ∧ (s.setCs c).laser = s.laser
      ∧ (s.setCs c).lickCircuit = s.lickCircuit
      ∧ (s.setCs c).timeoutIntervalStart = s.timeoutIntervalStart
      ∧ (s.setCs c).timeoutIntervalEnd = s.timeoutIntervalEnd
      ∧ (s.setCs c).timeoutIntervalLength = s.timeoutIntervalLength
      ∧ (s.setCs c).pressCount = s.pressCount
      ∧ (s.setCs c).fRatio = s.fRatio
      ∧ (s.setCs c).differenceFromStartTime = s.differenceFromStartTime
      ∧ (s.setCs c).traceIntervalLength = s.traceIntervalLength
      ∧ (s.setCs c).programIsRunning = s.programIsRunning
      ∧ (s.setCs c).leverLastDebounceTime = s.leverLastDebounceTime
      ∧ (s.setCs c).lickLastDebounceTime = s.lickLastDebounceTime
      ∧ (s.setCs c).out = s.out
      ∧ (∀ id, (s.setCs c).lever id = s.lever id) :=
  ⟨rfl, rfl, rfl, rfl, rfl, rfl, rfl, rfl, rfl, rfl, rfl, rfl, rfl, rfl, rfl, rfl, rfl, fun id => by cases id <;> rfl⟩

/-- Fields of a session after `setPump`. -/
@[simp] theorem Session.setPump_fields (s : Session) (p : Pump) :
    (s.setPump p).leverRH = s.leverRH
      ∧ (s.setPump p).leverLH = s.leverLH
      ∧ (s.setPump p).cs = s.cs
      ∧ (s.setPump p).pump = p
      ∧ (s.setPump p).laser = s.laser
      ∧ (s.setPump p).lickCircuit = s.lickCircuit
      ∧ (s.setPump p).timeoutIntervalStart = s.timeoutIntervalStart
      ∧ (s.setPump p).timeoutIntervalEnd = s.timeoutIntervalEnd
      ∧ (s.setPump p).timeoutIntervalLength = s.timeoutIntervalLength
      ∧ (s.setPump p).pressCount = s.pressCount
      ∧ (s.setPump p).fRatio = s.fRatio
      ∧ (s.setPump p).differenceFromStartTime = s.differenceFromStartTime
      ∧ (s.setPump p).traceIntervalLength = s.traceIntervalLength
      ∧ (s.setPump p).programIsRunning = s.programIsRunning
      ∧ (s.setPump p).leverLastDebounceTime = s.leverLastDebounceTime
      ∧ (s.setPump p).lickLastDebounceTime = s.lickLastDebounceTime
      ∧ (s.setPump p).out = s.out
      ∧ (∀ id, (s.setPump p).lever id = s.lever id) :=
  ⟨rfl, rfl, rfl, rfl, rfl, rfl, rfl, rfl, rfl, rfl, rfl, rfl, rfl, rfl, rfl, rfl, rfl, fun id => by cases id <;> rfl⟩

/-- Fields of a session after `setLaser`. -/
@[simp] theorem Session.setLaser_fields (s : Session) (l : Laser) :
    (s.setLaser l).leverRH = s.leverRH
      ∧ (s.setLaser l).leverLH = s.leverLH
      ∧ (s.setLaser l).cs = s.cs
      ∧ (s.setLaser l).pump = s.pump
      ∧ (s.setLaser l).laser = l
      ∧ (s.setLaser l).lickCircuit = s.lickCircuit
      ∧ (s.setLaser l).timeoutIntervalStart = s.timeoutIntervalStart
      ∧ (s.setLaser l).timeoutIntervalEnd = s.timeoutIntervalEnd
      ∧ (s.setLaser l).timeoutIntervalLength = s.timeoutIntervalLength
      ∧ (s.setLaser l).pressCount = s.pressCount
      ∧ (s.setLaser l).fRatio = s.fRatio
      ∧ (s.setLaser l).differenceFromStartTime = s.differenceFromStartTime
      ∧ (s.setLaser l).traceIntervalLength = s.traceIntervalLength
      ∧ (s.setLaser l).programIsRunning = s.programIsRunning
      ∧ (s.setLaser l).leverLastDebounceTime = s.leverLastDebounceTime
      ∧ (s.setLaser l).lickLastDebounceTime = s.lickLastDebounceTime
      ∧ (s.setLaser l).out = s.out
      ∧ (∀ id, (s.setLaser l).lever id = s.lever id) :=
  ⟨rfl, rfl, rfl, rfl, rfl, rfl, rfl, rfl, rfl, rfl, rfl, rfl, rfl, rfl, rfl, rfl, rfl, fun id => by cases id <;> rfl⟩

/-- Fields of a session after `setLickCircuit`. -/
@[simp] theorem Session.setLickCircuit_fields (s : Session) (l : LickCircuit) :
    (s.setLickCircuit l).leverRH = s.leverRH
      ∧ (s.setLickCircuit l).leverLH = s.leverLH
      ∧ (s.setLickCircuit l).cs = s.cs
      ∧ (s.setLickCircuit l).pump = s.pump
      ∧ (s.setLickCircuit l).laser = s.laser
      ∧ (s.setLickCircuit l).lickCircuit = l
      ∧ (s.setLickCircuit l).timeoutIntervalStart = s.timeoutIntervalStart
      ∧ (s.setLickCircuit l).timeoutIntervalEnd = s.timeoutIntervalEnd
      ∧ (s.setLickCircuit l).timeoutIntervalLength = s.timeoutIntervalLength
      ∧ (s.setLickCircuit l).pressCount = s.pressCount
      ∧ (s.setLickCircuit l).fRatio = s.fRatio
      ∧ (s.setLickCircuit l).differenceFromStartTime = s.differenceFromStartTime
      ∧ (s.setLickCircuit l).traceIntervalLength = s.traceIntervalLength
      ∧ (s.setLickCircuit l).programIsRunning = s.programIsRunning
      ∧ (s.setLickCircuit l).leverLastDebounceTime = s.leverLastDebounceTime
      ∧ (s.setLickCircuit l).lickLastDebounceTime = s.lickLastDebounceTime
      ∧ (s.setLickCircuit l).out = s.out
      ∧ (∀ id, (s.setLickCircuit l).lever id = s.lever id) :=
  ⟨rfl, rfl, rfl, rfl, rfl, rfl, rfl, rfl, rfl, rfl, rfl, rfl, rfl, rfl, rfl, rfl, rfl, fun id => by cases id <;> rfl⟩

/-- Fields of a session after `setPressCount`. -/
@[simp] theorem Session.setPressCount_fields (s : Session) (v : Int) :
    (s.setPressCount v).leverRH = s.leverRH
      ∧ (s.setPressCount v).leverLH = s.leverLH
      ∧ (s.setPressCount v).cs = s.cs
      ∧ (s.setPressCount v).pump = s.pump
      ∧ (s.setPressCount v).laser = s.laser
      ∧ (s.setPressCount v).lickCircuit = s.lickCircuit
      ∧ (s.setPressCount v).timeoutIntervalStart = s.timeoutIntervalStart
      ∧ (s.setPressCount v).timeoutIntervalEnd = s.timeoutIntervalEnd
      ∧ (s.setPressCount v).timeoutIntervalLength = s.timeoutIntervalLength
      ∧ (s.setPressCount v).pressCount = v
      ∧ (s.setPressCount v).fRatio = s.fRatio
      ∧ (s.setPressCount v).differenceFromStartTime = s.differenceFromStartTime
      ∧ (s.setPressCount v).traceIntervalLength = s.traceIntervalLength
      ∧ (s.setPressCount v).programIsRunning = s.programIsRunning
      ∧ (s.setPressCount v).leverLastDebounceTime = s.leverLastDebounceTime
      ∧ (s.setPressCount v).lickLastDebounceTime = s.lickLastDebounceTime
      ∧ (s.setPressCount v).out = s.out
      ∧ (∀ id, (s.setPressCount v).lever id = s.lever id) :=
  ⟨rfl, rfl, rfl, rfl, rfl, rfl, rfl, rfl, rfl, rfl, rfl, rfl, rfl, rfl, rfl, rfl, rfl, fun id => by cases id <;> rfl⟩

/-- Fields of a session after `setTimeoutInterval`. -/
@[simp] theorem Session.setTimeoutInterval_fields (s : Session) (a b : Nat) :
    (s.setTimeoutInterval a b).leverRH = s.leverRH
      ∧ (s.setTimeoutInterval a b).leverLH = s.leverLH
      ∧ (s.setTimeoutInterval a b).cs = s.cs
      ∧ (s.setTimeoutInterval a b).pump = s.pump
      ∧ (s.setTimeoutInterval a b).laser = s.laser
      ∧ (s.setTimeoutInterval a b).lickCircuit = s.lickCircuit
      ∧ (s.setTimeoutInterval a b).timeoutIntervalStart = a
      ∧ (s.setTimeoutInterval a b).timeoutIntervalEnd = b
      ∧ (s.setTimeoutInterval a b).timeoutIntervalLength = s.timeoutIntervalLength
      ∧ (s.setTimeoutInterval a b).pressCount = s.pressCount
      ∧ (s.setTimeoutInterval a b).fRatio = s.fRatio
      ∧ (s.setTimeoutInterval a b).differenceFromStartTime = s.differenceFromStartTime
      ∧ (s.setTimeoutInterval a b).traceIntervalLength = s.traceIntervalLength
      ∧ (s.setTimeoutInterval a b).programIsRunning = s.programIsRunning
      ∧ (s.setTimeoutInterval a b).leverLastDebounceTime = s.leverLastDebounceTime
      ∧ (s.setTimeoutInterval a b).lickLastDebounceTime = s.lickLastDebounceTime
      ∧ (s.setTimeoutInterval a b).out = s.out
      ∧ (∀ id, (s.setTimeoutInterval a b).lever id = s.lever id) :=
  ⟨rfl, rfl, rfl, rfl, rfl, rfl, rfl, rfl, rfl, rfl, rfl, rfl, rfl, rfl, rfl, rfl, rfl, fun id => by cases id <;> rfl⟩

/-- Fields of a session after `setLeverLastDebounceTime`. -/
@[simp] theorem Session.setLeverLastDebounceTime_fields (s : Session) (t : Nat) :
    (s.setLeverLastDebounceTime t).leverRH = s.leverRH
      ∧ (s.setLeverLastDebounceTime t).leverLH = s.leverLH
      ∧ (s.setLeverLastDebounceTime t).cs = s.cs
      ∧ (s.setLeverLastDebounceTime t).pump = s.pump
      ∧ (s.setLeverLastDebounceTime t).laser = s.laser
      ∧ (s.setLeverLastDebounceTime t).lickCircuit = s.lickCircuit
      ∧ (s.setLeverLastDebounceTime t).timeoutIntervalStart = s.timeoutIntervalStart
      ∧ (s.setLeverLastDebounceTime t).timeoutIntervalEnd = s.timeoutIntervalEnd
      ∧ (s.setLeverLastDebounceTime t).timeoutIntervalLength = s.timeoutIntervalLength
      ∧ (s.setLeverLastDebounceTime t).pressCount = s.pressCount
      ∧ (s.setLeverLastDebounceTime t).fRatio = s.fRatio
      ∧ (s.setLeverLastDebounceTime t).differenceFromStartTime = s.differenceFromStartTime
      ∧ (s.setLeverLastDebounceTime t).traceIntervalLength = s.traceIntervalLength
      ∧ (s.setLeverLastDebounceTime t).programIsRunning = s.programIsRunning
      ∧ (s.setLeverLastDebounceTime t).leverLastDebounceTime = t
      ∧ (s.setLeverLastDebounceTime t).lickLastDebounceTime = s.lickLastDebounceTime
      ∧ (s.setLeverLastDebounceTime t).out = s.out
      ∧ (∀ id, (s.setLeverLastDebounceTime t).lever id = s.lever id) :=
  ⟨rfl, rfl, rfl, rfl, rfl, rfl, rfl, rfl, rfl, rfl, rfl, rfl, rfl, rfl, rfl, rfl, rfl, fun id => by cases id <;> rfl⟩

/-- Fields of a session after `setLickLastDebounceTime`. -/
@[simp] theorem Session.setLickLastDebounceTime_fields (s : Session) (t : Nat) :
    (s.setLickLastDebounceTime t).leverRH = s.leverRH
      ∧ (s.setLickLastDebounceTime t).leverLH = s.leverLH
      ∧ (s.setLickLastDebounceTime t).cs = s.cs
      ∧ (s.setLickLastDebounceTime t).pump = s.pump
      ∧ (s.setLickLastDebounceTime t).laser = s.laser
      ∧ (s.setLickLastDebounceTime t).lickCircuit = s.lickCircuit
      ∧ (s.setLickLastDebounceTime t).timeoutIntervalStart = s.timeoutIntervalStart
      ∧ (s.setLickLastDebounceTime t).timeoutIntervalEnd = s.timeoutIntervalEnd
      ∧ (s.setLickLastDebounceTime t).timeoutIntervalLength = s.timeoutIntervalLength
      ∧ (s.setLickLastDebounceTime t).pressCount = s.pressCount
      ∧ (s.setLickLastDebounceTime t).fRatio = s.fRatio
      ∧ (s.setLickLastDebounceTime t).differenceFromStartTime = s.differenceFromStartTime
      ∧ (s.setLickLastDebounceTime t).traceIntervalLength = s.traceIntervalLength
      ∧ (s.setLickLastDebounceTime t).programIsRunning = s.programIsRunning
      ∧ (s.setLickLastDebounceTime t).leverLastDebounceTime = s.leverLastDebounceTime
      ∧ (s.setLickLastDebounceTime t).lickLastDebounceTime = t
      ∧ (s.setLickLastDebounceTime t).out = s.out
      ∧ (∀ id, (s.setLickLastDebounceTime t).lever id = s.lever id) :=
  ⟨rfl, rfl, rfl, rfl, rfl, rfl, rfl, rfl, rfl, rfl, rfl, rfl, rfl, rfl, rfl, rfl, rfl, fun id => by cases id <;> rfl⟩

/-- Fields other than the levers after `setLever`. -/
@[simp] theorem Session.setLever_fields (s : Session) (id : LeverId) (l : Lever) :
    (s.setLever id l).cs = s.cs
      ∧ (s.setLever id l).pump = s.pump
      ∧ (s.setLever id l).laser = s.laser
      ∧ (s.setLever id l).lickCircuit = s.lickCircuit
      ∧ (s.setLever id l).timeoutIntervalStart = s.timeoutIntervalStart
      ∧ (s.setLever id l).timeoutIntervalEnd = s.timeoutIntervalEnd
      ∧ (s.setLever id l).timeoutIntervalLength = s.timeoutIntervalLength
      ∧ (s.setLever id l).pressCount = s.pressCount
      ∧ (s.setLever id l).fRatio = s.fRatio
      ∧ (s.setLever id l).differenceFromStartTime = s.differenceFromStartTime
      ∧ (s.setLever id l).traceIntervalLength = s.traceIntervalLength
      ∧ (s.setLever id l).programIsRunning = s.programIsRunning
      ∧ (s.setLever id l).leverLastDebounceTime = s.leverLastDebounceTime
      ∧ (s.setLever id l).lickLastDebounceTime = s.lickLastDebounceTime
      ∧ (s.setLever id l).out = s.out :=
  ⟨by cases id <;> rfl, by cases id <;> rfl, by cases id <;> rfl, by cases id <;> rfl, by cases id <;> rfl, by cases id <;> rfl, by cases id <;> rfl, by cases id <;> rfl, by cases id <;> rfl, by cases id <;> rfl, by cases id <;> rfl, by cases id <;> rfl, by cases id <;> rfl, by cases id <;> rfl, by cases id <;> rfl⟩

/-- Reading back the lever that was just written. -/
@[simp] theorem Session.lever_setLever (s : Session) (id : LeverId) (l : Lever) :
    (s.setLever id l).lever id = l := by
  cases id <;> rfl

/-- Reading any lever after `setLever`. -/
theorem Session.lever_setLever_eq (s : Session) (id other : LeverId) (l : Lever) :
    (s.setLever id l).lever other = if other = id then l else s.lever other := by
  cases id <;> cases other <;> rfl

/-- Writing one lever leaves the other one alone. -/
theorem Session.lever_setLever_of_ne (s : Session) (id other : LeverId) (l : Lever)
    (h : other ≠ id) : (s.setLever id l).lever other = s.lever other := by
  cases id <;> cases other <;> first | rfl | exact absurd rfl h

/-- Fields that `advanceTimeout` keeps: everything but the timeout window. -/
@[simp] theorem advanceTimeout_fields (s : Session) (b : Bool) :
    (advanceTimeout s b).leverRH = s.leverRH
      ∧ (advanceTimeout s b).leverLH = s.leverLH
      ∧ (advanceTimeout s b).cs = s.cs
      ∧ (advanceTimeout s b).pump = s.pump
      ∧ (advanceTimeout s b).laser = s.laser
      ∧ (advanceTimeout s b).lickCircuit = s.lickCircuit
      ∧ (advanceTimeout s b).timeoutIntervalLength = s.timeoutIntervalLength
      ∧ (advanceTimeout s b).pressCount = s.pressCount
      ∧ (advanceTimeout s b).fRatio = s.fRatio
      ∧ (advanceTimeout s b).differenceFromStartTime = s.differenceFromStartTime
      ∧ (advanceTimeout s b).traceIntervalLength = s.traceIntervalLength
      ∧ (advanceTimeout s b).programIsRunning = s.programIsRunning
      ∧ (advanceTimeout s b).leverLastDebounceTime = s.leverLastDebounceTime
      ∧ (advanceTimeout s b).lickLastDebounceTime = s.lickLastDebounceTime
      ∧ (advanceTimeout s b).out = s.out
      ∧ (∀ id, (advanceTimeout s b).lever id = s.lever id) := by
  cases b
  · exact ⟨rfl, rfl, rfl, rfl, rfl, rfl, rfl, rfl, rfl, rfl, rfl, rfl, rfl, rfl, rfl, fun _ => rfl⟩
  · exact ⟨rfl, rfl, rfl, rfl, rfl, rfl, rfl, rfl, rfl, rfl, rfl, rfl, rfl, rfl, rfl,
      fun id => by cases id <;> rfl⟩

/-- Fields after `setPressType`: only the press type of that lever changes. -/
@[simp] theorem setPressType_fields (s : Session) (id : LeverId) (t : String) :
    (setPressType s id t).cs = s.cs
      ∧ (setPressType s id t).pump = s.pump
      ∧ (setPressType s id t).laser = s.laser
      ∧ (setPressType s id t).lickCircuit = s.lickCircuit
      ∧ (setPressType s id t).timeoutIntervalStart = s.timeoutIntervalStart
      ∧ (setPressType s id t).timeoutIntervalEnd = s.timeoutIntervalEnd
      ∧ (setPressType s id t).timeoutIntervalLength = s.timeoutIntervalLength
      ∧ (setPressType s id t).pressCount = s.pressCount
      ∧ (setPressType s id t).fRatio = s.fRatio
      ∧ (setPressType s id t).differenceFromStartTime = s.differenceFromStartTime
      ∧ (setPressType s id t).traceIntervalLength = s.traceIntervalLength
      ∧ (setPressType s id t).programIsRunning = s.programIsRunning
      ∧ (setPressType s id t).leverLastDebounceTime = s.leverLastDebounceTime
      ∧ (setPressType s id t).lickLastDebounceTime = s.lickLastDebounceTime
      ∧ (setPressType s id t).out = s.out
      ∧ ((setPressType s id t).lever id).pressType = t := by
  simp [setPressType, Lever.setPressType]

/-! ## Machine integers and traces -/

/-- Storing a value of the `int32_t` range keeps it. -/
theorem toInt32_of_inInt32 (x : Int) (h : InInt32 x) : toInt32 x = x := by
  unfold toInt32
  unfold InInt32 at h
  omega

/-- A clock value up to 2147483647 is its own `int32_t` timestamp. -/
theorem toInt32_of_nat (t : Nat) (h : t ≤ 2147483647) : toInt32 (t : Int) = t := by
  unfold toInt32
  omega

/-- A 32-bit clock value converts to itself as `uint32_t`. -/
theorem toUInt32_of_nat (t : Nat) (h : t ≤ 4294967295) : toUInt32 (t : Int) = t := by
  unfold toUInt32
  omega

/-- On a clock that has not wrapped, the unsigned difference is the plain difference. -/
theorem subU32_of_le (a b : Nat) (hb : b ≤ a) (ha : a < 4294967296) : subU32 a b = a - b := by
  unfold subU32
  have hb2 : b % 4294967296 = b := Nat.mod_eq_of_lt (by omega)
  rw [hb2]
  omega

/-- The unsigned difference of a clock value with itself is 0. -/
theorem subU32_self (a : Nat) : subU32 a a = 0 := by
  unfold subU32
  omega

/-- Appending a `deliverReward` entry raises its count by one. -/
theorem callCount_append_reward (out : List Event) :
    callCount Fn.deliverReward (out ++ [Event.call Fn.deliverReward])
      = callCount Fn.deliverReward out + 1 := by
  simp [callCount]

/-- Appending any other event keeps the `deliverReward` count. -/
theorem callCount_append_other (out : List Event) (e : Event)
    (h : e ≠ Event.call Fn.deliverReward) :
    callCount Fn.deliverReward (out ++ [e]) = callCount Fn.deliverReward out := by
  have h2 : ¬ (e = Event.call Fn.deliverReward) := h
  simp [callCount, List.count_append, List.count_singleton, h2]

/-- Lever transitions of a concatenated trace. -/
theorem leverTransitions_append (a b : List Event) :
    leverTransitions (a ++ b) = leverTransitions a ++ leverTransitions b := by
  simp [leverTransitions, List.filterMap_append]

/-- Lick transitions of a concatenated trace. -/
theorem lickTransitions_append (a b : List Event) :
    lickTransitions (a ++ b) = lickTransitions a ++ lickTransitions b := by
  simp [lickTransitions, List.filterMap_append]

/-! ## Reward delivery and press classification -/

/-- With a cue pointer, `deliverReward` returns; it keeps the levers, the lick circuit, the timeout window and the ratio counters, and records one entry. -/
theorem deliverReward_frame (s : Session) (now : Nat) (pump laser : Bool) :
    ∃ r, deliverReward s now true pump laser = some r
      ∧ (∀ id, r.lever id = s.lever id)
      ∧ r.lickCircuit = s.lickCircuit
      ∧ r.timeoutIntervalStart = s.timeoutIntervalStart
      ∧ r.timeoutIntervalEnd = s.timeoutIntervalEnd
      ∧ r.timeoutIntervalLength = s.timeoutIntervalLength
      ∧ r.pressCount = s.pressCount ∧ r.fRatio = s.fRatio
      ∧ r.out = s.out ++ [Event.call Fn.deliverReward] := by
  simp only [deliverReward, Bool.true_and, if_true]
  split <;> split <;> simp only [Option.map_some'] <;> split <;>
    exact ⟨_, rfl, by simp⟩

/-- With a cue pointer, `deliverReward` keeps the debounce timers and the session parameters. -/
theorem deliverReward_unchanged (s : Session) (now : Nat) (pump laser : Bool) :
    ∃ r, deliverReward s now true pump laser = some r
      ∧ r.leverLastDebounceTime = s.leverLastDebounceTime
      ∧ r.lickLastDebounceTime = s.lickLastDebounceTime
      ∧ r.differenceFromStartTime = s.differenceFromStartTime
      ∧ r.traceIntervalLength = s.traceIntervalLength
      ∧ r.programIsRunning = s.programIsRunning := by
  simp only [deliverReward, Bool.true_and, if_true]
  split <;> split <;> simp only [Option.map_some'] <;> split <;>
    exact ⟨_, rfl, by simp⟩

/-- Effect of the ACTIVE body on the ratio counter and on the reward count. -/
theorem countActivePress_step (s : Session) (now : Nat) (programRunning pump laser b : Bool) :
    ∃ r, countActivePress s now programRunning true pump laser b = some r
      ∧ r.fRatio = s.fRatio
      ∧ (∀ id, r.lever id = s.lever id)
      ∧ (if s.pressCount = toInt32 (s.fRatio - 1) then
            r.pressCount = 0
              ∧ callCount Fn.deliverReward r.out = callCount Fn.deliverReward s.out + 1
          else
            r.pressCount = toInt32 (s.pressCount + 1)
              ∧ callCount Fn.deliverReward r.out = callCount Fn.deliverReward s.out) := by
  cases b <;> simp only [countActivePress, Bool.false_eq_true, if_false, if_true]
  all_goals
    split_ifs with h
    · obtain ⟨r, hr, hl, -, -, -, -, hp, hf, ho⟩ :=
        deliverReward_frame (s.setPressCount 0) now pump laser
      rw [hr]
      refine ⟨_, rfl, ?_⟩
      simp [hl, hp, hf, ho, callCount, List.count_cons]
    · exact ⟨_, rfl, by simp⟩

/-- The ACTIVE body keeps the levers and the lever debounce timer and records no lever handler. -/
theorem countActivePress_unchanged (s : Session) (now : Nat) (programRunning pump laser b : Bool) :
    ∃ r, countActivePress s now programRunning true pump laser b = some r
      ∧ (∀ id, r.lever id = s.lever id)
      ∧ r.leverLastDebounceTime = s.leverLastDebounceTime
      ∧ leverTransitions r.out = leverTransitions s.out := by
  cases b <;> simp only [countActivePress, Bool.false_eq_true, if_false, if_true]
  all_goals
    split_ifs with h
    · obtain ⟨r, hr, hl, -, -, -, -, -, -, ho⟩ :=
        deliverReward_frame (s.setPressCount 0) now pump laser
      obtain ⟨r2, hr2, hd, -⟩ := deliverReward_unchanged (s.setPressCount 0) now pump laser
      rw [hr] at hr2
      cases hr2
      rw [hr]
      refine ⟨_, rfl, ?_⟩
      simp [hl, ho, hd, leverTransitions]
    · exact ⟨_, rfl, by simp⟩

/-- Every `definePressActivity` call returns and obeys `PressStep`. -/
theorem definePressActivity_step (s : Session) (c : PressCall) :
    ∃ r, definePressActivity s c.now c.programRunning c.lever c.cue c.pump c.laser = some r
      ∧ PressStep s r c.lever := by
  obtain ⟨now, programRunning, lever, cue, pump, laser⟩ := c
  have hT : ¬ ("TIMEOUT" : String) = "ACTIVE" := by decide
  have hI : ¬ ("INACTIVE" : String) = "ACTIVE" := by decide
  have key : ∀ b, ∃ r, countActivePress
        (setPressType (s.emit (Event.call Fn.definePressActivity)) lever "ACTIVE")
        now programRunning true pump laser b = some r ∧ PressStep s r lever := by
    intro b
    obtain ⟨r, hr, hf, hl, hstep⟩ := countActivePress_step
      (setPressType (s.emit (Event.call Fn.definePressActivity)) lever "ACTIVE")
      now programRunning pump laser b
    refine ⟨r, hr, by simpa using hf, ?_⟩
    have hty : (r.lever lever).pressType = "ACTIVE" := by rw [hl]; simp
    rw [if_pos hty]
    simpa [callCount, List.count_cons] using hstep
  cases cue
  · refine ⟨_, by simp only [definePressActivity]; rfl, ?_⟩
    simp [PressStep, hI, callCount, List.count_cons]
  · simp only [definePressActivity, Bool.true_and]
    split_ifs with h1 h2 h3 h4
    · exact ⟨_, rfl, by simp [PressStep, hT, callCount, List.count_cons]⟩
    · exact key false
    · exact ⟨_, rfl, by simp [PressStep, hT, callCount, List.count_cons]⟩
    · exact key true
    · exact ⟨_, rfl, by simp [PressStep, hI, callCount, List.count_cons]⟩

/-- The press type left by `definePressActivity` when the cue is armed, with the end of the disqualifying window as the code selects it. -/
theorem definePressActivity_armed_cue (s : Session) (now : Nat) (programRunning : Bool)
    (lever : LeverId) (pump laser : Bool) (hcue : s.cs.armed = true) :
    ∃ r, definePressActivity s now programRunning lever true pump laser = some r
      ∧ (r.lever lever).pressType =
          if (decide (toInt32 now ≥ s.cs.onTimestamp)
                && decide (toInt32 now ≤
                    (if pump && s.pump.armed then s.pump.infusionEndTimestamp
                     else s.cs.offTimestamp)))
              || inTimeoutInterval s (toInt32 now) then "TIMEOUT" else "ACTIVE" := by
  have key : ∀ b, ∃ r, countActivePress
        (setPressType (s.emit (Event.call Fn.definePressActivity)) lever "ACTIVE")
        now programRunning true pump laser b = some r ∧ (r.lever lever).pressType = "ACTIVE" := by
    intro b
    obtain ⟨r, hr, -, hl, -⟩ := countActivePress_step
      (setPressType (s.emit (Event.call Fn.definePressActivity)) lever "ACTIVE")
      now programRunning pump laser b
    exact ⟨r, hr, by rw [hl]; simp⟩
  have hin : ∀ x, inTimeoutInterval (s.emit (Event.call Fn.definePressActivity)) x
      = inTimeoutInterval s x := fun _ => rfl
  by_cases hp : (pump && s.pump.armed) = true
  · have hnp : (!pump || !s.pump.armed) = false := by
      cases pump <;> simp_all
    simp only [definePressActivity, Bool.true_and, Session.emit_fields, hcue, hnp, hp, hin,
      Bool.false_eq_true, if_false, if_true]
    split_ifs with h
    · exact ⟨_, rfl, by simp⟩
    · exact key true
  · have hnp : (!pump || !s.pump.armed) = true := by
      cases pump <;> simp_all
    simp only [definePressActivity, Bool.true_and, Session.emit_fields, hcue, hnp, hp, hin,
      Bool.false_eq_true, if_false, if_true]
    split_ifs with h
    · exact ⟨_, rfl, by simp⟩
    · exact key false

/-- Every `definePressActivity` call returns, keeps the debounce variables of both levers and records exactly one press handler. -/
theorem definePressActivity_debounce (s : Session) (now : Nat) (programRunning : Bool)
    (lever : LeverId) (cue pump laser : Bool) :
    ∃ r, definePressActivity s now programRunning lever cue pump laser = some r
      ∧ (∀ id, (r.lever id).armed = (s.lever id).armed
          ∧ (r.lever id).previousLeverState = (s.lever id).previousLeverState
          ∧ (r.lever id).stableLeverState = (s.lever id).stableLeverState)
      ∧ r.leverLastDebounceTime = s.leverLastDebounceTime
      ∧ leverTransitions r.out = leverTransitions s.out ++ [Transition.pressed] := by
  have hset : ∀ (t : String) (id : LeverId),
      ((setPressType (s.emit (Event.call Fn.definePressActivity)) lever t).lever id).armed
          = (s.lever id).armed
        ∧ ((setPressType (s.emit (Event.call Fn.definePressActivity)) lever t).lever
            id).previousLeverState = (s.lever id).previousLeverState
        ∧ ((setPressType (s.emit (Event.call Fn.definePressActivity)) lever t).lever
            id).stableLeverState = (s.lever id).stableLeverState := by
    intro t id
    cases lever <;> cases id <;> exact ⟨rfl, rfl, rfl⟩
  have hout : ∀ t, leverTransitions
      (setPressType (s.emit (Event.call Fn.definePressActivity)) lever t).out
        = leverTransitions s.out ++ [Transition.pressed] := by
    intro t
    simp [leverTransitions_append]
    rfl
  have key : ∀ b, ∃ r, countActivePress
        (setPressType (s.emit (Event.call Fn.definePressActivity)) lever "ACTIVE")
        now programRunning true pump laser b = some r
      ∧ (∀ id, (r.lever id).armed = (s.lever id).armed
          ∧ (r.lever id).previousLeverState = (s.lever id).previousLeverState
          ∧ (r.lever id).stableLeverState = (s.lever id).stableLeverState)
      ∧ r.leverLastDebounceTime = s.leverLastDebounceTime
      ∧ leverTransitions r.out = leverTransitions s.out ++ [Transition.pressed] := by
    intro b
    obtain ⟨r, hr, hl, hd, ho⟩ := countActivePress_unchanged
      (setPressType (s.emit (Event.call Fn.definePressActivity)) lever "ACTIVE")
      now programRunning pump laser b
    refine ⟨r, hr, fun id => ?_, by simpa using hd, by rw [ho, hout]⟩
    rw [hl]
    exact hset _ id
  cases cue
  · exact ⟨_, by simp only [definePressActivity]; rfl, hset _, by simp, hout _⟩
  · simp only [definePressActivity, Bool.true_and]
    split_ifs with h1 h2 h3 h4
    · exact ⟨_, rfl, hset _, by simp, hout _⟩
    · exact key false
    · exact ⟨_, rfl, hset _, by simp, hout _⟩
    · exact key true
    · exact ⟨_, rfl, hset _, by simp, hout _⟩

/-- Ratio counting from an arbitrary counter value `k < n`: after the calls the counter is `(k + m) mod n` and `(k + m) / n` rewards were delivered, `m` being the number of ACTIVE presses. -/
theorem runPresses_ratio (n : Nat) (hn : 1 ≤ n) (hmax : n ≤ 2147483647) :
    ∀ (calls : List PressCall) (s : Session) (k : Nat),
      s.fRatio = n → s.pressCount = k → k < n →
      ∃ r, runPresses s calls = some r ∧ r.fRatio = n
        ∧ r.pressCount = ((k + activeCount s calls) % n : Nat)
        ∧ callCount Fn.deliverReward r.out
            = callCount Fn.deliverReward s.out + (k + activeCount s calls) / n := by
  intro calls
  induction calls with
  | nil =>
    intro s k hf hp hk
    refine ⟨s, rfl, hf, ?_, ?_⟩
    · simp [activeCount, Nat.mod_eq_of_lt hk, hp]
    · simp [activeCount, Nat.div_eq_of_lt hk]
  | cons c rest ih =>
    intro s k hf hp hk
    obtain ⟨s1, h1, hfr, hstep⟩ := definePressActivity_step s c
    have hrun : runPresses s (c :: rest) = runPresses s1 rest := by
      simp [runPresses, h1]
    have hpred : toInt32 (s.fRatio - 1) = (n : Int) - 1 := by
      rw [hf]; unfold toInt32; omega
    by_cases hA : (s1.lever c.lever).pressType = "ACTIVE"
    · have hcount : activeCount s (c :: rest) = 1 + activeCount s1 rest := by
        simp [activeCount, classifiedActive, h1, hA]
      rw [if_pos hA] at hstep
      by_cases hlast : s.pressCount = toInt32 (s.fRatio - 1)
      · rw [if_pos hlast] at hstep
        have hkn : k + 1 = n := by
          rw [hpred, hp] at hlast; omega
        obtain ⟨r, hr, hrf, hrp, hrc⟩ := ih s1 0 (hfr.trans hf) (by simpa using hstep.1) (by omega)
        refine ⟨r, hrun.trans hr, hrf, ?_, ?_⟩
        · rw [hrp, hcount]
          have : k + (1 + activeCount s1 rest) = activeCount s1 rest + n := by omega
          rw [this, Nat.add_mod_right, Nat.zero_add]
        · rw [hrc, hstep.2, hcount]
          have : k + (1 + activeCount s1 rest) = activeCount s1 rest + n := by omega
          rw [this, Nat.add_div_right _ (by omega : 0 < n), Nat.zero_add]
          omega
      · rw [if_neg hlast] at hstep
        have hk1 : k + 1 < n := by
          rw [hpred, hp] at hlast; omega
        have hinc : s1.pressCount = ((k + 1 : Nat) : Int) := by
          rw [hstep.1, hp]; unfold toInt32; push_cast; omega
        obtain ⟨r, hr, hrf, hrp, hrc⟩ := ih s1 (k + 1) (hfr.trans hf) hinc hk1
        refine ⟨r, hrun.trans hr, hrf, ?_, ?_⟩
        · rw [hrp, hcount]
          have : k + (1 + activeCount s1 rest) = k + 1 + activeCount s1 rest := by omega
          rw [this]
        · rw [hrc, hstep.2, hcount]
          have : k + (1 + activeCount s1 rest) = k + 1 + activeCount s1 rest := by omega
          rw [this]
    · have hcount : activeCount s (c :: rest) = activeCount s1 rest := by
        simp [activeCount, classifiedActive, h1, hA]
      rw [if_neg hA] at hstep
      obtain ⟨r, hr, hrf, hrp, hrc⟩ := ih s1 k (hfr.trans hf) (hstep.1.trans hp) hk
      exact ⟨r, hrun.trans hr, hrf, by rw [hrp, hcount], by rw [hrc, hstep.2, hcount]⟩

/-! ## Output drivers and debounce polls -/

/-- On an armed cue, `manageCue` sets the running flag and drives the tone by the closed window test on the `int32_t` timestamp. -/
theorem manageCue_armed (s : Session) (now : Nat) (h : s.cs.armed = true) :
    ((manageCue s now true).cs.running = true ↔
        s.cs.onTimestamp ≤ toInt32 now ∧ toInt32 now ≤ s.cs.offTimestamp)
      ∧ (manageCue s now true).out = s.out ++
          [if s.cs.onTimestamp ≤ toInt32 now ∧ toInt32 now ≤ s.cs.offTimestamp
            then Event.tone s.cs.pin s.cs.frequency else Event.noTone s.cs.pin] := by
  simp only [manageCue, h, if_true]
  by_cases hw : s.cs.onTimestamp ≤ toInt32 now ∧ toInt32 now ≤ s.cs.offTimestamp
  · have hc : (decide (toInt32 now ≤ s.cs.offTimestamp)
        && decide (toInt32 now ≥ s.cs.onTimestamp)) = true := by
      simp [hw.1, hw.2]
    rw [if_pos hc, if_pos hw]
    simp only [Session.setCs_fields, Session.emit_fields, Cue.setRunning, hw, and_self]
  · have hc : ¬ (decide (toInt32 now ≤ s.cs.offTimestamp)
        && decide (toInt32 now ≥ s.cs.onTimestamp)) = true := by
      simp only [Bool.and_eq_true, decide_eq_true_eq, ge_iff_le]
      exact fun h => hw ⟨h.2, h.1⟩
    rw [if_neg hc, if_neg hw]
    simp only [Session.setCs_fields, Session.emit_fields, Cue.setRunning, hw,
      Bool.false_eq_true, and_self]

/-- On an armed pump, `managePump` sets the running flag and drives the pin by the closed window test on the `int32_t` timestamp. -/
theorem managePump_armed (s : Session) (now : Nat) (h : s.pump.armed = true) :
    ((managePump s now true).pump.running = true ↔
        s.pump.infusionStartTimestamp ≤ toInt32 now
          ∧ toInt32 now ≤ s.pump.infusionEndTimestamp)
      ∧ (managePump s now true).out = s.out ++
          [Event.digitalWrite s.pump.pin
            (decide (s.pump.infusionStartTimestamp ≤ toInt32 now
              ∧ toInt32 now ≤ s.pump.infusionEndTimestamp))] := by
  simp only [managePump, h, Bool.and_self, if_true]
  by_cases hw : s.pump.infusionStartTimestamp ≤ toInt32 now
      ∧ toInt32 now ≤ s.pump.infusionEndTimestamp
  · have hc : (decide (toInt32 now ≤ s.pump.infusionEndTimestamp)
        && decide (toInt32 now ≥ s.pump.infusionStartTimestamp)) = true := by
      simp [hw.1, hw.2]
    rw [if_pos hc]
    simp only [Session.setPump_fields, Session.emit_fields, Pump.setRunning,
      hw, and_self, decide_True]
  · have hc : ¬ (decide (toInt32 now ≤ s.pump.infusionEndTimestamp)
        && decide (toInt32 now ≥ s.pump.infusionStartTimestamp)) = true := by
      simp only [Bool.and_eq_true, decide_eq_true_eq, ge_iff_le]
      exact fun h => hw ⟨h.2, h.1⟩
    rw [if_neg hc]
    simp only [Session.setPump_fields, Session.emit_fields, Pump.setRunning,
      hw, Bool.false_eq_true, and_self, decide_False]

/-- The two output drivers keep the levers and the lever debounce timer and record no lever handler. -/
theorem manage_unchanged (s : Session) (now : Nat) (cue pump : Bool) :
    (∀ id, (managePump (manageCue s now cue) now pump).lever id = s.lever id)
      ∧ (managePump (manageCue s now cue) now pump).leverLastDebounceTime
          = s.leverLastDebounceTime
      ∧ leverTransitions (managePump (manageCue s now cue) now pump).out
          = leverTransitions s.out := by
  simp only [manageCue, managePump]
  split_ifs <;> simp [leverTransitions_append, leverTransitions]

/-- The release handler keeps the debounce variables and records itself once. -/
theorem pressingDataEntry_debounce (s : Session) (now : Nat) (lever : LeverId) :
    (∀ id, ((pressingDataEntry s now lever).lever id).armed = (s.lever id).armed
        ∧ ((pressingDataEntry s now lever).lever id).previousLeverState
            = (s.lever id).previousLeverState
        ∧ ((pressingDataEntry s now lever).lever id).stableLeverState
            = (s.lever id).stableLeverState)
      ∧ (pressingDataEntry s now lever).leverLastDebounceTime = s.leverLastDebounceTime
      ∧ leverTransitions (pressingDataEntry s now lever).out
          = leverTransitions s.out ++ [Transition.released] := by
  refine ⟨fun id => ?_, ?_, ?_⟩
  · simp only [pressingDataEntry, Session.emit_fields, Session.lever_setLever_eq]
    by_cases h : id = lever
    · subst h
      simp only [if_true, Lever.setReleaseTimestamp, and_self]
    · simp only [if_neg h, and_self]
  · simp only [pressingDataEntry, Session.emit_fields, Session.setLever_fields]
  · simp only [pressingDataEntry, Session.emit_fields, Session.setLever_fields,
      leverTransitions_append]
    simp [leverTransitions]

/-- One poll of an armed lever is the reference update on its debounce variables, and records the handler of the transition the reference emits. -/
theorem monitorPressing_refines (s : Session) (now : Nat) (raw programRunning : Bool)
    (lever : LeverId) (cue pump laser : Bool) (harmed : (s.lever lever).armed = true) :
    ∃ r, monitorPressing s now raw programRunning lever cue pump laser = some r
      ∧ (r.lever lever).armed = true
      ∧ leverDebounce r lever
          = (debounceUpdate leverDebounceDelay false (leverDebounce s lever) raw now).1
      ∧ leverTransitions r.out = leverTransitions s.out
          ++ (debounceUpdate leverDebounceDelay false (leverDebounce s lever) raw now).2.toList := by
  obtain ⟨hl, hd, ho⟩ := manage_unchanged s now cue pump
  simp only [monitorPressing]
  generalize managePump (manageCue s now cue) now pump = s0 at hl hd ho
  simp only [leverDebounce, debounceUpdate, ← hl, ← hd, ← ho]
  rw [← hl] at harmed
  simp only [harmed, if_true]
  clear hl hd ho s
  have h1 : ∀ id, (if raw ≠ (s0.lever lever).previousLeverState
      then s0.setLeverLastDebounceTime now else s0).lever id = s0.lever id := by
    intro id
    split_ifs <;> simp only [Session.setLeverLastDebounceTime_fields]
  have h2 : (if raw ≠ (s0.lever lever).previousLeverState
      then s0.setLeverLastDebounceTime now else s0).leverLastDebounceTime
        = if raw ≠ (s0.lever lever).previousLeverState then now
          else s0.leverLastDebounceTime := by
    split_ifs <;> simp only [Session.setLeverLastDebounceTime_fields]
  have h3 : (if raw ≠ (s0.lever lever).previousLeverState
      then s0.setLeverLastDebounceTime now else s0).out = s0.out := by
    split_ifs <;> simp only [Session.setLeverLastDebounceTime_fields]
  generalize (if raw ≠ (s0.lever lever).previousLeverState
      then s0.setLeverLastDebounceTime now else s0) = s1 at h1 h2 h3 ⊢
  simp only [← h1] at h2 harmed
  simp only [← h1, ← h2, ← h3]
  clear h1 h2 h3 s0
  by_cases ht : subU32 now s1.leverLastDebounceTime > leverDebounceDelay
  · by_cases hs : raw ≠ (s1.lever lever).stableLeverState
    · have hboth := And.intro ht hs
      simp only [if_pos ht, if_pos hs, if_pos hboth]
      cases raw
      · simp only [if_true]
        obtain ⟨r, hr, hlev, hlast, hout⟩ := definePressActivity_debounce
          ((s1.setLever lever ((s1.lever lever).setStableLeverState false)).setLever lever
            (((s1.setLever lever ((s1.lever lever).setStableLeverState false)).lever
              lever).setPressTimestamp (toInt32 now)))
          now programRunning lever cue pump laser
        rw [hr]
        refine ⟨_, rfl, ?_, ?_, ?_⟩
        · simp only [Session.lever_setLever, Lever.setPreviousLeverState, hlev,
            Lever.setPressTimestamp, Lever.setStableLeverState, harmed]
        · simp only [Session.lever_setLever, Lever.setPreviousLeverState, hlev,
            Lever.setPressTimestamp, Lever.setStableLeverState, Session.setLever_fields, hlast]
        · simp only [Session.setLever_fields, hout, Option.toList]
      · simp only [Bool.true_eq_false, if_false]
        obtain ⟨hlev, hlast, hout⟩ := pressingDataEntry_debounce
          ((s1.setLever lever ((s1.lever lever).setStableLeverState true)).setLever lever
            (((s1.setLever lever ((s1.lever lever).setStableLeverState true)).lever
              lever).setReleaseTimestamp (toInt32 now)))
          now lever
        generalize pressingDataEntry
          ((s1.setLever lever ((s1.lever lever).setStableLeverState true)).setLever lever
            (((s1.setLever lever ((s1.lever lever).setStableLeverState true)).lever
              lever).setReleaseTimestamp (toInt32 now)))
          now lever = r at hlev hlast hout ⊢
        refine ⟨_, rfl, ?_, ?_, ?_⟩
        · simp only [Session.lever_setLever, Lever.setPreviousLeverState, hlev,
            Lever.setReleaseTimestamp, Lever.setStableLeverState, harmed]
        · simp only [Session.lever_setLever, Lever.setPreviousLeverState, hlev,
            Lever.setReleaseTimestamp, Lever.setStableLeverState, Session.setLever_fields, hlast]
        · simp only [Session.setLever_fields, hout, Option.toList]
    · have hboth : ¬ (subU32 now s1.leverLastDebounceTime > leverDebounceDelay
          ∧ raw ≠ (s1.lever lever).stableLeverState) := fun h => hs h.2
      simp only [if_pos ht, if_neg hs, if_neg hboth]
      refine ⟨_, rfl, ?_, ?_, ?_⟩
      · simp only [Session.lever_setLever, Lever.setPreviousLeverState, harmed]
      · simp only [Session.lever_setLever, Lever.setPreviousLeverState]
        simp only [Session.setLever_fields]
      · simp only [Session.setLever_fields, Option.toList, List.append_nil]
  · have hboth : ¬ (subU32 now s1.leverLastDebounceTime > leverDebounceDelay
        ∧ raw ≠ (s1.lever lever).stableLeverState) := fun h => ht h.1
    simp only [if_neg ht, if_neg hboth]
    refine ⟨_, rfl, ?_, ?_, ?_⟩
    · simp only [Session.lever_setLever, Lever.setPreviousLeverState, harmed]
    · simp only [Session.lever_setLever, Lever.setPreviousLeverState]
      simp only [Session.setLever_fields]
    · simp only [Session.setLever_fields, Option.toList, List.append_nil]

/-- One poll of the armed lick circuit is the reference update on its debounce variables, with the touch level `HIGH` as contact level. -/
theorem monitorLicking_refines (s : Session) (now : Nat) (raw : Bool)
    (harmed : s.lickCircuit.armed = true) :
    (monitorLicking s now raw).lickCircuit.armed = true
      ∧ lickDebounce (monitorLicking s now raw)
          = (debounceUpdate lickDebounceDelay true (lickDebounce s) raw now).1
      ∧ lickTransitions (monitorLicking s now raw).out = lickTransitions s.out
          ++ (debounceUpdate lickDebounceDelay true (lickDebounce s) raw now).2.toList := by
  simp only [monitorLicking, harmed, if_true, lickDebounce, debounceUpdate]
  have h1 : (if raw ≠ s.lickCircuit.previousLickState
      then s.setLickLastDebounceTime now else s).lickCircuit = s.lickCircuit := by
    split_ifs <;> simp only [Session.setLickLastDebounceTime_fields]
  have h2 : (if raw ≠ s.lickCircuit.previousLickState
      then s.setLickLastDebounceTime now else s).lickLastDebounceTime
        = if raw ≠ s.lickCircuit.previousLickState then now
          else s.lickLastDebounceTime := by
    split_ifs <;> simp only [Session.setLickLastDebounceTime_fields]
  have h3 : (if raw ≠ s.lickCircuit.previousLickState
      then s.setLickLastDebounceTime now else s).out = s.out := by
    split_ifs <;> simp only [Session.setLickLastDebounceTime_fields]
  generalize (if raw ≠ s.lickCircuit.previousLickState
      then s.setLickLastDebounceTime now else s) = s1 at h1 h2 h3 ⊢
  simp only [← h1] at h2 harmed
  simp only [← h1, ← h2, ← h3]
  clear h1 h2 h3 s
  by_cases ht : subU32 now s1.lickLastDebounceTime > lickDebounceDelay
  · by_cases hs : raw ≠ s1.lickCircuit.stableLickState
    · have hboth := And.intro ht hs
      simp only [if_pos ht, if_pos hs, if_pos hboth]
      cases raw
      · simp only [Bool.false_eq_true, if_false, Session.setLickCircuit_fields,
          Session.emit_fields, LickCircuit.setPreviousLickState,
          LickCircuit.setLickReleaseTimestamp, LickCircuit.setStableLickState, harmed,
          lickTransitions_append, Option.toList, true_and]
        simp [lickTransitions]
      · simp only [if_true, Session.setLickCircuit_fields,
          Session.emit_fields, LickCircuit.setPreviousLickState,
          LickCircuit.setLickTouchTimestamp, LickCircuit.setStableLickState, harmed,
          lickTransitions_append, Option.toList, true_and]
        simp [lickTransitions]
    · have hboth : ¬ (subU32 now s1.lickLastDebounceTime > lickDebounceDelay
          ∧ raw ≠ s1.lickCircuit.stableLickState) := fun h => hs h.2
      simp only [if_pos ht, if_neg hs, if_neg hboth, Session.setLickCircuit_fields,
        LickCircuit.setPreviousLickState, harmed, Option.toList, List.append_nil, and_self]
  · have hboth : ¬ (subU32 now s1.lickLastDebounceTime > lickDebounceDelay
        ∧ raw ≠ s1.lickCircuit.stableLickState) := fun h => ht h.1
    simp only [if_neg ht, if_neg hboth, Session.setLickCircuit_fields,
      LickCircuit.setPreviousLickState, harmed, Option.toList, List.append_nil, and_self]

/-- What a poll of an armed lever does when the reference commits nothing. -/
theorem monitorPressing_no_commit (s : Session) (p : LeverPoll) (lever : LeverId)
    (harmed : (s.lever lever).armed = true)
    (h : ¬ (subU32 p.now (if p.raw ≠ (s.lever lever).previousLeverState then p.now
              else s.leverLastDebounceTime) > leverDebounceDelay
            ∧ p.raw ≠ (s.lever lever).stableLeverState)) :
    ∃ r, monitorPressing s p.now p.raw p.programRunning lever p.cue p.pump p.laser = some r
      ∧ (r.lever lever).armed = true
      ∧ (r.lever lever).previousLeverState = p.raw
      ∧ (r.lever lever).stableLeverState = (s.lever lever).stableLeverState
      ∧ r.leverLastDebounceTime
          = (if p.raw ≠ (s.lever lever).previousLeverState then p.now
              else s.leverLastDebounceTime)
      ∧ leverTransitions r.out = leverTransitions s.out := by
  obtain ⟨r, hr, ha, hd, ho⟩ := monitorPressing_refines s p.now p.raw p.programRunning lever
    p.cue p.pump p.laser harmed
  have hupd : debounceUpdate leverDebounceDelay false (leverDebounce s lever) p.raw p.now
      = ({ previous := p.raw, stable := (s.lever lever).stableLeverState,
           lastDebounceTime := if p.raw ≠ (s.lever lever).previousLeverState then p.now
              else s.leverLastDebounceTime }, none) := by
    simp only [debounceUpdate, leverDebounce, if_neg h]
  rw [hupd] at hd ho
  refine ⟨r, hr, ha, ?_, ?_, ?_, ?_⟩
  · exact congrArg DebounceState.previous hd
  · exact congrArg DebounceState.stable hd
  · exact congrArg DebounceState.lastDebounceTime hd
  · simpa using ho

/-- What a poll of an armed lever does when the reference commits. -/
theorem monitorPressing_commit (s : Session) (p : LeverPoll) (lever : LeverId)
    (harmed : (s.lever lever).armed = true)
    (h : subU32 p.now (if p.raw ≠ (s.lever lever).previousLeverState then p.now
              else s.leverLastDebounceTime) > leverDebounceDelay
            ∧ p.raw ≠ (s.lever lever).stableLeverState) :
    ∃ r, monitorPressing s p.now p.raw p.programRunning lever p.cue p.pump p.laser = some r
      ∧ (r.lever lever).armed = true
      ∧ (r.lever lever).previousLeverState = p.raw
      ∧ (r.lever lever).stableLeverState = p.raw
      ∧ r.leverLastDebounceTime
          = (if p.raw ≠ (s.lever lever).previousLeverState then p.now
              else s.leverLastDebounceTime)
      ∧ leverTransitions r.out = leverTransitions s.out
          ++ [if p.raw = false then Transition.pressed else Transition.released] := by
  obtain ⟨r, hr, ha, hd, ho⟩ := monitorPressing_refines s p.now p.raw p.programRunning lever
    p.cue p.pump p.laser harmed
  have hupd : debounceUpdate leverDebounceDelay false (leverDebounce s lever) p.raw p.now
      = ({ previous := p.raw, stable := p.raw,
           lastDebounceTime := if p.raw ≠ (s.lever lever).previousLeverState then p.now
              else s.leverLastDebounceTime },
          some (if p.raw = false then Transition.pressed else Transition.released)) := by
    simp only [debounceUpdate, leverDebounce, if_pos h]
  rw [hupd] at hd ho
  refine ⟨r, hr, ha, ?_, ?_, ?_, ?_⟩
  · exact congrArg DebounceState.previous hd
  · exact congrArg DebounceState.stable hd
  · exact congrArg DebounceState.lastDebounceTime hd
  · simpa using ho

/-- Unfolding of `runPolls` and `stableChanges` at a poll that returns. -/
theorem runPolls_cons (s r : Session) (p : LeverPoll) (lever : LeverId) (rest : List LeverPoll)
    (h : monitorPressing s p.now p.raw p.programRunning lever p.cue p.pump p.laser = some r) :
    runPolls s lever (p :: rest) = runPolls r lever rest
      ∧ stableChanges s lever (p :: rest)
          = (if (r.lever lever).stableLeverState ≠ (s.lever lever).stableLeverState then 1 else 0)
            + stableChanges r lever rest := by
  simp only [runPolls, stableChanges, h, Option.some_bind, and_self]

/-- While the sampled level keeps bouncing, no poll commits. -/
theorem runPolls_bouncing (lever : LeverId) :
    ∀ (polls : List LeverPoll) (s : Session) (lastFlip : Option Nat),
      (s.lever lever).armed = true →
      bouncing leverDebounceDelay (s.lever lever).previousLeverState lastFlip polls = true →
      (match lastFlip with
        | none => (s.lever lever).previousLeverState = (s.lever lever).stableLeverState
        | some t0 => s.leverLastDebounceTime = t0) →
      ∃ r, runPolls s lever polls = some r
        ∧ (r.lever lever).stableLeverState = (s.lever lever).stableLeverState
        ∧ leverTransitions r.out = leverTransitions s.out
        ∧ stableChanges s lever polls = 0 := by
  intro polls
  induction polls with
  | nil =>
    intro s lastFlip _ _ _
    exact ⟨s, rfl, rfl, rfl, rfl⟩
  | cons p rest ih =>
    intro s lastFlip harmed hb hinv
    simp only [bouncing, Bool.and_eq_true, decide_eq_true_eq] at hb
    obtain ⟨hnow, hb⟩ := hb
    have hno : ¬ (subU32 p.now (if p.raw ≠ (s.lever lever).previousLeverState then p.now
              else s.leverLastDebounceTime) > leverDebounceDelay
            ∧ p.raw ≠ (s.lever lever).stableLeverState) := by
      by_cases hflip : p.raw ≠ (s.lever lever).previousLeverState
      · rw [if_pos hflip, subU32_self]
        intro h
        exact absurd h.1 (by decide)
      · rw [if_neg hflip]
        rw [if_neg hflip] at hb
        have hraw : p.raw = (s.lever lever).previousLeverState := not_not.mp hflip
        cases lastFlip with
        | none =>
          intro h
          exact h.2 (hraw.trans hinv)
        | some t0 =>
          simp only [Bool.and_eq_true, decide_eq_true_eq] at hb
          simp only at hinv
          rw [hinv, subU32_of_le _ _ hb.1.1 hnow]
          intro h
          have := h.1
          unfold leverDebounceDelay at this hb
          omega
    obtain ⟨r, hr, ha, hprev, hstab, hlast, hout⟩ := monitorPressing_no_commit s p lever harmed hno
    obtain ⟨hrun, hcount⟩ := runPolls_cons s r p lever rest hr
    by_cases hflip : p.raw ≠ (s.lever lever).previousLeverState
    · rw [if_pos hflip] at hb hlast
      obtain ⟨r2, hr2, hs2, ho2, hc2⟩ := ih r (some p.now) ha (by rw [hprev]; exact hb) hlast
      refine ⟨r2, hrun.trans hr2, hs2.trans hstab, ho2.trans hout, ?_⟩
      rw [hcount, hc2, hstab]
      simp
    · rw [if_neg hflip] at hb hlast
      have hraw : p.raw = (s.lever lever).previousLeverState := not_not.mp hflip
      have hb2 : bouncing leverDebounceDelay (r.lever lever).previousLeverState lastFlip rest
          = true := by
        rw [hprev, hraw]
        simp only [Bool.and_eq_true] at hb
        exact hb.2
      cases lastFlip with
      | none =>
        simp only at hinv
        obtain ⟨r2, hr2, hs2, ho2, hc2⟩ := ih r none ha hb2
          (by show (r.lever lever).previousLeverState = (r.lever lever).stableLeverState
              rw [hprev, hstab, hraw, hinv])
        refine ⟨r2, hrun.trans hr2, hs2.trans hstab, ho2.trans hout, ?_⟩
        rw [hcount, hc2, hstab]
        simp
      | some t0 =>
        simp only at hinv
        obtain ⟨r2, hr2, hs2, ho2, hc2⟩ := ih r (some t0) ha hb2
          (by show r.leverLastDebounceTime = t0
              rw [hlast, hinv])
        refine ⟨r2, hrun.trans hr2, hs2.trans hstab, ho2.trans hout, ?_⟩
        rw [hcount, hc2, hstab]
        simp

/-- A level that never changes is a bouncing sequence without any flip. -/
theorem bouncing_of_held (level : Bool) (t0 : Nat) :
    ∀ polls : List LeverPoll, heldFrom level t0 polls →
      bouncing leverDebounceDelay level none polls = true := by
  intro polls
  induction polls with
  | nil => intro _; rfl
  | cons p rest ih =>
    intro h
    have hp := h p (List.mem_cons_self _ _)
    have hrest : heldFrom level t0 rest := fun q hq => h q (List.mem_cons_of_mem _ hq)
    simp only [bouncing, Bool.and_eq_true, decide_eq_true_eq]
    refine ⟨hp.2.2, ?_⟩
    rw [if_neg (not_not.mpr hp.1)]
    simp only [Bool.true_and]
    exact ih hrest

/-- A level held after a flip is committed by the first poll that comes more than the debounce delay after the flip, and by no other poll. -/
theorem runPolls_held (lever : LeverId) (level : Bool) (t0 : Nat) :
    ∀ (rest : List LeverPoll) (s : Session),
      (s.lever lever).armed = true →
      (s.lever lever).previousLeverState = level →
      (s.lever lever).stableLeverState ≠ level →
      s.leverLastDebounceTime = t0 →
      heldFrom level t0 rest →
      (∃ p ∈ rest, p.now > t0 + leverDebounceDelay) →
      ∃ r, runPolls s lever rest = some r
        ∧ (r.lever lever).stableLeverState = level
        ∧ stableChanges s lever rest = 1
        ∧ leverTransitions r.out = leverTransitions s.out
            ++ [if level = false then Transition.pressed else Transition.released] := by
  intro rest
  induction rest with
  | nil =>
    intro s _ _ _ _ _ hex
    obtain ⟨p, hp, -⟩ := hex
    exact absurd hp (List.not_mem_nil p)
  | cons p rest ih =>
    intro s harmed hprev hstab hlast hheld hex
    have hp := hheld p (List.mem_cons_self _ _)
    have hrest : heldFrom level t0 rest := fun q hq => hheld q (List.mem_cons_of_mem _ hq)
    have hnoflip : ¬ (p.raw ≠ (s.lever lever).previousLeverState) := by
      rw [hprev, hp.1]
      exact not_not.mpr rfl
    have hsub : subU32 p.now s.leverLastDebounceTime = p.now - t0 := by
      rw [hlast]
      exact subU32_of_le _ _ hp.2.1 hp.2.2
    by_cases hlate : p.now > t0 + leverDebounceDelay
    · have hc : subU32 p.now (if p.raw ≠ (s.lever lever).previousLeverState then p.now
              else s.leverLastDebounceTime) > leverDebounceDelay
            ∧ p.raw ≠ (s.lever lever).stableLeverState := by
        rw [if_neg hnoflip, hsub, hp.1]
        exact ⟨by omega, fun h => hstab h.symm⟩
      obtain ⟨r, hr, ha, hpr, hst, -, hout⟩ := monitorPressing_commit s p lever harmed hc
      obtain ⟨hrun, hcount⟩ := runPolls_cons s r p lever rest hr
      rw [hp.1] at hpr hst hout
      obtain ⟨r2, hr2, hs2, ho2, hc2⟩ := runPolls_bouncing lever rest r none ha
        (by rw [hpr]; exact bouncing_of_held level t0 rest hrest)
        (by show (r.lever lever).previousLeverState = (r.lever lever).stableLeverState
            rw [hpr, hst])
      refine ⟨r2, hrun.trans hr2, hs2.trans hst, ?_, by rw [ho2, hout]⟩
      rw [hcount, hc2, hst, if_pos (fun h => hstab h.symm)]
    · have hc : ¬ (subU32 p.now (if p.raw ≠ (s.lever lever).previousLeverState then p.now
              else s.leverLastDebounceTime) > leverDebounceDelay
            ∧ p.raw ≠ (s.lever lever).stableLeverState) := by
        rw [if_neg hnoflip, hsub]
        intro h
        have := h.1
        omega
      obtain ⟨r, hr, ha, hpr, hst, hla, hout⟩ := monitorPressing_no_commit s p lever harmed hc
      obtain ⟨hrun, hcount⟩ := runPolls_cons s r p lever rest hr
      rw [if_neg hnoflip] at hla
      have hex2 : ∃ q ∈ rest, q.now > t0 + leverDebounceDelay := by
        obtain ⟨q, hq, hqt⟩ := hex
        rcases List.mem_cons.mp hq with h | h
        · subst h
          exact absurd hqt hlate
        · exact ⟨q, h, hqt⟩
      obtain ⟨r2, hr2, hs2, hc2, ho2⟩ := ih r ha (hpr.trans hp.1) (by rw [hst]; exact hstab)
        (hla.trans hlast) hrest hex2
      refine ⟨r2, hrun.trans hr2, hs2, ?_, by rw [ho2, hout]⟩
      rw [hcount, hc2, hst]
      simp

/-! ## C1: reward chaining -/

/-- C1 (amended), reward chaining.  When `deliverReward` runs at clock value `t`
with the cue and the pump both armed, and `t`, `t + cue.duration`,
`traceIntervalLength`, `t + cue.duration + traceIntervalLength` and that sum
plus `pump.infusionDuration` all lie in the `int32_t` range, it returns with
`cue.onTimestamp = t`, `cue.offTimestamp = t + cue.duration`,
`pump.infusionStartTimestamp = cue.offTimestamp + traceIntervalLength` and
`pump.infusionEndTimestamp = pump.infusionStartTimestamp + pump.infusionDuration`. -/
theorem deliverReward_chaining (s : Session) (t : Nat) (laser : Bool)
    (hcue : s.cs.armed = true) (hpump : s.pump.armed = true)
    (ht : InInt32 t)
    (hoff : InInt32 (t + s.cs.duration))
    (htrace : InInt32 s.traceIntervalLength)
    (hstart : InInt32 (t + s.cs.duration + s.traceIntervalLength))
    (hend : InInt32 (t + s.cs.duration + s.traceIntervalLength + s.pump.infusionDuration)) :
    ∃ r, deliverReward s t true true laser = some r
      ∧ r.cs.onTimestamp = t
      ∧ r.cs.offTimestamp = t + s.cs.duration
      ∧ r.pump.infusionStartTimestamp = r.cs.offTimestamp + s.traceIntervalLength
      ∧ r.pump.infusionEndTimestamp = r.pump.infusionStartTimestamp + s.pump.infusionDuration := by
  have h1 := toInt32_of_inInt32 _ ht
  have h2 := toInt32_of_inInt32 _ hoff
  have h3 := toInt32_of_inInt32 _ htrace
  have h4 := toInt32_of_inInt32 _ hstart
  have h5 := toInt32_of_inInt32 _ hend
  simp only [deliverReward, Bool.true_and, if_true, Session.emit_fields, Session.setCs_fields,
    hcue, hpump, Option.map_some']
  refine ⟨_, rfl, ?_⟩
  split <;>
    simp [Cue.setOnTimestamp, Cue.setOffTimestamp, Pump.setInfusionPeriod, h1, h2, h3, h4, h5]

/-- C1, the instance of the specification: with cue duration 1600, trace
interval 500 and infusion duration 2000, a reward at `t = 1000` gives the cue
window 1000 to 2600 and the pump window 3100 to 5100. -/
theorem deliverReward_chaining_example :
    ∃ r, deliverReward armedSession 1000 true true false = some r
      ∧ r.cs.onTimestamp = 1000 ∧ r.cs.offTimestamp = 2600
      ∧ r.pump.infusionStartTimestamp = 3100 ∧ r.pump.infusionEndTimestamp = 5100 := by
  obtain ⟨r, h, h1, h2, h3, h4⟩ := deliverReward_chaining armedSession 1000 false (by decide) (by decide)
    (by decide) (by decide) (by decide) (by decide) (by decide)
  refine ⟨r, h, h1, ?_, ?_, ?_⟩
  · rw [h2]; decide
  · rw [h3, h2]; decide
  · rw [h4, h3, h2]; decide

/-- C1 as stated, for every clock value, fails past the `int32_t` range: at
clock value 2147483647 the stored off timestamp is -2147482049 and not
`t + cue.duration`, and at clock value 2147483648 the stored on timestamp is
-2147483648 and not `t`. -/
theorem deliverReward_chaining_overflow :
    armedSession.cs.armed = true ∧ armedSession.pump.armed = true
      ∧ (deliverReward armedSession 2147483647 true true false).map
          (fun r => (r.cs.onTimestamp, r.cs.offTimestamp)) = some (2147483647, -2147482049)
      ∧ (-2147482049 : Int) ≠ 2147483647 + armedSession.cs.duration
      ∧ (deliverReward armedSession 2147483648 true true false).map
          (fun r => r.cs.onTimestamp) = some (-2147483648)
      ∧ (-2147483648 : Int) ≠ 2147483648 := by
  decide

/-! ## C2: fixed ratio -/

/-- C2, fixed ratio.  With `fRatio = n`, `1 ≤ n` (an `int32_t` value) and
`pressCount = 0`, every sequence of `definePressActivity` calls returns; if
`m` of them were classified ACTIVE, `deliverReward` was entered `m / n` times
and `pressCount = m mod n`.  So exactly `n` ACTIVE presses give exactly one
reward and `pressCount = 0`, and fewer than `n` give none. -/
theorem fixed_ratio_reward_count (s : Session) (n : Nat) (calls : List PressCall)
    (hn : 1 ≤ n) (hmax : n ≤ 2147483647) (hf : s.fRatio = n) (hp : s.pressCount = 0) :
    ∃ r, runPresses s calls = some r
      ∧ callCount Fn.deliverReward r.out
          = callCount Fn.deliverReward s.out + activeCount s calls / n
      ∧ r.pressCount = ((activeCount s calls % n : Nat) : Int)
      ∧ (activeCount s calls = n →
          callCount Fn.deliverReward r.out = callCount Fn.deliverReward s.out + 1
            ∧ r.pressCount = 0)
      ∧ (activeCount s calls < n →
          callCount Fn.deliverReward r.out = callCount Fn.deliverReward s.out) := by
  obtain ⟨r, hr, -, hrp, hrc⟩ := runPresses_ratio n hn hmax calls s 0 hf (by simpa using hp) (by omega)
  rw [Nat.zero_add] at hrp hrc
  refine ⟨r, hr, hrc, hrp, ?_, ?_⟩
  · intro hm
    rw [hrc, hrp, hm, Nat.div_self (by omega), Nat.mod_self]
    exact ⟨rfl, rfl⟩
  · intro hm
    rw [hrc, Nat.div_eq_of_lt hm]
    rfl

/-- C2 at a ratio of 3: presses at 1000, 2000 and 3000 are ACTIVE, the third
delivers the one reward and resets the counter, and the press at 4000 falls
in the cue window. -/
theorem fixed_ratio_reward_count_example :
    ∃ r, runPresses ratioThreeSession [pressAt 1000, pressAt 2000, pressAt 3000, pressAt 4000] = some r
      ∧ callCount Fn.deliverReward r.out = 1 ∧ r.pressCount = 0 := by
  have hm : activeCount ratioThreeSession [pressAt 1000, pressAt 2000, pressAt 3000, pressAt 4000] = 3 := by decide
  obtain ⟨r, hr, -, -, h3, -⟩ := fixed_ratio_reward_count ratioThreeSession 3
    [pressAt 1000, pressAt 2000, pressAt 3000, pressAt 4000]
    (by decide) (by decide) (by decide) (by decide)
  exact ⟨r, hr, by simpa using (h3 hm).1, (h3 hm).2⟩

/-! ## C3: press classification with the cue only -/

/-- C3, press classification with the cue armed and the pump absent or unarmed.
For a press at clock value `t ≤ 2147483647`, `definePressActivity` returns
and leaves `pressType = "TIMEOUT"` exactly when
`cue.onTimestamp ≤ t ≤ cue.offTimestamp` or
`timeoutIntervalStart ≤ t ≤ timeoutIntervalEnd`, and `"ACTIVE"` exactly
otherwise; the windows are those before the call. -/
theorem press_classification_cue_only (s : Session) (t : Nat) (programRunning : Bool)
    (lever : LeverId) (pump laser : Bool)
    (hcue : s.cs.armed = true) (hpump : pump = false ∨ s.pump.armed = false)
    (ht : t ≤ 2147483647) :
    ∃ r, definePressActivity s t programRunning lever true pump laser = some r
      ∧ ((r.lever lever).pressType = "TIMEOUT" ↔
          (s.cs.onTimestamp ≤ (t : Int) ∧ (t : Int) ≤ s.cs.offTimestamp)
            ∨ (s.timeoutIntervalStart ≤ t ∧ t ≤ s.timeoutIntervalEnd))
      ∧ ((r.lever lever).pressType = "ACTIVE" ↔
          ¬ ((s.cs.onTimestamp ≤ (t : Int) ∧ (t : Int) ≤ s.cs.offTimestamp)
            ∨ (s.timeoutIntervalStart ≤ t ∧ t ≤ s.timeoutIntervalEnd))) := by
  obtain ⟨r, hr, hty⟩ := definePressActivity_armed_cue s t programRunning lever pump laser hcue
  have hnp : (pump && s.pump.armed) = false := by
    rcases hpump with h | h <;> simp [h]
  have hA : ¬ ("ACTIVE" : String) = "TIMEOUT" := by decide
  have hT : ¬ ("TIMEOUT" : String) = "ACTIVE" := by decide
  refine ⟨r, hr, ?_⟩
  rw [hty, hnp]
  simp only [Bool.false_eq_true, if_false, inTimeoutInterval, toInt32_of_nat t ht,
    toUInt32_of_nat t (by omega)]
  split_ifs with h
  · have hP : (s.cs.onTimestamp ≤ (t : Int) ∧ (t : Int) ≤ s.cs.offTimestamp)
        ∨ (s.timeoutIntervalStart ≤ t ∧ t ≤ s.timeoutIntervalEnd) := by
      simpa using h
    exact ⟨⟨fun _ => hP, fun _ => rfl⟩, ⟨fun e => absurd e hT, fun n => absurd hP n⟩⟩
  · have hP : ¬ ((s.cs.onTimestamp ≤ (t : Int) ∧ (t : Int) ≤ s.cs.offTimestamp)
        ∨ (s.timeoutIntervalStart ≤ t ∧ t ≤ s.timeoutIntervalEnd)) := by
      simpa using h
    exact ⟨⟨fun e => absurd e hA, fun p => absurd p hP⟩, ⟨fun _ => hP, fun _ => rfl⟩⟩

/-- C3 at the armed session with a null pump pointer: a press at 1000 lies
outside both windows and is ACTIVE. -/
theorem press_classification_cue_only_example :
    ∃ r, definePressActivity armedSession 1000 true LeverId.RH true false false = some r
      ∧ r.leverRH.pressType = "ACTIVE" := by
  obtain ⟨r, hr, -, hA⟩ := press_classification_cue_only armedSession 1000 true LeverId.RH
    false false (by decide) (Or.inl rfl) (by decide)
  exact ⟨r, hr, hA.mpr (by decide)⟩

/-! ## C4: press classification with cue and pump -/

/-- C4 (amended), press classification with cue and pump armed.  For a press at
clock value `t ≤ 2147483647`, `definePressActivity` returns and leaves
`pressType = "TIMEOUT"` exactly when
`cue.onTimestamp ≤ t ≤ pump.infusionEndTimestamp` or
`timeoutIntervalStart ≤ t ≤ timeoutIntervalEnd`, and `"ACTIVE"` exactly
otherwise. -/
theorem press_classification_cue_and_pump (s : Session) (t : Nat) (programRunning : Bool)
    (lever : LeverId) (laser : Bool)
    (hcue : s.cs.armed = true) (hpump : s.pump.armed = true) (ht : t ≤ 2147483647) :
    ∃ r, definePressActivity s t programRunning lever true true laser = some r
      ∧ ((r.lever lever).pressType = "TIMEOUT" ↔
          (s.cs.onTimestamp ≤ (t : Int) ∧ (t : Int) ≤ s.pump.infusionEndTimestamp)
            ∨ (s.timeoutIntervalStart ≤ t ∧ t ≤ s.timeoutIntervalEnd))
      ∧ ((r.lever lever).pressType = "ACTIVE" ↔
          ¬ ((s.cs.onTimestamp ≤ (t : Int) ∧ (t : Int) ≤ s.pump.infusionEndTimestamp)
            ∨ (s.timeoutIntervalStart ≤ t ∧ t ≤ s.timeoutIntervalEnd))) := by
  obtain ⟨r, hr, hty⟩ := definePressActivity_armed_cue s t programRunning lever true laser hcue
  have hA : ¬ ("ACTIVE" : String) = "TIMEOUT" := by decide
  have hT : ¬ ("TIMEOUT" : String) = "ACTIVE" := by decide
  refine ⟨r, hr, ?_⟩
  rw [hty, hpump]
  simp only [Bool.and_self, if_true, inTimeoutInterval, toInt32_of_nat t ht,
    toUInt32_of_nat t (by omega)]
  split_ifs with h
  · have hP : (s.cs.onTimestamp ≤ (t : Int) ∧ (t : Int) ≤ s.pump.infusionEndTimestamp)
        ∨ (s.timeoutIntervalStart ≤ t ∧ t ≤ s.timeoutIntervalEnd) := by
      simpa using h
    exact ⟨⟨fun _ => hP, fun _ => rfl⟩, ⟨fun e => absurd e hT, fun n => absurd hP n⟩⟩
  · have hP : ¬ ((s.cs.onTimestamp ≤ (t : Int) ∧ (t : Int) ≤ s.pump.infusionEndTimestamp)
        ∨ (s.timeoutIntervalStart ≤ t ∧ t ≤ s.timeoutIntervalEnd)) := by
      simpa using h
    exact ⟨⟨fun e => absurd e hA, fun p => absurd p hP⟩, ⟨fun _ => hP, fun _ => rfl⟩⟩

/-- C4 (amended) at the armed session: a press at clock value 0 lies in the
initial window from 0 to 0 and is a TIMEOUT press. -/
theorem press_classification_cue_and_pump_example :
    ∃ r, definePressActivity armedSession 0 true LeverId.RH true true false = some r
      ∧ r.leverRH.pressType = "TIMEOUT" := by
  obtain ⟨r, hr, hT, -⟩ := press_classification_cue_and_pump armedSession 0 true LeverId.RH
    false (by decide) (by decide) (by decide)
  exact ⟨r, hr, hT.mpr (by decide)⟩

/-- C4 as stated, for every press time, fails past the `int32_t` range.  After a
reward at clock value 2147483648 the cue starts at -2147483648, the infusion
ends at -2147479548 and the timeout window is 2147485248 to 2147505248.  A
press at clock value 2147484000 is a TIMEOUT press although that value lies in
neither window; a press at clock value 2147490000, whose `int32_t` timestamp
is -2147477296, is a TIMEOUT press although that timestamp lies in neither
window.  So the rule fails whether `t` is read as the clock value or as the
timestamp. -/
theorem press_classification_cue_and_pump_past_int32 :
    ∃ s, definePressActivity armedSession 2147483648 true LeverId.RH true true false = some s
      ∧ s.cs.armed = true ∧ s.pump.armed = true
      ∧ s.cs.onTimestamp = -2147483648 ∧ s.pump.infusionEndTimestamp = -2147479548
      ∧ s.timeoutIntervalStart = 2147485248 ∧ s.timeoutIntervalEnd = 2147505248
      ∧ (definePressActivity s 2147484000 true LeverId.RH true true false).map
          (fun r => r.leverRH.pressType) = some "TIMEOUT"
      ∧ ¬ ((s.cs.onTimestamp ≤ (2147484000 : Int)
              ∧ (2147484000 : Int) ≤ s.pump.infusionEndTimestamp)
            ∨ (s.timeoutIntervalStart ≤ 2147484000 ∧ 2147484000 ≤ s.timeoutIntervalEnd))
      ∧ (definePressActivity s 2147490000 true LeverId.RH true true false).map
          (fun r => r.leverRH.pressType) = some "TIMEOUT"
      ∧ toInt32 2147490000 = -2147477296
      ∧ ¬ ((s.cs.onTimestamp ≤ (-2147477296 : Int)
              ∧ (-2147477296 : Int) ≤ s.pump.infusionEndTimestamp)
            ∨ ((s.timeoutIntervalStart : Int) ≤ -2147477296
              ∧ (-2147477296 : Int) ≤ s.timeoutIntervalEnd)) := by
  refine ⟨_, rfl, ?_⟩
  decide

/-! ## C5: press classification without a reward device -/

/-- C5, press classification without a reward device.  When each of the cue,
the pump and the laser is absent or unarmed, `definePressActivity` returns
and leaves `pressType = "INACTIVE"`, at every clock value and for every
content of the windows. -/
theorem press_classification_no_device (s : Session) (t : Nat) (programRunning : Bool)
    (lever : LeverId) (cue pump laser : Bool)
    (hcue : cue = false ∨ s.cs.armed = false)
    (hpump : pump = false ∨ s.pump.armed = false)
    (hlaser : laser = false ∨ s.laser.armed = false) :
    ∃ r, definePressActivity s t programRunning lever cue pump laser = some r
      ∧ (r.lever lever).pressType = "INACTIVE" := by
  have hc : (cue && s.cs.armed) = false := by
    rcases hcue with h | h <;> simp [h]
  refine ⟨setPressType (s.emit (Event.call Fn.definePressActivity)) lever "INACTIVE", ?_, by simp⟩
  simp [definePressActivity, hc]

/-- C5 at the boot session, where nothing is armed: a press on the left lever is
INACTIVE. -/
theorem press_classification_no_device_example :
    ∃ r, definePressActivity bootSession 1000 true LeverId.LH false false false = some r
      ∧ r.leverLH.pressType = "INACTIVE" :=
  press_classification_no_device bootSession 1000 true LeverId.LH false false false
    (Or.inl rfl) (Or.inl rfl) (Or.inl rfl)

/-! ## C6: debounce stability -/

/-- C6, debounce stability, for an armed lever.  First part: from a lever at
rest (previous sample equal to the stable level), a poll sequence whose
sampled level keeps bouncing (every poll that repeats the previous sample
after a change comes less than `debounceDelay` = 100 ms after that change)
returns, never changes `stableLeverState` and runs no handler.  Second part:
every poll returns, sets `lastDebounceTime` to its clock value exactly when
the sample differs from the previous one, and changes `stableLeverState`
only if the sample equals the previous sample and more than `debounceDelay`
has elapsed since `lastDebounceTime`. -/
theorem debounce_stability (s : Session) (lever : LeverId)
    (harmed : (s.lever lever).armed = true) :
    (∀ polls : List LeverPoll,
        (s.lever lever).previousLeverState = (s.lever lever).stableLeverState →
        bouncing leverDebounceDelay (s.lever lever).previousLeverState none polls = true →
        ∃ r, runPolls s lever polls = some r
          ∧ (r.lever lever).stableLeverState = (s.lever lever).stableLeverState
          ∧ stableChanges s lever polls = 0
          ∧ leverTransitions r.out = leverTransitions s.out)
      ∧ (∀ p : LeverPoll,
          ∃ r, monitorPressing s p.now p.raw p.programRunning lever p.cue p.pump p.laser = some r
            ∧ r.leverLastDebounceTime
                = (if p.raw ≠ (s.lever lever).previousLeverState then p.now
                    else s.leverLastDebounceTime)
            ∧ ((r.lever lever).stableLeverState ≠ (s.lever lever).stableLeverState →
                p.raw = (s.lever lever).previousLeverState
                  ∧ subU32 p.now s.leverLastDebounceTime > leverDebounceDelay)) := by
  constructor
  · intro polls hrest hb
    obtain ⟨r, hr, hs, ho, hc⟩ := runPolls_bouncing lever polls s none harmed hb hrest
    exact ⟨r, hr, hs, hc, ho⟩
  · intro p
    by_cases h : subU32 p.now (if p.raw ≠ (s.lever lever).previousLeverState then p.now
              else s.leverLastDebounceTime) > leverDebounceDelay
            ∧ p.raw ≠ (s.lever lever).stableLeverState
    · obtain ⟨r, hr, -, -, -, hlast, -⟩ := monitorPressing_commit s p lever harmed h
      refine ⟨r, hr, hlast, fun _ => ?_⟩
      by_cases hflip : p.raw ≠ (s.lever lever).previousLeverState
      · rw [if_pos hflip, subU32_self] at h
        exact absurd h.1 (by decide)
      · rw [if_neg hflip] at h
        exact ⟨not_not.mp hflip, h.1⟩
    · obtain ⟨r, hr, -, -, hstab, hlast, -⟩ := monitorPressing_no_commit s p lever harmed h
      exact ⟨r, hr, hlast, fun hne => absurd hstab hne⟩

/-- C6 on the armed session: the level changes at 1000, 1050 and 1090 and is
read again at 1150; the stable level stays HIGH and no handler runs. -/
theorem debounce_stability_example :
    ∃ r, runPolls armedSession LeverId.RH
        [pollAt 1000 false, pollAt 1050 true, pollAt 1090 false, pollAt 1150 false] = some r
      ∧ r.leverRH.stableLeverState = true
      ∧ leverTransitions r.out = [] := by
  obtain ⟨r, hr, hs, -, ho⟩ := (debounce_stability armedSession LeverId.RH (by decide)).1
    [pollAt 1000 false, pollAt 1050 true, pollAt 1090 false, pollAt 1150 false]
    (by decide) (by decide)
  exact ⟨r, hr, hs, ho⟩

/-! ## C8: debounce step rule -/

/-- C8, debounce step rule.  One poll of `monitorPressing` on an armed lever
(delay 100 ms, contact level LOW) and one poll of `monitorLicking` on the
armed lick circuit (delay 25 ms, contact level HIGH) act on the debounce
variables as the reference update `debounceUpdate` does, and run the handler
of exactly the transition the reference emits, or none.  The elapsed time of
the reference is the unsigned 32-bit difference, which is `now - last` on a
clock that has not wrapped. -/
theorem debounce_step_rule (s : Session) (now : Nat) (raw programRunning : Bool)
    (lever : LeverId) (cue pump laser : Bool) :
    ((s.lever lever).armed = true →
        ∃ r, monitorPressing s now raw programRunning lever cue pump laser = some r
          ∧ leverDebounce r lever
              = (debounceUpdate 100 false (leverDebounce s lever) raw now).1
          ∧ leverTransitions r.out = leverTransitions s.out
              ++ (debounceUpdate 100 false (leverDebounce s lever) raw now).2.toList)
      ∧ (s.lickCircuit.armed = true →
          lickDebounce (monitorLicking s now raw)
              = (debounceUpdate 25 true (lickDebounce s) raw now).1
            ∧ lickTransitions (monitorLicking s now raw).out = lickTransitions s.out
                ++ (debounceUpdate 25 true (lickDebounce s) raw now).2.toList)
      ∧ (∀ last : Nat, last ≤ now → now < 4294967296 → subU32 now last = now - last) := by
  refine ⟨fun h => ?_, fun h => ?_, fun last h1 h2 => subU32_of_le now last h1 h2⟩
  · obtain ⟨r, hr, -, hd, ho⟩ :=
      monitorPressing_refines s now raw programRunning lever cue pump laser h
    exact ⟨r, hr, hd, ho⟩
  · exact (monitorLicking_refines s now raw h).2

/-- C8 on the armed session at clock value 1000 with a LOW sample: the lever
sample changed, so the timer restarts and nothing is committed; the lick
sample did not change and equals the stable level. -/
theorem debounce_step_rule_example :
    (∃ r, monitorPressing armedSession 1000 false true LeverId.RH true true false = some r
        ∧ leverDebounce r LeverId.RH
            = { previous := false, stable := true, lastDebounceTime := 1000 }
        ∧ leverTransitions r.out = [])
      ∧ lickDebounce (monitorLicking armedSession 1000 false)
          = { previous := false, stable := false, lastDebounceTime := 0 } := by
  obtain ⟨h1, h2, -⟩ := debounce_step_rule armedSession 1000 false true LeverId.RH true true false
  obtain ⟨r, hr, hd, ho⟩ := h1 (by decide)
  refine ⟨⟨r, hr, hd.trans (by decide), ho.trans (by decide)⟩, (h2 (by decide)).1.trans (by decide)⟩

/-! ## C9: cue and pump drivers -/

/-- C9, cue and pump drivers.  After `manageCue` on an armed cue, `running` is
true and the tone is started exactly when
`onTimestamp ≤ t ≤ offTimestamp`, and otherwise `running` is false and the
tone is stopped; the same holds for `managePump` with the infusion window and
the pin level.  Here `t` is the `int32_t` timestamp the function reads, equal
to the clock value up to 2147483647.  On a window with `start ≤ end`, both
`t = start` and `t = end` switch the device on. -/
theorem cue_and_pump_drivers (s : Session) (now : Nat) :
    (s.cs.armed = true →
        ((manageCue s now true).cs.running = true ↔
            s.cs.onTimestamp ≤ toInt32 now ∧ toInt32 now ≤ s.cs.offTimestamp)
          ∧ (manageCue s now true).out = s.out ++
              [if s.cs.onTimestamp ≤ toInt32 now ∧ toInt32 now ≤ s.cs.offTimestamp
                then Event.tone s.cs.pin s.cs.frequency else Event.noTone s.cs.pin]
          ∧ (s.cs.onTimestamp ≤ s.cs.offTimestamp →
              toInt32 now = s.cs.onTimestamp ∨ toInt32 now = s.cs.offTimestamp →
              (manageCue s now true).cs.running = true))
      ∧ (s.pump.armed = true →
          ((managePump s now true).pump.running = true ↔
              s.pump.infusionStartTimestamp ≤ toInt32 now
                ∧ toInt32 now ≤ s.pump.infusionEndTimestamp)
            ∧ (managePump s now true).out = s.out ++
                [Event.digitalWrite s.pump.pin
                  (decide (s.pump.infusionStartTimestamp ≤ toInt32 now
                    ∧ toInt32 now ≤ s.pump.infusionEndTimestamp))]
            ∧ (s.pump.infusionStartTimestamp ≤ s.pump.infusionEndTimestamp →
                toInt32 now = s.pump.infusionStartTimestamp
                  ∨ toInt32 now = s.pump.infusionEndTimestamp →
                (managePump s now true).pump.running = true))
      ∧ (now ≤ 2147483647 → toInt32 now = now) := by
  refine ⟨fun h => ?_, fun h => ?_, fun h => toInt32_of_nat now h⟩
  · obtain ⟨hrun, hout⟩ := manageCue_armed s now h
    refine ⟨hrun, hout, fun hle hb => hrun.mpr ?_⟩
    rcases hb with hb | hb <;> rw [hb]
    · exact ⟨le_refl _, hle⟩
    · exact ⟨hle, le_refl _⟩
  · obtain ⟨hrun, hout⟩ := managePump_armed s now h
    refine ⟨hrun, hout, fun hle hb => hrun.mpr ?_⟩
    rcases hb with hb | hb <;> rw [hb]
    · exact ⟨le_refl _, hle⟩
    · exact ⟨hle, le_refl _⟩

/-- C9 on the session with cue window 1000 to 2600 and infusion window 3100 to
5100: the cue runs at 1000 and at 2600, the pump runs at 5100 and not at
5101. -/
theorem cue_and_pump_drivers_example :
    (manageCue rewardedSession 1000 true).cs.running = true
      ∧ (manageCue rewardedSession 2600 true).cs.running = true
      ∧ (managePump rewardedSession 5100 true).pump.running = true
      ∧ ¬ (managePump rewardedSession 5101 true).pump.running = true := by
  refine ⟨?_, ?_, ?_, ?_⟩
  · exact ((cue_and_pump_drivers rewardedSession 1000).1 (by decide)).1.mpr (by decide)
  · exact ((cue_and_pump_drivers rewardedSession 2600).1 (by decide)).2.2 (by decide)
      (Or.inr (by decide))
  · exact ((cue_and_pump_drivers rewardedSession 5100).2.1 (by decide)).1.mpr (by decide)
  · exact fun h => absurd
      (((cue_and_pump_drivers rewardedSession 5101).2.1 (by decide)).1.mp h) (by decide)

/-! ## C10: laser window membership -/

/-- C10 (amended), laser window membership.  `inStimPeriod t` holds exactly when
`stimStart < t < stimEnd`: the test is strict at both ends. -/
theorem inStimPeriod_open_interval (s : Session) (t : Nat) :
    inStimPeriod s t = true ↔ s.laser.stimStart < t ∧ t < s.laser.stimEnd := by
  simp [inStimPeriod]

/-- C10 as stated, with a closed interval, fails at both endpoints: for the
stimulation window from 1000 to 31000, `inStimPeriod` is false at 1000 and
at 31000. -/
theorem inStimPeriod_excludes_endpoints :
    inStimPeriod (bootSession.setLaser (bootSession.laser.setStimPeriod 1000)) 1000 = false
      ∧ inStimPeriod (bootSession.setLaser (bootSession.laser.setStimPeriod 1000)) 31000 = false
      ∧ (bootSession.setLaser (bootSession.laser.setStimPeriod 1000)).laser.stimStart = 1000
      ∧ (bootSession.setLaser (bootSession.laser.setStimPeriod 1000)).laser.stimEnd = 31000 := by
  decide

/-! ## Unarmed devices -/

/-- `manageCue` on an unarmed cue changes nothing. -/
theorem manageCue_unarmed (s : Session) (now : Nat) (cue : Bool) (h : s.cs.armed = false) :
    manageCue s now cue = s := by
  simp only [manageCue, h, Bool.false_eq_true, if_false, ite_self]

/-- `managePump` on an unarmed pump changes nothing. -/
theorem managePump_unarmed (s : Session) (now : Nat) (pump : Bool)
    (h : s.pump.armed = false) : managePump s now pump = s := by
  simp only [managePump, h, Bool.and_false, Bool.false_eq_true, if_false]

/-- Any number of `manageCue` polls on an unarmed cue changes nothing. -/
theorem foldl_manageCue_unarmed (cue : Bool) :
    ∀ (times : List Nat) (s : Session), s.cs.armed = false →
      List.foldl (fun st t => manageCue st t cue) s times = s := by
  intro times
  induction times with
  | nil => intro s _; rfl
  | cons t rest ih =>
    intro s h
    simp only [List.foldl_cons, manageCue_unarmed s t cue h]
    exact ih s h

/-- Any number of `managePump` polls on an unarmed pump changes nothing. -/
theorem foldl_managePump_unarmed (pump : Bool) :
    ∀ (times : List Nat) (s : Session), s.pump.armed = false →
      List.foldl (fun st t => managePump st t pump) s times = s := by
  intro times
  induction times with
  | nil => intro s _; rfl
  | cons t rest ih =>
    intro s h
    simp only [List.foldl_cons, managePump_unarmed s t pump h]
    exact ih s h

/-- When `deliverReward` returns, it has written no field of an unarmed cue, pump or laser. -/
theorem deliverReward_skips_unarmed (s r : Session) (now : Nat) (cue pump laser : Bool)
    (h : deliverReward s now cue pump laser = some r) :
    (s.cs.armed = false → r.cs = s.cs)
      ∧ (s.pump.armed = false → r.pump = s.pump)
      ∧ (s.laser.armed = false → r.laser = s.laser) := by
  cases hca : s.cs.armed <;> cases hpa : s.pump.armed <;> cases hla : s.laser.armed <;>
    cases cue <;> cases pump <;> cases laser <;>
    simp only [deliverReward, Session.emit_fields, Session.setCs_fields,
      Session.setPump_fields, hca, hpa, hla, Bool.and_self, Bool.and_true, Bool.and_false,
      Bool.false_eq_true, if_false, if_true, Option.map_some', Option.map_none',
      Option.some.injEq] at h <;>
    first
      | exact absurd h (by simp)
      | (subst h
         simp only [Session.emit_fields, Session.setCs_fields, Session.setPump_fields,
           Session.setLaser_fields, Bool.false_eq_true, Bool.true_eq_false, false_implies,
           implies_true, and_self])

/-! ## Reward delivery: windows and device flags -/

/-- Casting a clock value to `int32_t` and back to `uint32_t` gives it back. -/
theorem toUInt32_toInt32 (t : Nat) (h : t < 4294967296) : toUInt32 (toInt32 t) = t := by
  unfold toUInt32 toInt32
  omega

/-- Fields of a cue after `setOnTimestamp`. -/
@[simp] theorem Cue.setOnTimestamp_fields (c : Cue) (t : Int) :
    (c.setOnTimestamp t).pin = c.pin ∧ (c.setOnTimestamp t).armed = c.armed
      ∧ (c.setOnTimestamp t).running = c.running
      ∧ (c.setOnTimestamp t).frequency = c.frequency
      ∧ (c.setOnTimestamp t).duration = c.duration
      ∧ (c.setOnTimestamp t).onTimestamp = t
      ∧ (c.setOnTimestamp t).offTimestamp = c.offTimestamp :=
  ⟨rfl, rfl, rfl, rfl, rfl, rfl, rfl⟩

/-- Fields of a cue after `setOffTimestamp`. -/
@[simp] theorem Cue.setOffTimestamp_fields (c : Cue) (t : Int) :
    (c.setOffTimestamp t).pin = c.pin ∧ (c.setOffTimestamp t).armed = c.armed
      ∧ (c.setOffTimestamp t).running = c.running
      ∧ (c.setOffTimestamp t).frequency = c.frequency
      ∧ (c.setOffTimestamp t).duration = c.duration
      ∧ (c.setOffTimestamp t).onTimestamp = c.onTimestamp
      ∧ (c.setOffTimestamp t).offTimestamp = toInt32 (t + c.duration) :=
  ⟨rfl, rfl, rfl, rfl, rfl, rfl, rfl⟩

/-- Fields of a pump that `setInfusionPeriod` keeps. -/
@[simp] theorem Pump.setInfusionPeriod_fields (p : Pump) (a b : Int) :
    (p.setInfusionPeriod a b).pin = p.pin ∧ (p.setInfusionPeriod a b).armed = p.armed
      ∧ (p.setInfusionPeriod a b).running = p.running
      ∧ (p.setInfusionPeriod a b).infusionDuration = p.infusionDuration :=
  ⟨rfl, rfl, rfl, rfl⟩

/-- With an armed cue, `deliverReward` returns and leaves the cue window starting at the timestamp and ending one cue duration later, in `int32_t`. -/
theorem deliverReward_armed_cue (s : Session) (now : Nat) (pump laser : Bool)
    (hc : s.cs.armed = true) :
    ∃ r, deliverReward s now true pump laser = some r
      ∧ r.cs.onTimestamp = toInt32 now
      ∧ r.cs.offTimestamp = toInt32 (toInt32 now + s.cs.duration) := by
  cases hpa : s.pump.armed <;> cases hla : s.laser.armed <;> cases pump <;> cases laser <;>
    simp only [deliverReward, Session.emit_fields, Session.setCs_fields,
      Session.setPump_fields, hc, hpa, hla, Bool.and_self, Bool.and_true,
      Bool.and_false, Bool.false_eq_true, if_false, if_true, Option.map_some'] <;>
    exact ⟨_, rfl, by simp only [Session.setLaser_fields, Session.setPump_fields,
      Session.setCs_fields, Cue.setOnTimestamp_fields, Cue.setOffTimestamp_fields,
      and_self]⟩

/-- The ACTIVE body of a press that completes the ratio, with an armed cue: the timeout window is advanced as `TimeoutAdvanced` says. -/
theorem countActivePress_reward (s : Session) (now : Nat) (programRunning pump laser b : Bool)
    (hc : s.cs.armed = true) (hcount : s.pressCount = toInt32 (s.fRatio - 1)) :
    ∃ r, countActivePress s now programRunning true pump laser b = some r
      ∧ TimeoutAdvanced s r now programRunning := by
  obtain ⟨r, hr, -, hlick, hts, hte, htl, -, -, -⟩ :=
    deliverReward_frame (s.setPressCount 0) now pump laser
  obtain ⟨r2, hr2, hon, hoff⟩ := deliverReward_armed_cue (s.setPressCount 0) now pump laser
    (by simpa using hc)
  rw [hr] at hr2
  cases hr2
  simp only [Session.setPressCount_fields] at hts hte htl hoff
  cases b <;> cases programRunning <;>
    simp only [countActivePress, hcount, if_true, hr, Option.map_some', Bool.false_eq_true,
      if_false] <;>
    exact ⟨_, rfl, by simp only [TimeoutAdvanced, advanceTimeout, Session.emit_fields,
      Session.setTimeoutInterval_fields, hoff, hts, hte, htl, Bool.false_eq_true, if_false,
      if_true, false_implies, implies_true, and_self, true_and, and_true,
      Bool.true_eq_false]⟩

/-- With a cue pointer, `deliverReward` keeps the armed and running flags of the cue and of the pump. -/
theorem deliverReward_flags (s : Session) (now : Nat) (pump laser : Bool) :
    ∃ r, deliverReward s now true pump laser = some r
      ∧ r.cs.armed = s.cs.armed ∧ r.cs.running = s.cs.running
      ∧ r.pump.armed = s.pump.armed ∧ r.pump.running = s.pump.running := by
  cases hca : s.cs.armed <;> cases hpa : s.pump.armed <;> cases hla : s.laser.armed <;>
    cases pump <;> cases laser <;>
    simp only [deliverReward, Session.emit_fields, Session.setCs_fields,
      Session.setPump_fields, hca, hpa, hla, Bool.and_self, Bool.and_true,
      Bool.and_false, Bool.true_and, Bool.false_eq_true, if_false, if_true,
      Option.map_some'] <;>
    exact ⟨_, rfl, by simp only [Session.setLaser_fields, Session.setPump_fields,
      Session.setCs_fields, Session.emit_fields, Cue.setOnTimestamp_fields,
      Cue.setOffTimestamp_fields, Pump.setInfusionPeriod_fields, hca, hpa, and_self]⟩

/-- The ACTIVE body keeps the armed and running flags of the cue and of the pump. -/
theorem countActivePress_flags (s : Session) (now : Nat) (programRunning pump laser b : Bool) :
    ∃ r, countActivePress s now programRunning true pump laser b = some r
      ∧ r.cs.armed = s.cs.armed ∧ r.cs.running = s.cs.running
      ∧ r.pump.armed = s.pump.armed ∧ r.pump.running = s.pump.running := by
  cases b <;> simp only [countActivePress, Bool.false_eq_true, if_false, if_true]
  all_goals
    split_ifs with h
    · obtain ⟨r, hr, h1, h2, h3, h4⟩ := deliverReward_flags (s.setPressCount 0) now pump laser
      rw [hr]
      refine ⟨_, rfl, ?_⟩
      simp only [advanceTimeout_fields, Session.emit_fields, h1, h2, h3, h4,
        Session.setPressCount_fields, and_self]
    · exact ⟨_, rfl, by simp only [Session.setPressCount_fields, and_self]⟩

/-- The press handler keeps the armed and running flags of the cue and of the pump. -/
theorem definePressActivity_flags (s : Session) (now : Nat) (programRunning : Bool)
    (lever : LeverId) (cue pump laser : Bool) :
    ∃ r, definePressActivity s now programRunning lever cue pump laser = some r
      ∧ r.cs.armed = s.cs.armed ∧ r.cs.running = s.cs.running
      ∧ r.pump.armed = s.pump.armed ∧ r.pump.running = s.pump.running := by
  have key : ∀ b, ∃ r, countActivePress
        (setPressType (s.emit (Event.call Fn.definePressActivity)) lever "ACTIVE")
        now programRunning true pump laser b = some r
      ∧ r.cs.armed = s.cs.armed ∧ r.cs.running = s.cs.running
      ∧ r.pump.armed = s.pump.armed ∧ r.pump.running = s.pump.running := by
    intro b
    obtain ⟨r, hr, h1, h2, h3, h4⟩ := countActivePress_flags
      (setPressType (s.emit (Event.call Fn.definePressActivity)) lever "ACTIVE")
      now programRunning pump laser b
    exact ⟨r, hr, by simpa using h1, by simpa using h2, by simpa using h3, by simpa using h4⟩
  cases cue
  · exact ⟨_, by simp only [definePressActivity]; rfl, by simp⟩
  · simp only [definePressActivity, Bool.true_and]
    split_ifs with h1 h2 h3 h4
    · exact ⟨_, rfl, by simp⟩
    · exact key false
    · exact ⟨_, rfl, by simp⟩
    · exact key true
    · exact ⟨_, rfl, by simp⟩

/-- The release handler keeps the cue and the pump. -/
theorem pressingDataEntry_flags (s : Session) (now : Nat) (lever : LeverId) :
    (pressingDataEntry s now lever).cs = s.cs ∧ (pressingDataEntry s now lever).pump = s.pump := by
  simp only [pressingDataEntry, Session.emit_fields, Session.setLever_fields, and_self]

/-- Every poll returns, and the part of it after the two drivers keeps the armed and running flags the drivers left. -/
theorem monitorPressing_flags (s : Session) (now : Nat) (raw programRunning : Bool)
    (lever : LeverId) (cue pump laser : Bool) :
    ∃ r, monitorPressing s now raw programRunning lever cue pump laser = some r
      ∧ r.cs.armed = (managePump (manageCue s now cue) now pump).cs.armed
      ∧ r.cs.running = (managePump (manageCue s now cue) now pump).cs.running
      ∧ r.pump.armed = (managePump (manageCue s now cue) now pump).pump.armed
      ∧ r.pump.running = (managePump (manageCue s now cue) now pump).pump.running := by
  simp only [monitorPressing]
  generalize managePump (manageCue s now cue) now pump = s0
  cases harmed : (s0.lever lever).armed
  · exact ⟨s0, by simp, rfl, rfl, rfl, rfl⟩
  simp only [if_true]
  have h1 : (if raw ≠ (s0.lever lever).previousLeverState
      then s0.setLeverLastDebounceTime now else s0).cs = s0.cs
      ∧ (if raw ≠ (s0.lever lever).previousLeverState
      then s0.setLeverLastDebounceTime now else s0).pump = s0.pump := by
    split_ifs <;> simp only [Session.setLeverLastDebounceTime_fields, and_self]
  generalize (if raw ≠ (s0.lever lever).previousLeverState
      then s0.setLeverLastDebounceTime now else s0) = s1 at h1 ⊢
  rw [← h1.1, ← h1.2]
  clear h1 harmed s0
  by_cases ht : subU32 now s1.leverLastDebounceTime > leverDebounceDelay
  · by_cases hs : raw ≠ (s1.lever lever).stableLeverState
    · simp only [if_pos ht, if_pos hs]
      cases raw
      · simp only [if_true]
        obtain ⟨r, hr, h1, h2, h3, h4⟩ := definePressActivity_flags
          ((s1.setLever lever ((s1.lever lever).setStableLeverState false)).setLever lever
            (((s1.setLever lever ((s1.lever lever).setStableLeverState false)).lever
              lever).setPressTimestamp (toInt32 now)))
          now programRunning lever cue pump laser
        rw [hr]
        refine ⟨_, rfl, ?_⟩
        simp only [Session.setLever_fields] at h1 h2 h3 h4
        simp only [Option.map_some', Session.setLever_fields, h1, h2, h3, h4, and_self]
      · simp only [Bool.true_eq_false, if_false]
        refine ⟨_, rfl, ?_⟩
        simp only [Option.map_some', Session.setLever_fields, pressingDataEntry_flags,
          and_self]
    · simp only [if_pos ht, if_neg hs]
      exact ⟨_, rfl, by simp only [Session.setLever_fields, and_self]⟩
  · simp only [if_neg ht]
    exact ⟨_, rfl, by simp only [Session.setLever_fields, and_self]⟩

/-- Writing the previous level a lever already has changes nothing. -/
theorem Lever.setPreviousLeverState_self (l : Lever) (raw : Bool)
    (h : l.previousLeverState = raw) : l.setPreviousLeverState raw = l := by
  cases l
  cases h
  rfl

/-- Writing back the lever that was read changes nothing. -/
theorem Session.setLever_self (s : Session) (id : LeverId) : s.setLever id (s.lever id) = s := by
  cases id <;> rfl

/-- A poll that neither restarts the timer nor commits is the two drivers alone; so is a poll of an unarmed lever. -/
theorem monitorPressing_idle (s : Session) (now : Nat) (raw programRunning : Bool)
    (lever : LeverId) (cue pump laser : Bool)
    (h : (s.lever lever).armed = true →
      (s.lever lever).previousLeverState = raw
        ∧ ¬ (subU32 now s.leverLastDebounceTime > leverDebounceDelay
            ∧ raw ≠ (s.lever lever).stableLeverState)) :
    monitorPressing s now raw programRunning lever cue pump laser
      = some (managePump (manageCue s now cue) now pump) := by
  obtain ⟨hl, hd, -⟩ := manage_unchanged s now cue pump
  simp only [monitorPressing]
  generalize managePump (manageCue s now cue) now pump = s0 at hl hd ⊢
  rw [← hl, ← hd] at h
  clear hl hd
  cases harmed : (s0.lever lever).armed
  · simp
  · obtain ⟨hp, hc⟩ := h harmed
    have hnp : ¬ raw ≠ (s0.lever lever).previousLeverState := fun hne => hne hp.symm
    simp only [if_true, if_neg hnp]
    have hfin : s0.setLever lever ((s0.lever lever).setPreviousLeverState raw) = s0 := by
      rw [Lever.setPreviousLeverState_self _ _ hp, Session.setLever_self]
    by_cases ht : subU32 now s0.leverLastDebounceTime > leverDebounceDelay
    · have hs : ¬ raw ≠ (s0.lever lever).stableLeverState := fun hne => hc ⟨ht, hne⟩
      simp only [if_pos ht, if_neg hs, Option.map_some', hfin]
    · simp only [if_neg ht, Option.map_some', hfin]

/-- What the two drivers write: the running flag of an armed cue and of an armed pump, and their drive calls in the trace; no line, no handler entry. -/
theorem drivers_fields (s : Session) (now : Nat) (cue pump : Bool) :
    (managePump (manageCue s now cue) now pump).leverRH = s.leverRH
      ∧ (managePump (manageCue s now cue) now pump).leverLH = s.leverLH
      ∧ (managePump (manageCue s now cue) now pump).laser = s.laser
      ∧ (managePump (manageCue s now cue) now pump).lickCircuit = s.lickCircuit
      ∧ (managePump (manageCue s now cue) now pump).pressCount = s.pressCount
      ∧ (managePump (manageCue s now cue) now pump).timeoutIntervalStart
          = s.timeoutIntervalStart
      ∧ (managePump (manageCue s now cue) now pump).timeoutIntervalEnd = s.timeoutIntervalEnd
      ∧ (managePump (manageCue s now cue) now pump).timeoutIntervalLength
          = s.timeoutIntervalLength
      ∧ (managePump (manageCue s now cue) now pump).leverLastDebounceTime
          = s.leverLastDebounceTime
      ∧ (managePump (manageCue s now cue) now pump).cs
          = (if cue = true ∧ s.cs.armed = true then
              { s.cs with running := decide (s.cs.onTimestamp ≤ toInt32 now
                                              ∧ toInt32 now ≤ s.cs.offTimestamp) }
            else s.cs)
      ∧ (managePump (manageCue s now cue) now pump).pump
          = (if pump = true ∧ s.pump.armed = true then
              { s.pump with running := decide (s.pump.infusionStartTimestamp ≤ toInt32 now
                                              ∧ toInt32 now ≤ s.pump.infusionEndTimestamp) }
            else s.pump)
      ∧ printedLines (managePump (manageCue s now cue) now pump).out = printedLines s.out
      ∧ leverTransitions (managePump (manageCue s now cue) now pump).out
          = leverTransitions s.out
      ∧ callCount Fn.deliverReward (managePump (manageCue s now cue) now pump).out
          = callCount Fn.deliverReward s.out := by
  cases cue <;> cases pump <;> cases hca : s.cs.armed <;> cases hpa : s.pump.armed <;>
    simp only [manageCue, managePump, hca, hpa, Bool.false_eq_true, false_and, and_false,
      and_self, if_false, if_true, true_and, Bool.and_self, Bool.and_false, Bool.and_true,
      Bool.true_and, Bool.false_and] <;>
    (try generalize toInt32 (now : Int) = t) <;>
    split_ifs <;>
    simp_all [printedLines, leverTransitions, callCount, Cue.setRunning, Pump.setRunning,
      List.filterMap_append, List.count_append] <;> omega

/-! ## Single-precision half-cycle length -/

set_option maxRecDepth 100000 in
/-- Up to 500 Hz the single-precision half-cycle length is the integer part of `500 / f`, by evaluation of the 500 cases. -/
theorem halfCycleLength_small (f : Nat) (h1 : f < 501) (h2 : f ≠ 0) :
    halfCycleLength f = some (500 / f) := by
  revert f
  decide

/-- Result of `scaleUp`: `n` doubled `k` times with the exponent lowered by `k`, normal from below unless the fuel ran out, and below 2^24 when at least one doubling was made. -/
theorem F32.scaleUp_spec (fuel n d : Nat) (e : Int) :
    ∃ k, k ≤ fuel ∧ F32.scaleUp fuel n d e = (n * 2 ^ k, e - k)
      ∧ (k < fuel → 8388608 * d ≤ n * 2 ^ k)
      ∧ (0 < k → n * 2 ^ k < 16777216 * d) := by
  induction fuel generalizing n e with
  | zero => exact ⟨0, le_refl _, by simp [F32.scaleUp], fun h => absurd h (by omega),
      fun h => absurd h (by omega)⟩
  | succ fuel ih =>
    by_cases h : n < 8388608 * d
    · obtain ⟨k, hk, heq, h1, h2⟩ := ih (2 * n) (e - 1)
      refine ⟨k + 1, by omega, ?_, fun hlt => ?_, fun _ => ?_⟩
      · simp only [F32.scaleUp, if_pos h, heq, Prod.mk.injEq]
        constructor
        · rw [pow_succ]
          ring
        · push_cast
          ring
      · have := h1 (by omega)
        rw [pow_succ]
        calc 8388608 * d ≤ 2 * n * 2 ^ k := this
          _ = n * (2 ^ k * 2) := by ring
      · rw [pow_succ]
        by_cases hk0 : 0 < k
        · have := h2 hk0
          calc n * (2 ^ k * 2) = 2 * n * 2 ^ k := by ring
            _ < 16777216 * d := this
        · have hk1 : k = 0 := by omega
          subst hk1
          simp only [pow_zero, one_mul]
          omega
    · refine ⟨0, by omega, ?_, fun _ => ?_, fun h0 => absurd h0 (by omega)⟩
      · simp [F32.scaleUp, if_neg h]
      · simp only [pow_zero, mul_one]
        omega

/-- Result of `scaleDown`: `d` doubled `j` times with the exponent raised by `j`, the quotient below 2^24 unless the fuel ran out, and at least 2^23 when at least one doubling was made. -/
theorem F32.scaleDown_spec (fuel n d : Nat) (e : Int) :
    ∃ j, j ≤ fuel ∧ F32.scaleDown fuel n d e = (d * 2 ^ j, e + j)
      ∧ (j < fuel → n < 16777216 * (d * 2 ^ j))
      ∧ (0 < j → 8388608 * (d * 2 ^ j) ≤ n) := by
  induction fuel generalizing d e with
  | zero => exact ⟨0, le_refl _, by simp [F32.scaleDown], fun h => absurd h (by omega),
      fun h => absurd h (by omega)⟩
  | succ fuel ih =>
    by_cases h : 16777216 * d ≤ n
    · obtain ⟨j, hj, heq, h1, h2⟩ := ih (2 * d) (e + 1)
      refine ⟨j + 1, by omega, ?_, fun hlt => ?_, fun _ => ?_⟩
      · simp only [F32.scaleDown, if_pos h, heq, Prod.mk.injEq]
        constructor
        · rw [pow_succ]
          ring
        · push_cast
          ring
      · have := h1 (by omega)
        rw [pow_succ]
        calc n < 16777216 * (2 * d * 2 ^ j) := this
          _ = 16777216 * (d * (2 ^ j * 2)) := by ring
      · rw [pow_succ]
        by_cases hj0 : 0 < j
        · have := h2 hj0
          calc 8388608 * (d * (2 ^ j * 2)) = 8388608 * (2 * d * 2 ^ j) := by ring
            _ ≤ n := this
        · have hj1 : j = 0 := by omega
          subst hj1
          simp only [pow_zero, one_mul]
          omega
    · refine ⟨0, by omega, ?_, fun _ => ?_, fun h0 => absurd h0 (by omega)⟩
      · simp [F32.scaleDown, if_neg h]
      · simp only [pow_zero, mul_one]
        omega

/-- The rounded quotient is within one half of the exact one. -/
theorem roundNearestEven_bounds (n d : Nat) (hd : 0 < d) :
    2 * (roundNearestEven n d * d) ≤ 2 * n + d ∧ 2 * n ≤ 2 * (roundNearestEven n d * d) + d := by
  have hdm := Nat.div_add_mod n d
  have hlt := Nat.mod_lt n hd
  generalize hq : n / d = q at hdm
  generalize hr : n % d = r at hdm hlt
  have hqd : q * d = d * q := Nat.mul_comm _ _
  unfold roundNearestEven
  rw [hq, hr]
  split_ifs with h1 h2
  · constructor <;> omega
  · rw [Nat.add_mul]
    constructor <;> omega
  · rw [Nat.add_mul]
    have hpar : q % 2 = 0 ∨ q % 2 = 1 := by omega
    rcases hpar with hp | hp <;> rw [hp] <;> constructor <;> omega

/-- An integer within one half of a quotient that is at least 2^23 is within relative distance 2^-24 of it. -/
theorem nearest_relative (mant N D : ℚ) (hD : 0 < D)
    (h1 : 2 * (mant * D) ≤ 2 * N + D) (h2 : 2 * N ≤ 2 * (mant * D) + D)
    (hlo : 8388608 * D ≤ N) :
    mant ≤ (1 + 1 / 16777216) * (N / D) ∧ (1 - 1 / 16777216) * (N / D) ≤ mant := by
  have hx : N = N / D * D := by field_simp
  generalize N / D = x at hx
  subst hx
  have hm1 : 2 * mant ≤ 2 * x + 1 := by
    have : (2 * mant) * D ≤ (2 * x + 1) * D := by linarith
    exact le_of_mul_le_mul_right this hD
  have hm2 : 2 * x ≤ 2 * mant + 1 := by
    have : (2 * x) * D ≤ (2 * mant + 1) * D := by linarith
    exact le_of_mul_le_mul_right this hD
  have hx23 : 8388608 ≤ x := by
    have : 8388608 * D ≤ x * D := hlo
    exact le_of_mul_le_mul_right this hD
  constructor <;> linarith

/-- Rounding returns a normal mantissa and a value within relative distance 2^-24 of the exact one. -/
theorem F32.round_spec (n d : Nat) (e : Int) (hd : 0 < d)
    (h1 : 8388608 * d ≤ n * 2 ^ 64) (h2 : n < 16777216 * (d * 2 ^ 64)) :
    8388608 ≤ (F32.round n d e).m ∧ (F32.round n d e).m < 16777216
      ∧ (F32.round n d e).val ≤ (1 + 1 / 16777216) * ((n : ℚ) / d * 2 ^ e)
      ∧ (1 - 1 / 16777216) * ((n : ℚ) / d * 2 ^ e) ≤ (F32.round n d e).val := by
  obtain ⟨k, hk, hup, hu1, hu2⟩ := F32.scaleUp_spec 64 n d e
  obtain ⟨j, hj, hdown, hd1, hd2⟩ := F32.scaleDown_spec 64 (n * 2 ^ k) d (e - k)
  have hDpos : 0 < d * 2 ^ j := Nat.mul_pos hd (by positivity)
  have hlo : 8388608 * (d * 2 ^ j) ≤ n * 2 ^ k := by
    by_cases hj0 : 0 < j
    · exact hd2 hj0
    · have hj1 : j = 0 := by omega
      subst hj1
      simp only [pow_zero, mul_one]
      by_cases hk64 : k < 64
      · exact hu1 hk64
      · have hk1 : k = 64 := by omega
        subst hk1
        exact h1
  have hhi : n * 2 ^ k < 16777216 * (d * 2 ^ j) := by
    by_cases hj64 : j < 64
    · exact hd1 hj64
    · have hj1 : j = 64 := by omega
      subst hj1
      by_cases hk0 : 0 < k
      · have ha := hu2 hk0
        have hb : 16777216 * d ≤ 16777216 * (d * 2 ^ 64) := by
          apply Nat.mul_le_mul_left
          exact Nat.le_mul_of_pos_right d (by positivity)
        omega
      · have hk1 : k = 0 := by omega
        subst hk1
        simpa using h2
  obtain ⟨hr1, hr2⟩ := roundNearestEven_bounds (n * 2 ^ k) (d * 2 ^ j) hDpos
  generalize hN : n * 2 ^ k = N at *
  generalize hD : d * 2 ^ j = D at *
  generalize hmant : roundNearestEven N D = mant at *
  have hm1 : 8388608 ≤ mant := by
    have h : 16777216 * D ≤ (2 * mant + 1) * D := by
      calc 16777216 * D = 2 * (8388608 * D) := by ring
        _ ≤ 2 * N := by omega
        _ ≤ 2 * (mant * D) + D := hr2
        _ = (2 * mant + 1) * D := by ring
    have := Nat.le_of_mul_le_mul_right h hDpos
    omega
  have hm2 : mant ≤ 16777216 := by
    have h : (2 * mant) * D < (33554432 + 1) * D := by
      calc (2 * mant) * D = 2 * (mant * D) := by ring
        _ ≤ 2 * N + D := hr1
        _ < 2 * (16777216 * D) + D := by omega
        _ = (33554432 + 1) * D := by ring
    have := Nat.lt_of_mul_lt_mul_right h
    omega
  have hval : (F32.round n d e).val = (mant : ℚ) * 2 ^ (e - k + j) := by
    simp only [F32.round, hup, hN, hdown, hD, hmant, F32.val]
    split_ifs with h24
    · rw [h24]
      simp only []
      rw [zpow_add_one₀ (by norm_num : (2 : ℚ) ≠ 0)]
      push_cast
      ring
    · rfl
  have hexact : (n : ℚ) / d * 2 ^ e = (N : ℚ) / D * 2 ^ (e - k + j) := by
    rw [← hN, ← hD]
    push_cast
    have h2 : (2 : ℚ) ≠ 0 := by norm_num
    have hdq : (d : ℚ) ≠ 0 := by exact_mod_cast hd.ne'
    rw [zpow_add₀ h2, zpow_sub₀ h2, zpow_natCast, zpow_natCast]
    field_simp
    ring
  have hDq : (0 : ℚ) < D := by exact_mod_cast hDpos
  obtain ⟨hb1, hb2⟩ := nearest_relative (mant : ℚ) N D hDq
    (by exact_mod_cast hr1) (by exact_mod_cast hr2) (by exact_mod_cast hlo)
  have hpow : (0 : ℚ) < 2 ^ (e - k + j) := by positivity
  refine ⟨?_, ?_, ?_, ?_⟩
  · simp only [F32.round, hup, hN, hdown, hD, hmant]
    split_ifs with h24
    · exact le_refl _
    · exact hm1
  · simp only [F32.round, hup, hN, hdown, hD, hmant]
    split_ifs with h24
    · norm_num
    · show mant < 16777216
      omega
  · rw [hval, hexact, ← mul_assoc]
    exact mul_le_mul_of_nonneg_right hb1 hpow.le
  · rw [hval, hexact, ← mul_assoc]
    exact mul_le_mul_of_nonneg_right hb2 hpow.le

/-- The integer part of a normal value below 1 is 0. -/
theorem F32.trunc_of_val_lt_one (x : F32) (hm : 8388608 ≤ x.m) (hv : x.val < 1) :
    F32.trunc x = 0 := by
  unfold F32.val at hv
  unfold F32.trunc
  have hmq : (8388608 : ℚ) ≤ x.m := by exact_mod_cast hm
  by_cases he : 0 ≤ x.e
  · exfalso
    have hp : (1 : ℚ) ≤ 2 ^ x.e := one_le_zpow₀ (by norm_num) he
    nlinarith
  · rw [if_neg he]
    apply Nat.div_eq_of_lt
    have hneg : x.e = -((-x.e).toNat : Int) := by
      rw [Int.toNat_of_nonneg (by omega)]
      omega
    rw [hneg, zpow_neg, zpow_natCast] at hv
    have hpos : (0 : ℚ) < 2 ^ (-x.e).toNat := by positivity
    have h1 : (x.m : ℚ) < 2 ^ (-x.e).toNat := by
      have := (mul_inv_lt_iff₀ hpos).mp hv
      simpa using this
    exact_mod_cast h1

/-- Above 500 Hz the single-precision half-cycle length is below 1 ms, and its integer part is 0. -/
theorem halfCycleLength_large (f : Nat) (h1 : 501 ≤ f) (h2 : f < 4294967296) :
    halfCycleLength f = some 0 := by
  have hf0 : f ≠ 0 := by omega
  simp only [halfCycleLength, if_neg hf0, Option.some.injEq]
  obtain ⟨a1, a2, -, a4⟩ := F32.round_spec f 1 0 (by norm_num) (by omega) (by omega)
  generalize hF : F32.round f 1 0 = F at a1 a2 a4
  have hF' : F32.ofUInt32 f = F := hF
  rw [hF']
  obtain ⟨b1, b2, b3, -⟩ := F32.round_spec 8388608 F.m (-23 - F.e) (by omega) (by omega)
    (by omega)
  generalize hD1 : F32.round 8388608 F.m (-23 - F.e) = D1 at b1 b2 b3
  have hD1' : F32.div F32.one F = D1 := hD1
  rw [hD1']
  obtain ⟨c1, c2, c3, -⟩ := F32.round_spec D1.m 8388608 (D1.e - (-22)) (by norm_num)
    (by omega) (by omega)
  generalize hD2 : F32.round D1.m 8388608 (D1.e - (-22)) = D2 at c1 c2 c3
  have hD2' : F32.div D1 F32.two = D2 := hD2
  rw [hD2']
  obtain ⟨d1, -, d3, -⟩ := F32.round_spec (D2.m * 16384000) 1 (D2.e + (-14)) (by norm_num)
    (by omega) (by omega)
  generalize hM : F32.round (D2.m * 16384000) 1 (D2.e + (-14)) = M at d1 d3
  have hM' : F32.mul D2 F32.thousand = M := hM
  rw [hM']
  apply F32.trunc_of_val_lt_one M d1
  have h2ne : (2 : ℚ) ≠ 0 := by norm_num
  have hFm : (0 : ℚ) < F.m := by
    have : (8388608 : ℚ) ≤ F.m := by exact_mod_cast a1
    linarith
  have hFe : (0 : ℚ) < 2 ^ F.e := by positivity
  have hV : F.val = F.m * 2 ^ F.e := rfl
  have hVpos : 0 < F.val := by
    rw [hV]
    positivity
  -- exact values of the three operations
  have e1 : (8388608 : ℚ) / F.m * 2 ^ (-23 - F.e) * F.val = 1 := by
    rw [hV, zpow_sub₀ h2ne]
    field_simp
    ring
  have e2 : (D1.m : ℚ) / 8388608 * 2 ^ (D1.e - (-22)) = D1.val / 2 := by
    unfold F32.val
    rw [zpow_sub₀ h2ne]
    norm_num
    ring
  have e3 : ((D2.m * 16384000 : Nat) : ℚ) / (1 : Nat) * 2 ^ (D2.e + (-14)) = D2.val * 1000 := by
    unfold F32.val
    rw [zpow_add₀ h2ne]
    push_cast
    norm_num
    ring
  have a4' : (1 - 1 / 16777216) * (f : ℚ) ≤ F.val := by
    have := a4
    simpa using this
  have hfq : (501 : ℚ) ≤ f := by exact_mod_cast h1
  have b3' : D1.val * F.val ≤ 1 + 1 / 16777216 := by
    have hb : D1.val ≤ (1 + 1 / 16777216) * ((8388608 : ℚ) / F.m * 2 ^ (-23 - F.e)) := by
      have := b3
      simpa using this
    calc D1.val * F.val
        ≤ (1 + 1 / 16777216) * ((8388608 : ℚ) / F.m * 2 ^ (-23 - F.e)) * F.val :=
          mul_le_mul_of_nonneg_right hb hVpos.le
      _ = (1 + 1 / 16777216) * ((8388608 : ℚ) / F.m * 2 ^ (-23 - F.e) * F.val) := by ring
      _ = 1 + 1 / 16777216 := by rw [e1, mul_one]
  have c3' : D2.val ≤ (1 + 1 / 16777216) * (D1.val / 2) := by
    have := c3
    simp only [Nat.cast_ofNat] at this
    rw [e2] at this
    exact this
  have d3' : M.val ≤ (1 + 1 / 16777216) * (D2.val * 1000) := by
    have := d3
    rw [e3] at this
    exact this
  by_contra hge
  push_neg at hge
  have hMV : M.val * F.val ≤ (1 + 1 / 16777216) ^ 3 * 500 := by
    calc M.val * F.val
        ≤ (1 + 1 / 16777216) * (D2.val * 1000) * F.val :=
          mul_le_mul_of_nonneg_right d3' hVpos.le
      _ ≤ (1 + 1 / 16777216) * ((1 + 1 / 16777216) * (D1.val / 2) * 1000) * F.val := by
          apply mul_le_mul_of_nonneg_right _ hVpos.le
          apply mul_le_mul_of_nonneg_left _ (by norm_num)
          exact mul_le_mul_of_nonneg_right c3' (by norm_num)
      _ = (1 + 1 / 16777216) ^ 2 * 500 * (D1.val * F.val) := by ring
      _ ≤ (1 + 1 / 16777216) ^ 2 * 500 * (1 + 1 / 16777216) :=
          mul_le_mul_of_nonneg_left b3' (by norm_num)
      _ = (1 + 1 / 16777216) ^ 3 * 500 := by ring
  have hVM : F.val ≤ M.val * F.val := by
    calc F.val = 1 * F.val := (one_mul _).symm
      _ ≤ M.val * F.val := mul_le_mul_of_nonneg_right hge hVpos.le
  have hlow : (1 - 1 / 16777216) * (501 : ℚ) ≤ F.val := by
    calc (1 - 1 / 16777216) * (501 : ℚ) ≤ (1 - 1 / 16777216) * (f : ℚ) :=
          mul_le_mul_of_nonneg_left hfq (by norm_num)
      _ ≤ F.val := a4'
  have hnum : (1 + 1 / 16777216 : ℚ) ^ 3 * 500 < (1 - 1 / 16777216) * 501 := by norm_num
  linarith

/-- The single-precision half-cycle length is the integer part of `500 / f`
for every frequency from 1 up to the largest `uint32_t`. -/
theorem halfCycleLength_value (f : Nat) (h1 : 1 ≤ f) (h2 : f < 4294967296) :
    halfCycleLength f = some (500 / f) := by
  by_cases h : f < 501
  · exact halfCycleLength_small f h (by omega)
  · rw [halfCycleLength_large f (by omega) h2, Nat.div_eq_of_lt (by omega)]

/-- The half-cycle length exists for every frequency other than 0. -/
theorem halfCycleLength_isSome (f : Nat) (h : f ≠ 0) : ∃ len, halfCycleLength f = some len := by
  simp only [halfCycleLength, if_neg h]
  exact ⟨_, rfl⟩

/-! ## Laser ticks -/

/-- Lines printed in a concatenated trace. -/
theorem printedLines_append (a b : List Event) :
    printedLines (a ++ b) = printedLines a ++ printedLines b := by
  simp [printedLines, List.filterMap_append]

/-- Trace of `manageLaser`: one write of the pin, HIGH exactly when the laser is ACTIVE and ON. -/
theorem manageLaser_out (s : Session) :
    (manageLaser s).out = s.out ++ [Event.digitalWrite s.laser.pin
          (decide (s.laser.laserState = STATE.ACTIVE ∧ s.laser.laserAction = ACTION.ON))] := by
  unfold manageLaser
  split_ifs with h
  · simp only [Session.emit_fields, h, and_self, decide_True]
  · simp only [Session.emit_fields, h, decide_False]

/-- The laser driver `manageLaser` prints no line. -/
theorem manageLaser_printed (s : Session) :
    printedLines (manageLaser s).out = printedLines s.out := by
  rw [manageLaser_out, printedLines_append]
  simp [printedLines]

/-- The laser driver `manageLaser` keeps the laser and the session settings. -/
theorem manageLaser_fields (s : Session) :
    (manageLaser s).laser = s.laser
      ∧ (manageLaser s).differenceFromStartTime = s.differenceFromStartTime
      ∧ (manageLaser s).programIsRunning = s.programIsRunning := by
  unfold manageLaser
  split_ifs with h <;> simp only [Session.emit_fields, and_self]

/-- An in-window tick of `stim`, for a frequency other than 0: the tick
returns, the laser is ACTIVE and not logged, nothing is printed, and the
action is ON at 1 Hz, toggled with a new half-cycle when the clock is past
`halfCycleEnd`, and kept otherwise. -/
theorem stim_in_window (s : Session) (t : Nat)
    (hin : (inStimPeriod s t && s.laser.cycleUp) = true) (hf : s.laser.frequency ≠ 0) :
    ∃ r len, stim s t = some r ∧ halfCycleLength s.laser.frequency = some len
      ∧ r.laser =
          (if s.laser.frequency = 1 then
            { s.laser with laserState := STATE.ACTIVE, logged := false,
                           laserAction := ACTION.ON }
          else if t > s.laser.halfCycleEnd then
            { s.laser with laserState := STATE.ACTIVE, logged := false,
                           halfCycleStart := t,
                           halfCycleEnd := (t + len) % 4294967296,
                           laserAction := if s.laser.laserAction = ACTION.ON then ACTION.OFF
                             else ACTION.ON }
          else { s.laser with laserState := STATE.ACTIVE, logged := false })
      ∧ r.differenceFromStartTime = s.differenceFromStartTime
      ∧ r.programIsRunning = s.programIsRunning
      ∧ printedLines r.out = printedLines s.out := by
  obtain ⟨len, hlen⟩ := halfCycleLength_isSome _ hf
  simp only [stim, hin, if_true, Session.setLaser_fields, Laser.setStimState,
    Laser.setStimLogged, Laser.setStimAction, Laser.setStimHalfCyclePeriod, hlen,
    Option.map_some']
  split_ifs with h1 h2 <;>
    exact ⟨_, len, rfl, rfl, by simp only [manageLaser_fields, manageLaser_printed,
      Session.setLaser_fields, and_self]⟩

/-- An out-of-window tick of `stim`: the tick returns, the laser is INACTIVE,
OFF and logged, and the record is printed exactly when it was not logged. -/
theorem stim_outside (s : Session) (t : Nat)
    (hout : (inStimPeriod s t && s.laser.cycleUp) = false) :
    ∃ r, stim s t = some r
      ∧ r.laser = { s.laser with laserState := STATE.INACTIVE, laserAction := ACTION.OFF,
                                 logged := true }
      ∧ r.differenceFromStartTime = s.differenceFromStartTime
      ∧ r.programIsRunning = s.programIsRunning
      ∧ printedLines r.out
          = printedLines s.out ++ (if s.laser.logged = false then [stimLogLine s] else []) := by
  simp only [stim, hout, Bool.false_eq_true, if_false, Session.setLaser_fields,
    Laser.setStimState, Laser.setStimLogged, Laser.setStimAction, logStim]
  cases hl : s.laser.logged
  · simp only [if_true, Option.map_some']
    refine ⟨_, rfl, ?_⟩
    simp only [manageLaser_fields, manageLaser_printed, Session.setLaser_fields,
      Session.emit_fields, Laser.setStimLogged, printedLines_append, true_and]
    simp [printedLines, stimLogLine]
  · simp only [Bool.true_eq_false, if_false, Option.map_some']
    refine ⟨_, rfl, ?_⟩
    simp only [manageLaser_fields, manageLaser_printed, Session.setLaser_fields,
      List.append_nil, and_self]

/-- The fields `stim` never writes: the period, `cycleUp`, the settings and the session clock offset. -/
theorem stim_frame (s r : Session) (t : Nat) (h : stim s t = some r) :
    r.laser.stimStart = s.laser.stimStart ∧ r.laser.stimEnd = s.laser.stimEnd
      ∧ r.laser.cycleUp = s.laser.cycleUp ∧ r.laser.duration = s.laser.duration
      ∧ r.laser.frequency = s.laser.frequency ∧ r.laser.laserMode = s.laser.laserMode
      ∧ r.laser.armed = s.laser.armed ∧ r.laser.pin = s.laser.pin
      ∧ r.differenceFromStartTime = s.differenceFromStartTime
      ∧ r.programIsRunning = s.programIsRunning := by
  cases hin : (inStimPeriod s t && s.laser.cycleUp)
  · obtain ⟨r1, hr1, hl, hd, hp, _⟩ := stim_outside s t hin
    rw [hr1] at h
    cases h
    simp only [hl, hd, hp, and_self]
  · by_cases hf : s.laser.frequency = 0
    · have h1 : s.laser.frequency ≠ 1 := by omega
      simp only [stim, hin, if_true, Session.setLaser_fields, Laser.setStimState,
        Laser.setStimLogged, Laser.setStimAction, Laser.setStimHalfCyclePeriod,
        halfCycleLength, hf, Option.map_none', Nat.zero_ne_one, if_false] at h
      split_ifs at h with h2
      · cases h
      · simp only [Option.map_some', Option.some.injEq] at h
        subst h
        simp only [manageLaser_fields, Session.setLaser_fields, hf, and_self]
    · obtain ⟨r1, len, hr1, _, hl, hd, hp, _⟩ := stim_in_window s t hin hf
      rw [hr1] at h
      cases h
      rw [hl]
      refine ⟨?_, ?_, ?_, ?_, ?_, ?_, ?_, ?_, hd, hp⟩ <;> split_ifs <;> rfl

/-- Every `stim` tick returns when the frequency is not 0. -/
theorem stim_returns (s : Session) (t : Nat) (hf : s.laser.frequency ≠ 0) :
    ∃ r, stim s t = some r := by
  cases hin : (inStimPeriod s t && s.laser.cycleUp)
  · obtain ⟨r1, hr1, _⟩ := stim_outside s t hin
    exact ⟨r1, hr1⟩
  · obtain ⟨r1, _, hr1, _⟩ := stim_in_window s t hin hf
    exact ⟨r1, hr1⟩

/-- The record line depends only on the period and on the session clock offset. -/
theorem stimLogLine_congr (s r : Session) (h1 : r.laser.stimStart = s.laser.stimStart)
    (h2 : r.laser.stimEnd = s.laser.stimEnd)
    (h3 : r.differenceFromStartTime = s.differenceFromStartTime) :
    stimLogLine r = stimLogLine s := by
  simp only [stimLogLine, h1, h2, h3]

/-- The window test depends only on the period and on `cycleUp`. -/
theorem outside_congr (s r : Session) (t : Nat) (h1 : r.laser.stimStart = s.laser.stimStart)
    (h2 : r.laser.stimEnd = s.laser.stimEnd) (h3 : r.laser.cycleUp = s.laser.cycleUp) :
    (inStimPeriod r t && r.laser.cycleUp) = (inStimPeriod s t && s.laser.cycleUp) := by
  simp only [inStimPeriod, h1, h2, h3]

/-- A run of out-of-window ticks from a logged state returns, prints nothing
and leaves the laser INACTIVE, OFF and logged. -/
theorem runStim_outside_logged (ts : List Nat) (s : Session)
    (hl : s.laser.logged = true)
    (hout : ∀ t ∈ ts, (inStimPeriod s t && s.laser.cycleUp) = false) :
    ∃ r, runStim s ts = some r ∧ printedLines r.out = printedLines s.out
      ∧ r.laser.logged = true
      ∧ r.laser.stimStart = s.laser.stimStart ∧ r.laser.stimEnd = s.laser.stimEnd
      ∧ r.laser.cycleUp = s.laser.cycleUp
      ∧ (ts ≠ [] → r.laser.laserState = STATE.INACTIVE ∧ r.laser.laserAction = ACTION.OFF)
      ∧ toggleTimes s ts = if s.laser.laserAction = ACTION.OFF then [] else ts.take 1 := by
  induction ts generalizing s with
  | nil =>
    refine ⟨s, rfl, rfl, hl, rfl, rfl, rfl, fun h => absurd rfl h, ?_⟩
    simp [toggleTimes]
  | cons t rest ih =>
    obtain ⟨r1, hr1, hlas, hd, _, hpr⟩ := stim_outside s t (hout t (List.mem_cons_self _ _))
    have hfr := stim_frame s r1 t hr1
    have hl1 : r1.laser.logged = true := by rw [hlas]
    have ha1 : r1.laser.laserAction = ACTION.OFF := by rw [hlas]
    have hs1 : r1.laser.laserState = STATE.INACTIVE := by rw [hlas]
    have hout1 : ∀ u ∈ rest, (inStimPeriod r1 u && r1.laser.cycleUp) = false := by
      intro u hu
      rw [outside_congr s r1 u hfr.1 hfr.2.1 hfr.2.2.1]
      exact hout u (List.mem_cons_of_mem _ hu)
    obtain ⟨r, hr, hp, hlr, h1, h2, h3, h4, h5⟩ := ih r1 hl1 hout1
    refine ⟨r, ?_, ?_, hlr, h1.trans hfr.1, h2.trans hfr.2.1, h3.trans hfr.2.2.1, ?_, ?_⟩
    · simp only [runStim, hr1, Option.some_bind, hr]
    · rw [hp, hpr, hl]
      simp
    · intro _
      cases rest with
      | nil =>
        simp only [runStim, Option.some.injEq] at hr
        subst hr
        exact ⟨hs1, ha1⟩
      | cons u us => exact h4 (List.cons_ne_nil _ _)
    · simp only [toggleTimes, hr1, h5, ha1, if_true, List.append_nil, List.take_succ_cons,
        List.take_zero]
      by_cases hoff : s.laser.laserAction = ACTION.OFF
      · simp [hoff]
      · have : ACTION.OFF ≠ s.laser.laserAction := fun h => hoff h.symm
        simp [hoff, this]

/-- A second `stim` tick at the same clock value leaves the laser as the
first tick left it, when the frequency is not 0 and the half-cycle end does
not wrap. -/
theorem stim_idempotent (s : Session) (t : Nat) (hf : s.laser.frequency ≠ 0)
    (hhalf : ∀ len, halfCycleLength s.laser.frequency = some len → t + len < 4294967296) :
    ∃ r1 r2, stim s t = some r1 ∧ stim r1 t = some r2 ∧ r2.laser = r1.laser := by
  cases hin : (inStimPeriod s t && s.laser.cycleUp)
  · obtain ⟨r1, hr1, hl1, _⟩ := stim_outside s t hin
    have hfr := stim_frame s r1 t hr1
    have hin1 : (inStimPeriod r1 t && r1.laser.cycleUp) = false := by
      rw [outside_congr s r1 t hfr.1 hfr.2.1 hfr.2.2.1]
      exact hin
    obtain ⟨r2, hr2, hl2, _⟩ := stim_outside r1 t hin1
    refine ⟨r1, r2, hr1, hr2, ?_⟩
    rw [hl2, hl1]
  · obtain ⟨r1, len, hr1, hlen, hl1, _⟩ := stim_in_window s t hin hf
    have hfr := stim_frame s r1 t hr1
    have hin1 : (inStimPeriod r1 t && r1.laser.cycleUp) = true := by
      rw [outside_congr s r1 t hfr.1 hfr.2.1 hfr.2.2.1]
      exact hin
    have hf1 : r1.laser.frequency ≠ 0 := by
      rw [hfr.2.2.2.2.1]
      exact hf
    obtain ⟨r2, len2, hr2, _, hl2, _⟩ := stim_in_window r1 t hin1 hf1
    refine ⟨r1, r2, hr1, hr2, ?_⟩
    have hlt := hhalf len hlen
    rw [hl2, hfr.2.2.2.2.1]
    by_cases h1 : s.laser.frequency = 1
    · simp only [h1, if_true] at hl1 ⊢
      rw [hl1]
    · by_cases h2 : t > s.laser.halfCycleEnd
      · simp only [h1, h2, if_true, if_false] at hl1
        have hnot : ¬ t > r1.laser.halfCycleEnd := by
          rw [hl1]
          show ¬ t > (t + len) % 4294967296
          rw [Nat.mod_eq_of_lt hlt]
          omega
        simp only [h1, hnot, if_false]
        rw [hl1]
      · simp only [h1, h2, if_false] at hl1
        have hnot : ¬ t > r1.laser.halfCycleEnd := by
          rw [hl1]
          exact h2
        simp only [h1, hnot, if_false]
        rw [hl1]

/-- Running `stim` over a concatenation of tick lists. -/
theorem runStim_append (a b : List Nat) (s : Session) :
    runStim s (a ++ b) = (runStim s a).bind fun r => runStim r b := by
  induction a generalizing s with
  | nil => rfl
  | cons t rest ih =>
    simp only [List.cons_append, runStim]
    cases stim s t with
    | none => rfl
    | some s1 => exact ih s1

/-- Toggle times over a concatenation of tick lists. -/
theorem toggleTimes_append (a b : List Nat) (s r : Session) (h : runStim s a = some r) :
    toggleTimes s (a ++ b) = toggleTimes s a ++ toggleTimes r b := by
  induction a generalizing s with
  | nil =>
    simp only [runStim, Option.some.injEq] at h
    subst h
    rfl
  | cons t rest ih =>
    simp only [List.cons_append, runStim, toggleTimes] at h ⊢
    cases hs : stim s t with
    | none =>
      rw [hs] at h
      cases h
    | some s1 =>
      rw [hs] at h
      simp only [Option.some_bind] at h
      have h0 := ih s1 h
      simp only [List.append_assoc]
      exact congrArg _ h0

/-- An in-window tick of `stim` at 5 Hz: the half-cycle length is 100, and the
action is toggled with a new half-cycle exactly when the clock is past
`halfCycleEnd`. -/
theorem stim_five_hertz (r : Session) (t : Nat) (hf : r.laser.frequency = 5)
    (h1 : r.laser.stimStart < t) (h2 : t < r.laser.stimEnd) (hc : r.laser.cycleUp = true)
    (hw : t + 100 < 4294967296) :
    ∃ q, stim r t = some q
      ∧ q.laser.laserState = STATE.ACTIVE ∧ q.laser.logged = false
      ∧ (t > r.laser.halfCycleEnd →
          q.laser.halfCycleStart = t ∧ q.laser.halfCycleEnd = t + 100
            ∧ q.laser.laserAction
                = if r.laser.laserAction = ACTION.ON then ACTION.OFF else ACTION.ON)
      ∧ (¬ t > r.laser.halfCycleEnd →
          q.laser.halfCycleStart = r.laser.halfCycleStart
            ∧ q.laser.halfCycleEnd = r.laser.halfCycleEnd
            ∧ q.laser.laserAction = r.laser.laserAction)
      ∧ printedLines q.out = printedLines r.out := by
  have hin : (inStimPeriod r t && r.laser.cycleUp) = true := by
    simp [inStimPeriod, h1, h2, hc]
  have hf0 : r.laser.frequency ≠ 0 := by omega
  have hf1 : ¬ r.laser.frequency = 1 := by omega
  obtain ⟨q, len, hq, hlen, hl, -, -, hp⟩ := stim_in_window r t hin hf0
  rw [hf, halfCycleLength_small 5 (by decide) (by decide)] at hlen
  have hlen100 : len = 100 := by
    simp only [Option.some.injEq] at hlen
    omega
  subst hlen100
  rw [if_neg hf1] at hl
  refine ⟨q, hq, ?_, ?_, fun ht => ?_, fun ht => ?_, hp⟩
  · rw [hl]
    split_ifs <;> rfl
  · rw [hl]
    split_ifs <;> rfl
  · rw [hl, if_pos ht]
    exact ⟨rfl, Nat.mod_eq_of_lt hw, rfl⟩
  · rw [hl, if_neg ht]
    exact ⟨rfl, rfl, rfl⟩

/-- The image of `range (n + 1)` is the image of `range n` followed by the image of `n`. -/
theorem range_map_succ (f : Nat → Nat) (n : Nat) :
    (List.range (n + 1)).map f = (List.range n).map f ++ [f n] := by
  rw [List.range_succ, List.map_append]
  rfl

/-- State of the 5 Hz oscillation after the ticks `a, a + 1, ..., a + j + 1`,
for `j ≤ 998`: `j / 101 + 1` toggles have occurred, at `a + 1 + 101 * i`;
the current half-cycle started at the last one and is 100 long; nothing has
been printed. -/
theorem oscillation_invariant (s : Session) (a : Nat)
    (hf : s.laser.frequency = 5) (hs : s.laser.stimStart = a)
    (he : s.laser.stimEnd = a + 1000) (hc : s.laser.cycleUp = true)
    (hl : s.laser.logged = true) (hact : s.laser.laserAction = ACTION.OFF)
    (hh : s.laser.halfCycleEnd ≤ a) (hw : a + 1100 < 4294967296) (j : Nat) (hj : j ≤ 998) :
    ∃ r, runStim s (List.range' a (j + 2)) = some r
      ∧ r.laser.halfCycleStart = a + 1 + 101 * (j / 101)
      ∧ r.laser.halfCycleEnd = a + 101 + 101 * (j / 101)
      ∧ r.laser.laserAction = (if (j / 101) % 2 = 0 then ACTION.ON else ACTION.OFF)
      ∧ r.laser.logged = false ∧ r.laser.laserState = STATE.ACTIVE
      ∧ r.laser.frequency = 5 ∧ r.laser.stimStart = a ∧ r.laser.stimEnd = a + 1000
      ∧ r.laser.cycleUp = true
      ∧ r.differenceFromStartTime = s.differenceFromStartTime
      ∧ printedLines r.out = printedLines s.out
      ∧ toggleTimes s (List.range' a (j + 2))
          = (List.range (j / 101 + 1)).map (fun i => a + 1 + 101 * i) := by
  induction j with
  | zero =>
    have hout : (inStimPeriod s a && s.laser.cycleUp) = false := by
      simp [inStimPeriod, hs]
    obtain ⟨r0, hr0, hl0, hd0, -, hp0⟩ := stim_outside s a hout
    have hfr0 := stim_frame s r0 a hr0
    obtain ⟨q, hq, hst, hlog, hyes, -, hp⟩ := stim_five_hertz r0 (a + 1)
      (hfr0.2.2.2.2.1.trans hf) (by rw [hfr0.1, hs]; omega) (by rw [hfr0.2.1, he]; omega)
      (hfr0.2.2.1.trans hc) (by omega)
    have hfrq := stim_frame r0 q (a + 1) hq
    have hhe0 : r0.laser.halfCycleEnd = s.laser.halfCycleEnd := by rw [hl0]
    have ha0 : r0.laser.laserAction = ACTION.OFF := by rw [hl0]
    obtain ⟨y1, y2, y3⟩ := hyes (by rw [hhe0]; omega)
    have hrun : runStim s (List.range' a 2) = some q := by
      show runStim s [a, a + 1] = some q
      simp only [runStim, hr0, Option.some_bind, hq]
    refine ⟨q, hrun, ?_, ?_, ?_, hlog, hst, ?_, ?_, ?_, ?_, ?_, ?_, ?_⟩
    · simpa using y1
    · rw [y2]
    · rw [y3, ha0]
      rfl
    · exact hfrq.2.2.2.2.1.trans (hfr0.2.2.2.2.1.trans hf)
    · exact hfrq.1.trans (hfr0.1.trans hs)
    · exact hfrq.2.1.trans (hfr0.2.1.trans he)
    · exact hfrq.2.2.1.trans (hfr0.2.2.1.trans hc)
    · exact hfrq.2.2.2.2.2.2.2.2.1.trans hd0
    · rw [hp, hp0, hl]
      simp
    · show toggleTimes s [a, a + 1] = _
      have hne : q.laser.laserAction ≠ r0.laser.laserAction := by
        rw [y3, ha0]
        decide
      have heq : ¬ r0.laser.laserAction ≠ s.laser.laserAction := by
        rw [ha0, hact]
        exact fun h => h rfl
      simp only [toggleTimes, hr0, hq, if_pos hne, if_neg heq]
      rfl
  | succ j ih =>
    obtain ⟨r, hr, i1, i2, i3, i4, i5, i6, i7, i8, i9, i10, i11, i12⟩ := ih (by omega)
    obtain ⟨q, hq, hst, hlog, hyes, hno, hp⟩ := stim_five_hertz r (a + (j + 2)) i6
      (by rw [i7]; omega) (by rw [i8]; omega) i9 (by omega)
    have hfrq := stim_frame r q (a + (j + 2)) hq
    have hlist : List.range' a (j + 1 + 2) = List.range' a (j + 2) ++ [a + (j + 2)] := by
      rw [show j + 1 + 2 = (j + 2) + 1 from rfl, List.range'_concat]
      simp
    have hrun : runStim s (List.range' a (j + 1 + 2)) = some q := by
      rw [hlist, runStim_append, hr]
      simp only [Option.some_bind, runStim, hq]
    have htog : toggleTimes s (List.range' a (j + 1 + 2))
        = toggleTimes s (List.range' a (j + 2))
          ++ (if q.laser.laserAction ≠ r.laser.laserAction then [a + (j + 2)] else []) := by
      rw [hlist, toggleTimes_append _ _ s r hr]
      simp only [toggleTimes, hq, List.append_nil]
    have hq101 : 101 * (j / 101) ≤ j ∧ j < 101 * (j / 101) + 101 := by omega
    by_cases ht : a + (j + 2) > r.laser.halfCycleEnd
    · obtain ⟨y1, y2, y3⟩ := hyes ht
      rw [i2] at ht
      have hdiv : (j + 1) / 101 = j / 101 + 1 := by omega
      have hne : q.laser.laserAction ≠ r.laser.laserAction := by
        rw [y3]
        cases r.laser.laserAction <;> decide
      refine ⟨q, hrun, ?_, ?_, ?_, hlog, hst, hfrq.2.2.2.2.1.trans i6, hfrq.1.trans i7,
        hfrq.2.1.trans i8, hfrq.2.2.1.trans i9, hfrq.2.2.2.2.2.2.2.2.1.trans i10,
        hp.trans i11, ?_⟩
      · rw [y1, hdiv]
        omega
      · rw [y2, hdiv]
        omega
      · rw [y3, i3, hdiv]
        by_cases hpar : (j / 101) % 2 = 0
        · have : ¬ (j / 101 + 1) % 2 = 0 := by omega
          rw [if_pos hpar, if_neg this]
          rfl
        · have : (j / 101 + 1) % 2 = 0 := by omega
          rw [if_neg hpar, if_pos this]
          rfl
      · rw [htog, if_pos hne, i12, hdiv, range_map_succ _ (j / 101 + 1)]
        congr 2
        omega
    · obtain ⟨y1, y2, y3⟩ := hno ht
      rw [i2] at ht
      have hdiv : (j + 1) / 101 = j / 101 := by omega
      have hne : ¬ q.laser.laserAction ≠ r.laser.laserAction := fun h => h y3
      refine ⟨q, hrun, ?_, ?_, ?_, hlog, hst, hfrq.2.2.2.2.1.trans i6, hfrq.1.trans i7,
        hfrq.2.1.trans i8, hfrq.2.2.1.trans i9, hfrq.2.2.2.2.2.2.2.2.1.trans i10,
        hp.trans i11, ?_⟩
      · rw [y1, hdiv, i1]
      · rw [y2, hdiv, i2]
      · rw [y3, hdiv, i3]
      · rw [htog, if_neg hne, i12, hdiv, List.append_nil]

/-- The whole 5 Hz scenario: ticks `a, a + 1, ..., a + 1000 + k`.  Ten
toggles at `a + 1 + 101 * i`; after every tick `a + j + 1` with `j ≤ 998`
the half-cycle is 100 long and nothing is printed; the tick `a + 1000`
prints the one record. -/
theorem oscillation_run (s : Session) (a k : Nat)
    (hf : s.laser.frequency = 5) (hs : s.laser.stimStart = a)
    (he : s.laser.stimEnd = a + 1000) (hc : s.laser.cycleUp = true)
    (hl : s.laser.logged = true) (hact : s.laser.laserAction = ACTION.OFF)
    (hh : s.laser.halfCycleEnd ≤ a) (hw : a + 1100 < 4294967296) :
    toggleTimes s (List.range' a (1001 + k)) = (List.range 10).map (fun i => a + 1 + 101 * i)
      ∧ (∀ j, j ≤ 998 → ∃ r, runStim s (List.range' a (j + 2)) = some r
          ∧ r.laser.halfCycleStart = a + 1 + 101 * (j / 101)
          ∧ r.laser.halfCycleEnd = r.laser.halfCycleStart + 100
          ∧ printedLines r.out = printedLines s.out)
      ∧ ∃ r, runStim s (List.range' a (1001 + k)) = some r
          ∧ printedLines r.out = printedLines s.out ++ [stimLogLine s]
          ∧ r.laser.logged = true ∧ r.laser.laserState = STATE.INACTIVE
          ∧ r.laser.laserAction = ACTION.OFF := by
  refine ⟨?_, fun j hj => ?_, ?_⟩
  case refine_2 =>
    obtain ⟨r, hr, i1, i2, -, -, -, -, -, -, -, -, i11, -⟩ :=
      oscillation_invariant s a hf hs he hc hl hact hh hw j hj
    exact ⟨r, hr, i1, by rw [i2, i1]; omega, i11⟩
  all_goals
    obtain ⟨r, hr, -, -, i3, i4, -, -, i7, i8, i9, i10, i11, i12⟩ :=
      oscillation_invariant s a hf hs he hc hl hact hh hw 998 (by omega)
    have ha : r.laser.laserAction = ACTION.OFF := by
      rw [i3]
      rfl
    have hout : (inStimPeriod r (a + 1000) && r.laser.cycleUp) = false := by
      simp [inStimPeriod, i8]
    obtain ⟨q, hq, hlq, hdq, -, hpq⟩ := stim_outside r (a + 1000) hout
    have hfrq := stim_frame r q (a + 1000) hq
    have hlogq : q.laser.logged = true := by rw [hlq]
    have haq : q.laser.laserAction = ACTION.OFF := by rw [hlq]
    have hsq : q.laser.laserState = STATE.INACTIVE := by rw [hlq]
    have houtq : ∀ t ∈ List.range' (a + 1001) k,
        (inStimPeriod q t && q.laser.cycleUp) = false := by
      intro t ht
      have hge : a + 1001 ≤ t := (List.mem_range'_1.mp ht).1
      have hnot : ¬ t < a + 1000 := by omega
      simp [inStimPeriod, hfrq.2.1, i8, hnot]
    obtain ⟨z, hz, hpz, hlz, -, -, -, hstz, htz⟩ :=
      runStim_outside_logged (List.range' (a + 1001) k) q hlogq houtq
    have hlist : List.range' a (1001 + k)
        = List.range' a 1000 ++ ([a + 1000] ++ List.range' (a + 1001) k) := by
      have h1 : List.range' a (1001 + k) = List.range' a 1000 ++ List.range' (a + 1000) (k + 1) := by
        rw [List.range'_append_1]
        congr 1
        omega
      rw [h1]
      rfl
    have hrun1 : runStim s (List.range' a 1000 ++ [a + 1000]) = some q := by
      rw [runStim_append, hr]
      simp only [Option.some_bind, runStim, hq]
    have hrun : runStim s (List.range' a (1001 + k)) = some z := by
      rw [hlist, ← List.append_assoc, runStim_append, hrun1]
      exact hz
  · rw [hlist, ← List.append_assoc, toggleTimes_append _ _ s q hrun1,
      toggleTimes_append _ _ s r hr, i12, htz, if_pos haq, List.append_nil]
    have hne : ¬ q.laser.laserAction ≠ r.laser.laserAction := by
      rw [haq, ha]
      exact fun h => h rfl
    simp only [toggleTimes, hq, if_neg hne, List.append_nil]
  · refine ⟨z, hrun, ?_, hlz, ?_, ?_⟩
    · rw [hpz, hpq, i4, stimLogLine_congr s r (i7.trans hs.symm) (i8.trans he.symm) i10, i11]
      simp
    · cases hk : k with
      | zero =>
        rw [hk] at hz
        simp only [List.range'_zero, runStim, Option.some.injEq] at hz
        rw [← hz]
        exact hsq
      | succ n =>
        exact (hstz (by rw [hk]; simp)).1
    · cases hk : k with
      | zero =>
        rw [hk] at hz
        simp only [List.range'_zero, runStim, Option.some.injEq] at hz
        rw [← hz]
        exact haq
      | succ n =>
        exact (hstz (by rw [hk]; simp)).2

/-! ## Levers polled in turn: lemmas -/

/-- Every poll returns and keeps the debounce variables of the levers it does
not name. -/
theorem monitorPressing_others (s : Session) (now : Nat) (raw programRunning : Bool)
    (lever : LeverId) (cue pump laser : Bool) :
    ∃ r, monitorPressing s now raw programRunning lever cue pump laser = some r
      ∧ ∀ id, id ≠ lever → (r.lever id).armed = (s.lever id).armed
          ∧ (r.lever id).previousLeverState = (s.lever id).previousLeverState
          ∧ (r.lever id).stableLeverState = (s.lever id).stableLeverState := by
  obtain ⟨hl, -, -⟩ := manage_unchanged s now cue pump
  simp only [monitorPressing]
  generalize managePump (manageCue s now cue) now pump = s0 at hl ⊢
  simp only [← hl]
  clear hl s
  cases harmed : (s0.lever lever).armed
  · exact ⟨s0, by simp, fun id _ => ⟨rfl, rfl, rfl⟩⟩
  simp only [if_true]
  have h1 : ∀ id, (if raw ≠ (s0.lever lever).previousLeverState
      then s0.setLeverLastDebounceTime now else s0).lever id = s0.lever id := by
    intro id
    split_ifs <;> simp only [Session.setLeverLastDebounceTime_fields]
  generalize (if raw ≠ (s0.lever lever).previousLeverState
      then s0.setLeverLastDebounceTime now else s0) = s1 at h1 ⊢
  simp only [← h1]
  clear h1 harmed s0
  by_cases ht : subU32 now s1.leverLastDebounceTime > leverDebounceDelay
  · by_cases hs : raw ≠ (s1.lever lever).stableLeverState
    · simp only [if_pos ht, if_pos hs]
      cases raw
      · simp only [if_true]
        obtain ⟨r, hr, hlev, -, -⟩ := definePressActivity_debounce
          ((s1.setLever lever ((s1.lever lever).setStableLeverState false)).setLever lever
            (((s1.setLever lever ((s1.lever lever).setStableLeverState false)).lever
              lever).setPressTimestamp (toInt32 now)))
          now programRunning lever cue pump laser
        rw [hr]
        refine ⟨_, rfl, fun id hid => ?_⟩
        rw [Session.lever_setLever_of_ne _ _ _ _ hid]
        have h := hlev id
        simp only [Session.lever_setLever_of_ne _ _ _ _ hid] at h
        exact h
      · simp only [Bool.true_eq_false, if_false]
        obtain ⟨hlev, -, -⟩ := pressingDataEntry_debounce
          ((s1.setLever lever ((s1.lever lever).setStableLeverState true)).setLever lever
            (((s1.setLever lever ((s1.lever lever).setStableLeverState true)).lever
              lever).setReleaseTimestamp (toInt32 now)))
          now lever
        refine ⟨_, rfl, fun id hid => ?_⟩
        rw [Session.lever_setLever_of_ne _ _ _ _ hid]
        have h := hlev id
        simp only [Session.lever_setLever_of_ne _ _ _ _ hid] at h
        exact h
    · simp only [if_pos ht, if_neg hs]
      refine ⟨_, rfl, fun id hid => ?_⟩
      rw [Session.lever_setLever_of_ne _ _ _ _ hid]
      exact ⟨rfl, rfl, rfl⟩
  · simp only [if_neg ht]
    refine ⟨_, rfl, fun id hid => ?_⟩
    rw [Session.lever_setLever_of_ne _ _ _ _ hid]
    exact ⟨rfl, rfl, rfl⟩

/-- Unfolding of `runLeverPolls` and `leverStableChanges` at a poll that
returns. -/
theorem runLeverPolls_cons (s r : Session) (q : LeverId × LeverPoll)
    (rest : List (LeverId × LeverPoll))
    (h : monitorPressing s q.2.now q.2.raw q.2.programRunning q.1 q.2.cue q.2.pump q.2.laser
      = some r) :
    runLeverPolls s (q :: rest) = runLeverPolls r rest
      ∧ ∀ id, leverStableChanges s id (q :: rest)
          = (if (r.lever id).stableLeverState ≠ (s.lever id).stableLeverState then 1 else 0)
            + leverStableChanges r id rest := by
  simp only [runLeverPolls, leverStableChanges, h, Option.some_bind, implies_true, and_self]

/-- While every poll samples the level that is both the previous sample and
the stable level of the armed lever it names, the polls are the two output
drivers alone: they return, and the levers, the timer and the handled
transitions stay as they were. -/
theorem runLeverPolls_at_rest :
    ∀ (polls : List (LeverId × LeverPoll)) (s : Session),
      (∀ q ∈ polls, (s.lever q.1).armed = true →
        q.2.raw = (s.lever q.1).previousLeverState
          ∧ q.2.raw = (s.lever q.1).stableLeverState) →
      ∃ r, runLeverPolls s polls = some r
        ∧ (∀ id, r.lever id = s.lever id)
        ∧ r.leverLastDebounceTime = s.leverLastDebounceTime
        ∧ leverTransitions r.out = leverTransitions s.out
        ∧ ∀ id, leverStableChanges s id polls = 0 := by
  intro polls
  induction polls with
  | nil =>
    intro s _
    exact ⟨s, rfl, fun _ => rfl, rfl, rfl, fun _ => rfl⟩
  | cons q rest ih =>
    intro s h
    have hq := h q (List.mem_cons_self _ _)
    have hidle := monitorPressing_idle s q.2.now q.2.raw q.2.programRunning q.1 q.2.cue
      q.2.pump q.2.laser (fun ha => ⟨(hq ha).1.symm, fun hc => hc.2 (hq ha).2⟩)
    obtain ⟨hl, hd, ho⟩ := manage_unchanged s q.2.now q.2.cue q.2.pump
    generalize managePump (manageCue s q.2.now q.2.cue) q.2.now q.2.pump = r at hidle hl hd ho
    obtain ⟨hrun, hcount⟩ := runLeverPolls_cons s r q rest hidle
    obtain ⟨r2, hr2, hl2, hd2, ho2, hc2⟩ := ih r (fun q2 hq2 ha => by
      rw [hl] at ha ⊢
      exact h q2 (List.mem_cons_of_mem _ hq2) ha)
    refine ⟨r2, hrun.trans hr2, fun id => (hl2 id).trans (hl id), hd2.trans hd, ho2.trans ho,
      fun id => ?_⟩
    rw [hcount id, hc2 id, hl id]
    simp

/-- A level held after a flip, with the other lever polled at rest in
between, is committed by the first poll of the flipped lever that comes more
than the debounce delay after the flip, and no other poll commits
anything. -/
theorem runLeverPolls_held (lever : LeverId) (level : Bool) (t0 : Nat) :
    ∀ (rest : List (LeverId × LeverPoll)) (s : Session),
      (s.lever lever).armed = true →
      (s.lever lever).previousLeverState = level →
      (s.lever lever).stableLeverState ≠ level →
      s.leverLastDebounceTime = t0 →
      (∀ q ∈ rest, q.1 = lever → q.2.raw = level ∧ t0 ≤ q.2.now ∧ q.2.now < 4294967296) →
      (∀ q ∈ rest, q.1 ≠ lever → (s.lever q.1).armed = true →
        q.2.raw = (s.lever q.1).previousLeverState
          ∧ q.2.raw = (s.lever q.1).stableLeverState) →
      (∃ q ∈ rest, q.1 = lever ∧ q.2.now > t0 + leverDebounceDelay) →
      ∃ r, runLeverPolls s rest = some r
        ∧ (r.lever lever).stableLeverState = level
        ∧ leverStableChanges s lever rest = 1
        ∧ (∀ id, id ≠ lever → leverStableChanges s id rest = 0)
        ∧ leverTransitions r.out = leverTransitions s.out
            ++ [if level = false then Transition.pressed else Transition.released] := by
  intro rest
  induction rest with
  | nil =>
    intro s _ _ _ _ _ _ hex
    obtain ⟨q, hq, -⟩ := hex
    exact absurd hq (List.not_mem_nil q)
  | cons q rest ih =>
    intro s harmed hprev hstab hlast hheld hothers hex
    have hheld2 : ∀ q2 ∈ rest, q2.1 = lever →
        q2.2.raw = level ∧ t0 ≤ q2.2.now ∧ q2.2.now < 4294967296 :=
      fun q2 hq2 => hheld q2 (List.mem_cons_of_mem _ hq2)
    obtain ⟨lv, p⟩ := q
    by_cases hlv : lv = lever
    · subst hlv
      have hp := hheld (lv, p) (List.mem_cons_self _ _) rfl
      dsimp only at hp
      have hnoflip : ¬ (p.raw ≠ (s.lever lv).previousLeverState) := by
        rw [hprev, hp.1]
        exact not_not.mpr rfl
      have hsub : subU32 p.now s.leverLastDebounceTime = p.now - t0 := by
        rw [hlast]
        exact subU32_of_le _ _ hp.2.1 hp.2.2
      obtain ⟨r0, hr0, hoth⟩ := monitorPressing_others s p.now p.raw p.programRunning lv
        p.cue p.pump p.laser
      by_cases hlate : p.now > t0 + leverDebounceDelay
      · have hc : subU32 p.now (if p.raw ≠ (s.lever lv).previousLeverState then p.now
                else s.leverLastDebounceTime) > leverDebounceDelay
              ∧ p.raw ≠ (s.lever lv).stableLeverState := by
          rw [if_neg hnoflip, hsub, hp.1]
          exact ⟨by omega, fun h => hstab h.symm⟩
        obtain ⟨r, hr, ha, hpr, hst, -, hout⟩ := monitorPressing_commit s p lv harmed hc
        rw [hr0] at hr
        cases hr
        obtain ⟨hrun, hcount⟩ := runLeverPolls_cons s r0 (lv, p) rest hr0
        rw [hp.1] at hpr hst hout
        obtain ⟨r2, hr2, hl2, -, ho2, hc2⟩ := runLeverPolls_at_rest rest r0 (fun q2 hq2 ha2 => by
          by_cases h2 : q2.1 = lv
          · rw [h2, hpr, hst]
            exact ⟨(hheld2 q2 hq2 h2).1, (hheld2 q2 hq2 h2).1⟩
          · rw [(hoth q2.1 h2).1] at ha2
            rw [(hoth q2.1 h2).2.1, (hoth q2.1 h2).2.2]
            exact hothers q2 (List.mem_cons_of_mem _ hq2) h2 ha2)
        refine ⟨r2, hrun.trans hr2, by rw [hl2 lv, hst], ?_, fun id hid => ?_,
          by rw [ho2, hout]⟩
        · rw [hcount lv, hc2 lv, hst, if_pos (fun h => hstab h.symm)]
        · rw [hcount id, hc2 id, (hoth id hid).2.2]
          simp
      · have hc : ¬ (subU32 p.now (if p.raw ≠ (s.lever lv).previousLeverState then p.now
                else s.leverLastDebounceTime) > leverDebounceDelay
              ∧ p.raw ≠ (s.lever lv).stableLeverState) := by
          rw [if_neg hnoflip, hsub]
          intro h
          have := h.1
          omega
        obtain ⟨r, hr, ha, hpr, hst, hla, hout⟩ := monitorPressing_no_commit s p lv harmed hc
        rw [hr0] at hr
        cases hr
        obtain ⟨hrun, hcount⟩ := runLeverPolls_cons s r0 (lv, p) rest hr0
        rw [if_neg hnoflip] at hla
        have hex2 : ∃ q2 ∈ rest, q2.1 = lv ∧ q2.2.now > t0 + leverDebounceDelay := by
          obtain ⟨q2, hq2, hq2l, hq2t⟩ := hex
          rcases List.mem_cons.mp hq2 with h | h
          · subst h
            exact absurd hq2t hlate
          · exact ⟨q2, h, hq2l, hq2t⟩
        obtain ⟨r2, hr2, hs2, hc2, hz2, ho2⟩ := ih r0 ha (hpr.trans hp.1)
          (by rw [hst]; exact hstab) (hla.trans hlast) hheld2
          (fun q2 hq2 h2 ha2 => by
            rw [(hoth q2.1 h2).1] at ha2
            rw [(hoth q2.1 h2).2.1, (hoth q2.1 h2).2.2]
            exact hothers q2 (List.mem_cons_of_mem _ hq2) h2 ha2)
          hex2
        refine ⟨r2, hrun.trans hr2, hs2, ?_, fun id hid => ?_, by rw [ho2, hout]⟩
        · rw [hcount lv, hc2, hst]
          simp
        · rw [hcount id, hz2 id hid, (hoth id hid).2.2]
          simp
    · have hq := hothers (lv, p) (List.mem_cons_self _ _) hlv
      dsimp only at hq
      have hidle := monitorPressing_idle s p.now p.raw p.programRunning lv p.cue
        p.pump p.laser (fun ha => ⟨(hq ha).1.symm, fun hc => hc.2 (hq ha).2⟩)
      obtain ⟨hl, hd, ho⟩ := manage_unchanged s p.now p.cue p.pump
      generalize managePump (manageCue s p.now p.cue) p.now p.pump = r at hidle hl hd ho
      obtain ⟨hrun, hcount⟩ := runLeverPolls_cons s r (lv, p) rest hidle
      have hex2 : ∃ q2 ∈ rest, q2.1 = lever ∧ q2.2.now > t0 + leverDebounceDelay := by
        obtain ⟨q2, hq2, hq2l, hq2t⟩ := hex
        rcases List.mem_cons.mp hq2 with h | h
        · subst h
          exact absurd hq2l hlv
        · exact ⟨q2, h, hq2l, hq2t⟩
      obtain ⟨r2, hr2, hs2, hc2, hz2, ho2⟩ := ih r (by rw [hl]; exact harmed)
        (by rw [hl]; exact hprev) (by rw [hl]; exact hstab) (hd.trans hlast) hheld2
        (fun q2 hq2 h2 ha2 => by
          rw [hl] at ha2 ⊢
          exact hothers q2 (List.mem_cons_of_mem _ hq2) h2 ha2)
        hex2
      refine ⟨r2, hrun.trans hr2, hs2, ?_, fun id hid => ?_, by rw [ho2, ho]⟩
      · rw [hcount lever, hc2, hl]
        simp
      · rw [hcount id, hz2 id hid, hl]
        simp

/-! ## C7: one transition per held flip -/

/-- C7 (amended), one transition per held flip.  The levers are polled in
turn through `monitorPressing`, which owns the one debounce timer.  From an
armed lever at rest, let the first poll sample a level different from the
stable level; let every later poll of that lever sample that same level at a
32-bit clock value not before the first poll, and some later poll of that
lever come more than `debounceDelay` after the first; and let every poll of
another armed lever sample the level that is both its previous sample and
its stable level, so that it does not restart the shared timer.  Then the
sequence returns, `stableLeverState` of the flipped lever changes at exactly
one poll and ends at the sampled level, no poll changes the stable level of
another lever, and exactly one handler runs (the press handler for LOW, the
release handler for HIGH). -/
theorem debounce_single_flip (s : Session) (lever : LeverId) (p0 : LeverPoll)
    (rest : List (LeverId × LeverPoll))
    (harmed : (s.lever lever).armed = true)
    (hsettled : (s.lever lever).previousLeverState = (s.lever lever).stableLeverState)
    (hflip : p0.raw ≠ (s.lever lever).stableLeverState)
    (hheld : ∀ q ∈ rest, q.1 = lever →
      q.2.raw = p0.raw ∧ p0.now ≤ q.2.now ∧ q.2.now < 4294967296)
    (hothers : ∀ q ∈ rest, q.1 ≠ lever → (s.lever q.1).armed = true →
      q.2.raw = (s.lever q.1).previousLeverState ∧ q.2.raw = (s.lever q.1).stableLeverState)
    (hlong : ∃ q ∈ rest, q.1 = lever ∧ q.2.now > p0.now + leverDebounceDelay) :
    ∃ r, runLeverPolls s ((lever, p0) :: rest) = some r
      ∧ (r.lever lever).stableLeverState = p0.raw
      ∧ leverStableChanges s lever ((lever, p0) :: rest) = 1
      ∧ (∀ id, id ≠ lever → leverStableChanges s id ((lever, p0) :: rest) = 0)
      ∧ leverTransitions r.out = leverTransitions s.out
          ++ [if p0.raw = false then Transition.pressed else Transition.released] := by
  have hfl : p0.raw ≠ (s.lever lever).previousLeverState := by
    rw [hsettled]; exact hflip
  have hno : ¬ (subU32 p0.now (if p0.raw ≠ (s.lever lever).previousLeverState then p0.now
            else s.leverLastDebounceTime) > leverDebounceDelay
          ∧ p0.raw ≠ (s.lever lever).stableLeverState) := by
    rw [if_pos hfl, subU32_self]
    intro h
    exact absurd h.1 (by decide)
  obtain ⟨r, hr, ha, hpr, hst, hla, hout⟩ := monitorPressing_no_commit s p0 lever harmed hno
  obtain ⟨r0, hr0, hoth⟩ := monitorPressing_others s p0.now p0.raw p0.programRunning lever
    p0.cue p0.pump p0.laser
  rw [hr] at hr0
  cases hr0
  obtain ⟨hrun, hcount⟩ := runLeverPolls_cons s r (lever, p0) rest hr
  rw [if_pos hfl] at hla
  obtain ⟨r2, hr2, hs2, hc2, hz2, ho2⟩ := runLeverPolls_held lever p0.raw p0.now rest r ha hpr
    (by rw [hst]; exact fun h => hflip h.symm) hla hheld
    (fun q2 hq2 h2 ha2 => by
      rw [(hoth q2.1 h2).1] at ha2
      rw [(hoth q2.1 h2).2.1, (hoth q2.1 h2).2.2]
      exact hothers q2 hq2 h2 ha2)
    hlong
  refine ⟨r2, hrun.trans hr2, hs2, ?_, fun id hid => ?_, by rw [ho2, hout]⟩
  · rw [hcount lever, hc2, hst]
    simp
  · rw [hcount id, hz2 id hid, (hoth id hid).2.2]
    simp

/-- C7 (amended) on the armed session: the right lever reads LOW from 1000
on and is polled at 1050, 1101 and 1200, the left lever is polled at rest at
1025, 1075 and 1150; one press is committed. -/
theorem debounce_single_flip_example :
    ∃ r, runLeverPolls armedSession
        [(LeverId.RH, pollAt 1000 false), (LeverId.LH, pollAt 1025 true),
         (LeverId.RH, pollAt 1050 false), (LeverId.LH, pollAt 1075 true),
         (LeverId.RH, pollAt 1101 false), (LeverId.LH, pollAt 1150 true),
         (LeverId.RH, pollAt 1200 false)] = some r
      ∧ r.leverRH.stableLeverState = false
      ∧ leverStableChanges armedSession LeverId.RH
        [(LeverId.RH, pollAt 1000 false), (LeverId.LH, pollAt 1025 true),
         (LeverId.RH, pollAt 1050 false), (LeverId.LH, pollAt 1075 true),
         (LeverId.RH, pollAt 1101 false), (LeverId.LH, pollAt 1150 true),
         (LeverId.RH, pollAt 1200 false)] = 1
      ∧ leverStableChanges armedSession LeverId.LH
        [(LeverId.RH, pollAt 1000 false), (LeverId.LH, pollAt 1025 true),
         (LeverId.RH, pollAt 1050 false), (LeverId.LH, pollAt 1075 true),
         (LeverId.RH, pollAt 1101 false), (LeverId.LH, pollAt 1150 true),
         (LeverId.RH, pollAt 1200 false)] = 0
      ∧ leverTransitions r.out = [Transition.pressed] := by
  obtain ⟨r, hr, hs, hc, hz, ho⟩ := debounce_single_flip armedSession LeverId.RH
    (pollAt 1000 false)
    [(LeverId.LH, pollAt 1025 true),
     (LeverId.RH, pollAt 1050 false), (LeverId.LH, pollAt 1075 true),
     (LeverId.RH, pollAt 1101 false), (LeverId.LH, pollAt 1150 true),
     (LeverId.RH, pollAt 1200 false)]
    (by decide) (by decide) (by decide) (by decide) (by decide)
    ⟨(LeverId.RH, pollAt 1101 false), by decide, by decide⟩
  exact ⟨r, hr, hs, hc, hz LeverId.LH (by decide), ho⟩

/-- C7 as stated fails in two ways.  At the boundary: LOW sampled on the
right lever at 1000 and again at 1100 has been held for exactly 100 ms, yet
the stable level is still HIGH, no poll changed it and no handler ran.  And
through the shared timer: with the right lever LOW at every poll from 1000
to 1400, a hold of 400 ms, and the left lever sampling a change at 1050,
1150, 1250 and 1350, every poll of the right lever comes 50 ms after a
restart of the timer; both stable levels are still HIGH, no poll changed
that of the right lever and no handler ran. -/
theorem debounce_single_flip_not_committed :
    (armedSession.lever LeverId.RH).armed = true
      ∧ (armedSession.lever LeverId.RH).previousLeverState = true
      ∧ (armedSession.lever LeverId.RH).stableLeverState = true
      ∧ 1100 - 1000 ≥ leverDebounceDelay
      ∧ (runLeverPolls armedSession
            [(LeverId.RH, pollAt 1000 false), (LeverId.RH, pollAt 1100 false)]).map
          (fun r => ((r.lever LeverId.RH).stableLeverState, leverTransitions r.out))
          = some (true, [])
      ∧ leverStableChanges armedSession LeverId.RH
          [(LeverId.RH, pollAt 1000 false), (LeverId.RH, pollAt 1100 false)] = 0
      ∧ (runLeverPolls armedSession
            [(LeverId.RH, pollAt 1000 false), (LeverId.LH, pollAt 1050 false),
             (LeverId.RH, pollAt 1100 false), (LeverId.LH, pollAt 1150 true),
             (LeverId.RH, pollAt 1200 false), (LeverId.LH, pollAt 1250 false),
             (LeverId.RH, pollAt 1300 false), (LeverId.LH, pollAt 1350 true),
             (LeverId.RH, pollAt 1400 false)]).map
          (fun r => ((r.lever LeverId.RH).stableLeverState,
            (r.lever LeverId.LH).stableLeverState, leverTransitions r.out))
          = some (true, true, [])
      ∧ leverStableChanges armedSession LeverId.RH
          [(LeverId.RH, pollAt 1000 false), (LeverId.LH, pollAt 1050 false),
           (LeverId.RH, pollAt 1100 false), (LeverId.LH, pollAt 1150 true),
           (LeverId.RH, pollAt 1200 false), (LeverId.LH, pollAt 1250 false),
           (LeverId.RH, pollAt 1300 false), (LeverId.LH, pollAt 1350 true),
           (LeverId.RH, pollAt 1400 false)] = 0 := by
  decide

/-! ## C11: disarming a device with a window in flight -/

/-- The drivers are gated by `isArmed()`: after a disarm any number of
`manageCue` (resp. `managePump`) polls, at any poll times, leave the whole
session as the disarm left it, and the disarm itself writes `armed` and
prints its line only. -/
theorem disarmed_device_frozen (s : Session) (cue pump : Bool) (times : List Nat) :
    List.foldl (fun st t => manageCue st t cue) (disarmCs s) times = disarmCs s
      ∧ (disarmCs s).cs.running = s.cs.running
      ∧ (disarmCs s).cs.onTimestamp = s.cs.onTimestamp
      ∧ (disarmCs s).cs.offTimestamp = s.cs.offTimestamp
      ∧ List.foldl (fun st t => managePump st t pump) (disarmPump s) times = disarmPump s
      ∧ (disarmPump s).pump.running = s.pump.running
      ∧ (disarmPump s).pump.infusionStartTimestamp = s.pump.infusionStartTimestamp
      ∧ (disarmPump s).pump.infusionEndTimestamp = s.pump.infusionEndTimestamp := by
  refine ⟨foldl_manageCue_unarmed cue times (disarmCs s) ?_, ?_, ?_, ?_,
    foldl_managePump_unarmed pump times (disarmPump s) ?_, ?_, ?_, ?_⟩ <;>
    simp only [disarmCs, disarmPump, Session.emit_fields, Session.setCs_fields,
      Session.setPump_fields]

/-- C11 at the failing input: the armed session after a reward at 1000 (cue
window 1000 to 2600, infusion window 3100 to 5100).  The pump is polled at
3200, which writes its pin 4 HIGH, and is then disarmed, by `pump.disarm()`
alone or by `endProgram`; the polls at 4600, 5101 and 6000 leave `running`
true, and the trace holds no write of LOW to pin 4: the pump is left on
after the end of its window.  The cue polled at 1200 and then disarmed still
reports `running` true at 3000, and the trace holds its `tone` and no
`noTone`.  A cue disarmed before its first poll reports `running` false at
1500, inside its window.  With the pump left armed the same polls write pin 4
LOW at 5101 and report `running` false. -/
theorem disarmed_window_left_running :
    (deliverReward armedSession 1000 true true false).map
        (fun s => (s.cs.onTimestamp, s.cs.offTimestamp,
          s.pump.infusionStartTimestamp, s.pump.infusionEndTimestamp))
        = some (1000, 2600, 3100, 5100)
      ∧ (deliverReward armedSession 1000 true true false).map
          (fun s => ((List.foldl (fun st t => managePump st t true)
              (disarmPump (managePump s 3200 true)) [4600, 5101, 6000]).pump.running,
            (List.foldl (fun st t => managePump st t true)
              (disarmPump (managePump s 3200 true)) [4600, 5101, 6000]).out))
          = some (true, [Event.call Fn.deliverReward, Event.digitalWrite 4 true,
              Event.println "DEVICE DISARMED AT PIN: 4"])
      ∧ (deliverReward armedSession 1000 true true false).map
          (fun s => ((List.foldl (fun st t => managePump st t true)
              (endProgram (managePump s 3200 true) 12) [4600, 5101, 6000]).pump.running,
            (List.foldl (fun st t => managePump st t true)
              (endProgram (managePump s 3200 true) 12) [4600, 5101, 6000]).out.filter
                (fun e => decide (e = Event.digitalWrite 4 true)
                  || decide (e = Event.digitalWrite 4 false))))
          = some (true, [Event.digitalWrite 4 true])
      ∧ (deliverReward armedSession 1000 true true false).map
          (fun s => ((List.foldl (fun st t => manageCue st t true)
              (disarmCs (manageCue s 1200 true)) [2000, 2601, 3000]).cs.running,
            (List.foldl (fun st t => manageCue st t true)
              (disarmCs (manageCue s 1200 true)) [2000, 2601, 3000]).out))
          = some (true, [Event.call Fn.deliverReward, Event.tone 3 8000,
              Event.println "DEVICE DISARMED AT PIN: 3"])
      ∧ (deliverReward armedSession 1000 true true false).map
          (fun s => (manageCue (disarmCs s) 1500 true).cs.running) = some false
      ∧ (deliverReward armedSession 1000 true true false).map
          (fun s => ((List.foldl (fun st t => managePump st t true)
              (managePump s 3200 true) [4600, 5101, 6000]).pump.running,
            (List.foldl (fun st t => managePump st t true)
              (managePump s 3200 true) [4600, 5101, 6000]).out))
          = some (false, [Event.call Fn.deliverReward, Event.digitalWrite 4 true,
              Event.digitalWrite 4 true, Event.digitalWrite 4 false,
              Event.digitalWrite 4 false]) := by
  decide

/-! ## C12: unarmed devices -/

/-- C12, the clause that an unarmed device is never read for another device's window.  On the session whose cue is unarmed with a stale window 5400 to 7000 and whose pump is armed, `deliverReward` at 10000 leaves the cue window alone and sets the infusion window to 7500 to 9500, computed from the stale `offTimestamp` of the unarmed cue; with `offTimestamp = 0` the infusion window is 500 to 2500; and with no cue at all the call dereferences a null pointer and has no result. -/
theorem deliverReward_reads_unarmed_cue :
    staleCueSession.cs.armed = false ∧ staleCueSession.pump.armed = true
      ∧ (deliverReward staleCueSession 10000 true true false).map
          (fun r => (r.cs.onTimestamp, r.cs.offTimestamp,
            r.pump.infusionStartTimestamp, r.pump.infusionEndTimestamp))
          = some (5400, 7000, 7500, 9500)
      ∧ (deliverReward (staleCueSession.setCs { staleCueSession.cs with offTimestamp := 0 })
            10000 true true false).map
          (fun r => (r.pump.infusionStartTimestamp, r.pump.infusionEndTimestamp))
          = some (500, 2500)
      ∧ deliverReward staleCueSession 10000 false true false = none := by
  decide

/-! ## C13: laser arming on reward -/

/-- Claim C13. Laser arming on reward: for every clock value `t` (a `uint32_t`), when `deliverReward` runs at `t` with the laser armed, whatever the armed flags of the cue and of the pump, it returns with `stimStart = t`, `stimEnd = t + duration` modulo 2^32 and `laserState = ACTIVE`.  The call has a result when it does not dereference a null cue: the cue pointer is set, or the pump is absent or unarmed. -/
theorem laser_arming_on_reward (s : Session) (t : Nat) (cue pump : Bool)
    (ht : t < 4294967296) (hl : s.laser.armed = true)
    (hptr : cue = true ∨ pump = false ∨ s.pump.armed = false) :
    ∃ r, deliverReward s t cue pump true = some r
      ∧ r.laser.stimStart = t
      ∧ r.laser.stimEnd = (t + s.laser.duration) % 4294967296
      ∧ r.laser.laserState = STATE.ACTIVE := by
  cases hca : s.cs.armed <;> cases hpa : s.pump.armed <;> cases cue <;> cases pump <;>
    first
      | (exfalso
         rcases hptr with h | h | h
         · exact absurd h (by decide)
         · exact absurd h (by decide)
         · rw [hpa] at h
           exact absurd h (by decide))
      | (simp only [deliverReward, Session.emit_fields, Session.setCs_fields,
           Session.setPump_fields, hca, hpa, hl, Bool.and_self, Bool.and_true,
           Bool.and_false, Bool.false_eq_true, if_false, if_true, Option.map_some']
         exact ⟨_, rfl, by simp only [Session.setLaser_fields, Laser.setStimPeriod,
           Laser.setStimState, toUInt32_toInt32 t ht, and_self]⟩)

/-- C13 on the armed session with the laser armed, at 1000: the stimulation window is 1000 to 31000. -/
theorem laser_arming_on_reward_example :
    ∃ r, deliverReward (armedSession.setLaser { armedSession.laser with armed := true })
        1000 true true true = some r
      ∧ r.laser.stimStart = 1000 ∧ r.laser.stimEnd = 31000
      ∧ r.laser.laserState = STATE.ACTIVE := by
  obtain ⟨r, hr, h1, h2, h3⟩ := laser_arming_on_reward
    (armedSession.setLaser { armedSession.laser with armed := true }) 1000 true true
    (by decide) (by decide) (Or.inl rfl)
  exact ⟨r, hr, h1, h2.trans (by decide), h3⟩

/-! ## C14: timeout window advance -/

/-- Claim C14 (amended). Timeout window advance: every `definePressActivity` call returns, and when it delivers a reward (the press is ACTIVE and `pressCount = fRatio - 1` before the call), one `deliverReward` entry is recorded, the cue has its new `offTimestamp`, and, when `programRunning` is true, `timeoutIntervalStart` equals that `offTimestamp` (as `uint32_t`) and `timeoutIntervalEnd = timeoutIntervalStart + timeoutIntervalLength` (in `uint32_t`); when `programRunning` is false the timeout window is left unchanged. -/
theorem timeout_window_advance (s : Session) (now : Nat) (programRunning : Bool)
    (lever : LeverId) (cue pump laser : Bool) :
    ∃ r, definePressActivity s now programRunning lever cue pump laser = some r
      ∧ ((r.lever lever).pressType = "ACTIVE" → s.pressCount = toInt32 (s.fRatio - 1) →
          callCount Fn.deliverReward r.out = callCount Fn.deliverReward s.out + 1
            ∧ TimeoutAdvanced s r now programRunning) := by
  have hT : ¬ ("TIMEOUT" : String) = "ACTIVE" := by decide
  have hI : ¬ ("INACTIVE" : String) = "ACTIVE" := by decide
  obtain ⟨r, hr, -, hstep⟩ := definePressActivity_step s
    { now := now, programRunning := programRunning, lever := lever, cue := cue, pump := pump,
      laser := laser }
  simp only at hr hstep
  refine ⟨r, hr, fun hA hcount => ?_⟩
  rw [if_pos hA, if_pos hcount] at hstep
  refine ⟨hstep.2, ?_⟩
  have key : ∀ b, s.cs.armed = true → countActivePress
        (setPressType (s.emit (Event.call Fn.definePressActivity)) lever "ACTIVE")
        now programRunning true pump laser b = some r → TimeoutAdvanced s r now programRunning := by
    intro b hc hb
    obtain ⟨r2, hr2, hadv⟩ := countActivePress_reward
      (setPressType (s.emit (Event.call Fn.definePressActivity)) lever "ACTIVE")
      now programRunning pump laser b (by simpa using hc) (by simpa using hcount)
    rw [hb] at hr2
    cases hr2
    simpa [TimeoutAdvanced] using hadv
  cases cue
  · simp only [definePressActivity, Bool.false_and, Bool.false_eq_true, if_false,
      Option.some.injEq] at hr
    subst hr
    simp only [setPressType_fields] at hA
    exact absurd hA hI
  · simp only [definePressActivity, Bool.true_and, Session.emit_fields] at hr
    split_ifs at hr with h1 h2 h3 h4
    · cases hr
      simp only [setPressType_fields] at hA
      exact absurd hA hT
    · have hc : s.cs.armed = true := by
        simp only [Bool.and_eq_true] at h1
        exact h1.1
      exact key false hc hr
    · cases hr
      simp only [setPressType_fields] at hA
      exact absurd hA hT
    · have hc : s.cs.armed = true := by
        simp only [Bool.and_eq_true] at h3
        exact h3.1
      exact key true hc hr
    · cases hr
      simp only [setPressType_fields] at hA
      exact absurd hA hI

/-- C14 (amended) on the armed session at 1000 with the program running: the cue ends at 2600 and the timeout window is 2600 to 22600. -/
theorem timeout_window_advance_example :
    (definePressActivity armedSession 1000 true LeverId.RH true true false).map
        (fun r => (r.cs.offTimestamp, r.timeoutIntervalStart, r.timeoutIntervalEnd))
      = some (2600, 2600, 22600) := by
  obtain ⟨r, hr, h⟩ := timeout_window_advance armedSession 1000 true LeverId.RH true true false
  have hA : (r.lever LeverId.RH).pressType = "ACTIVE" := by
    have h0 : (definePressActivity armedSession 1000 true LeverId.RH true true false).map
        (fun r => (r.lever LeverId.RH).pressType) = some "ACTIVE" := by decide
    rw [hr] at h0
    exact Option.some.inj h0
  obtain ⟨-, hoff, -, hrun, -⟩ := h hA (by decide)
  obtain ⟨hstart, hend⟩ := hrun rfl
  have hlen : r.timeoutIntervalLength = 20000 := by
    have h0 : (definePressActivity armedSession 1000 true LeverId.RH true true false).map
        (fun r => r.timeoutIntervalLength) = some 20000 := by decide
    rw [hr] at h0
    exact Option.some.inj h0
  have hoff2 : r.cs.offTimestamp = 2600 := hoff.trans (by decide)
  rw [hr]
  simp only [Option.map_some', Option.some.injEq, Prod.mk.injEq]
  rw [hend, hstart, hoff2, hlen]
  decide

/-- C14 as stated fails with `programRunning = false`: on the armed session at 1000 the press is ACTIVE with `pressCount = fRatio - 1`, a reward is delivered and the cue ends at 2600, but the timeout window stays 0 to 0. -/
theorem timeout_window_not_advanced_when_idle :
    (definePressActivity armedSession 1000 false LeverId.RH true true false).map
        (fun r => ((r.lever LeverId.RH).pressType, callCount Fn.deliverReward r.out,
          r.cs.offTimestamp, r.timeoutIntervalStart, r.timeoutIntervalEnd))
      = some ("ACTIVE", 1, 2600, 0, 0)
      ∧ armedSession.pressCount = toInt32 (armedSession.fRatio - 1) := by
  decide

/-! ## C15: laser period management -/

/-- Claim C15. Laser period management: for an armed laser while the program
is running, one `manageStim` tick at time `now` returns whenever the
frequency is not 0, and every session it returns has, in CYCLE mode,
`stimStart = now`, `stimEnd = now + duration` (in `uint32_t`) and `cycleUp`
negated exactly when no period has ever started (`stimStart = 0`) or
`now >= stimEnd`, and `stimStart`, `stimEnd`, `cycleUp` unchanged otherwise;
in ACTIVE_PRESS mode it has `cycleUp = true` and `stimStart`, `stimEnd`
unchanged. -/
theorem laser_period_management (s : Session) (now : Nat)
    (harmed : s.laser.armed = true) (hrun : s.programIsRunning = true) :
    (s.laser.frequency ≠ 0 → ∃ r, manageStim s now = some r)
      ∧ ∀ r, manageStim s now = some r →
        (s.laser.laserMode = MODE.CYCLE →
          ((s.laser.stimStart = 0 ∨ now ≥ s.laser.stimEnd) →
              r.laser.stimStart = now
                ∧ r.laser.stimEnd = (now + s.laser.duration) % 4294967296
                ∧ r.laser.cycleUp = !s.laser.cycleUp)
            ∧ (¬ (s.laser.stimStart = 0 ∨ now ≥ s.laser.stimEnd) →
              r.laser.stimStart = s.laser.stimStart
                ∧ r.laser.stimEnd = s.laser.stimEnd
                ∧ r.laser.cycleUp = s.laser.cycleUp))
        ∧ (s.laser.laserMode = MODE.ACTIVE_PRESS →
            r.laser.cycleUp = true
              ∧ r.laser.stimStart = s.laser.stimStart
              ∧ r.laser.stimEnd = s.laser.stimEnd) := by
  refine ⟨fun hf => ?_, fun r hr => ?_⟩
  · simp only [manageStim, harmed, hrun, Bool.and_self, if_true]
    apply stim_returns
    cases s.laser.laserMode
    all_goals
      split_ifs <;> simpa only [Session.setLaser_fields, Laser.setStimPeriod,
        Laser.setCycleUp] using hf
  · simp only [manageStim, harmed, hrun, Bool.and_self, if_true] at hr
    have hfr := stim_frame _ _ _ hr
    obtain ⟨h1, h2, h3, _⟩ := hfr
    rw [h1, h2, h3]
    refine ⟨fun hm => ⟨fun hc => ?_, fun hc => ?_⟩, fun hm => ?_⟩
    · simp only [hm, hc, if_true, Session.setLaser_fields, Laser.setStimPeriod,
        Laser.setCycleUp, and_self]
    · simp only [hm, hc, if_false, and_self]
    · simp only [hm, Session.setLaser_fields, Laser.setCycleUp, and_self]

/-- C15 on the cycle session at 9000, where no period has started: the period becomes 9000 to 39000 and `cycleUp` becomes true. -/
theorem laser_period_management_example :
    ∃ r, manageStim cycleSession 9000 = some r
      ∧ r.laser.stimStart = 9000 ∧ r.laser.stimEnd = 39000 ∧ r.laser.cycleUp = true := by
  have h := laser_period_management cycleSession 9000 (by decide) (by decide)
  obtain ⟨r, hr⟩ := h.1 (by decide)
  obtain ⟨h1, h2, h3⟩ := ((h.2 r hr).1 (by decide)).1 (Or.inl (by decide))
  exact ⟨r, hr, h1, h2.trans (by decide), h3.trans (by decide)⟩

/-! ## C16: laser oscillation at 5 Hz -/

/-- Claim C16 (amended). Laser oscillation scenario: with frequency 5 Hz and
a 1000 ms stimulation window from `a` to `a + 1000`, `cycleUp` true, the
laser logged and OFF with no half-cycle pending (`halfCycleEnd ≤ a`), and
no clock wrap, polling `stim` once per millisecond from `a` to
`a + 1000 + k` returns at every tick and yields exactly 10 toggles of
`laserAction`, at `a + 1`, `a + 102`, ..., `a + 910`: consecutive toggles are
101 ms apart, because a toggle needs `now > halfCycleEnd`.  Each toggle opens
a half-cycle window `halfCycleStart .. halfCycleEnd` of length 100.  Nothing
is printed up to the tick `a + 999`, and exactly one `LASER,STIM` record is
printed, at the tick `now = stimEnd = a + 1000` (take `k = 0`), after which
the laser is logged, INACTIVE and OFF.  `stim` does not read the mode. -/
theorem laser_oscillation (s : Session) (a k : Nat)
    (hf : s.laser.frequency = 5) (hs : s.laser.stimStart = a)
    (he : s.laser.stimEnd = a + 1000) (hc : s.laser.cycleUp = true)
    (hl : s.laser.logged = true) (hact : s.laser.laserAction = ACTION.OFF)
    (hh : s.laser.halfCycleEnd ≤ a) (hw : a + 1100 < 4294967296) :
    toggleTimes s (List.range' a (1001 + k)) = (List.range 10).map (fun i => a + 1 + 101 * i)
      ∧ (∀ j, j ≤ 998 → ∃ r, runStim s (List.range' a (j + 2)) = some r
          ∧ r.laser.halfCycleStart = a + 1 + 101 * (j / 101)
          ∧ r.laser.halfCycleEnd = r.laser.halfCycleStart + 100
          ∧ printedLines r.out = printedLines s.out)
      ∧ ∃ r, runStim s (List.range' a (1001 + k)) = some r
          ∧ printedLines r.out = printedLines s.out ++ [stimLogLine s]
          ∧ r.laser.logged = true ∧ r.laser.laserState = STATE.INACTIVE
          ∧ r.laser.laserAction = ACTION.OFF :=
  oscillation_run s a k hf hs he hc hl hact hh hw

/-- C16 (amended) on the oscillation session, window 7000 to 8000, polled
from 7000 to 8005: ten toggles, and one record `LASER,STIM,7000,8000`. -/
theorem laser_oscillation_example :
    (toggleTimes oscillationSession (List.range' 7000 1006)).length = 10
      ∧ ∃ r, runStim oscillationSession (List.range' 7000 1006) = some r
          ∧ printedLines r.out = ["LASER,STIM,7000,8000"]
          ∧ r.laser.logged = true := by
  obtain ⟨h1, -, r, hr, hp, hlog, -⟩ := laser_oscillation oscillationSession 7000 5
    (by decide) (by decide) (by decide) (by decide) (by decide) (by decide) (by decide)
    (by decide)
  refine ⟨?_, r, hr, hp.trans (by decide), hlog⟩
  have h2 : toggleTimes oscillationSession (List.range' 7000 1006)
      = (List.range 10).map (fun i => 7000 + 1 + 101 * i) := h1
  rw [h2]
  rfl

/-- C16 as stated fails on the oscillation session (5 Hz, window 7000 to
8000, polled every millisecond from 7000 to 8001).  The ten toggles fall at
7001, 7102, ..., 7910: consecutive toggles are 101 ms apart, not 100.  And
the record is already printed by the tick 8000, where `now > stimEnd` does not
hold (`stimEnd = 8000`); the ticks up to 7999 print nothing. -/
theorem laser_oscillation_spacing_and_record_tick :
    toggleTimes oscillationSession (List.range' 7000 1002)
        = [7001, 7102, 7203, 7304, 7405, 7506, 7607, 7708, 7809, 7910]
      ∧ oscillationSession.laser.stimEnd = 8000
      ∧ (∃ r, runStim oscillationSession (List.range' 7000 1000) = some r
          ∧ printedLines r.out = [])
      ∧ (∃ r, runStim oscillationSession (List.range' 7000 1001) = some r
          ∧ printedLines r.out = ["LASER,STIM,7000,8000"]) := by
  obtain ⟨h1, hmid, -⟩ := oscillation_run oscillationSession 7000 1
    (by decide) (by decide) (by decide) (by decide) (by decide) (by decide) (by decide)
    (by decide)
  obtain ⟨-, -, r, hr, hp, -⟩ := oscillation_run oscillationSession 7000 0
    (by decide) (by decide) (by decide) (by decide) (by decide) (by decide) (by decide)
    (by decide)
  obtain ⟨q, hq, -, -, hpq⟩ := hmid 998 (by decide)
  refine ⟨?_, by decide, ⟨q, hq, hpq.trans (by decide)⟩, ⟨r, hr, hp.trans (by decide)⟩⟩
  have h2 : toggleTimes oscillationSession (List.range' 7000 1002)
      = (List.range 10).map (fun i => 7000 + 1 + 101 * i) := h1
  rw [h2]
  rfl

/-! ## C17: half-cycle length -/

/-- Claim C17. Half-cycle length: for every frequency `f ≥ 2` (a `uint32_t`)
and every time `now`, `setStimHalfCyclePeriod(now)` returns and sets
`halfCycleStart = now` and `halfCycleEnd = now + 500 / f` (integer part, sum
in `uint32_t`), touching no other field; and inside the window with `cycleUp`
the `stim` tick returns and, exactly when `now > halfCycleEnd` (the previous
half-cycle has elapsed), recomputes the half-cycle and toggles `laserAction`
between ON and OFF; otherwise it leaves the half-cycle and `laserAction`
unchanged. -/
theorem half_cycle_length (s : Session) (now : Nat)
    (hf : 2 ≤ s.laser.frequency) (hu : s.laser.frequency < 4294967296) :
    (∃ l, s.laser.setStimHalfCyclePeriod now = some l
        ∧ l = { s.laser with halfCycleStart := now,
                             halfCycleEnd := (now + 500 / s.laser.frequency) % 4294967296 }
        ∧ (now + 500 / s.laser.frequency < 4294967296 →
            l.halfCycleEnd = now + 500 / s.laser.frequency))
      ∧ ((inStimPeriod s now && s.laser.cycleUp) = true →
          ∃ r, stim s now = some r
            ∧ (now > s.laser.halfCycleEnd →
                r.laser.halfCycleStart = now
                  ∧ r.laser.halfCycleEnd = (now + 500 / s.laser.frequency) % 4294967296
                  ∧ (s.laser.laserAction = ACTION.ON → r.laser.laserAction = ACTION.OFF)
                  ∧ (s.laser.laserAction = ACTION.OFF → r.laser.laserAction = ACTION.ON))
            ∧ (¬ now > s.laser.halfCycleEnd →
                r.laser.halfCycleStart = s.laser.halfCycleStart
                  ∧ r.laser.halfCycleEnd = s.laser.halfCycleEnd
                  ∧ r.laser.laserAction = s.laser.laserAction)) := by
  have hlen := halfCycleLength_value s.laser.frequency (by omega) hu
  refine ⟨⟨_, by simp only [Laser.setStimHalfCyclePeriod, hlen, Option.map_some'], rfl,
    fun hlt => Nat.mod_eq_of_lt hlt⟩, fun hin => ?_⟩
  obtain ⟨r, len, hr, hl2, hl, -⟩ := stim_in_window s now hin (by omega)
  rw [hlen] at hl2
  have hlen2 : len = 500 / s.laser.frequency := (Option.some.inj hl2).symm
  subst hlen2
  have hf1 : ¬ s.laser.frequency = 1 := by omega
  rw [if_neg hf1] at hl
  refine ⟨r, hr, fun ht => ?_, fun ht => ?_⟩
  · rw [hl, if_pos ht]
    refine ⟨rfl, rfl, fun hon => ?_, fun hoff => ?_⟩
    · show (if s.laser.laserAction = ACTION.ON then ACTION.OFF else ACTION.ON) = ACTION.OFF
      rw [if_pos hon]
    · show (if s.laser.laserAction = ACTION.ON then ACTION.OFF else ACTION.ON) = ACTION.ON
      rw [hoff]
      rfl
  · rw [hl, if_neg ht]
    exact ⟨rfl, rfl, rfl⟩

/-- C17 on the oscillation session (5 Hz) at 7500: the half-cycle becomes
7500 to 7600 and the action goes from OFF to ON. -/
theorem half_cycle_length_example :
    (∃ l, oscillationSession.laser.setStimHalfCyclePeriod 7500 = some l
        ∧ l.halfCycleStart = 7500 ∧ l.halfCycleEnd = 7600)
      ∧ ∃ r, stim oscillationSession 7500 = some r
          ∧ r.laser.halfCycleStart = 7500 ∧ r.laser.halfCycleEnd = 7600
          ∧ r.laser.laserAction = ACTION.ON := by
  have h := half_cycle_length oscillationSession 7500 (by decide) (by decide)
  obtain ⟨⟨l, hl, hrec, hend⟩, hstim⟩ := h
  obtain ⟨r, hr, hyes, -⟩ := hstim (by decide)
  obtain ⟨y1, y2, -, y4⟩ := hyes (by decide)
  refine ⟨⟨l, hl, ?_, (hend (by decide)).trans (by decide)⟩, r, hr, y1,
    y2.trans (by decide), y4 (by decide)⟩
  rw [hrec]

/-! ## C18: outside the stimulation window -/

/-- Claim C19 (amended). Lever poll run twice with the same raw sample and the
same `now`: both runs return, and the second run is the two output drivers
alone.  It commits no transition, calls no handler and prints no line; it
leaves both levers, the laser, the lick circuit, `pressCount`, the timeout
window and the debounce timer as the first run left them; and it leaves the
cue and the pump as they were except for `running`, which for an armed device
becomes whether `now` lies in the window the first run left.  When the first
run did not move the window (it delivered no reward), the cue and the pump,
and so the whole device state, equal the state after the first run. -/
theorem monitorPressing_second_run (s : Session) (now : Nat) (raw programRunning : Bool)
    (lever : LeverId) (cue pump laser : Bool) :
    ∃ r1 r2, monitorPressing s now raw programRunning lever cue pump laser = some r1
      ∧ monitorPressing r1 now raw programRunning lever cue pump laser = some r2
      ∧ r2 = managePump (manageCue r1 now cue) now pump
      ∧ r2.leverRH = r1.leverRH ∧ r2.leverLH = r1.leverLH
      ∧ r2.laser = r1.laser ∧ r2.lickCircuit = r1.lickCircuit
      ∧ r2.pressCount = r1.pressCount
      ∧ r2.timeoutIntervalStart = r1.timeoutIntervalStart
      ∧ r2.timeoutIntervalEnd = r1.timeoutIntervalEnd
      ∧ r2.timeoutIntervalLength = r1.timeoutIntervalLength
      ∧ r2.leverLastDebounceTime = r1.leverLastDebounceTime
      ∧ r2.cs = (if cue = true ∧ r1.cs.armed = true then
                  { r1.cs with running := decide (r1.cs.onTimestamp ≤ toInt32 now
                                                   ∧ toInt32 now ≤ r1.cs.offTimestamp) }
                else r1.cs)
      ∧ r2.pump = (if pump = true ∧ r1.pump.armed = true then
                  { r1.pump with
                    running := decide (r1.pump.infusionStartTimestamp ≤ toInt32 now
                                        ∧ toInt32 now ≤ r1.pump.infusionEndTimestamp) }
                else r1.pump)
      ∧ printedLines r2.out = printedLines r1.out
      ∧ leverTransitions r2.out = leverTransitions r1.out
      ∧ callCount Fn.deliverReward r2.out = callCount Fn.deliverReward r1.out
      ∧ (r1.cs.onTimestamp = s.cs.onTimestamp → r1.cs.offTimestamp = s.cs.offTimestamp →
          r2.cs = r1.cs)
      ∧ (r1.pump.infusionStartTimestamp = s.pump.infusionStartTimestamp →
          r1.pump.infusionEndTimestamp = s.pump.infusionEndTimestamp → r2.pump = r1.pump) := by
  obtain ⟨r1, hr1, hca, hcr, hpa, hpr⟩ :=
    monitorPressing_flags s now raw programRunning lever cue pump laser
  have hidle : (r1.lever lever).armed = true →
      (r1.lever lever).previousLeverState = raw
        ∧ ¬ (subU32 now r1.leverLastDebounceTime > leverDebounceDelay
            ∧ raw ≠ (r1.lever lever).stableLeverState) := by
    intro harm1
    by_cases harm : (s.lever lever).armed = true
    · by_cases hcom : subU32 now (if raw ≠ (s.lever lever).previousLeverState then now
          else s.leverLastDebounceTime) > leverDebounceDelay
            ∧ raw ≠ (s.lever lever).stableLeverState
      · obtain ⟨r, hr, -, hprev, hstab, -, -⟩ := monitorPressing_commit s
          { now := now, raw := raw, programRunning := programRunning, cue := cue,
            pump := pump, laser := laser } lever harm hcom
        have hr0 : monitorPressing s now raw programRunning lever cue pump laser = some r := hr
        rw [hr1] at hr0
        cases hr0
        exact ⟨hprev, fun hcon => hcon.2 hstab.symm⟩
      · obtain ⟨r, hr, -, hprev, hstab, hlast, -⟩ := monitorPressing_no_commit s
          { now := now, raw := raw, programRunning := programRunning, cue := cue,
            pump := pump, laser := laser } lever harm hcom
        have hr0 : monitorPressing s now raw programRunning lever cue pump laser = some r := hr
        rw [hr1] at hr0
        cases hr0
        refine ⟨hprev, fun hcon => hcom ⟨?_, ?_⟩⟩
        · have hl : r1.leverLastDebounceTime
              = (if raw ≠ (s.lever lever).previousLeverState then now
                  else s.leverLastDebounceTime) := hlast
          rw [← hl]
          exact hcon.1
        · have hs : (r1.lever lever).stableLeverState = (s.lever lever).stableLeverState :=
            hstab
          rw [← hs]
          exact hcon.2
    · exfalso
      have hnone : monitorPressing s now raw programRunning lever cue pump laser
          = some (managePump (manageCue s now cue) now pump) :=
        monitorPressing_idle s now raw programRunning lever cue pump laser
          (fun h => absurd h harm)
      rw [hr1] at hnone
      cases hnone
      rw [(manage_unchanged s now cue pump).1] at harm1
      exact harm harm1
  have hr2 := monitorPressing_idle r1 now raw programRunning lever cue pump laser hidle
  obtain ⟨f1, f2, f3, f4, f5, f6, f7, f8, f9, f10, f11, f12, f13, f14⟩ :=
    drivers_fields r1 now cue pump
  obtain ⟨-, -, -, -, -, -, -, -, -, g10, g11, -, -, -⟩ := drivers_fields s now cue pump
  generalize toInt32 (now : Int) = t at f10 f11 g10 g11 ⊢
  refine ⟨r1, _, hr1, hr2, rfl, f1, f2, f3, f4, f5, f6, f7, f8, f9, f10, f11, f12, f13, f14,
    fun hon hoff => ?_, fun hst hen => ?_⟩
  · rw [f10]
    rw [g10] at hca hcr
    by_cases hc : cue = true ∧ r1.cs.armed = true
    · have hcs : cue = true ∧ s.cs.armed = true := by
        refine ⟨hc.1, ?_⟩
        by_cases hsa : s.cs.armed = true
        · exact hsa
        · have : ¬ (cue = true ∧ s.cs.armed = true) := fun h => hsa h.2
          rw [if_neg this] at hca
          exact hca ▸ hc.2
      rw [if_pos hcs] at hcr
      rw [if_pos hc, hon, hoff]
      have hrun : r1.cs.running = decide (s.cs.onTimestamp ≤ t ∧ t ≤ s.cs.offTimestamp) := hcr
      rw [← hrun]
    · rw [if_neg hc]
  · rw [f11]
    rw [g11] at hpa hpr
    by_cases hc : pump = true ∧ r1.pump.armed = true
    · have hcs : pump = true ∧ s.pump.armed = true := by
        refine ⟨hc.1, ?_⟩
        by_cases hsa : s.pump.armed = true
        · exact hsa
        · have : ¬ (pump = true ∧ s.pump.armed = true) := fun h => hsa h.2
          rw [if_neg this] at hpa
          exact hpa ▸ hc.2
      rw [if_pos hcs] at hpr
      rw [if_pos hc, hst, hen]
      have hrun : r1.pump.running = decide (s.pump.infusionStartTimestamp ≤ t
          ∧ t ≤ s.pump.infusionEndTimestamp) := hpr
      rw [← hrun]
    · rw [if_neg hc]

/-- C19 (amended) on a press that is committed without a reward (fixed ratio 3, lever held LOW since 1000, poll at 1101): the first run counts the press, the second run counts nothing and leaves the lever, the cue and the pump equal. -/
theorem monitorPressing_second_run_example :
    ∃ r1 r2, monitorPressing heldLowSession 1101 false true LeverId.RH true true false = some r1
      ∧ monitorPressing r1 1101 false true LeverId.RH true true false = some r2
      ∧ r1.pressCount = 1 ∧ leverTransitions r1.out = [Transition.pressed]
      ∧ r2.pressCount = 1 ∧ leverTransitions r2.out = [Transition.pressed]
      ∧ r2.leverRH = r1.leverRH ∧ r2.cs = r1.cs ∧ r2.pump = r1.pump := by
  obtain ⟨r1, r2, h1, h2, -, hrh, -, -, -, hpc, -, -, -, -, -, -, -, hlt, -, hcs, hpump⟩ :=
    monitorPressing_second_run heldLowSession 1101 false true LeverId.RH true true false
  have hw : (monitorPressing heldLowSession 1101 false true LeverId.RH true true false).map
      (fun r => (r.pressCount, leverTransitions r.out, r.cs.onTimestamp, r.cs.offTimestamp,
        r.pump.infusionStartTimestamp, r.pump.infusionEndTimestamp))
      = some (1, [Transition.pressed], 0, 0, 0, 0) := by decide
  rw [h1] at hw
  simp only [Option.map_some', Option.some.injEq, Prod.mk.injEq] at hw
  obtain ⟨w1, w2, w3, w4, w5, w6⟩ := hw
  exact ⟨r1, r2, h1, h2, w1, w2, hpc.trans w1, hlt.trans w2, hrh,
    hcs (w3.trans (by decide)) (w4.trans (by decide)),
    hpump (w5.trans (by decide)) (w6.trans (by decide))⟩

/-- C19 as stated fails when the first run delivers a reward.  On the armed
session the right lever reads LOW at 1000 and at 1101; the poll at 1101
commits the press and delivers a reward with cue window 1101 to 2701.  After
that poll the cue is not running; a second poll with the same sample at the
same time 1101 finds 1101 inside the new window, starts the tone and sets
`running`. -/
theorem monitorPressing_second_run_starts_cue :
    ((monitorPressing armedSession 1000 false true LeverId.RH true true false).bind
        fun r0 => monitorPressing r0 1101 false true LeverId.RH true true false).map
          (fun r1 => (r1.cs.running, r1.cs.onTimestamp, r1.cs.offTimestamp, r1.out.length))
        = some (false, 1101, 2701, 7)
      ∧ (((monitorPressing armedSession 1000 false true LeverId.RH true true false).bind
          fun r0 => monitorPressing r0 1101 false true LeverId.RH true true false).bind
          fun r1 => monitorPressing r1 1101 false true LeverId.RH true true false).map
          (fun r2 => (r2.cs.running, r2.cs.onTimestamp, r2.cs.offTimestamp,
            r2.out.drop 7))
        = some (true, 1101, 2701, [Event.tone 3 8000, Event.digitalWrite 4 false]) := by
  decide

/-! ## C20: laser tick run twice -/

/-- Claim C20 (amended). Laser tick run twice at the same `now`: when the
frequency is not 0, `now` plus the half-cycle length stays below 2^32 and,
in CYCLE mode, `now` is not 0, the duration is not 0 and `now + duration`
stays below 2^32, both `manageStim` ticks return and the second leaves the
whole laser state (`stimStart`, `stimEnd`, `cycleUp`, the half-cycle bounds,
`laserState`, `laserAction`, `logged`) equal to the state after the first. -/
theorem manageStim_idempotent (s : Session) (now : Nat)
    (hf : s.laser.frequency ≠ 0)
    (hhalf : ∀ len, halfCycleLength s.laser.frequency = some len → now + len < 4294967296)
    (hcycle : s.laser.laserMode = MODE.CYCLE →
      now ≠ 0 ∧ s.laser.duration ≠ 0 ∧ now + s.laser.duration < 4294967296) :
    ∃ r1 r2, manageStim s now = some r1 ∧ manageStim r1 now = some r2
      ∧ r2.laser = r1.laser := by
  cases hgate : (s.laser.armed && s.programIsRunning)
  · refine ⟨s, s, ?_, ?_, rfl⟩ <;> simp only [manageStim, hgate, Bool.false_eq_true, if_false]
  · cases hm : s.laser.laserMode
    · -- CYCLE
      obtain ⟨hnow, hdur, hsum⟩ := hcycle hm
      by_cases hre : s.laser.stimStart = 0 ∨ now ≥ s.laser.stimEnd
      · have hstep : manageStim s now
            = stim (s.setLaser
                { s.laser with stimStart := now,
                               stimEnd := (now + s.laser.duration) % 4294967296,
                               cycleUp := !s.laser.cycleUp }) now := by
          simp only [manageStim, hgate, if_true, hm, hre, Session.setLaser_fields,
            Laser.setStimPeriod, Laser.setCycleUp]
          rfl
        generalize hs1 : s.setLaser
                { s.laser with stimStart := now,
                               stimEnd := (now + s.laser.duration) % 4294967296,
                               cycleUp := !s.laser.cycleUp } = s1 at hstep
        have hs1l : s1.laser = { s.laser with stimStart := now,
                                              stimEnd := (now + s.laser.duration) % 4294967296,
                                              cycleUp := !s.laser.cycleUp } := by
          rw [← hs1]
          simp only [Session.setLaser_fields]
        have hs1p : s1.programIsRunning = s.programIsRunning := by
          rw [← hs1]
          simp only [Session.setLaser_fields]
        have hout : (inStimPeriod s1 now && s1.laser.cycleUp) = false := by
          simp [inStimPeriod, hs1l]
        obtain ⟨r1, hr1, hl1, _⟩ := stim_outside s1 now hout
        have hfr := stim_frame s1 r1 now hr1
        rw [hs1l, hs1p] at hfr
        have hgate1 : (r1.laser.armed && r1.programIsRunning) = true := by
          rw [hfr.2.2.2.2.2.2.1, hfr.2.2.2.2.2.2.2.2.2]
          exact hgate
        have hnre : ¬ (r1.laser.stimStart = 0 ∨ now ≥ r1.laser.stimEnd) := by
          rw [hfr.1, hfr.2.1]
          show ¬ (now = 0 ∨ now ≥ (now + s.laser.duration) % 4294967296)
          rw [Nat.mod_eq_of_lt hsum]
          omega
        have hstep1 : manageStim r1 now = stim r1 now := by
          simp only [manageStim, hgate1, if_true, hfr.2.2.2.2.2.1, hm, hnre, if_false]
        have hout1 : (inStimPeriod r1 now && r1.laser.cycleUp) = false := by
          have h0 : r1.laser.stimStart = now := hfr.1
          simp [inStimPeriod, h0]
        obtain ⟨r2, hr2, hl2, _⟩ := stim_outside r1 now hout1
        refine ⟨r1, r2, hstep.trans hr1, hstep1.trans hr2, ?_⟩
        rw [hl2, hl1]
      · have hstep : manageStim s now = stim s now := by
          simp only [manageStim, hgate, if_true, hm, hre, if_false]
        obtain ⟨r1, r2, hr1, hr2, hl⟩ := stim_idempotent s now hf hhalf
        have hfr := stim_frame s r1 now hr1
        have hgate1 : (r1.laser.armed && r1.programIsRunning) = true := by
          rw [hfr.2.2.2.2.2.2.1, hfr.2.2.2.2.2.2.2.2.2]
          exact hgate
        have hnre : ¬ (r1.laser.stimStart = 0 ∨ now ≥ r1.laser.stimEnd) := by
          rw [hfr.1, hfr.2.1]
          exact hre
        have hstep1 : manageStim r1 now = stim r1 now := by
          simp only [manageStim, hgate1, if_true, hfr.2.2.2.2.2.1, hm, hnre, if_false]
        exact ⟨r1, r2, hstep.trans hr1, hstep1.trans hr2, hl⟩
    · -- ACTIVE_PRESS
      have hstep : manageStim s now
          = stim (s.setLaser { s.laser with cycleUp := true }) now := by
        simp only [manageStim, hgate, if_true, hm, Laser.setCycleUp]
      obtain ⟨r1, r2, hr1, hr2, hl⟩ :=
        stim_idempotent (s.setLaser { s.laser with cycleUp := true }) now
          (by simpa only [Session.setLaser_fields] using hf)
          (by simpa only [Session.setLaser_fields] using hhalf)
      have hfr := stim_frame _ r1 now hr1
      simp only [Session.setLaser_fields] at hfr
      have hgate1 : (r1.laser.armed && r1.programIsRunning) = true := by
        rw [hfr.2.2.2.2.2.2.1, hfr.2.2.2.2.2.2.2.2.2]
        exact hgate
      have hc1 : r1.laser.cycleUp = true := hfr.2.2.1
      have hm1 : r1.laser.laserMode = MODE.ACTIVE_PRESS := hfr.2.2.2.2.2.1.trans hm
      have hself : r1.setLaser (r1.laser.setCycleUp true) = r1 := by
        have hL : r1.laser.setCycleUp true = r1.laser := by
          cases hlas : r1.laser
          rw [hlas] at hc1
          dsimp only at hc1
          subst hc1
          rfl
        rw [hL]
        rfl
      have hstep1 : manageStim r1 now = stim r1 now := by
        unfold manageStim
        rw [if_pos hgate1]
        dsimp only
        rw [hm1]
        dsimp only
        rw [hself]
      exact ⟨r1, r2, hstep.trans hr1, hstep1.trans hr2, hl⟩

/-- C20 (amended) on the cycle session at 9000: the first tick starts the period 9000 to 39000, and a second tick at 9000 leaves the laser equal. -/
theorem manageStim_idempotent_example :
    ∃ r1 r2, manageStim cycleSession 9000 = some r1 ∧ manageStim r1 9000 = some r2
      ∧ r2.laser = r1.laser :=
  manageStim_idempotent cycleSession 9000 (by decide)
    (fun len h => by
      have h20 : halfCycleLength 20 = some len := h
      rw [halfCycleLength_small 20 (by decide) (by decide)] at h20
      cases h20
      decide)
    (fun _ => by decide)

set_option maxRecDepth 20000 in
/-- C20 as stated fails in three cases.  At `now = 0` in CYCLE mode, `stimStart = 0` still reads as no period started: the first tick sets `cycleUp` to true and the second sets it back to false.  With duration 0 in CYCLE mode at 9000, `now >= stimEnd` holds again on the second tick, which toggles `cycleUp` back.  And at 4294967290 inside a window at 5 Hz, the new `halfCycleEnd` wraps to 94, so the second tick finds `now > halfCycleEnd` and toggles `laserAction` from ON back to OFF. -/
theorem manageStim_not_idempotent :
    (manageStim cycleSession 0).map (fun r => r.laser.cycleUp) = some true
      ∧ ((manageStim cycleSession 0).bind fun r => manageStim r 0).map
          (fun r => r.laser.cycleUp) = some false
      ∧ (manageStim (cycleSession.setLaser (cycleSession.laser.setDuration 0)) 9000).map
          (fun r => r.laser.cycleUp) = some true
      ∧ ((manageStim (cycleSession.setLaser (cycleSession.laser.setDuration 0)) 9000).bind
          fun r => manageStim r 9000).map (fun r => r.laser.cycleUp) = some false
      ∧ (manageStim (oscillationSession.setLaser
            { oscillationSession.laser with stimStart := 4294967000, stimEnd := 4294967295 })
          4294967290).map (fun r => (r.laser.laserAction, r.laser.halfCycleEnd))
          = some (ACTION.ON, 94)
      ∧ ((manageStim (oscillationSession.setLaser
            { oscillationSession.laser with stimStart := 4294967000, stimEnd := 4294967295 })
          4294967290).bind fun r => manageStim r 4294967290).map
            (fun r => (r.laser.laserAction, r.laser.halfCycleEnd))
          = some (ACTION.OFF, 94) := by
  decide

/-! ## Laser log, session end and records: lemmas -/

/-- An in-window tick of `stim` that returns has printed nothing and has kept
`halfCycleEnd` unless the clock was past it. -/
theorem stim_in_window_quiet (s r : Session) (t : Nat)
    (hin : (inStimPeriod s t && s.laser.cycleUp) = true) (h : stim s t = some r) :
    printedLines r.out = printedLines s.out
      ∧ (¬ t > s.laser.halfCycleEnd → r.laser.halfCycleEnd = s.laser.halfCycleEnd) := by
  simp only [stim, hin, if_true, Session.setLaser_fields, Laser.setStimState,
    Laser.setStimLogged, Laser.setStimAction, Laser.setStimHalfCyclePeriod] at h
  split_ifs at h with h1 h2
  · simp only [Option.map_some', Option.some.injEq] at h
    subst h
    simp only [manageLaser_printed, manageLaser_fields, Session.setLaser_fields,
      implies_true, and_self]
  · cases hl : halfCycleLength s.laser.frequency with
    | none =>
      rw [hl] at h
      simp only [Option.map_none'] at h
      cases h
    | some len =>
      rw [hl] at h
      simp only [Option.map_some', Option.some.injEq] at h
      subst h
      simp only [manageLaser_printed, manageLaser_fields, Session.setLaser_fields, true_and]
      intro hn
      exact absurd h2 hn
  · simp only [Option.map_some', Option.some.injEq] at h
    subst h
    simp only [manageLaser_printed, manageLaser_fields, Session.setLaser_fields,
      implies_true, and_self]

/-- An in-window tick of `stim` returns when the clock is not past
`halfCycleEnd`, whatever the frequency. -/
theorem stim_in_window_returns (s : Session) (t : Nat)
    (hin : (inStimPeriod s t && s.laser.cycleUp) = true) (hh : ¬ t > s.laser.halfCycleEnd) :
    ∃ r, stim s t = some r := by
  simp only [stim, hin, if_true, Session.setLaser_fields, Laser.setStimState,
    Laser.setStimLogged, Laser.setStimAction, if_neg hh]
  split_ifs <;> exact ⟨_, rfl⟩

/-- A second `stim` tick at the same clock value returns and prints nothing. -/
theorem stim_second_call_quiet (s r1 : Session) (now : Nat) (h : stim s now = some r1) :
    ∃ r2, stim r1 now = some r2 ∧ printedLines r2.out = printedLines r1.out := by
  have hfr := stim_frame s r1 now h
  have hcongr := outside_congr s r1 now hfr.1 hfr.2.1 hfr.2.2.1
  cases hin : (inStimPeriod s now && s.laser.cycleUp)
  · obtain ⟨q, hq, hl, -⟩ := stim_outside s now hin
    rw [h] at hq
    cases hq
    rw [hin] at hcongr
    obtain ⟨r2, hr2, -, -, -, hp⟩ := stim_outside r1 now hcongr
    refine ⟨r2, hr2, ?_⟩
    have hlog : r1.laser.logged = true := by rw [hl]
    rw [hp, hlog]
    simp
  · rw [hin] at hcongr
    have hret : ∃ r2, stim r1 now = some r2 := by
      by_cases hf : s.laser.frequency = 0
      · apply stim_in_window_returns r1 now hcongr
        have hf1 : ¬ s.laser.frequency = 1 := by omega
        by_cases hh : now > s.laser.halfCycleEnd
        · exfalso
          simp only [stim, hin, if_true, Session.setLaser_fields, Laser.setStimState,
            Laser.setStimLogged, Laser.setStimAction, Laser.setStimHalfCyclePeriod,
            if_neg hf1, if_pos hh, hf, halfCycleLength, Option.map_none'] at h
          simp at h
        · rw [(stim_in_window_quiet s r1 now hin h).2 hh]
          exact hh
      · exact stim_returns r1 now (by rw [hfr.2.2.2.2.1]; exact hf)
    obtain ⟨r2, hr2⟩ := hret
    exact ⟨r2, hr2, (stim_in_window_quiet r1 r2 now hcongr hr2).1⟩

/-- Fields after `disarmLever`: that lever is disarmed and a line is printed. -/
theorem disarmLever_fields (s : Session) (id : LeverId) :
    (disarmLever s id).cs = s.cs ∧ (disarmLever s id).pump = s.pump
      ∧ (disarmLever s id).laser = s.laser ∧ (disarmLever s id).lickCircuit = s.lickCircuit
      ∧ ((disarmLever s id).lever id).armed = false
      ∧ (∀ other, other ≠ id → (disarmLever s id).lever other = s.lever other) := by
  cases id
  · exact ⟨rfl, rfl, rfl, rfl, rfl, fun o h => by cases o <;> first | rfl | exact absurd rfl h⟩
  · exact ⟨rfl, rfl, rfl, rfl, rfl, fun o h => by cases o <;> first | rfl | exact absurd rfl h⟩

/-- Fields after `disarmCs`. -/
theorem disarmCs_fields (s : Session) :
    (disarmCs s).leverRH = s.leverRH ∧ (disarmCs s).leverLH = s.leverLH
      ∧ (disarmCs s).cs.armed = false ∧ (disarmCs s).pump = s.pump
      ∧ (disarmCs s).laser = s.laser ∧ (disarmCs s).lickCircuit = s.lickCircuit :=
  ⟨rfl, rfl, rfl, rfl, rfl, rfl⟩

/-- Fields after `disarmPump`. -/
theorem disarmPump_fields (s : Session) :
    (disarmPump s).leverRH = s.leverRH ∧ (disarmPump s).leverLH = s.leverLH
      ∧ (disarmPump s).cs = s.cs ∧ (disarmPump s).pump.armed = false
      ∧ (disarmPump s).laser = s.laser ∧ (disarmPump s).lickCircuit = s.lickCircuit :=
  ⟨rfl, rfl, rfl, rfl, rfl, rfl⟩

/-- Fields after `disarmLickCircuit`. -/
theorem disarmLickCircuit_fields (s : Session) :
    (disarmLickCircuit s).leverRH = s.leverRH ∧ (disarmLickCircuit s).leverLH = s.leverLH
      ∧ (disarmLickCircuit s).cs = s.cs ∧ (disarmLickCircuit s).pump = s.pump
      ∧ (disarmLickCircuit s).laser = s.laser
      ∧ (disarmLickCircuit s).lickCircuit.armed = false :=
  ⟨rfl, rfl, rfl, rfl, rfl, rfl⟩

/-- After `endProgram` the two levers, the cue, the pump and the lick circuit
are disarmed, whatever the session; the laser object is left as it was, its
`armed` flag included. -/
theorem endProgram_flags (s : Session) (pin : Nat) :
    (endProgram s pin).leverRH.armed = false ∧ (endProgram s pin).leverLH.armed = false
      ∧ (endProgram s pin).cs.armed = false ∧ (endProgram s pin).pump.armed = false
      ∧ (endProgram s pin).lickCircuit.armed = false
      ∧ (endProgram s pin).laser = s.laser := by
  have h0 : (((((s.emit (Event.println "")).emit
      (Event.println "========== PROGRAM END ==========")).emit (Event.println "")).emit
      (Event.digitalWrite pin true)).emit (Event.digitalWrite pin false)).laser = s.laser := by
    simp only [Session.emit_fields]
  have he : endProgram s pin = laserOff (disarmLickCircuit (disarmPump (disarmCs
      (disarmLever (disarmLever (((((s.emit (Event.println "")).emit
        (Event.println "========== PROGRAM END ==========")).emit (Event.println "")).emit
        (Event.digitalWrite pin true)).emit (Event.digitalWrite pin false))
        LeverId.RH) LeverId.LH)))) := rfl
  rw [he]
  generalize ((((s.emit (Event.println "")).emit
    (Event.println "========== PROGRAM END ==========")).emit (Event.println "")).emit
    (Event.digitalWrite pin true)).emit (Event.digitalWrite pin false) = s0 at h0
  obtain ⟨-, -, a3, -, a5, -⟩ := disarmLever_fields s0 LeverId.RH
  generalize disarmLever s0 LeverId.RH = s1 at a3 a5
  obtain ⟨-, -, b3, -, b5, b6⟩ := disarmLever_fields s1 LeverId.LH
  have b7 := b6 LeverId.RH (by decide)
  generalize disarmLever s1 LeverId.LH = s2 at b3 b5 b7
  obtain ⟨c1, c2, c3, -, c5, -⟩ := disarmCs_fields s2
  generalize disarmCs s2 = s3 at c1 c2 c3 c5
  obtain ⟨d1, d2, d3, d4, d5, -⟩ := disarmPump_fields s3
  generalize disarmPump s3 = s4 at d1 d2 d3 d4 d5
  obtain ⟨e1, e2, e3, e4, e5, e6⟩ := disarmLickCircuit_fields s4
  generalize disarmLickCircuit s4 = s5 at e1 e2 e3 e4 e5 e6
  have hl : ∀ q : Session, (laserOff q).leverRH = q.leverRH ∧ (laserOff q).leverLH = q.leverLH
      ∧ (laserOff q).cs = q.cs ∧ (laserOff q).pump = q.pump
      ∧ (laserOff q).lickCircuit = q.lickCircuit ∧ (laserOff q).laser = q.laser :=
    fun _ => ⟨rfl, rfl, rfl, rfl, rfl, rfl⟩
  obtain ⟨f1, f2, f3, f4, f5, f6⟩ := hl s5
  have g1 : s2.leverRH = s1.leverRH := b7
  have g2 : s1.leverRH.armed = false := a5
  have g3 : s2.leverLH.armed = false := b5
  refine ⟨?_, ?_, ?_, ?_, ?_, ?_⟩
  · rw [f1, e1, d1, c1, g1]
    exact g2
  · rw [f2, e2, d2, c2]
    exact g3
  · rw [f3, e3, d3]
    exact c3
  · rw [f4, e4]
    exact d4
  · rw [f5]
    exact e6
  · rw [f6, e5, d5, c5, b3, a3, h0]

/-- With a cue pointer and an armed pump, `deliverReward` returns and leaves
the infusion window starting one trace interval after the cue's
`offTimestamp` and ending one infusion duration later, in `int32_t`. -/
theorem deliverReward_armed_pump (s : Session) (now : Nat) (laser : Bool)
    (hp : s.pump.armed = true) :
    ∃ r, deliverReward s now true true laser = some r
      ∧ r.pump.infusionStartTimestamp
          = toInt32 (r.cs.offTimestamp + toInt32 s.traceIntervalLength)
      ∧ r.pump.infusionEndTimestamp
          = toInt32 (r.pump.infusionStartTimestamp + s.pump.infusionDuration) := by
  unfold deliverReward
  generalize toInt32 (now : Int) = t
  cases hca : s.cs.armed <;> cases hla : s.laser.armed <;> cases laser <;>
    simp only [Session.emit_fields, Session.setCs_fields, Session.setPump_fields, hca, hp,
      hla, Bool.and_self, Bool.and_true, Bool.and_false, Bool.true_and, Bool.false_eq_true,
      if_false, if_true, Option.map_some'] <;>
    refine ⟨_, rfl, ?_⟩ <;>
    simp only [Session.setLaser_fields, Session.setPump_fields, Session.setCs_fields,
      Session.emit_fields, Pump.setInfusionPeriod, and_self]

/-- With no session offset, the text of an `int32_t` timestamp taken from the
clock value `c` is the text of `c`. -/
theorem offsetString_zero (c : Nat) (h : c < 4294967296) :
    offsetString (toInt32 c) 0 = toString c := by
  have : toUInt32 (toInt32 (c : Int) - ((0 : Nat) : Int)) = c := by
    unfold toUInt32 toInt32
    omega
  unfold offsetString
  rw [this]

/-- With a timestamp at or after the offset, the printed field is the
timestamp minus the offset. -/
theorem offsetString_of_le (value : Int) (d : Nat) (h1 : (d : Int) ≤ value)
    (h2 : value < 4294967296) : offsetString value d = toString (value - d) := by
  obtain ⟨k, hk⟩ := Int.eq_ofNat_of_zero_le (Int.sub_nonneg.mpr h1)
  have hk2 : k ≤ 4294967295 := by omega
  unfold offsetString
  rw [hk, toUInt32_of_nat k hk2]
  rfl

/-! ## The VI lever and the frame signal: lemmas -/

/-- No setter other than `setActivePressOccurred` and `resetInterval` writes
the interval members. -/
theorem VI.Lever.call_interval (l : VI.Lever) (c : VI.Setter) :
    (l.call c).activePressOccurred = l.activePressOccurred
      ∧ (l.call c).intervalStartTime = l.intervalStartTime
      ∧ (l.call c).randomInterval = l.randomInterval := by
  cases c <;> exact ⟨rfl, rfl, rfl⟩

/-- A sequence of such setter calls keeps the interval members. -/
theorem VI.Lever.calls_interval (cs : List VI.Setter) (l : VI.Lever) :
    (l.calls cs).activePressOccurred = l.activePressOccurred
      ∧ (l.calls cs).intervalStartTime = l.intervalStartTime
      ∧ (l.calls cs).randomInterval = l.randomInterval := by
  induction cs generalizing l with
  | nil => exact ⟨rfl, rfl, rfl⟩
  | cons c rest ih =>
    obtain ⟨h1, h2, h3⟩ := ih (l.call c)
    obtain ⟨g1, g2, g3⟩ := VI.Lever.call_interval l c
    exact ⟨h1.trans g1, h2.trans g2, h3.trans g3⟩

/-- The value `random(0, 15000)` returns is the remainder of the generator's
value by 15000. -/
theorem VI.arduinoRandom_interval (raw : Nat) :
    toUInt32 (VI.arduinoRandom raw 0 15000) = raw % 15000 := by
  unfold VI.arduinoRandom toUInt32
  rw [if_neg (by decide)]
  omega

/-- A list ending in `t` contains `logged ++ [t]` when its front contains
`logged`. -/
theorem sublist_concat_of_getLast {sigs logged : List Nat} {t : Nat}
    (hl : sigs.getLast? = some t) (hs : List.Sublist logged sigs.dropLast) :
    List.Sublist (logged ++ [t]) sigs := by
  have h : sigs.dropLast ++ [t] = sigs :=
    List.dropLast_append_getLast? (l := sigs) t (by rw [hl]; rfl)
  rw [← h]
  exact List.Sublist.append hs (List.Sublist.refl _)

/-- The state at boot is consistent. -/
theorem Frame.consistent_init (c : Bool) (d : Nat) : Frame.Consistent (Frame.init c d) := by
  simp [Frame.Consistent, Frame.init, Frame.Quiet]

/-- A run of the service routine with interrupts enabled keeps the state
consistent. -/
theorem Frame.consistent_isr (s : Frame.State) (now : Nat) (h : Frame.Consistent s)
    (he : s.interruptsEnabled = true) : Frame.Consistent (Frame.frameSignalISR s now) := by
  obtain ⟨flag, ts, cf, diff, en, pend, pc, out, acc, sigs, logged⟩ := s
  simp only at he
  subst he
  have hlast : ∀ v : Nat, (sigs ++ [v]).getLast? = some v := by simp
  have hdrop : ∀ v : Nat, (sigs ++ [v]).dropLast = sigs := by simp
  have hfront : (if flag = true then sigs.getLast? = some ts ∧ List.Sublist logged sigs.dropLast
      else List.Sublist logged sigs ∧ logged.getLast? = sigs.getLast?) →
      List.Sublist logged sigs := by
    intro hq
    split_ifs at hq
    · exact hq.2.trans (List.dropLast_sublist sigs)
    · exact hq.1
  cases pc <;>
    dsimp only [Frame.Consistent, Frame.Flagged, Frame.Quiet, Frame.frameSignalISR] at h ⊢ <;>
    obtain ⟨h1, h2, h3, h4⟩ := h <;>
    refine ⟨h1, h2, h3, ?_⟩ <;>
    rw [hlast, hdrop]
  · rw [if_pos rfl]
    exact ⟨rfl, rfl, hfront h4.2⟩
  · rw [if_pos rfl]
    exact ⟨rfl, rfl, hfront h4.2⟩
  · exact ⟨rfl, rfl, rfl, h4.2.2.2.trans (List.dropLast_sublist sigs)⟩
  · exact absurd h4.1 (by decide)
  · exact absurd h4.1 (by decide)
  · exact absurd h4.1 (by decide)
  · rw [if_pos rfl]
    obtain ⟨-, h5⟩ := h4
    refine ⟨rfl, rfl, ?_⟩
    split_ifs at h5
    · exact h5.2.trans (List.dropLast_sublist sigs)
    · exact sublist_concat_of_getLast h5.1 h5.2

/-- One statement of the main loop keeps the state consistent. -/
theorem Frame.consistent_mainStep (s : Frame.State) (now : Nat) (h : Frame.Consistent s) :
    Frame.Consistent (Frame.mainStep s now) := by
  obtain ⟨flag, ts, cf, diff, en, pend, pc, out, acc, sigs, logged⟩ := s
  have hlast : ∀ v : Nat, (sigs ++ [v]).getLast? = some v := by simp
  have hdrop : ∀ v : Nat, (sigs ++ [v]).dropLast = sigs := by simp
  cases pc <;>
    dsimp only [Frame.Consistent, Frame.Flagged, Frame.Quiet, Frame.mainStep] at h ⊢ <;>
    obtain ⟨h1, h2, h3, h4⟩ := h
  · -- `if (collectFrames)`
    cases cf
    · simp only [Bool.false_eq_true, if_false]
      exact ⟨h1, h2, h3, h4⟩
    · simp only [if_true]
      exact ⟨h1, h2, h3, h4⟩
  · -- `if (frameSignalReceived)`
    obtain ⟨h5, h6⟩ := h4
    have hacc : ∀ a ∈ acc ++ [Frame.Access.mk Frame.Shared.frameSignalReceived false (!en)],
        a.guarded = (a.write || decide (a.var = Frame.Shared.frameSignalTimestamp)) := by
      intro a ha
      rcases List.mem_append.mp ha with ha | ha
      · exact h3 a ha
      · rw [List.mem_singleton.mp ha]
        dsimp only
        rw [h5]
        rfl
    cases flag
    · simp only [Bool.false_eq_true, if_false] at h6 ⊢
      exact ⟨h1, h2, hacc, h5, h6⟩
    · simp only [if_true] at h6 ⊢
      exact ⟨h1, h2, hacc, h5, trivial, h6⟩
  · -- `noInterrupts()`
    exact ⟨h1, fun h => absurd h (by decide), h3, rfl, h4.2.1, h4.2.2⟩
  · -- `frameSignalReceived = false`
    obtain ⟨h5, -, h7⟩ := h4
    refine ⟨h1, h2, ?_, h5, rfl, h7⟩
    intro a ha
    rcases List.mem_append.mp ha with ha | ha
    · exact h3 a ha
    · rw [List.mem_singleton.mp ha]
      dsimp only
      rw [h5]
      rfl
  · -- `timestamp = frameSignalTimestamp`
    obtain ⟨h5, h6, h7⟩ := h4
    refine ⟨h1, h2, ?_, h5, h6, rfl, h7⟩
    intro a ha
    rcases List.mem_append.mp ha with ha | ha
    · exact h3 a ha
    · rw [List.mem_singleton.mp ha]
      dsimp only
      rw [h5]
      rfl
  · -- `interrupts()`
    obtain ⟨h5, h6, h7, h8, h9⟩ := h4
    subst h6
    subst h7
    cases pend
    · rw [if_neg (by decide)]
      exact ⟨h1, fun _ => rfl, h3, rfl, h8, h9⟩
    · rw [if_pos rfl]
      dsimp only [Frame.frameSignalISR]
      refine ⟨h1, fun _ => rfl, h3, rfl, ?_⟩
      rw [if_pos rfl, hlast, hdrop]
      exact ⟨rfl, sublist_concat_of_getLast h8 h9⟩
  · -- `Serial.println(...)`
    obtain ⟨h5, h6⟩ := h4
    refine ⟨?_, h2, h3, h5, ?_⟩
    · rw [h1, List.map_append]
      rfl
    · cases flag
      · obtain ⟨h7, h8⟩ := h6
        refine ⟨sublist_concat_of_getLast h7 h8, ?_⟩
        rw [h7]
        simp
      · exact h6

/-- Every action of a schedule keeps the state consistent. -/
theorem Frame.consistent_step (s : Frame.State) (a : Frame.Action) (h : Frame.Consistent s) :
    Frame.Consistent (Frame.step s a) := by
  cases a with
  | irq now =>
    dsimp only [Frame.step]
    cases he : s.interruptsEnabled
    · rw [if_neg (by decide)]
      obtain ⟨flag, ts, cf, diff, en, pend, pc, out, acc, sigs, logged⟩ := s
      dsimp only at he
      subst he
      cases pc <;>
        dsimp only [Frame.Consistent, Frame.Flagged, Frame.Quiet] at h ⊢ <;>
        obtain ⟨h1, -, h3, h4⟩ := h <;>
        first
          | exact absurd h4.1 (by decide)
          | exact ⟨h1, fun h => absurd h (by decide), h3, h4⟩
    · rw [if_pos rfl]
      exact Frame.consistent_isr s now h he
  | main now => exact Frame.consistent_mainStep s now h

/-- Every schedule keeps the state consistent. -/
theorem Frame.consistent_run (schedule : List Frame.Action) (s : Frame.State)
    (h : Frame.Consistent s) : Frame.Consistent (Frame.run s schedule) := by
  induction schedule generalizing s with
  | nil => exact h
  | cons a rest ih => exact ih (Frame.step s a) (Frame.consistent_step s a h)

/-- In a consistent state the values read for the printed records are a
sublist of the timestamps stored by the service routine. -/
theorem Frame.logged_sublist (s : Frame.State) (h : Frame.Consistent s) :
    List.Sublist s.logged s.signals := by
  obtain ⟨flag, ts, cf, diff, en, pend, pc, out, acc, sigs, logged⟩ := s
  have hd := List.dropLast_sublist sigs
  cases pc <;> cases flag <;>
    dsimp only [Frame.Consistent, Frame.Flagged, Frame.Quiet] at h ⊢ <;>
    obtain ⟨-, -, -, h4⟩ := h <;>
    (try rw [if_neg (by decide)] at h4) <;>
    (try rw [if_pos rfl] at h4) <;>
    first
      | exact h4.2.1
      | exact h4.2.2.trans hd
      | exact h4.2.2.2.trans hd
      | exact h4.2.2.2.2.trans hd
      | exact ((List.sublist_append_left logged _).trans h4.2.2).trans hd

/-! ## C21: log idempotence -/

/-- Claim C21. Log idempotence: whatever the laser state and the time `now`,
a second `stim` call with the state and `now` left by a first call returns
and prints no record (the first call returns whenever the frequency is not
0); `logStim` prints a record only when `logged` is false, leaves the session
untouched when `logged` is true, leaves `logged = true` in both cases, and a
second `logStim` call prints nothing. -/
theorem log_idempotence (s : Session) (now : Nat) :
    (∀ r1, stim s now = some r1 →
        ∃ r2, stim r1 now = some r2 ∧ printedLines r2.out = printedLines r1.out)
      ∧ (s.laser.frequency ≠ 0 → ∃ r1, stim s now = some r1)
      ∧ (s.laser.logged = false →
          printedLines (logStim s).out = printedLines s.out ++ [stimLogLine s]
            ∧ (logStim s).laser.logged = true)
      ∧ (s.laser.logged = true → logStim s = s)
      ∧ printedLines (logStim (logStim s)).out = printedLines (logStim s).out := by
  refine ⟨fun r1 h => stim_second_call_quiet s r1 now h, stim_returns s now, ?_, ?_, ?_⟩
  · intro hl
    simp only [logStim, hl, if_true, Session.setLaser_fields, Session.emit_fields,
      Laser.setStimLogged, printedLines_append, and_true]
    simp [printedLines]
  · intro hl
    simp only [logStim, hl, Bool.true_eq_false, if_false]
  · cases hl : s.laser.logged
    · have h1 : (logStim s).laser.logged = true := by
        simp only [logStim, hl, if_true, Session.setLaser_fields, Laser.setStimLogged]
      have h2 : logStim (logStim s) = logStim s := by
        generalize logStim s = q at h1
        simp only [logStim, h1, Bool.true_eq_false, if_false]
      rw [h2]
    · have h1 : logStim s = s := by
        simp only [logStim, hl, Bool.true_eq_false, if_false]
      rw [h1, h1]

/-- C21 on the oscillation session with the record of its window not yet
logged: the tick 8000 prints the record, a second tick 8000 prints nothing
more; `logStim` prints the record once and a second call prints nothing
more. -/
theorem log_idempotence_example :
    (∃ r1 r2, stim (oscillationSession.setLaser (oscillationSession.laser.setStimLogged false))
          8000 = some r1
        ∧ stim r1 8000 = some r2
        ∧ printedLines r1.out = ["LASER,STIM,7000,8000"]
        ∧ printedLines r2.out = ["LASER,STIM,7000,8000"])
      ∧ printedLines
          (logStim (oscillationSession.setLaser
            (oscillationSession.laser.setStimLogged false))).out = ["LASER,STIM,7000,8000"]
      ∧ printedLines
          (logStim (logStim (oscillationSession.setLaser
            (oscillationSession.laser.setStimLogged false)))).out
          = ["LASER,STIM,7000,8000"] := by
  have h := log_idempotence
    (oscillationSession.setLaser (oscillationSession.laser.setStimLogged false)) 8000
  obtain ⟨h1, h2, h3, -, h5⟩ := h
  obtain ⟨r1, hr1⟩ := h2 (by decide)
  obtain ⟨r2, hr2, hp⟩ := h1 r1 hr1
  have hw : (stim (oscillationSession.setLaser
      (oscillationSession.laser.setStimLogged false)) 8000).map (fun r => printedLines r.out)
      = some ["LASER,STIM,7000,8000"] := by decide
  rw [hr1] at hw
  have hp1 : printedLines r1.out = ["LASER,STIM,7000,8000"] := Option.some.inj hw
  have hl := (h3 (by decide)).1
  have hl1 : printedLines (logStim (oscillationSession.setLaser
      (oscillationSession.laser.setStimLogged false))).out = ["LASER,STIM,7000,8000"] :=
    hl.trans (by decide)
  exact ⟨⟨r1, r2, hr1, hr2, hp1, hp.trans hp1⟩, hl1, h5.trans hl1⟩

/-! ## C22: end of the session -/

/-- C22 at the failing input: `endProgram` on the cycle session, whose laser
is armed.  Afterwards both levers, the cue, the pump and the lick circuit
report `armed = false`, and the laser still reports `armed = true`: the last
statement of `endProgram` is `laser.off()`, which writes the laser pin LOW and
does not disarm.  The five `DEVICE DISARMED` lines are for the pins 10, 13, 3,
4 and 5; there is none for the laser pin 6. -/
theorem endProgram_leaves_laser_armed :
    cycleSession.laser.armed = true
      ∧ (endProgram cycleSession 12).leverRH.armed = false
      ∧ (endProgram cycleSession 12).leverLH.armed = false
      ∧ (endProgram cycleSession 12).cs.armed = false
      ∧ (endProgram cycleSession 12).pump.armed = false
      ∧ (endProgram cycleSession 12).lickCircuit.armed = false
      ∧ (endProgram cycleSession 12).laser.armed = true
      ∧ (endProgram cycleSession 12).out
          = [Event.println "", Event.println "========== PROGRAM END ==========",
             Event.println "", Event.digitalWrite 12 true, Event.digitalWrite 12 false,
             Event.println "DEVICE DISARMED AT PIN: 10",
             Event.println "DEVICE DISARMED AT PIN: 13",
             Event.println "DEVICE DISARMED AT PIN: 3",
             Event.println "DEVICE DISARMED AT PIN: 4",
             Event.println "DEVICE DISARMED AT PIN: 5",
             Event.digitalWrite 6 false] := by
  decide

/-! ## C23: window invariant -/

/-- Claim C23 (amended). Window invariant: for every cue duration `dc ≥ 0`
and infusion duration `dp ≥ 0` configured through `setDuration` and
`setInfusionDuration`, after `deliverReward` at `t` (cue pointer set): an
armed cue has `onTimestamp ≤ offTimestamp` when `t` and `t + dc` lie in the
`int32_t` range; an armed pump has
`infusionStartTimestamp ≤ infusionEndTimestamp` when the start plus `dp`
lies in the `int32_t` range; and with both armed and the trace interval and
`t + dc + traceIntervalLength` in the `int32_t` range,
`offTimestamp ≤ infusionStartTimestamp`. -/
theorem window_invariant (s : Session) (dc dp : Int) (t : Nat) (pump laser : Bool)
    (hdc : 0 ≤ dc) (hdp : 0 ≤ dp) :
    ∃ r, deliverReward (pumpSetInfusionDuration (csSetDuration s dc) dp) t true pump laser
        = some r
      ∧ (s.cs.armed = true → InInt32 t → InInt32 (t + dc) →
          r.cs.onTimestamp ≤ r.cs.offTimestamp)
      ∧ (pump = true → s.pump.armed = true →
          InInt32 (r.pump.infusionStartTimestamp + dp) →
          r.pump.infusionStartTimestamp ≤ r.pump.infusionEndTimestamp)
      ∧ (s.cs.armed = true → pump = true → s.pump.armed = true →
          InInt32 t → InInt32 (t + dc) → InInt32 s.traceIntervalLength →
          InInt32 (t + dc + s.traceIntervalLength) →
          r.cs.offTimestamp ≤ r.pump.infusionStartTimestamp) := by
  have hcfg : (pumpSetInfusionDuration (csSetDuration s dc) dp).cs.armed = s.cs.armed
      ∧ (pumpSetInfusionDuration (csSetDuration s dc) dp).cs.duration = dc
      ∧ (pumpSetInfusionDuration (csSetDuration s dc) dp).pump.armed = s.pump.armed
      ∧ (pumpSetInfusionDuration (csSetDuration s dc) dp).pump.infusionDuration = dp
      ∧ (pumpSetInfusionDuration (csSetDuration s dc) dp).traceIntervalLength
          = s.traceIntervalLength := by
    simp only [pumpSetInfusionDuration, csSetDuration, Session.setPump_fields,
      Session.emit_fields, Session.setCs_fields, Cue.setDuration, Pump.setInfusionDuration,
      and_self]
  generalize pumpSetInfusionDuration (csSetDuration s dc) dp = s1 at hcfg
  obtain ⟨c1, c2, c3, c4, c5⟩ := hcfg
  obtain ⟨r, hr, -⟩ := deliverReward_frame s1 t pump laser
  refine ⟨r, hr, fun hca hti hoff => ?_, fun hpp hpa hend => ?_,
    fun hca hpp hpa hti hoff htr hst => ?_⟩
  · obtain ⟨r2, hr2, hon, hof⟩ := deliverReward_armed_cue s1 t pump laser (c1.trans hca)
    rw [hr] at hr2
    cases hr2
    rw [hon, hof, c2, toInt32_of_inInt32 _ hti, toInt32_of_inInt32 _ hoff]
    omega
  · subst hpp
    obtain ⟨r2, hr2, -, hen⟩ := deliverReward_armed_pump s1 t laser (c3.trans hpa)
    rw [hr] at hr2
    cases hr2
    rw [hen, c4, toInt32_of_inInt32 _ hend]
    omega
  · subst hpp
    obtain ⟨r2, hr2, hon, hof⟩ := deliverReward_armed_cue s1 t true laser (c1.trans hca)
    obtain ⟨r3, hr3, hst3, -⟩ := deliverReward_armed_pump s1 t laser (c3.trans hpa)
    rw [hr] at hr2 hr3
    cases hr2
    cases hr3
    rw [hst3, hof, c2, c5, toInt32_of_inInt32 _ hti, toInt32_of_inInt32 _ hoff,
      toInt32_of_inInt32 _ htr, toInt32_of_inInt32 _ hst]
    have := htr.1
    omega

/-- C23 (amended) with the durations of the specification, 1600 and 2000,
and trace interval 500, at 1000: the cue window is 1000 to 2600 and the
infusion window 3100 to 5100, in that order. -/
theorem window_invariant_example :
    ∃ r, deliverReward (pumpSetInfusionDuration (csSetDuration armedSession 1600) 2000)
        1000 true true false = some r
      ∧ r.cs.onTimestamp ≤ r.cs.offTimestamp
      ∧ r.pump.infusionStartTimestamp ≤ r.pump.infusionEndTimestamp
      ∧ r.cs.offTimestamp ≤ r.pump.infusionStartTimestamp
      ∧ r.pump.infusionStartTimestamp = 3100 := by
  obtain ⟨r, hr, h1, h2, h3⟩ := window_invariant armedSession 1600 2000 1000 true false
    (by decide) (by decide)
  have hw : (deliverReward (pumpSetInfusionDuration (csSetDuration armedSession 1600) 2000)
      1000 true true false).map (fun r => r.pump.infusionStartTimestamp) = some 3100 := by
    decide
  rw [hr] at hw
  have hst : r.pump.infusionStartTimestamp = 3100 := Option.some.inj hw
  refine ⟨r, hr, h1 (by decide) (by decide) (by decide), h2 rfl (by decide) ?_,
    h3 (by decide) rfl (by decide) (by decide) (by decide) (by decide) (by decide), hst⟩
  rw [hst]
  decide

/-- C23 as stated fails for durations the setters accept and for late times.
With `setDuration(-100)` a reward at 1000 gives the cue window 1000 to 900;
with `setInfusionDuration(-2000)` it gives the infusion window 3100 to 1100;
and with the boot durations a reward at 2147483000 gives the cue the
`offTimestamp` -2147482696, before its `onTimestamp` 2147483000, because
`t + 1600` does not fit an `int32_t`. -/
theorem window_invariant_negative_duration :
    (deliverReward (csSetDuration armedSession (-100)) 1000 true true false).map
        (fun r => (r.cs.onTimestamp, r.cs.offTimestamp)) = some (1000, 900)
      ∧ (deliverReward (pumpSetInfusionDuration armedSession (-2000)) 1000 true true false).map
        (fun r => (r.pump.infusionStartTimestamp, r.pump.infusionEndTimestamp))
          = some (3100, 1100)
      ∧ (deliverReward armedSession 2147483000 true true false).map
        (fun r => (r.cs.onTimestamp, r.cs.offTimestamp)) = some (2147483000, -2147482696) := by
  decide

/-! ## C24: press record -/

/-- What `pressingDataEntry` writes and prints, for every lever and release
time: `releaseTimestamp` becomes the `int32_t` value of the clock (the clock
value itself up to 2147483647), the other members of the lever are kept, and
exactly one line is printed, `orientation + "_LEVER," + pressType +
"_PRESS," + P + "," + R`.  With the offset 0, `P` and `R` are the `int32_t`
timestamps; with another offset they are the differences with
`differenceFromStartTime` computed in `uint32_t`. -/
theorem press_record (s : Session) (now : Nat) (lever : LeverId) :
    (pressingDataEntry s now lever).lever lever
        = { s.lever lever with releaseTimestamp := toInt32 now }
      ∧ (now ≤ 2147483647 →
          ((pressingDataEntry s now lever).lever lever).releaseTimestamp = now)
      ∧ (s.differenceFromStartTime ≠ 0 →
          printedLines (pressingDataEntry s now lever).out = printedLines s.out ++
            [(s.lever lever).orientation ++ "_LEVER," ++ (s.lever lever).pressType ++ "_PRESS,"
              ++ offsetString (s.lever lever).pressTimestamp s.differenceFromStartTime ++ ","
              ++ offsetString (toInt32 now) s.differenceFromStartTime])
      ∧ (s.differenceFromStartTime = 0 →
          printedLines (pressingDataEntry s now lever).out = printedLines s.out ++
            [(s.lever lever).orientation ++ "_LEVER," ++ (s.lever lever).pressType ++ "_PRESS,"
              ++ toString (s.lever lever).pressTimestamp ++ ","
              ++ toString (toInt32 now)]) := by
  have hl : (s.emit (Event.call Fn.pressingDataEntry)).lever lever = s.lever lever := by
    cases lever <;> rfl
  have hle : now ≤ 2147483647 → toInt32 (now : Int) = now := toInt32_of_nat now
  unfold pressingDataEntry
  generalize toInt32 (now : Int) = t at hle ⊢
  simp only [Session.emit_fields, Session.setLever_fields, Session.lever_setLever,
    Lever.setReleaseTimestamp, hl, printedLines_append]
  refine ⟨trivial, hle, fun hd => ?_, fun hd => ?_⟩
  · rw [if_pos hd]
    simp [printedLines, String.append_assoc]
  · have hd' : ¬ s.differenceFromStartTime ≠ 0 := fun h => h hd
    rw [if_neg hd']
    simp [printedLines, String.append_assoc]

/-- The instance of the specification: orientation RH, type ACTIVE, press at
1234, release at 1350, offset 0 give the line
`RH_LEVER,ACTIVE_PRESS,1234,1350`; with the offset 1000 the line is
`RH_LEVER,ACTIVE_PRESS,234,350`. -/
theorem press_record_example :
    ((pressingDataEntry pressedSession 1350 LeverId.RH).lever LeverId.RH).releaseTimestamp
        = 1350
      ∧ printedLines (pressingDataEntry pressedSession 1350 LeverId.RH).out
        = ["RH_LEVER,ACTIVE_PRESS,1234,1350"]
      ∧ printedLines
          (pressingDataEntry { pressedSession with differenceFromStartTime := 1000 } 1350
            LeverId.RH).out
        = ["RH_LEVER,ACTIVE_PRESS,234,350"] :=
  ⟨(press_record pressedSession 1350 LeverId.RH).2.1 (by decide),
   ((press_record pressedSession 1350 LeverId.RH).2.2.2 (by decide)).trans (by decide),
   ((press_record { pressedSession with differenceFromStartTime := 1000 } 1350
      LeverId.RH).2.2.1 (by decide)).trans (by decide)⟩

/-- C24 at the failing input: the right lever holds an ACTIVE press committed
at 450, the session start offset is 1000 (the session started after the
press), and the release comes at 1200.  The press timestamp minus the offset
is -550 and the release timestamp minus the offset is 200;
`pressingDataEntry` prints `RH_LEVER,ACTIVE_PRESS,4294966746,200`: the first
field is the difference computed in `uint32_t`, 2^32 - 550.  With the offset
0 the same press and release print the `int32_t` timestamps themselves. -/
theorem press_record_before_session_start :
    ((pressingDataEntry
          { pressedSession with
            differenceFromStartTime := 1000,
            leverRH := { pressedSession.leverRH with pressTimestamp := 450 } }
          1200 LeverId.RH).lever LeverId.RH).releaseTimestamp = 1200
      ∧ printedLines (pressingDataEntry
          { pressedSession with
            differenceFromStartTime := 1000,
            leverRH := { pressedSession.leverRH with pressTimestamp := 450 } }
          1200 LeverId.RH).out = ["RH_LEVER,ACTIVE_PRESS,4294966746,200"]
      ∧ "RH_LEVER,ACTIVE_PRESS," ++ toString ((450 : Int) - 1000) ++ ","
          ++ toString ((1200 : Int) - 1000) = "RH_LEVER,ACTIVE_PRESS,-550,200"
      ∧ printedLines (pressingDataEntry
          { pressedSession with
            leverRH := { pressedSession.leverRH with pressTimestamp := 450 } }
          1200 LeverId.RH).out = ["RH_LEVER,ACTIVE_PRESS,450,1200"] := by
  decide

/-! ## C25: lick spout -/

/-- What one `monitorLicking` poll of an armed lick circuit does.  It changes
no cue, pump, laser, lever, `pressCount` or timeout field.  It commits a
transition only when more than 25 ms (unsigned 32-bit difference) have passed
since the last sampled level change and the sample differs from the stable
level; without a commit only the previous level is written and nothing is
emitted.  A committed transition to HIGH records the touch timestamp and
prints nothing; a committed transition to LOW records the release timestamp
and prints exactly one line `LICK_CIRCUIT,LICK,touch,release`, whose two
fields are the differences with `differenceFromStartTime` computed in
`uint32_t`; with the offset 0 such a field is the clock value itself. -/
theorem lick_spout_machine (s : Session) (now : Nat) (raw : Bool)
    (harmed : s.lickCircuit.armed = true) :
    ((monitorLicking s now raw).cs = s.cs ∧ (monitorLicking s now raw).pump = s.pump
        ∧ (monitorLicking s now raw).laser = s.laser
        ∧ (monitorLicking s now raw).pressCount = s.pressCount
        ∧ (monitorLicking s now raw).leverRH = s.leverRH
        ∧ (monitorLicking s now raw).leverLH = s.leverLH
        ∧ (monitorLicking s now raw).timeoutIntervalStart = s.timeoutIntervalStart
        ∧ (monitorLicking s now raw).timeoutIntervalEnd = s.timeoutIntervalEnd)
      ∧ (¬ (subU32 now (if raw ≠ s.lickCircuit.previousLickState then now
                else s.lickLastDebounceTime) > lickDebounceDelay
              ∧ raw ≠ s.lickCircuit.stableLickState) →
          (monitorLicking s now raw).lickCircuit
              = { s.lickCircuit with previousLickState := raw }
            ∧ (monitorLicking s now raw).out = s.out)
      ∧ (subU32 now (if raw ≠ s.lickCircuit.previousLickState then now
                else s.lickLastDebounceTime) > lickDebounceDelay
              ∧ raw ≠ s.lickCircuit.stableLickState →
          (raw = true →
            (monitorLicking s now raw).lickCircuit
                = { s.lickCircuit with previousLickState := true, stableLickState := true,
                                       lickTimestamp := toInt32 now }
              ∧ printedLines (monitorLicking s now raw).out = printedLines s.out)
          ∧ (raw = false →
            (monitorLicking s now raw).lickCircuit
                = { s.lickCircuit with previousLickState := false, stableLickState := false,
                                       releaseTimestamp := toInt32 now }
              ∧ printedLines (monitorLicking s now raw).out = printedLines s.out ++
                  ["LICK_CIRCUIT,LICK,"
                    ++ offsetString s.lickCircuit.lickTimestamp s.differenceFromStartTime
                    ++ "," ++ offsetString (toInt32 now) s.differenceFromStartTime]))
      ∧ (∀ c : Nat, c < 4294967296 → offsetString (toInt32 c) 0 = toString c) := by
  refine ⟨?_, ?_, ?_, offsetString_zero⟩
  all_goals
    simp only [monitorLicking]
    rw [if_pos harmed]
    generalize toInt32 (now : Int) = t
    have h1 : (if raw ≠ s.lickCircuit.previousLickState
        then s.setLickLastDebounceTime now else s).lickCircuit = s.lickCircuit := by
      split_ifs <;> simp only [Session.setLickLastDebounceTime_fields]
    have h2 : (if raw ≠ s.lickCircuit.previousLickState
        then s.setLickLastDebounceTime now else s).lickLastDebounceTime
          = if raw ≠ s.lickCircuit.previousLickState then now
            else s.lickLastDebounceTime := by
      split_ifs <;> simp only [Session.setLickLastDebounceTime_fields]
    have h3 : (if raw ≠ s.lickCircuit.previousLickState
        then s.setLickLastDebounceTime now else s).out = s.out
        ∧ (if raw ≠ s.lickCircuit.previousLickState
        then s.setLickLastDebounceTime now else s).differenceFromStartTime
          = s.differenceFromStartTime
        ∧ (if raw ≠ s.lickCircuit.previousLickState
        then s.setLickLastDebounceTime now else s).cs = s.cs
        ∧ (if raw ≠ s.lickCircuit.previousLickState
        then s.setLickLastDebounceTime now else s).pump = s.pump
        ∧ (if raw ≠ s.lickCircuit.previousLickState
        then s.setLickLastDebounceTime now else s).laser = s.laser
        ∧ (if raw ≠ s.lickCircuit.previousLickState
        then s.setLickLastDebounceTime now else s).pressCount = s.pressCount
        ∧ (if raw ≠ s.lickCircuit.previousLickState
        then s.setLickLastDebounceTime now else s).leverRH = s.leverRH
        ∧ (if raw ≠ s.lickCircuit.previousLickState
        then s.setLickLastDebounceTime now else s).leverLH = s.leverLH
        ∧ (if raw ≠ s.lickCircuit.previousLickState
        then s.setLickLastDebounceTime now else s).timeoutIntervalStart
          = s.timeoutIntervalStart
        ∧ (if raw ≠ s.lickCircuit.previousLickState
        then s.setLickLastDebounceTime now else s).timeoutIntervalEnd
          = s.timeoutIntervalEnd := by
      split_ifs <;> simp only [Session.setLickLastDebounceTime_fields, and_self]
    generalize (if raw ≠ s.lickCircuit.previousLickState
        then s.setLickLastDebounceTime now else s) = s1 at h1 h2 h3 ⊢
    obtain ⟨h3, h4, h5, h6, h7, h8, h9, h10, h11, h12⟩ := h3
    simp only [← h1] at h2
    simp only [← h1, ← h2, ← h3, ← h4, ← h5, ← h6, ← h7, ← h8, ← h9, ← h10, ← h11, ← h12]
    clear h1 h2 h3 h4 h5 h6 h7 h8 h9 h10 h11 h12 harmed s
  · by_cases ht : subU32 now s1.lickLastDebounceTime > lickDebounceDelay
    · by_cases hs : raw ≠ s1.lickCircuit.stableLickState
      · simp only [if_pos ht, if_pos hs]
        cases raw <;>
          simp only [Bool.false_eq_true, if_false, if_true, Session.setLickCircuit_fields,
            Session.emit_fields, and_self]
      · simp only [if_pos ht, if_neg hs, Session.setLickCircuit_fields, and_self]
    · simp only [if_neg ht, Session.setLickCircuit_fields, and_self]
  · intro hno
    by_cases ht : subU32 now s1.lickLastDebounceTime > lickDebounceDelay
    · have hs : ¬ raw ≠ s1.lickCircuit.stableLickState := fun h => hno ⟨ht, h⟩
      simp only [if_pos ht, if_neg hs, Session.setLickCircuit_fields,
        LickCircuit.setPreviousLickState, and_self]
    · simp only [if_neg ht, Session.setLickCircuit_fields,
        LickCircuit.setPreviousLickState, and_self]
  · intro hyes
    obtain ⟨ht, hs⟩ := hyes
    simp only [if_pos ht, if_pos hs]
    refine ⟨fun hr => ?_, fun hr => ?_⟩
    · subst hr
      simp only [if_true, Session.setLickCircuit_fields, Session.emit_fields,
        LickCircuit.setPreviousLickState, LickCircuit.setLickTouchTimestamp,
        LickCircuit.setStableLickState, printedLines_append, true_and]
      simp [printedLines]
    · subst hr
      simp only [Bool.false_eq_true, if_false, Session.setLickCircuit_fields,
        Session.emit_fields, LickCircuit.setPreviousLickState,
        LickCircuit.setLickReleaseTimestamp, LickCircuit.setStableLickState,
        printedLines_append, lickEntry, true_and]
      simp [printedLines, String.append_assoc]

/-- The session with a touch committed at 100 and the spout LOW since 220:
the poll at 245, 25 ms after the change, commits nothing and prints nothing;
the poll at 250 commits the release and prints `LICK_CIRCUIT,LICK,100,250`;
with the session offset 50 the line is `LICK_CIRCUIT,LICK,50,200`. -/
theorem lick_spout_machine_example :
    (monitorLicking touchedSession 245 false).out = []
      ∧ (monitorLicking touchedSession 250 false).lickCircuit.releaseTimestamp = 250
      ∧ printedLines (monitorLicking touchedSession 250 false).out
          = ["LICK_CIRCUIT,LICK,100,250"]
      ∧ printedLines
          (monitorLicking { touchedSession with differenceFromStartTime := 50 } 250 false).out
          = ["LICK_CIRCUIT,LICK,50,200"] := by
  have h1 := ((lick_spout_machine touchedSession 245 false (by decide)).2.1 (by decide)).2
  have h2 := ((lick_spout_machine touchedSession 250 false (by decide)).2.2.1
    (by decide)).2 rfl
  have h3 := ((lick_spout_machine { touchedSession with differenceFromStartTime := 50 }
    250 false (by decide)).2.2.1 (by decide)).2 rfl
  refine ⟨h1.trans (by decide), ?_, h2.2.trans (by decide), h3.2.trans (by decide)⟩
  rw [h2.1]
  decide

/-- C25 at the failing input: a lick touch was committed at 100, the session
start offset is 150 (the session started after the touch), and the spout has
read LOW since 220.  The poll at 250 commits the release and prints
`LICK_CIRCUIT,LICK,4294967246,100`: the touch timestamp minus the offset is
-50, and the first field is that difference computed in `uint32_t`,
2^32 - 50, not a time relative to the session start. -/
theorem lick_record_before_session_start :
    (monitorLicking { touchedSession with differenceFromStartTime := 150 } 250
        false).lickCircuit.releaseTimestamp = 250
      ∧ printedLines
          (monitorLicking { touchedSession with differenceFromStartTime := 150 } 250 false).out
          = ["LICK_CIRCUIT,LICK,4294967246,100"]
      ∧ "LICK_CIRCUIT,LICK," ++ toString ((100 : Int) - 150) ++ ","
          ++ toString ((250 : Int) - 150) = "LICK_CIRCUIT,LICK,-50,100" := by
  decide

/-! ## C26: laser tick gate -/

/-- Claim C26. Laser tick gated on armed and running: when the laser is
unarmed or `programIsRunning` is false, `manageStim` returns the session it
was given: no laser field changes (window, `cycleUp`, half-cycle, state,
action, `logged`), nothing is printed and the pin is not written. -/
theorem manageStim_gated (s : Session) (now : Nat)
    (h : s.laser.armed = false ∨ s.programIsRunning = false) :
    manageStim s now = some s
      ∧ ∀ r, manageStim s now = some r →
          r.laser = s.laser ∧ printedLines r.out = printedLines s.out ∧ r.out = s.out := by
  have hgate : (s.laser.armed && s.programIsRunning) = false := by
    rcases h with h | h <;> simp [h]
  have hrun : manageStim s now = some s := by
    simp only [manageStim, hgate, Bool.false_eq_true, if_false]
  refine ⟨hrun, fun r hr => ?_⟩
  rw [hrun] at hr
  cases hr
  exact ⟨rfl, rfl, rfl⟩

/-- C26 on the cycle session with the laser disarmed, and on the cycle
session with the program stopped, at 9000: the session is returned as it
was. -/
theorem manageStim_gated_example :
    manageStim (cycleSession.setLaser { cycleSession.laser with armed := false }) 9000
        = some (cycleSession.setLaser { cycleSession.laser with armed := false })
      ∧ manageStim { cycleSession with programIsRunning := false } 9000
        = some { cycleSession with programIsRunning := false } :=
  ⟨(manageStim_gated _ 9000 (Or.inl (by decide))).1,
   (manageStim_gated _ 9000 (Or.inr (by decide))).1⟩

/-! ## C27: continuous stimulation -/

/-- Claim C27. Continuous stimulation at 1 Hz: every `stim` tick at a time
inside the stimulation window with `cycleUp` true and `frequency = 1`
returns with `laserState = ACTIVE` and `laserAction = ON`, whatever the
previous action and half-cycle bounds were; the pin is written HIGH, the
half-cycle bounds are unchanged and nothing is printed. -/
theorem stim_continuous (s : Session) (t : Nat)
    (hin : (inStimPeriod s t && s.laser.cycleUp) = true) (hf : s.laser.frequency = 1) :
    ∃ r, stim s t = some r
      ∧ r.laser.laserState = STATE.ACTIVE ∧ r.laser.laserAction = ACTION.ON
      ∧ r.laser.halfCycleStart = s.laser.halfCycleStart
      ∧ r.laser.halfCycleEnd = s.laser.halfCycleEnd
      ∧ r.out = s.out ++ [Event.digitalWrite s.laser.pin true]
      ∧ printedLines r.out = printedLines s.out := by
  simp only [stim, hin, if_true, Session.setLaser_fields, Laser.setStimState,
    Laser.setStimLogged, Laser.setStimAction, hf, Option.map_some']
  refine ⟨_, rfl, ?_, ?_, ?_, ?_, ?_, ?_⟩
  · simp only [manageLaser_fields, Session.setLaser_fields]
  · simp only [manageLaser_fields, Session.setLaser_fields]
  · simp only [manageLaser_fields, Session.setLaser_fields]
  · simp only [manageLaser_fields, Session.setLaser_fields]
  · simp only [manageLaser_out, Session.setLaser_fields, and_self, decide_True]
  · simp only [manageLaser_printed, Session.setLaser_fields]

/-- C27 on the oscillation session set to 1 Hz, at 7500, with the action
OFF and a half-cycle 0 to 0 before the tick. -/
theorem stim_continuous_example :
    ∃ r, stim (oscillationSession.setLaser (oscillationSession.laser.setFrequency 1)) 7500
        = some r
      ∧ r.laser.laserState = STATE.ACTIVE ∧ r.laser.laserAction = ACTION.ON
      ∧ r.laser.halfCycleStart = 0 ∧ r.laser.halfCycleEnd = 0
      ∧ r.out = [Event.digitalWrite 6 true] := by
  obtain ⟨r, hr, h1, h2, h3, h4, h5, -⟩ :=
    stim_continuous (oscillationSession.setLaser (oscillationSession.laser.setFrequency 1))
      7500 (by decide) (by decide)
  exact ⟨r, hr, h1, h2, h3.trans (by decide), h4.trans (by decide), h5.trans (by decide)⟩

/-! ## C28: physical laser output -/

/-- Claim C28. Physical laser output: `manageLaser` writes the pin exactly
once, HIGH if and only if `laserAction = ON` and `laserState = ACTIVE`, and
LOW in the other three combinations; it changes no laser field. -/
theorem manageLaser_pin_level (s : Session) :
    (∃ level, (manageLaser s).out = s.out ++ [Event.digitalWrite s.laser.pin level]
        ∧ (level = true ↔ s.laser.laserAction = ACTION.ON ∧ s.laser.laserState = STATE.ACTIVE))
      ∧ (s.laser.laserAction = ACTION.ON → s.laser.laserState = STATE.ACTIVE →
          (manageLaser s).out = s.out ++ [Event.digitalWrite s.laser.pin true])
      ∧ (s.laser.laserAction = ACTION.ON → s.laser.laserState = STATE.INACTIVE →
          (manageLaser s).out = s.out ++ [Event.digitalWrite s.laser.pin false])
      ∧ (s.laser.laserAction = ACTION.OFF → s.laser.laserState = STATE.ACTIVE →
          (manageLaser s).out = s.out ++ [Event.digitalWrite s.laser.pin false])
      ∧ (s.laser.laserAction = ACTION.OFF → s.laser.laserState = STATE.INACTIVE →
          (manageLaser s).out = s.out ++ [Event.digitalWrite s.laser.pin false])
      ∧ (manageLaser s).laser = s.laser := by
  refine ⟨⟨_, manageLaser_out s, ?_⟩, ?_, ?_, ?_, ?_, (manageLaser_fields s).1⟩
  · simp only [decide_eq_true_eq]
    exact and_comm
  all_goals
    intro ha hs
    rw [manageLaser_out, ha, hs]
    rfl

/-- C28 on the four combinations of action and state of the boot laser (pin
6): HIGH only for ON and ACTIVE. -/
theorem manageLaser_pin_level_example :
    (manageLaser (bootSession.setLaser
        { bootSession.laser with laserAction := ACTION.ON, laserState := STATE.ACTIVE })).out
        = [Event.digitalWrite 6 true]
      ∧ (manageLaser (bootSession.setLaser
        { bootSession.laser with laserAction := ACTION.ON, laserState := STATE.INACTIVE })).out
        = [Event.digitalWrite 6 false]
      ∧ (manageLaser (bootSession.setLaser
        { bootSession.laser with laserAction := ACTION.OFF, laserState := STATE.ACTIVE })).out
        = [Event.digitalWrite 6 false]
      ∧ (manageLaser (bootSession.setLaser
        { bootSession.laser with laserAction := ACTION.OFF, laserState := STATE.INACTIVE })).out
        = [Event.digitalWrite 6 false] :=
  ⟨(manageLaser_pin_level _).2.1 rfl rfl, (manageLaser_pin_level _).2.2.1 rfl rfl,
   (manageLaser_pin_level _).2.2.2.1 rfl rfl, (manageLaser_pin_level _).2.2.2.2.1 rfl rfl⟩

/-! ## C29: VI interval reset -/

/-- Claim C29. VI interval reset: on every VI lever on which
`setActivePressOccurred(true)` was called, `getActivePressOccurred()` is
still true after any sequence of calls of the other setters
(`setPreviousLeverState`, `setStableLeverState`, `setPressTimestamp`,
`setReleaseTimestamp`, `setOrientation`, `setPressType`, `arm`, `disarm`);
after `resetInterval()` at time `now`, `activePressOccurred = false`,
`intervalStartTime = now` and `randomInterval` is the value drawn by
`random(0, 15000)`, the generator's value modulo 15000, so
`0 ≤ randomInterval < 15000`; the other members are kept. -/
theorem vi_interval_reset (l : VI.Lever) (cs : List VI.Setter) (now raw : Nat) :
    ((l.setActivePressOccurred true).calls cs).activePressOccurred = true
      ∧ (((l.setActivePressOccurred true).calls cs).resetInterval now raw).activePressOccurred
          = false
      ∧ (((l.setActivePressOccurred true).calls cs).resetInterval now raw).intervalStartTime
          = now
      ∧ (((l.setActivePressOccurred true).calls cs).resetInterval now raw).randomInterval
          = raw % 15000
      ∧ (((l.setActivePressOccurred true).calls cs).resetInterval now raw).randomInterval
          < 15000
      ∧ ((l.setActivePressOccurred true).calls cs).resetInterval now raw
          = { (l.setActivePressOccurred true).calls cs with
              intervalStartTime := now, randomInterval := raw % 15000,
              activePressOccurred := false } := by
  have hr := VI.arduinoRandom_interval raw
  refine ⟨?_, rfl, rfl, hr, ?_, ?_⟩
  · rw [(VI.Lever.calls_interval cs _).1]
    rfl
  · show toUInt32 (VI.arduinoRandom raw 0 15000) < 15000
    rw [hr]
    exact Nat.mod_lt _ (by decide)
  · show ({ (l.setActivePressOccurred true).calls cs with
        intervalStartTime := now, randomInterval := toUInt32 (VI.arduinoRandom raw 0 15000),
        activePressOccurred := false } : VI.Lever) = _
    rw [hr]

/-- C29 on a lever at pin 10 after a qualifying press: the flag survives a
release being recorded, a retyping and a disarm, and `resetInterval` at
20000 with the generator value 1000003 clears it and draws the interval
10003. -/
theorem vi_interval_reset_example :
    ((((VI.Lever.init 10).setActivePressOccurred true).calls
        [VI.Setter.setReleaseTimestamp 1350, VI.Setter.setPressType "ACTIVE",
         VI.Setter.disarm]).activePressOccurred = true)
      ∧ ((((VI.Lever.init 10).setActivePressOccurred true).calls
        [VI.Setter.setReleaseTimestamp 1350, VI.Setter.setPressType "ACTIVE",
         VI.Setter.disarm]).resetInterval 20000 1000003).activePressOccurred = false
      ∧ ((((VI.Lever.init 10).setActivePressOccurred true).calls
        [VI.Setter.setReleaseTimestamp 1350, VI.Setter.setPressType "ACTIVE",
         VI.Setter.disarm]).resetInterval 20000 1000003).intervalStartTime = 20000
      ∧ ((((VI.Lever.init 10).setActivePressOccurred true).calls
        [VI.Setter.setReleaseTimestamp 1350, VI.Setter.setPressType "ACTIVE",
         VI.Setter.disarm]).resetInterval 20000 1000003).randomInterval = 10003 := by
  obtain ⟨h1, h2, h3, h4, -, -⟩ := vi_interval_reset (VI.Lever.init 10)
    [VI.Setter.setReleaseTimestamp 1350, VI.Setter.setPressType "ACTIVE", VI.Setter.disarm]
    20000 1000003
  exact ⟨h1, h2, h3, h4.trans (by decide)⟩

/-! ## Frame signal: the reads of the timestamp along a schedule -/

/-- The reads along a schedule extended by one action. -/
theorem Frame.reads_concat (schedule : List Frame.Action) (s : Frame.State) (a : Frame.Action) :
    Frame.reads s (schedule ++ [a])
      = Frame.reads s schedule ++ Frame.readAt (Frame.run s schedule) a := by
  induction schedule generalizing s with
  | nil => simp [Frame.reads, Frame.run]
  | cons b rest ih =>
    show Frame.readAt s b ++ Frame.reads (Frame.step s b) (rest ++ [a])
      = (Frame.readAt s b ++ Frame.reads (Frame.step s b) rest)
          ++ Frame.readAt (Frame.run (Frame.step s b) rest) a
    rw [ih, List.append_assoc]

/-- The run of a schedule extended by one action. -/
theorem Frame.run_concat (schedule : List Frame.Action) (s : Frame.State) (a : Frame.Action) :
    Frame.run s (schedule ++ [a]) = Frame.step (Frame.run s schedule) a := by
  simp [Frame.run, List.foldl_append]

/-- A prefix of the signals stored stays one when a signal is added. -/
theorem prefix_concat {l sigs : List Nat} (v : Nat) (h : List.IsPrefix l sigs) :
    List.IsPrefix l (sigs ++ [v]) :=
  h.trans (List.prefix_append sigs [v])

/-- A run of the service routine keeps the account of the reads. -/
theorem Frame.accounted_isr (s : Frame.State) (R : List (List Nat × Nat)) (now : Nat)
    (h : Frame.Accounted s R) (hpc : s.pc ≠ Frame.Pc.readTimestamp) :
    Frame.Accounted (Frame.frameSignalISR s now) R := by
  obtain ⟨flag, ts, cf, diff, en, pend, pc, out, acc, sigs, logged⟩ := s
  dsimp only [Frame.Accounted, Frame.Waiting, Frame.frameSignalISR] at h hpc ⊢
  obtain ⟨k1, k2, k3, -, -⟩ := h
  refine ⟨k1, fun p hp => ⟨prefix_concat _ (k2 p hp).1, (k2 p hp).2⟩, k3, fun _ p hp => ?_,
    fun hw => absurd (Or.inl rfl) hw⟩
  have hle := (k2 p hp).1.length_le
  rw [List.length_append, List.length_singleton]
  omega

/-- One statement of the main loop keeps the account of the reads, the read
of the timestamp being added to it. -/
theorem Frame.accounted_mainStep (s : Frame.State) (R : List (List Nat × Nat)) (now : Nat)
    (hc : Frame.Consistent s) (h : Frame.Accounted s R) :
    Frame.Accounted (Frame.mainStep s now) (R ++ Frame.readAt s (Frame.Action.main now)) := by
  obtain ⟨flag, ts, cf, diff, en, pend, pc, out, acc, sigs, logged⟩ := s
  cases pc <;>
    dsimp only [Frame.Consistent, Frame.Flagged, Frame.Quiet] at hc <;>
    dsimp only [Frame.Accounted, Frame.Waiting, Frame.mainStep, Frame.readAt,
      Frame.inFlight] at h ⊢ <;>
    obtain ⟨-, -, -, c4⟩ := hc <;>
    obtain ⟨k1, k2, k3, k4, k5⟩ := h <;>
    (try simp only [List.append_nil] at k1)
  · -- `if (collectFrames)`
    cases cf
    · rw [if_neg (by decide)]
      simp only [List.append_nil]
      exact ⟨k1, k2, k3, k4, k5⟩
    · rw [if_pos rfl]
      simp only [List.append_nil]
      refine ⟨k1, k2, k3, fun hw => k4 ?_, fun hw => k5 ?_⟩
      · rcases hw with hw | hw
        · exact Or.inl hw
        · cases hw
      · intro hw2
        rcases hw2 with hw2 | hw2
        · exact hw (Or.inl hw2)
        · cases hw2
  · -- `if (frameSignalReceived)`
    cases flag
    · rw [if_neg (by decide)]
      simp only [List.append_nil]
      refine ⟨k1, k2, k3, fun hw => k4 ?_, fun hw => k5 ?_⟩
      · rcases hw with hw | hw
        · exact Or.inl hw
        · cases hw
      · intro hw2
        rcases hw2 with hw2 | hw2
        · exact hw (Or.inl hw2)
        · cases hw2
    · rw [if_pos rfl]
      simp only [List.append_nil]
      refine ⟨k1, k2, k3, fun _ => k4 (Or.inl rfl), fun hw => absurd (Or.inl trivial) hw⟩
  · -- `noInterrupts()`
    simp only [List.append_nil]
    refine ⟨k1, k2, k3, fun hw => k4 ?_, fun hw => k5 ?_⟩
    · rcases hw with hw | hw
      · exact Or.inl hw
      · cases hw
    · intro hw2
      rcases hw2 with hw2 | hw2
      · exact hw (Or.inl hw2)
      · cases hw2
  · -- `frameSignalReceived = false`
    obtain ⟨-, c6, -⟩ := c4
    subst c6
    simp only [List.append_nil]
    exact ⟨k1, k2, k3, fun _ => k4 (Or.inl rfl), fun hw => absurd (Or.inr trivial) hw⟩
  · -- `timestamp = frameSignalTimestamp`
    obtain ⟨-, c6, c7, -⟩ := c4
    subst c6
    have hlt := k4 (Or.inr rfl)
    have hne : sigs ≠ [] := by
      intro he
      rw [he] at c7
      cases c7
    refine ⟨?_, ?_, ?_, ?_, ?_⟩
    · rw [List.map_append, ← k1]
      simp
    · intro p hp
      rcases List.mem_append.mp hp with hp | hp
      · exact k2 p hp
      · rw [List.mem_singleton.mp hp]
        exact ⟨List.prefix_refl _, c7⟩
    · rw [List.pairwise_append]
      refine ⟨k3, List.pairwise_singleton _ _, fun a ha b hb => ?_⟩
      rw [List.mem_singleton.mp hb]
      exact hlt a ha
    · intro hw
      rcases hw with hw | hw
      · cases hw
      · cases hw
    · intro _ _
      exact ⟨(sigs, ts), List.mem_append.mpr (Or.inr (List.mem_singleton.mpr rfl)), rfl⟩
  · -- `interrupts()`
    rename_i read
    obtain ⟨-, c6, -, -⟩ := c4
    subst c6
    have hnw : ¬ (false = true ∨ Frame.Pc.enable read = Frame.Pc.readTimestamp) := by
      intro hw
      rcases hw with hw | hw
      · cases hw
      · cases hw
    cases pend
    · rw [if_neg (by decide)]
      simp only [List.append_nil]
      refine ⟨k1, k2, k3, fun hw => ?_, fun _ => k5 hnw⟩
      rcases hw with hw | hw
      · cases hw
      · cases hw
    · rw [if_pos rfl]
      dsimp only [Frame.frameSignalISR]
      simp only [List.append_nil]
      refine ⟨k1, fun p hp => ⟨prefix_concat _ (k2 p hp).1, (k2 p hp).2⟩, k3,
        fun _ p hp => ?_, fun hw => absurd (Or.inl trivial) hw⟩
      have hle := (k2 p hp).1.length_le
      rw [List.length_append, List.length_singleton]
      omega
  · -- `Serial.println(...)`
    rename_i read
    simp only [List.append_nil]
    refine ⟨k1, k2, k3, fun hw => k4 ?_, fun hw => k5 ?_⟩
    · rcases hw with hw | hw
      · exact Or.inl hw
      · cases hw
    · intro hw2
      rcases hw2 with hw2 | hw2
      · exact hw (Or.inl hw2)
      · cases hw2

/-- Every action of a schedule keeps the account of the reads. -/
theorem Frame.accounted_step (s : Frame.State) (R : List (List Nat × Nat)) (a : Frame.Action)
    (hc : Frame.Consistent s) (h : Frame.Accounted s R) :
    Frame.Accounted (Frame.step s a) (R ++ Frame.readAt s a) := by
  cases a with
  | main now => exact Frame.accounted_mainStep s R now hc h
  | irq now =>
    have hread : Frame.readAt s (Frame.Action.irq now) = [] := rfl
    rw [hread, List.append_nil]
    dsimp only [Frame.step]
    cases he : s.interruptsEnabled
    · rw [if_neg (by decide)]
      exact h
    · rw [if_pos rfl]
      refine Frame.accounted_isr s R now h ?_
      intro hpc
      obtain ⟨flag, ts, cf, diff, en, pend, pc, out, acc, sigs, logged⟩ := s
      dsimp only at hpc he
      subst hpc
      subst he
      dsimp only [Frame.Consistent] at hc
      exact absurd hc.2.2.2.1 (by decide)

/-- Along every schedule from boot the reads are accounted for. -/
theorem Frame.accounted_run (c : Bool) (d : Nat) (schedule : List Frame.Action) :
    Frame.Accounted (Frame.run (Frame.init c d) schedule)
      (Frame.reads (Frame.init c d) schedule) := by
  induction schedule using List.reverseRecOn with
  | nil =>
    refine ⟨rfl, fun p hp => ?_, List.Pairwise.nil, fun _ p hp => ?_, fun _ hne => ?_⟩
    · cases hp
    · cases hp
    · exact absurd rfl hne
  | append_singleton rest a ih =>
    rw [Frame.run_concat, Frame.reads_concat]
    exact Frame.accounted_step _ _ a
      (Frame.consistent_run rest (Frame.init c d) (Frame.consistent_init c d)) ih

/-- A value the handler has read is printed by its next two statements at the
latest, whatever the state and the clock. -/
theorem Frame.inFlight_printed (s : Frame.State) (v : Nat) (hv : v ∈ Frame.inFlight s.pc)
    (n1 n2 : Nat) :
    (Frame.run s [Frame.Action.main n1, Frame.Action.main n2]).logged = s.logged ++ [v]
      ∧ (Frame.run s [Frame.Action.main n1, Frame.Action.main n2]).out
          = s.out ++ [Frame.frameRecord v] := by
  obtain ⟨flag, ts, cf, diff, en, pend, pc, out, acc, sigs, logged⟩ := s
  cases pc <;> dsimp only [Frame.inFlight] at hv
  · cases hv
  · cases hv
  · cases hv
  · cases hv
  · cases hv
  · rw [List.mem_singleton.mp hv]
    cases pend <;> exact ⟨rfl, rfl⟩
  · rw [List.mem_singleton.mp hv]
    cases cf <;> exact ⟨rfl, rfl⟩

/-! ## C30: frame-sync flag -/

/-- Claim C30 (amended). Frame-sync flag: in `handleFrameSignal` the write
that clears `frameSignalReceived` and the read of `frameSignalTimestamp`
happen between `noInterrupts()` and `interrupts()`, and the test of
`frameSignalReceived` happens before `noInterrupts()`, with interrupts
enabled.  For every schedule of interrupt requests and main-loop statements
from boot: a main-loop access is made with interrupts disabled exactly when
it is the clearing write or the timestamp read; every record printed is the
record of a value read from `frameSignalTimestamp`; these values are a
sublist of the timestamps the runs of `frameSignalISR` stored (each record
carries the timestamp of a signal, no signal is logged twice, the order is
kept); and whenever the handler is idle with the flag clear, the latest
signal is the latest one logged.  No value read is dropped: the values read
along the schedule are, in order, the values logged followed by the one the
handler has read and not printed yet, and that one is printed by the next
two statements of the handler, whatever the clock.  Every read took the
timestamp of the latest signal stored at its moment, and later reads saw
more signals.  And a signal is not read only when it is overwritten first:
the latest signal stored has been read, with its own timestamp, unless the
flag is still set or the handler is about to read; so a signal that is never
read is one that a later run of `frameSignalISR` overwrote before the
handler read the timestamp. -/
theorem frame_signal_critical_section (c : Bool) (d : Nat) (schedule : List Frame.Action) :
    (∀ a ∈ (Frame.run (Frame.init c d) schedule).accesses,
        a.guarded = true ↔ (a.write = true ∨ a.var = Frame.Shared.frameSignalTimestamp))
      ∧ (Frame.run (Frame.init c d) schedule).out
          = (Frame.run (Frame.init c d) schedule).logged.map Frame.frameRecord
      ∧ List.Sublist (Frame.run (Frame.init c d) schedule).logged
          (Frame.run (Frame.init c d) schedule).signals
      ∧ ((Frame.run (Frame.init c d) schedule).pc = Frame.Pc.idle →
          (Frame.run (Frame.init c d) schedule).frameSignalReceived = false →
          (Frame.run (Frame.init c d) schedule).logged.getLast?
            = (Frame.run (Frame.init c d) schedule).signals.getLast?)
      ∧ (Frame.run (Frame.init c d) schedule).logged
            ++ Frame.inFlight (Frame.run (Frame.init c d) schedule).pc
          = (Frame.reads (Frame.init c d) schedule).map Prod.snd
      ∧ (∀ v ∈ Frame.inFlight (Frame.run (Frame.init c d) schedule).pc, ∀ n1 n2 : Nat,
          (Frame.run (Frame.init c d)
              (schedule ++ [Frame.Action.main n1, Frame.Action.main n2])).out
            = (Frame.run (Frame.init c d) schedule).out ++ [Frame.frameRecord v])
      ∧ (∀ p ∈ Frame.reads (Frame.init c d) schedule,
          List.IsPrefix p.1 (Frame.run (Frame.init c d) schedule).signals
            ∧ p.1.getLast? = some p.2)
      ∧ List.Pairwise (fun a b => a.1.length < b.1.length) (Frame.reads (Frame.init c d) schedule)
      ∧ (∀ (earlier : List Nat) (t : Nat),
          (Frame.run (Frame.init c d) schedule).signals = earlier ++ [t] →
          (Frame.run (Frame.init c d) schedule).frameSignalReceived = false →
          (Frame.run (Frame.init c d) schedule).pc ≠ Frame.Pc.readTimestamp →
          (earlier ++ [t], t) ∈ Frame.reads (Frame.init c d) schedule) := by
  have h := Frame.consistent_run schedule (Frame.init c d) (Frame.consistent_init c d)
  have hsub := Frame.logged_sublist _ h
  have hacc := Frame.accounted_run c d schedule
  have hrun : ∀ n1 n2 : Nat,
      Frame.run (Frame.init c d) (schedule ++ [Frame.Action.main n1, Frame.Action.main n2])
        = Frame.run (Frame.run (Frame.init c d) schedule)
            [Frame.Action.main n1, Frame.Action.main n2] := fun n1 n2 =>
    List.foldl_append _ _ _ _
  have hfl := Frame.inFlight_printed (Frame.run (Frame.init c d) schedule)
  generalize Frame.reads (Frame.init c d) schedule = R at hacc
  simp only [hrun]
  generalize Frame.run (Frame.init c d) schedule = r at h hsub hacc hfl
  obtain ⟨k1, k2, k3, -, k5⟩ := hacc
  refine ⟨fun a ha => ?_, h.1, hsub, fun hpc hflag => ?_, k1,
    fun v hv n1 n2 => (hfl v hv n1 n2).2, k2, k3, fun earlier t hs hflag hpc => ?_⟩
  · rw [h.2.2.1 a ha]
    simp
  · obtain ⟨flag, ts, cf, diff, en, pend, pc, out, acc, sigs, logged⟩ := r
    dsimp only at hpc hflag
    subst hpc
    subst hflag
    dsimp only [Frame.Consistent, Frame.Quiet] at h
    have h4 := h.2.2.2.2
    rw [if_neg (by decide)] at h4
    exact h4.2
  · have hnw : ¬ Frame.Waiting r := by
      intro hw
      rcases hw with hw | hw
      · rw [hflag] at hw
        cases hw
      · exact hpc hw
    have hne : r.signals ≠ [] := by
      rw [hs]
      exact List.append_ne_nil_of_right_ne_nil _ (List.cons_ne_nil _ _)
    obtain ⟨p, hp, hp1⟩ := k5 hnw hne
    have hp2 := (k2 p hp).2
    rw [hp1, hs, List.getLast?_concat] at hp2
    have hpe : p = (earlier ++ [t], t) := by
      obtain ⟨p1, p2⟩ := p
      dsimp only at hp1 hp2
      rw [hp1, hs]
      cases hp2
      rfl
    rw [← hpe]
    exact hp

/-- C30 (amended) on a schedule with one frame signal per handler call, the
second one arriving inside the critical section of the first call: both are
logged, in order. -/
theorem frame_signal_critical_section_example :
    (Frame.run (Frame.init true 0)
        [Frame.Action.irq 1000, Frame.Action.main 1001, Frame.Action.main 1001,
         Frame.Action.main 1001, Frame.Action.main 1001, Frame.Action.irq 1002,
         Frame.Action.main 1003, Frame.Action.main 1003, Frame.Action.main 1004,
         Frame.Action.main 1005, Frame.Action.main 1005, Frame.Action.main 1005,
         Frame.Action.main 1005, Frame.Action.main 1005, Frame.Action.main 1005,
         Frame.Action.main 1006]).out
        = ["FRAME_TIMESTAMP,1000", "FRAME_TIMESTAMP,1003"]
      ∧ (Frame.run (Frame.init true 0)
        [Frame.Action.irq 1000, Frame.Action.main 1001, Frame.Action.main 1001,
         Frame.Action.main 1001, Frame.Action.main 1001, Frame.Action.irq 1002,
         Frame.Action.main 1003, Frame.Action.main 1003, Frame.Action.main 1004,
         Frame.Action.main 1005, Frame.Action.main 1005, Frame.Action.main 1005,
         Frame.Action.main 1005, Frame.Action.main 1005, Frame.Action.main 1005,
         Frame.Action.main 1006]).signals = [1000, 1003] := by
  have h := frame_signal_critical_section true 0
    [Frame.Action.irq 1000, Frame.Action.main 1001, Frame.Action.main 1001,
     Frame.Action.main 1001, Frame.Action.main 1001, Frame.Action.irq 1002,
     Frame.Action.main 1003, Frame.Action.main 1003, Frame.Action.main 1004,
     Frame.Action.main 1005, Frame.Action.main 1005, Frame.Action.main 1005,
     Frame.Action.main 1005, Frame.Action.main 1005, Frame.Action.main 1005,
     Frame.Action.main 1006]
  exact ⟨h.2.1.trans (by decide), by decide⟩

/-- C30 as stated fails in both parts.  After a frame signal at 1000, the
first two statements of `handleFrameSignal` make one access to the shared
state, the read of `frameSignalReceived` in the `if`, and it is made with
interrupts enabled, before `noInterrupts()`.  And when two frame signals, at
1000 and at 1033, arrive before the handler reads the timestamp, whether both
before the call or the second one between the test and `noInterrupts()`, the
seven statements of the handler print the single record
`FRAME_TIMESTAMP,1033`: the signal at 1000 is lost. -/
theorem frame_signal_test_unguarded_and_signal_lost :
    (Frame.run (Frame.init true 0)
        [Frame.Action.irq 1000, Frame.Action.main 1001, Frame.Action.main 1001]).accesses
        = [Frame.Access.mk Frame.Shared.frameSignalReceived false false]
      ∧ (Frame.run (Frame.init true 0)
        [Frame.Action.irq 1000, Frame.Action.irq 1033, Frame.Action.main 1034,
         Frame.Action.main 1034, Frame.Action.main 1034, Frame.Action.main 1034,
         Frame.Action.main 1034, Frame.Action.main 1034, Frame.Action.main 1034]).signals
        = [1000, 1033]
      ∧ (Frame.run (Frame.init true 0)
        [Frame.Action.irq 1000, Frame.Action.irq 1033, Frame.Action.main 1034,
         Frame.Action.main 1034, Frame.Action.main 1034, Frame.Action.main 1034,
         Frame.Action.main 1034, Frame.Action.main 1034, Frame.Action.main 1034]).out
        = ["FRAME_TIMESTAMP,1033"]
      ∧ (Frame.run (Frame.init true 0)
        [Frame.Action.irq 1000, Frame.Action.main 1032, Frame.Action.main 1032,
         Frame.Action.irq 1033, Frame.Action.main 1034, Frame.Action.main 1034,
         Frame.Action.main 1034, Frame.Action.main 1034, Frame.Action.main 1034]).out
        = ["FRAME_TIMESTAMP,1033"] := by
  decide

/-! ## Press handling, outcomes and rewards: lemmas -/

/-- The four outcomes of a `definePressActivity` call: INACTIVE without an
armed cue; TIMEOUT inside the disqualifying window; ACTIVE with the counter
incremented; ACTIVE with the counter reset, the reward delivered and the
timeout window advanced. -/
theorem definePressActivity_cases (s : Session) (now : Nat) (programRunning : Bool)
    (lever : LeverId) (cue pump laser : Bool) :
    ∃ r, definePressActivity s now programRunning lever cue pump laser = some r
      ∧ (((cue && s.cs.armed) = false
            ∧ r = setPressType (s.emit (Event.call Fn.definePressActivity)) lever "INACTIVE")
        ∨ ((cue && s.cs.armed) = true
            ∧ ((decide (toInt32 now ≥ s.cs.onTimestamp)
                  && decide (toInt32 now ≤
                      (if pump && s.pump.armed then s.pump.infusionEndTimestamp
                       else s.cs.offTimestamp)))
                || inTimeoutInterval s (toInt32 now)) = true
            ∧ r = setPressType (s.emit (Event.call Fn.definePressActivity)) lever "TIMEOUT")
        ∨ ((cue && s.cs.armed) = true
            ∧ ((decide (toInt32 now ≥ s.cs.onTimestamp)
                  && decide (toInt32 now ≤
                      (if pump && s.pump.armed then s.pump.infusionEndTimestamp
                       else s.cs.offTimestamp)))
                || inTimeoutInterval s (toInt32 now)) = false
            ∧ s.pressCount ≠ toInt32 (s.fRatio - 1)
            ∧ r = (setPressType (s.emit (Event.call Fn.definePressActivity)) lever
                    "ACTIVE").setPressCount (toInt32 (s.pressCount + 1)))
        ∨ ((cue && s.cs.armed) = true
            ∧ ((decide (toInt32 now ≥ s.cs.onTimestamp)
                  && decide (toInt32 now ≤
                      (if pump && s.pump.armed then s.pump.infusionEndTimestamp
                       else s.cs.offTimestamp)))
                || inTimeoutInterval s (toInt32 now)) = false
            ∧ s.pressCount = toInt32 (s.fRatio - 1)
            ∧ ∃ d, deliverReward
                  ((setPressType (s.emit (Event.call Fn.definePressActivity)) lever
                    "ACTIVE").setPressCount 0) now true pump laser = some d
                ∧ r = advanceTimeout
                    (if (pump && s.pump.armed) = true then
                      d.emit (Event.println (infusionEntry d)) else d)
                    programRunning)) := by
  have hin : ∀ x, inTimeoutInterval (s.emit (Event.call Fn.definePressActivity)) x
      = inTimeoutInterval s x := fun _ => rfl
  cases hc : (cue && s.cs.armed)
  · refine ⟨_, ?_, Or.inl ⟨rfl, rfl⟩⟩
    simp only [definePressActivity, Session.emit_fields, hc, Bool.false_and,
      Bool.false_eq_true, if_false]
  · have hcue : cue = true := by
      cases cue
      · simp at hc
      · rfl
    subst hcue
    obtain ⟨d, hd, -⟩ := deliverReward_frame
      ((setPressType (s.emit (Event.call Fn.definePressActivity)) lever
        "ACTIVE").setPressCount 0) now pump laser
    cases hp : (pump && s.pump.armed)
    · have hnp : (!pump || !s.pump.armed) = true := by
        cases pump <;> simp_all
      simp only [definePressActivity, Session.emit_fields, hc, hnp, hp, hin,
        Bool.true_and, Bool.and_self, Bool.false_eq_true, if_false, if_true]
      generalize toInt32 (now : Int) = t
      cases ht : ((decide (t ≥ s.cs.onTimestamp) && decide (t ≤ s.cs.offTimestamp))
          || inTimeoutInterval s t)
      · simp only [Bool.false_eq_true, if_false, countActivePress, setPressType_fields,
          Session.emit_fields]
        by_cases hk : s.pressCount = toInt32 (s.fRatio - 1)
        · simp only [if_pos hk, hd, Option.map_some']
          exact ⟨_, rfl, Or.inr (Or.inr (Or.inr ⟨trivial, trivial, hk, d, rfl, rfl⟩))⟩
        · simp only [if_neg hk]
          exact ⟨_, rfl, Or.inr (Or.inr (Or.inl ⟨trivial, trivial, hk, rfl⟩))⟩
      · simp only [if_true]
        exact ⟨_, rfl, Or.inr (Or.inl ⟨trivial, trivial, rfl⟩)⟩
    · have hnp : (!pump || !s.pump.armed) = false := by
        cases pump <;> simp_all
      simp only [definePressActivity, Session.emit_fields, hc, hnp, hp, hin,
        Bool.true_and, Bool.and_self, Bool.and_false, Bool.false_eq_true, if_false, if_true]
      generalize toInt32 (now : Int) = t
      cases ht : ((decide (t ≥ s.cs.onTimestamp)
            && decide (t ≤ s.pump.infusionEndTimestamp))
          || inTimeoutInterval s t)
      · simp only [Bool.false_eq_true, if_false, countActivePress, setPressType_fields,
          Session.emit_fields]
        by_cases hk : s.pressCount = toInt32 (s.fRatio - 1)
        · simp only [if_pos hk, hd, Option.map_some', if_true]
          exact ⟨_, rfl, Or.inr (Or.inr (Or.inr ⟨trivial, trivial, hk, d, rfl, rfl⟩))⟩
        · simp only [if_neg hk]
          exact ⟨_, rfl, Or.inr (Or.inr (Or.inl ⟨trivial, trivial, hk, rfl⟩))⟩
      · simp only [if_true]
        exact ⟨_, rfl, Or.inr (Or.inl ⟨trivial, trivial, rfl⟩)⟩

/-- Entries of `deliverReward` after a press handler entry was recorded. -/
theorem callCount_emit_press (s : Session) :
    callCount Fn.deliverReward (s.out ++ [Event.call Fn.definePressActivity])
      = callCount Fn.deliverReward s.out := by
  simp [callCount, List.count_append, List.count_cons]

/-- A `definePressActivity` call either delivers one reward or leaves the cue,
the pump, the laser and the timeout window as they were. -/
theorem definePressActivity_quiet (s r : Session) (now : Nat) (programRunning : Bool)
    (lever : LeverId) (cue pump laser : Bool)
    (h : definePressActivity s now programRunning lever cue pump laser = some r) :
    callCount Fn.deliverReward r.out = callCount Fn.deliverReward s.out + 1
      ∨ (callCount Fn.deliverReward r.out = callCount Fn.deliverReward s.out
          ∧ r.cs = s.cs ∧ r.pump = s.pump ∧ r.laser = s.laser
          ∧ r.timeoutIntervalStart = s.timeoutIntervalStart
          ∧ r.timeoutIntervalEnd = s.timeoutIntervalEnd
          ∧ r.timeoutIntervalLength = s.timeoutIntervalLength) := by
  obtain ⟨r1, hr1, hcases⟩ :=
    definePressActivity_cases s now programRunning lever cue pump laser
  rw [h] at hr1
  cases hr1
  have hq := callCount_emit_press s
  rcases hcases with ⟨-, hr⟩ | ⟨-, -, hr⟩ | ⟨-, -, -, hr⟩ | ⟨-, -, -, d, hd, hr⟩
  · right
    subst hr
    simp only [setPressType_fields, Session.emit_fields, hq, and_self]
  · right
    subst hr
    simp only [setPressType_fields, Session.emit_fields, hq, and_self]
  · right
    subst hr
    simp only [Session.setPressCount_fields, setPressType_fields, Session.emit_fields, hq,
      and_self]
  · left
    obtain ⟨d1, hd1, -, -, -, -, -, -, -, ho⟩ := deliverReward_frame
      ((setPressType (s.emit (Event.call Fn.definePressActivity)) lever
        "ACTIVE").setPressCount 0) now pump laser
    rw [hd] at hd1
    cases hd1
    subst hr
    simp only [Session.setPressCount_fields, setPressType_fields, Session.emit_fields] at ho
    have hcount : callCount Fn.deliverReward d.out = callCount Fn.deliverReward s.out + 1 := by
      rw [ho, callCount_append_reward, hq]
    split_ifs <;>
      simp [advanceTimeout_fields, Session.emit_fields, hcount, callCount, List.count_append,
        List.count_cons] <;>
      simpa [callCount] using hcount

/-- The number of rewards delivered never decreases along a sequence of calls. -/
theorem runPresses_callCount_le :
    ∀ (calls : List PressCall) (s r : Session), runPresses s calls = some r →
      callCount Fn.deliverReward s.out ≤ callCount Fn.deliverReward r.out := by
  intro calls
  induction calls with
  | nil =>
    intro s r h
    simp only [runPresses, Option.some.injEq] at h
    subst h
    exact le_refl _
  | cons c rest ih =>
    intro s r h
    obtain ⟨s1, h1, -⟩ := definePressActivity_step s c
    simp only [runPresses, h1, Option.some_bind] at h
    have h2 := ih s1 r h
    rcases definePressActivity_quiet s s1 _ _ _ _ _ _ h1 with hq | ⟨hq, -⟩ <;> omega

/-- A sequence of calls that delivers no reward leaves the cue, the pump, the
laser and the timeout window as they were. -/
theorem runPresses_quiet :
    ∀ (calls : List PressCall) (s r : Session), runPresses s calls = some r →
      callCount Fn.deliverReward r.out = callCount Fn.deliverReward s.out →
      r.cs = s.cs ∧ r.pump = s.pump ∧ r.laser = s.laser
        ∧ r.timeoutIntervalStart = s.timeoutIntervalStart
        ∧ r.timeoutIntervalEnd = s.timeoutIntervalEnd
        ∧ r.timeoutIntervalLength = s.timeoutIntervalLength := by
  intro calls
  induction calls with
  | nil =>
    intro s r h _
    simp only [runPresses, Option.some.injEq] at h
    subst h
    simp only [and_self]
  | cons c rest ih =>
    intro s r h hc
    obtain ⟨s1, h1, -⟩ := definePressActivity_step s c
    simp only [runPresses, h1, Option.some_bind] at h
    have hle := runPresses_callCount_le rest s1 r h
    rcases definePressActivity_quiet s s1 _ _ _ _ _ _ h1 with hq | ⟨hq, a1, a2, a3, a4, a5, a6⟩
    · omega
    · obtain ⟨b1, b2, b3, b4, b5, b6⟩ := ih s1 r h (by omega)
      exact ⟨b1.trans a1, b2.trans a2, b3.trans a3, b4.trans a4, b5.trans a5, b6.trans a6⟩

/-- What a `definePressActivity` call that delivers a reward leaves: it was
made with a cue pointer to an armed cue at `pressCount = fRatio - 1`, the press
is ACTIVE, the counter is 0, the cue window starts at the timestamp, the
infusion window of a passed and armed pump follows it, and the timeout window
is advanced when `programRunning` is true. -/
theorem definePressActivity_reward (s r : Session) (now : Nat) (programRunning : Bool)
    (lever : LeverId) (cue pump laser : Bool)
    (h : definePressActivity s now programRunning lever cue pump laser = some r)
    (hdel : callCount Fn.deliverReward r.out = callCount Fn.deliverReward s.out + 1) :
    cue = true ∧ s.cs.armed = true ∧ s.pressCount = toInt32 (s.fRatio - 1)
      ∧ (r.lever lever).pressType = "ACTIVE" ∧ r.pressCount = 0
      ∧ r.cs.armed = true ∧ r.pump.armed = s.pump.armed
      ∧ r.cs.onTimestamp = toInt32 now
      ∧ r.cs.offTimestamp = toInt32 (toInt32 now + s.cs.duration)
      ∧ ((pump && s.pump.armed) = true →
          r.pump.infusionStartTimestamp
              = toInt32 (r.cs.offTimestamp + toInt32 s.traceIntervalLength)
            ∧ r.pump.infusionEndTimestamp
              = toInt32 (r.pump.infusionStartTimestamp + s.pump.infusionDuration))
      ∧ r.timeoutIntervalLength = s.timeoutIntervalLength
      ∧ (programRunning = true →
          r.timeoutIntervalStart = toUInt32 r.cs.offTimestamp
            ∧ r.timeoutIntervalEnd
                = (r.timeoutIntervalStart + s.timeoutIntervalLength) % 4294967296) := by
  obtain ⟨r1, hr1, hcases⟩ :=
    definePressActivity_cases s now programRunning lever cue pump laser
  rw [h] at hr1
  cases hr1
  have hq := callCount_emit_press s
  rcases hcases with ⟨-, hr⟩ | ⟨-, -, hr⟩ | ⟨-, -, -, hr⟩ | ⟨hc, -, hk, d, hd, hr⟩
  · subst hr
    simp only [setPressType_fields, Session.emit_fields, hq] at hdel
    omega
  · subst hr
    simp only [setPressType_fields, Session.emit_fields, hq] at hdel
    omega
  · subst hr
    simp only [Session.setPressCount_fields, setPressType_fields, Session.emit_fields, hq]
      at hdel
    omega
  · have hcue : cue = true ∧ s.cs.armed = true := by
      simpa using hc
    obtain ⟨hcue, harmed⟩ := hcue
    generalize hs0 : (setPressType (s.emit (Event.call Fn.definePressActivity)) lever
        "ACTIVE").setPressCount 0 = s0 at hd
    have e1 : s0.cs = s.cs := by
      rw [← hs0]
      simp only [Session.setPressCount_fields, setPressType_fields, Session.emit_fields]
    have e2 : s0.pump = s.pump := by
      rw [← hs0]
      simp only [Session.setPressCount_fields, setPressType_fields, Session.emit_fields]
    have e3 : s0.traceIntervalLength = s.traceIntervalLength := by
      rw [← hs0]
      simp only [Session.setPressCount_fields, setPressType_fields, Session.emit_fields]
    have e4 : s0.timeoutIntervalLength = s.timeoutIntervalLength := by
      rw [← hs0]
      simp only [Session.setPressCount_fields, setPressType_fields, Session.emit_fields]
    have e5 : (s0.lever lever).pressType = "ACTIVE" := by
      rw [← hs0]
      simp only [Session.setPressCount_fields, setPressType_fields]
    have e6 : s0.pressCount = 0 := by
      rw [← hs0]
      simp only [Session.setPressCount_fields]
    obtain ⟨d1, hd1, f1, -, -, -, f5, f6, -, -⟩ := deliverReward_frame s0 now pump laser
    rw [hd] at hd1
    cases hd1
    obtain ⟨d2, hd2, g1, g2⟩ := deliverReward_armed_cue s0 now pump laser (by rw [e1]; exact harmed)
    rw [hd] at hd2
    cases hd2
    obtain ⟨d3, hd3, k1, -, k3, -⟩ := deliverReward_flags s0 now pump laser
    rw [hd] at hd3
    cases hd3
    have hpumpw : (pump && s.pump.armed) = true →
        d.pump.infusionStartTimestamp
            = toInt32 (d.cs.offTimestamp + toInt32 s.traceIntervalLength)
          ∧ d.pump.infusionEndTimestamp
            = toInt32 (d.pump.infusionStartTimestamp + s.pump.infusionDuration) := by
      intro hp
      have hp2 : pump = true ∧ s.pump.armed = true := by
        simpa using hp
      obtain ⟨hp3, hp4⟩ := hp2
      subst hp3
      obtain ⟨d4, hd4, m1, m2⟩ := deliverReward_armed_pump s0 now laser (by rw [e2]; exact hp4)
      rw [hd] at hd4
      cases hd4
      rw [e3] at m1
      rw [e2] at m2
      exact ⟨m1, m2⟩
    rw [e1] at g2 k1
    rw [e2] at k3
    rw [e4] at f5
    rw [e6] at f6
    rw [← f1 lever] at e5
    subst hr
    clear hd hs0 hdel hq
    refine ⟨hcue, harmed, hk, ?_, ?_, ?_, ?_, ?_, ?_, ?_, ?_, ?_⟩
    · split_ifs <;> simp only [advanceTimeout_fields, Session.emit_fields] <;> exact e5
    · split_ifs <;> simp only [advanceTimeout_fields, Session.emit_fields] <;> exact f6
    · split_ifs <;> simp only [advanceTimeout_fields, Session.emit_fields] <;>
        exact k1.trans harmed
    · split_ifs <;> simp only [advanceTimeout_fields, Session.emit_fields] <;> exact k3
    · split_ifs <;> simp only [advanceTimeout_fields, Session.emit_fields] <;> exact g1
    · split_ifs <;> simp only [advanceTimeout_fields, Session.emit_fields] <;> exact g2
    · intro hp
      rw [if_pos hp]
      simp only [advanceTimeout_fields, Session.emit_fields]
      exact hpumpw hp
    · split_ifs <;> simp only [advanceTimeout_fields, Session.emit_fields] <;> exact f5
    · intro hpr
      subst hpr
      split_ifs <;>
        simp only [advanceTimeout, if_true, Session.setTimeoutInterval_fields,
          Session.emit_fields, f5, and_self]

/-- The `uint32_t` sum of three clock quantities, as an integer. -/
theorem cast_sum_mod (a b c : Nat) :
    (((a + b + c) % 4294967296 : Nat) : Int)
      = ((a : Int) + (b : Int) + (c : Int)) % 4294967296 := by
  omega

/-- The disqualifying window after a reward at `t`, as a bound on the clock
value `u` of a later press: `x` is the `int32_t` timestamp of `u`, `E` the end
of the cue or infusion window, `t + D` the end of the cue window and `L` the
timeout length. -/
theorem lockout_window (t u D L : Nat) (x E : Int)
    (htu : t ≤ u) (hu : u < 4294967296)
    (hE1 : (t : Int) + (D : Int) ≤ E) (hE2 : E ≤ 2147483647)
    (hx1 : u ≤ 2147483647 → x = u) (hx2 : 2147483648 ≤ u → x = (u : Int) - 4294967296) :
    (((t : Int) ≤ x ∧ x ≤ E) ∨ (t + D ≤ u ∧ u ≤ (t + D + L) % 4294967296))
      ↔ ((u : Int) ≤ E ∨ (u : Int) ≤ ((t : Int) + (D : Int) + (L : Int)) % 4294967296) := by
  omega

/-- A sequence of `definePressActivity` calls made without an armed cue
(the cue unarmed, or no cue pointer in any call) returns, delivers no reward
and leaves the cue, the pump, the laser and the timeout window as they were. -/
theorem runPresses_without_cue :
    ∀ (calls : List PressCall) (s : Session),
      (s.cs.armed = false ∨ ∀ c ∈ calls, c.cue = false) →
      ∃ r, runPresses s calls = some r
        ∧ callCount Fn.deliverReward r.out = callCount Fn.deliverReward s.out
        ∧ r.cs = s.cs ∧ r.pump = s.pump ∧ r.laser = s.laser
        ∧ r.timeoutIntervalStart = s.timeoutIntervalStart
        ∧ r.timeoutIntervalEnd = s.timeoutIntervalEnd := by
  intro calls
  induction calls with
  | nil =>
    intro s _
    exact ⟨s, rfl, rfl, rfl, rfl, rfl, rfl, rfl⟩
  | cons c rest ih =>
    intro s h
    obtain ⟨s1, h1, hcases⟩ :=
      definePressActivity_cases s c.now c.programRunning c.lever c.cue c.pump c.laser
    have hc : (c.cue && s.cs.armed) = false := by
      rcases h with h | h
      · rw [h, Bool.and_false]
      · rw [h c (List.mem_cons_self _ _), Bool.false_and]
    have hs1 : s1 = setPressType (s.emit (Event.call Fn.definePressActivity)) c.lever
        "INACTIVE" := by
      rcases hcases with ⟨-, h⟩ | ⟨h2, -⟩ | ⟨h2, -⟩ | ⟨h2, -⟩
      · exact h
      · rw [hc] at h2
        exact absurd h2 (by decide)
      · rw [hc] at h2
        exact absurd h2 (by decide)
      · rw [hc] at h2
        exact absurd h2 (by decide)
    have e1 : s1.cs = s.cs := by
      rw [hs1]
      simp only [setPressType_fields, Session.emit_fields]
    have e2 : s1.pump = s.pump := by
      rw [hs1]
      simp only [setPressType_fields, Session.emit_fields]
    have e3 : s1.laser = s.laser := by
      rw [hs1]
      simp only [setPressType_fields, Session.emit_fields]
    have e4 : s1.timeoutIntervalStart = s.timeoutIntervalStart := by
      rw [hs1]
      simp only [setPressType_fields, Session.emit_fields]
    have e5 : s1.timeoutIntervalEnd = s.timeoutIntervalEnd := by
      rw [hs1]
      simp only [setPressType_fields, Session.emit_fields]
    have e6 : callCount Fn.deliverReward s1.out = callCount Fn.deliverReward s.out := by
      rw [hs1]
      simp only [setPressType_fields, Session.emit_fields]
      exact callCount_emit_press s
    have h' : s1.cs.armed = false ∨ ∀ c ∈ rest, c.cue = false := by
      rcases h with h | h
      · exact Or.inl (by rw [e1]; exact h)
      · exact Or.inr (fun c hc => h c (List.mem_cons_of_mem _ hc))
    obtain ⟨r, hr, f6, f1, f2, f3, f4, f5⟩ := ih s1 h'
    refine ⟨r, ?_, f6.trans e6, f1.trans e1, f2.trans e2, f3.trans e3, f4.trans e4,
      f5.trans e5⟩
    simp only [runPresses, h1, Option.some_bind]
    exact hr

/-! ## Shared debounce timer and laser ticks: lemmas -/

/-- A poll of an armed lever that commits nothing leaves the other lever as
it was. -/
theorem monitorPressing_no_commit_others (s : Session) (p : LeverPoll) (lever : LeverId)
    (harmed : (s.lever lever).armed = true)
    (h : ¬ (subU32 p.now (if p.raw ≠ (s.lever lever).previousLeverState then p.now
              else s.leverLastDebounceTime) > leverDebounceDelay
            ∧ p.raw ≠ (s.lever lever).stableLeverState)) :
    ∃ r, monitorPressing s p.now p.raw p.programRunning lever p.cue p.pump p.laser = some r
      ∧ ∀ id, id ≠ lever → r.lever id = s.lever id := by
  obtain ⟨hl, hd, -⟩ := manage_unchanged s p.now p.cue p.pump
  simp only [monitorPressing]
  generalize managePump (manageCue s p.now p.cue) p.now p.pump = s0 at hl hd ⊢
  rw [← hl, ← hd] at h
  rw [← hl] at harmed
  simp only [harmed, if_true]
  have h1 : ∀ id, (if p.raw ≠ (s0.lever lever).previousLeverState
      then s0.setLeverLastDebounceTime p.now else s0).lever id = s0.lever id := by
    intro id
    split_ifs <;> simp only [Session.setLeverLastDebounceTime_fields]
  have h2 : (if p.raw ≠ (s0.lever lever).previousLeverState
      then s0.setLeverLastDebounceTime p.now else s0).leverLastDebounceTime
        = if p.raw ≠ (s0.lever lever).previousLeverState then p.now
          else s0.leverLastDebounceTime := by
    split_ifs <;> simp only [Session.setLeverLastDebounceTime_fields]
  generalize (if p.raw ≠ (s0.lever lever).previousLeverState
      then s0.setLeverLastDebounceTime p.now else s0) = s1 at h1 h2 ⊢
  rw [← h2, ← h1 lever] at h
  have hfin : ∀ id, id ≠ lever →
      (s1.setLever lever ((s1.lever lever).setPreviousLeverState p.raw)).lever id
        = s.lever id := by
    intro id hid
    rw [Session.lever_setLever_of_ne _ _ _ _ hid, h1, hl]
  by_cases ht : subU32 p.now s1.leverLastDebounceTime > leverDebounceDelay
  · have hs : ¬ p.raw ≠ (s1.lever lever).stableLeverState := fun hne => h ⟨ht, hne⟩
    simp only [if_pos ht, if_neg hs, Option.map_some']
    exact ⟨_, rfl, hfin⟩
  · simp only [if_neg ht, Option.map_some']
    exact ⟨_, rfl, hfin⟩

/-- While every poll comes within the debounce delay of a sampled change at
`t`, no poll of either armed lever commits: the polls return, both stable
levels and the handled transitions stay as they were and the timer stays
between `t` and the last poll. -/
theorem runLeverPolls_within (t : Nat) :
    ∀ (polls : List (LeverId × LeverPoll)) (s : Session) (lo : Nat),
      (∀ id, (s.lever id).armed = true) →
      t ≤ s.leverLastDebounceTime → s.leverLastDebounceTime ≤ lo →
      ascendingWithin lo (t + leverDebounceDelay) polls = true →
      ∃ r, runLeverPolls s polls = some r
        ∧ (∀ id, (r.lever id).armed = true
            ∧ (r.lever id).stableLeverState = (s.lever id).stableLeverState)
        ∧ leverTransitions r.out = leverTransitions s.out
        ∧ t ≤ r.leverLastDebounceTime := by
  intro polls
  induction polls with
  | nil =>
    intro s lo harmed h1 _ _
    exact ⟨s, rfl, fun id => ⟨harmed id, rfl⟩, rfl, h1⟩
  | cons q rest ih =>
    intro s lo harmed h1 h2 hasc
    obtain ⟨lever, p⟩ := q
    simp only [ascendingWithin, Bool.and_eq_true, decide_eq_true_eq] at hasc
    obtain ⟨⟨⟨h32, hlo⟩, hhi⟩, hrest⟩ := hasc
    have hbound : t ≤ (if p.raw ≠ (s.lever lever).previousLeverState then p.now
          else s.leverLastDebounceTime)
        ∧ (if p.raw ≠ (s.lever lever).previousLeverState then p.now
          else s.leverLastDebounceTime) ≤ p.now := by
      split_ifs <;> constructor <;> omega
    have hno : ¬ (subU32 p.now (if p.raw ≠ (s.lever lever).previousLeverState then p.now
              else s.leverLastDebounceTime) > leverDebounceDelay
            ∧ p.raw ≠ (s.lever lever).stableLeverState) := by
      intro hc
      have h3 := hc.1
      rw [subU32_of_le _ _ hbound.2 h32] at h3
      omega
    obtain ⟨r, hr, ha, -, hstab, hlast, hout⟩ :=
      monitorPressing_no_commit s p lever (harmed lever) hno
    obtain ⟨r', hr', hothers⟩ := monitorPressing_no_commit_others s p lever (harmed lever) hno
    rw [hr] at hr'
    cases hr'
    have hlev : ∀ id, (r.lever id).armed = true
        ∧ (r.lever id).stableLeverState = (s.lever id).stableLeverState := by
      intro id
      by_cases hid : id = lever
      · subst hid
        exact ⟨ha, hstab⟩
      · rw [hothers id hid]
        exact ⟨harmed id, rfl⟩
    obtain ⟨r2, hr2, hl2, ho2, ht2⟩ := ih r p.now (fun id => (hlev id).1)
      (by rw [hlast]; exact hbound.1) (by rw [hlast]; exact hbound.2) hrest
    refine ⟨r2, ?_, fun id => ⟨(hl2 id).1, (hl2 id).2.trans (hlev id).2⟩, ho2.trans hout, ht2⟩
    simp only [runLeverPolls, hr, Option.some_bind]
    exact hr2

/-- A new half-cycle keeps the pin and the state of the laser. -/
theorem Laser.setStimHalfCyclePeriod_keeps (l0 l : Laser) (t : Nat)
    (h : l0.setStimHalfCyclePeriod t = some l) :
    l.pin = l0.pin ∧ l.laserState = l0.laserState := by
  simp only [Laser.setStimHalfCyclePeriod] at h
  cases hlen : halfCycleLength l0.frequency with
  | none =>
    rw [hlen] at h
    cases h
  | some len =>
    rw [hlen] at h
    simp only [Option.map_some', Option.some.injEq] at h
    subst h
    exact ⟨rfl, rfl⟩

/-- A `stim` tick that returns ends with `manageLaser` on a session whose
trace has grown by printed lines only, with the laser ACTIVE inside the window
and INACTIVE and OFF outside it. -/
theorem stim_before_manageLaser (s r : Session) (t : Nat) (h : stim s t = some r) :
    ∃ (x : Session) (lines : List String), r = manageLaser x
      ∧ x.out = s.out ++ lines.map Event.println
      ∧ x.laser.pin = s.laser.pin
      ∧ ((inStimPeriod s t && s.laser.cycleUp) = true → x.laser.laserState = STATE.ACTIVE)
      ∧ ((inStimPeriod s t && s.laser.cycleUp) = false →
          x.laser.laserState = STATE.INACTIVE ∧ x.laser.laserAction = ACTION.OFF) := by
  cases hin : (inStimPeriod s t && s.laser.cycleUp)
  · simp only [stim, hin, Bool.false_eq_true, if_false, Session.setLaser_fields,
      Laser.setStimState, Laser.setStimLogged, Laser.setStimAction, logStim] at h
    cases hl : s.laser.logged
    · simp only [hl, if_true, Option.map_some', Option.some.injEq] at h
      refine ⟨_, [_], h.symm, rfl, rfl, fun hc => absurd hc (by decide), fun _ => ⟨rfl, rfl⟩⟩
    · simp only [hl, Bool.true_eq_false, if_false, Option.map_some', Option.some.injEq] at h
      refine ⟨_, [], h.symm, ?_⟩
      simp only [Session.setLaser_fields, List.map_nil, List.append_nil,
        Bool.false_eq_true, false_implies, implies_true, and_self]
  · simp only [stim, hin, if_true, Session.setLaser_fields] at h
    have hpin : ((s.laser.setStimState STATE.ACTIVE).setStimLogged false).pin = s.laser.pin :=
      rfl
    have hst : ((s.laser.setStimState STATE.ACTIVE).setStimLogged false).laserState
        = STATE.ACTIVE := rfl
    generalize (s.laser.setStimState STATE.ACTIVE).setStimLogged false = l0 at h hpin hst
    split_ifs at h with h1 h2
    · simp only [Option.map_some', Option.some.injEq] at h
      refine ⟨_, [], h.symm, ?_⟩
      simp only [Session.setLaser_fields, List.map_nil, List.append_nil, Laser.setStimAction,
        hpin, hst, Bool.true_eq_false, false_implies, implies_true, and_self]
    · cases hh : l0.setStimHalfCyclePeriod t with
      | none =>
        rw [hh] at h
        cases h
      | some l =>
        rw [hh] at h
        simp only [Option.map_some', Option.some.injEq] at h
        obtain ⟨k1, k2⟩ := Laser.setStimHalfCyclePeriod_keeps l0 l t hh
        refine ⟨_, [], h.symm, ?_⟩
        simp only [Session.setLaser_fields, List.map_nil, List.append_nil, Laser.setStimAction,
          k1, k2, hpin, hst, Bool.true_eq_false, false_implies, implies_true, and_self]
    · simp only [Option.map_some', Option.some.injEq] at h
      refine ⟨_, [], h.symm, ?_⟩
      simp only [Session.setLaser_fields, List.map_nil, List.append_nil,
        hpin, hst, Bool.true_eq_false, false_implies, implies_true, and_self]

/-- The CYCLE-mode tick that ends a stimulating period whose record is
pending: the new period is started and `cycleUp` cleared before `stim` runs,
so the record printed carries the bounds of the new period. -/
theorem manageStim_period_end (s : Session) (now : Nat)
    (harmed : s.laser.armed = true) (hrun : s.programIsRunning = true)
    (hmode : s.laser.laserMode = MODE.CYCLE) (hup : s.laser.cycleUp = true)
    (hlog : s.laser.logged = false)
    (hend : s.laser.stimStart = 0 ∨ now ≥ s.laser.stimEnd) :
    ∃ r, manageStim s now = some r
      ∧ r.laser.stimStart = now
      ∧ r.laser.stimEnd = (now + s.laser.duration) % 4294967296
      ∧ r.laser.cycleUp = false ∧ r.laser.logged = true
      ∧ r.laser.laserState = STATE.INACTIVE ∧ r.laser.laserAction = ACTION.OFF
      ∧ printedLines r.out = printedLines s.out ++
          [if s.differenceFromStartTime ≠ 0 then
            "LASER,STIM," ++ (toString (subU32 now s.differenceFromStartTime) ++ ",")
              ++ toString (subU32 ((now + s.laser.duration) % 4294967296)
                  s.differenceFromStartTime)
          else
            "LASER,STIM," ++ (toString now ++ ",")
              ++ toString ((now + s.laser.duration) % 4294967296)] := by
  simp only [manageStim, harmed, hrun, Bool.and_self, if_true, hmode, if_pos hend,
    Session.setLaser_fields]
  have e1 : ((s.laser.setStimPeriod now).setCycleUp
      (!(s.laser.setStimPeriod now).cycleUp)).cycleUp = false := by
    simp only [Laser.setCycleUp, Laser.setStimPeriod, hup, Bool.not_true]
  have e2 : ((s.laser.setStimPeriod now).setCycleUp
      (!(s.laser.setStimPeriod now).cycleUp)).logged = false := hlog
  have e3 : ((s.laser.setStimPeriod now).setCycleUp
      (!(s.laser.setStimPeriod now).cycleUp)).stimStart = now := rfl
  have e4 : ((s.laser.setStimPeriod now).setCycleUp
      (!(s.laser.setStimPeriod now).cycleUp)).stimEnd
        = (now + s.laser.duration) % 4294967296 := rfl
  generalize (s.laser.setStimPeriod now).setCycleUp
      (!(s.laser.setStimPeriod now).cycleUp) = l at e1 e2 e3 e4
  have hout : (inStimPeriod ((s.setLaser (s.laser.setStimPeriod now)).setLaser l) now
      && ((s.setLaser (s.laser.setStimPeriod now)).setLaser l).laser.cycleUp) = false := by
    simp only [Session.setLaser_fields, e1, Bool.and_false]
  obtain ⟨r, hr, hl, -, -, hp⟩ :=
    stim_outside ((s.setLaser (s.laser.setStimPeriod now)).setLaser l) now hout
  refine ⟨r, hr, ?_, ?_, ?_, ?_, ?_, ?_, ?_⟩
  · rw [hl]
    simp only [Session.setLaser_fields, e3]
  · rw [hl]
    simp only [Session.setLaser_fields, e4]
  · rw [hl]
    simp only [Session.setLaser_fields, e1]
  · rw [hl]
  · rw [hl]
  · rw [hl]
  · rw [hp]
    simp only [Session.setLaser_fields, e2, if_true, stimLogLine, e3, e4]

/-! ## C31: post-reward lockout -/

/-- Claim C31 (amended). Post-reward lockout.  Let a `definePressActivity`
call with `programRunning` true deliver a reward at clock value `t`, with
non-negative cue and infusion durations (the trace interval and the timeout
length are unsigned), and with the window ends `t + cue.duration` and, when
the pump is passed and armed, `t + cue.duration + traceIntervalLength +
infusionDuration` at most 2147483647.  After any calls that deliver no
reward, a press at clock value `u` with `t ≤ u < 2^32` returns and is a
TIMEOUT press if and only if `u ≤ max(E, B)`, and an ACTIVE press if and only
if `max(E, B) < u`, where `E` is `pump.infusionEndTimestamp` when the pump is
passed and armed and `cue.offTimestamp` otherwise, and `B` is
`cue.offTimestamp + timeoutIntervalLength` modulo 2^32, the stored
`timeoutIntervalEnd`; `B` is the plain sum when that sum is below 2^32. -/
theorem post_reward_lockout (s s1 s2 : Session) (t u : Nat) (lever lever2 : LeverId)
    (cue pump laser laser2 : Bool) (mid : List PressCall)
    (hdc : 0 ≤ s.cs.duration) (hdp : 0 ≤ s.pump.infusionDuration)
    (hreward : definePressActivity s t true lever cue pump laser = some s1)
    (hdel : callCount Fn.deliverReward s1.out = callCount Fn.deliverReward s.out + 1)
    (hmid : runPresses s1 mid = some s2)
    (hnone : callCount Fn.deliverReward s2.out = callCount Fn.deliverReward s1.out)
    (htu : t ≤ u) (hu : u < 4294967296)
    (hoff : t + s.cs.duration ≤ 2147483647)
    (hend : (pump && s.pump.armed) = true →
      t + s.cs.duration + s.traceIntervalLength + s.pump.infusionDuration ≤ 2147483647) :
    ∃ r, definePressActivity s2 u true lever2 true pump laser2 = some r
      ∧ s2.cs.armed = true ∧ s2.pump.armed = s.pump.armed
      ∧ s2.cs.offTimestamp = t + s.cs.duration
      ∧ ((pump && s.pump.armed) = true →
          s2.pump.infusionEndTimestamp
            = t + s.cs.duration + s.traceIntervalLength + s.pump.infusionDuration)
      ∧ s2.timeoutIntervalLength = s.timeoutIntervalLength
      ∧ (s2.timeoutIntervalEnd : Int)
          = (s2.cs.offTimestamp + s2.timeoutIntervalLength) % 4294967296
      ∧ ((r.lever lever2).pressType = "TIMEOUT" ↔
          (u : Int) ≤ max (if pump && s2.pump.armed then s2.pump.infusionEndTimestamp
                            else s2.cs.offTimestamp)
                          ((s2.cs.offTimestamp + s2.timeoutIntervalLength) % 4294967296))
      ∧ ((r.lever lever2).pressType = "ACTIVE" ↔
          max (if pump && s2.pump.armed then s2.pump.infusionEndTimestamp
                else s2.cs.offTimestamp)
              ((s2.cs.offTimestamp + s2.timeoutIntervalLength) % 4294967296) < (u : Int))
      ∧ (s2.cs.offTimestamp + s2.timeoutIntervalLength < 4294967296 →
          ((s2.cs.offTimestamp + s2.timeoutIntervalLength) % 4294967296 : Int)
            = s2.cs.offTimestamp + s2.timeoutIntervalLength) := by
  obtain ⟨D, hD⟩ := Int.eq_ofNat_of_zero_le hdc
  obtain ⟨P, hP⟩ := Int.eq_ofNat_of_zero_le hdp
  rw [hD] at hoff hend
  rw [hP] at hend
  have ht31 : t ≤ 2147483647 := by omega
  have hb0 : InInt32 ((t : Int) + (D : Int)) := by
    constructor <;> omega
  have hn0 : t + D ≤ 4294967295 := by omega
  have hrange : (pump && s.pump.armed) = true →
      InInt32 (s.traceIntervalLength : Int)
        ∧ InInt32 ((t : Int) + (D : Int) + (s.traceIntervalLength : Int))
        ∧ InInt32 ((t : Int) + (D : Int) + (s.traceIntervalLength : Int) + (P : Int))
        ∧ (t : Int) + (D : Int)
            ≤ (t : Int) + (D : Int) + (s.traceIntervalLength : Int) + (P : Int) := by
    intro hp
    have hr := hend hp
    refine ⟨⟨?_, ?_⟩, ⟨?_, ?_⟩, ⟨?_, ?_⟩, ?_⟩ <;> omega
  have hx : (u ≤ 2147483647 → toInt32 (u : Int) = u)
      ∧ (2147483648 ≤ u → toInt32 (u : Int) = (u : Int) - 4294967296) := by
    unfold toInt32
    constructor <;> intro _ <;> omega
  obtain ⟨-, -, -, -, -, a1, a2, a3, a4, a5, a6, a7⟩ :=
    definePressActivity_reward s s1 t true lever cue pump laser hreward hdel
  obtain ⟨a7, a8⟩ := a7 rfl
  obtain ⟨b1, b2, -, b4, b5, b6⟩ := runPresses_quiet mid s1 s2 hmid hnone
  rw [hD] at a4
  rw [hP] at a5
  have hon : s2.cs.onTimestamp = (t : Int) := by
    rw [b1, a3, toInt32_of_nat t ht31]
  have hoffv : s2.cs.offTimestamp = (t : Int) + (D : Int) := by
    rw [b1, a4, toInt32_of_nat t ht31]
    exact toInt32_of_inInt32 _ hb0
  have harmed2 : s2.cs.armed = true := by rw [b1]; exact a1
  have hparmed : s2.pump.armed = s.pump.armed := by rw [b2]; exact a2
  have hlen : s2.timeoutIntervalLength = s.timeoutIntervalLength := b6.trans a6
  have hstart : s2.timeoutIntervalStart = t + D := by
    rw [b4, a7, ← b1, hoffv]
    have : ((t : Int) + (D : Int)) = ((t + D : Nat) : Int) := (Nat.cast_add t D).symm
    rw [this]
    exact toUInt32_of_nat _ hn0
  have hendv : s2.timeoutIntervalEnd = (t + D + s2.timeoutIntervalLength) % 4294967296 := by
    rw [b5, a8, ← b4, hstart, hlen]
  have hE : (pump && s.pump.armed) = true →
      s2.pump.infusionEndTimestamp
        = (t : Int) + (D : Int) + (s.traceIntervalLength : Int) + (P : Int) := by
    intro hp
    obtain ⟨c1, c2⟩ := a5 hp
    obtain ⟨hbt, hb1, hb2, -⟩ := hrange hp
    rw [b2, c2, c1, ← b1, hoffv, toInt32_of_inInt32 _ hbt, toInt32_of_inInt32 _ hb1,
      toInt32_of_inInt32 _ hb2]
  obtain ⟨r, hr, hty⟩ := definePressActivity_armed_cue s2 u true lever2 pump laser2 harmed2
  have hback : toUInt32 (toInt32 (u : Int)) = u := toUInt32_toInt32 u hu
  have key :
      (((decide (toInt32 (u : Int) ≥ s2.cs.onTimestamp)
            && decide (toInt32 (u : Int) ≤
                (if pump && s2.pump.armed then s2.pump.infusionEndTimestamp
                 else s2.cs.offTimestamp)))
          || inTimeoutInterval s2 (toInt32 (u : Int))) = true)
        ↔ (u : Int) ≤ max (if pump && s2.pump.armed then s2.pump.infusionEndTimestamp
                            else s2.cs.offTimestamp)
                          ((s2.cs.offTimestamp + s2.timeoutIntervalLength) % 4294967296) := by
    generalize toInt32 (u : Int) = x at hx hback ⊢
    obtain ⟨hx1, hx2⟩ := hx
    cases hp : (pump && s2.pump.armed)
    · simp only [Bool.false_eq_true, if_false, inTimeoutInterval, hback, Bool.or_eq_true,
        Bool.and_eq_true, decide_eq_true_eq, le_max_iff, hon, hstart, hendv, ge_iff_le, hoffv]
      exact lockout_window t u D s2.timeoutIntervalLength x _ htu hu (le_refl _) hb0.2 hx1 hx2
    · have hp2 : (pump && s.pump.armed) = true := by rw [← hparmed]; exact hp
      obtain ⟨-, -, hb2, hle⟩ := hrange hp2
      simp only [if_true, inTimeoutInterval, hback, Bool.or_eq_true,
        Bool.and_eq_true, decide_eq_true_eq, le_max_iff, hon, hstart, hendv, ge_iff_le, hoffv,
        hE hp2]
      exact lockout_window t u D s2.timeoutIntervalLength x _ htu hu hle hb2.2 hx1 hx2
  generalize ((decide (toInt32 (u : Int) ≥ s2.cs.onTimestamp)
            && decide (toInt32 (u : Int) ≤
                (if pump && s2.pump.armed then s2.pump.infusionEndTimestamp
                 else s2.cs.offTimestamp)))
          || inTimeoutInterval s2 (toInt32 (u : Int))) = b at hty key
  have hA : ¬ ("ACTIVE" : String) = "TIMEOUT" := by decide
  have hT : ¬ ("TIMEOUT" : String) = "ACTIVE" := by decide
  refine ⟨r, hr, harmed2, hparmed, ?_, ?_, hlen, ?_, ?_, ?_, ?_⟩
  · rw [hoffv, hD]
  · intro hp
    rw [hE hp, hD, hP]
  · rw [hendv, hoffv]
    exact cast_sum_mod t D s2.timeoutIntervalLength
  · rw [hty, ← key]
    cases b
    · exact ⟨fun e => absurd e hA, fun e => absurd e (by decide)⟩
    · exact ⟨fun _ => rfl, fun _ => rfl⟩
  · rw [hty, ← not_le, ← key]
    cases b
    · exact ⟨fun _ => by decide, fun _ => rfl⟩
    · exact ⟨fun e => absurd e hT, fun e => absurd rfl e⟩
  · intro hlt
    exact Int.emod_eq_of_lt (by rw [hoffv]; exact Int.add_nonneg (Int.add_nonneg (Int.ofNat_nonneg _) (Int.ofNat_nonneg _)) (Int.ofNat_nonneg _)) hlt

/-- C31 (amended) on the armed session (cue 1600 ms, trace 500 ms, infusion
2000 ms, timeout 20000 ms): a reward at 1000 leaves the cue window ending at
2600, the infusion ending at 5100 and the timeout window ending at 22600; after
a TIMEOUT press at 2000, a press at 22600 is a TIMEOUT press and a press at
22601 is ACTIVE. -/
theorem post_reward_lockout_example :
    ∃ s1 s2 r q,
      definePressActivity armedSession 1000 true LeverId.RH true true false = some s1
        ∧ runPresses s1 [pressAt 2000] = some s2
        ∧ s2.cs.offTimestamp = 2600 ∧ s2.pump.infusionEndTimestamp = 5100
        ∧ s2.timeoutIntervalEnd = 22600
        ∧ definePressActivity s2 22600 true LeverId.RH true true false = some r
        ∧ (r.lever LeverId.RH).pressType = "TIMEOUT"
        ∧ definePressActivity s2 22601 true LeverId.RH true true false = some q
        ∧ (q.lever LeverId.RH).pressType = "ACTIVE" := by
  have h1 : definePressActivity armedSession 1000 true LeverId.RH true true false
      = some ((definePressActivity armedSession 1000 true LeverId.RH true true false).getD
          armedSession) := by decide
  have h2 : runPresses
      ((definePressActivity armedSession 1000 true LeverId.RH true true false).getD armedSession)
      [pressAt 2000]
      = some ((runPresses
          ((definePressActivity armedSession 1000 true LeverId.RH true true false).getD
            armedSession) [pressAt 2000]).getD armedSession) := by decide
  obtain ⟨r, hr, -, -, -, -, -, -, hT, -, -⟩ := post_reward_lockout armedSession _ _ 1000 22600
    LeverId.RH LeverId.RH true true false false [pressAt 2000] (by decide) (by decide) h1
    (by decide) h2 (by decide) (by decide) (by decide) (by decide) (fun _ => by decide)
  obtain ⟨q, hq, -, -, -, -, -, -, -, hA, -⟩ := post_reward_lockout armedSession _ _ 1000 22601
    LeverId.RH LeverId.RH true true false false [pressAt 2000] (by decide) (by decide) h1
    (by decide) h2 (by decide) (by decide) (by decide) (by decide) (fun _ => by decide)
  exact ⟨_, _, r, q, h1, h2, by decide, by decide, by decide, hr, hT.mpr (by decide), hq,
    hA.mpr (by decide)⟩

/-- C31 as stated fails when a window end passes the `int32_t` range.  On the
armed session (all durations non-negative, program running) a reward at clock
value 2147480000 leaves the cue window ending at 2147481600 and the timeout
window ending at 2147501600, but the stored infusion end is -2147483196.  The
press at 2147480500, which is not later than either bound of the claim, is
ACTIVE and delivers a second reward. -/
theorem post_reward_lockout_overflow :
    ∃ s1, definePressActivity armedSession 2147480000 true LeverId.RH true true false = some s1
      ∧ 0 ≤ armedSession.cs.duration ∧ 0 ≤ armedSession.pump.infusionDuration
      ∧ callCount Fn.deliverReward s1.out = callCount Fn.deliverReward armedSession.out + 1
      ∧ s1.cs.armed = true ∧ s1.pump.armed = true
      ∧ s1.cs.offTimestamp = 2147481600
      ∧ s1.pump.infusionEndTimestamp = -2147483196
      ∧ s1.timeoutIntervalLength = 20000 ∧ s1.timeoutIntervalEnd = 2147501600
      ∧ (definePressActivity s1 2147480500 true LeverId.RH true true false).map
          (fun r => ((r.lever LeverId.RH).pressType, callCount Fn.deliverReward r.out))
          = some ("ACTIVE", 2)
      ∧ (2147480500 : Int)
          ≤ max s1.pump.infusionEndTimestamp (s1.cs.offTimestamp + s1.timeoutIntervalLength)
      ∧ (2147480500 : Int)
          ≤ max (2147480000 + armedSession.cs.duration + armedSession.traceIntervalLength
                  + armedSession.pump.infusionDuration)
                (s1.cs.offTimestamp + s1.timeoutIntervalLength) := by
  refine ⟨_, rfl, ?_⟩
  decide

/-! ## C32: reward delivery on the press path -/

/-- Claim C32 (amended). Reward delivery on the press path: every
`definePressActivity` call returns, so no `deliverReward` call it makes reads
a missing cue; it enters `deliverReward` at most once, and when it does the
cue pointer is not null and the cue is armed, the call of `deliverReward`
itself returns, the cue's `offTimestamp` is the one set in that call, and a
passed and armed pump has `infusionStartTimestamp = cue.offTimestamp +
traceIntervalLength` in `int32_t`, which is `t + cue.duration +
traceIntervalLength` when `t`, `t + cue.duration`, `traceIntervalLength` and
that sum lie in the `int32_t` range. -/
theorem reward_call_has_cue (s : Session) (t : Nat) (programRunning : Bool)
    (lever : LeverId) (cue pump laser : Bool) :
    ∃ r, definePressActivity s t programRunning lever cue pump laser = some r
      ∧ (callCount Fn.deliverReward r.out = callCount Fn.deliverReward s.out + 1
          ∨ callCount Fn.deliverReward r.out = callCount Fn.deliverReward s.out)
      ∧ (callCount Fn.deliverReward r.out = callCount Fn.deliverReward s.out + 1 →
          cue = true ∧ s.cs.armed = true
            ∧ (∃ d, deliverReward
                ((setPressType (s.emit (Event.call Fn.definePressActivity)) lever
                  "ACTIVE").setPressCount 0) t cue pump laser = some d)
            ∧ r.cs.offTimestamp = toInt32 (toInt32 t + s.cs.duration)
            ∧ ((pump && s.pump.armed) = true →
                r.pump.infusionStartTimestamp
                    = toInt32 (r.cs.offTimestamp + toInt32 s.traceIntervalLength)
                  ∧ (InInt32 t → InInt32 (t + s.cs.duration) →
                      InInt32 s.traceIntervalLength →
                      InInt32 (t + s.cs.duration + s.traceIntervalLength) →
                      r.pump.infusionStartTimestamp
                        = t + s.cs.duration + s.traceIntervalLength))) := by
  obtain ⟨r, hr, -⟩ := definePressActivity_step s
    { now := t, programRunning := programRunning, lever := lever, cue := cue, pump := pump,
      laser := laser }
  simp only at hr
  refine ⟨r, hr, ?_, fun hdel => ?_⟩
  · rcases definePressActivity_quiet s r _ _ _ _ _ _ hr with h | ⟨h, -⟩
    · exact Or.inl h
    · exact Or.inr h
  · obtain ⟨hcue, harmed, -, -, -, -, -, -, hoff, hpump, -, -⟩ :=
      definePressActivity_reward s r t programRunning lever cue pump laser hr hdel
    subst hcue
    obtain ⟨d, hd, -⟩ := deliverReward_frame
      ((setPressType (s.emit (Event.call Fn.definePressActivity)) lever
        "ACTIVE").setPressCount 0) t pump laser
    refine ⟨rfl, harmed, ⟨d, hd⟩, hoff, fun hp => ?_⟩
    obtain ⟨hstart, -⟩ := hpump hp
    refine ⟨hstart, fun h1 h2 h3 h4 => ?_⟩
    rw [hstart, hoff, toInt32_of_inInt32 _ h1, toInt32_of_inInt32 _ h2,
      toInt32_of_inInt32 _ h3, toInt32_of_inInt32 _ h4]

/-- C32 (amended) on the armed session: the press at 1000 delivers the
reward with the cue armed, the cue ends at 2600 and the infusion starts at
3100. -/
theorem reward_call_has_cue_example :
    ∃ r, definePressActivity armedSession 1000 true LeverId.RH true true false = some r
      ∧ callCount Fn.deliverReward r.out = 1
      ∧ armedSession.cs.armed = true
      ∧ r.cs.offTimestamp = 2600 ∧ r.pump.infusionStartTimestamp = 3100 := by
  obtain ⟨r, hr, -, h⟩ :=
    reward_call_has_cue armedSession 1000 true LeverId.RH true true false
  have hc : callCount Fn.deliverReward r.out = 1 := by
    have h0 : (definePressActivity armedSession 1000 true LeverId.RH true true false).map
        (fun r => callCount Fn.deliverReward r.out) = some 1 := by decide
    rw [hr] at h0
    exact Option.some.inj h0
  obtain ⟨-, harmed, -, hoff, hp⟩ := h (by rw [hc]; decide)
  obtain ⟨-, hstart⟩ := hp (by decide)
  exact ⟨r, hr, hc, harmed, hoff.trans (by decide),
    (hstart (by decide) (by decide) (by decide) (by decide)).trans (by decide)⟩

/-- C32 as stated fails in its equation when a sum passes the `int32_t`
range: on the armed session the press at clock value 2147483647 delivers a
reward with the cue armed, and the stored `infusionStartTimestamp` is
-2147481549, not `t + cue.duration + traceIntervalLength = 2147485747`. -/
theorem reward_call_infusion_start_overflow :
    (definePressActivity armedSession 2147483647 true LeverId.RH true true false).map
        (fun r => (callCount Fn.deliverReward r.out, r.cs.armed, r.pump.armed,
          r.cs.offTimestamp, r.pump.infusionStartTimestamp))
        = some (1, true, true, -2147482049, -2147481549)
      ∧ (2147483647 : Int) + armedSession.cs.duration + armedSession.traceIntervalLength
          = 2147485747 := by
  decide

/-! ## C33: press counter invariant -/

/-- Claim C33. Press counter invariant: with `fRatio = n`, `1 ≤ n` (an
`int32_t` value, so `n ≤ 2147483647`) and `pressCount = 0`, every sequence of
`definePressActivity` calls, whatever the armed flags, the pointers passed and
the classifications, returns with `fRatio = n` and `0 ≤ pressCount ≤ n - 1`. -/
theorem press_counter_invariant (s : Session) (n : Nat) (calls : List PressCall)
    (hn : 1 ≤ n) (hmax : n ≤ 2147483647) (hf : s.fRatio = n) (hp : s.pressCount = 0) :
    ∃ r, runPresses s calls = some r ∧ r.fRatio = n
      ∧ 0 ≤ r.pressCount ∧ r.pressCount ≤ (n : Int) - 1 := by
  obtain ⟨r, hr, hrf, hrp, -⟩ :=
    runPresses_ratio n hn hmax calls s 0 hf (by simpa using hp) (by omega)
  refine ⟨r, hr, hrf, ?_, ?_⟩
  · rw [hrp]
    exact Int.ofNat_nonneg _
  · rw [hrp]
    have hlt : (0 + activeCount s calls) % n < n := Nat.mod_lt _ (by omega)
    omega

/-- C33 at a ratio of 3: after two ACTIVE presses and an INACTIVE press
on the other lever the counter is 2, and after three ACTIVE presses and a
TIMEOUT press it lies between 0 and 2. -/
theorem press_counter_invariant_example :
    (∃ r, runPresses ratioThreeSession
          [pressAt 1000, pressAt 2000,
            { now := 2500, programRunning := true, lever := LeverId.LH, cue := false,
              pump := false, laser := false }] = some r
        ∧ r.pressCount = 2)
      ∧ ∃ r, runPresses ratioThreeSession
          [pressAt 1000, pressAt 2000, pressAt 3000, pressAt 4000] = some r
        ∧ 0 ≤ r.pressCount ∧ r.pressCount ≤ 2 := by
  refine ⟨?_, ?_⟩
  · obtain ⟨r, hr, -, -, -⟩ := press_counter_invariant ratioThreeSession 3
      [pressAt 1000, pressAt 2000,
        { now := 2500, programRunning := true, lever := LeverId.LH, cue := false,
          pump := false, laser := false }]
      (by decide) (by decide) (by decide) (by decide)
    refine ⟨r, hr, ?_⟩
    have h0 : (runPresses ratioThreeSession
        [pressAt 1000, pressAt 2000,
          { now := 2500, programRunning := true, lever := LeverId.LH, cue := false,
            pump := false, laser := false }]).map (fun r => r.pressCount) = some 2 := by
      decide
    rw [hr] at h0
    exact Option.some.inj h0
  · obtain ⟨r, hr, -, h1, h2⟩ := press_counter_invariant ratioThreeSession 3
      [pressAt 1000, pressAt 2000, pressAt 3000, pressAt 4000]
      (by decide) (by decide) (by decide) (by decide)
    exact ⟨r, hr, h1, h2⟩

/-! ## C34: non-qualifying presses -/

/-- Claim C34. Non-qualifying presses have no side effect: every
`definePressActivity` call returns; when it leaves the press TIMEOUT or
INACTIVE, the session after the call is the session before it with that
press type on the pressed lever (and the entry of the call in the trace), so
`pressCount`, the cue, the pump, the laser, the timeout window and the other
lever are unchanged; when it leaves the press ACTIVE with
`pressCount ≠ fRatio - 1` before the call, the session after the call differs
in the press type and in `pressCount` only, which is incremented by 1 (as an
`int32_t`: by 1 exactly below 2147483647). -/
theorem non_qualifying_press_frame (s : Session) (now : Nat) (programRunning : Bool)
    (lever : LeverId) (cue pump laser : Bool) :
    ∃ r, definePressActivity s now programRunning lever cue pump laser = some r
      ∧ ((r.lever lever).pressType = "TIMEOUT" ∨ (r.lever lever).pressType = "INACTIVE" →
          r = setPressType (s.emit (Event.call Fn.definePressActivity)) lever
                (r.lever lever).pressType
            ∧ r.pressCount = s.pressCount ∧ r.cs = s.cs ∧ r.pump = s.pump ∧ r.laser = s.laser
            ∧ r.timeoutIntervalStart = s.timeoutIntervalStart
            ∧ r.timeoutIntervalEnd = s.timeoutIntervalEnd
            ∧ r.timeoutIntervalLength = s.timeoutIntervalLength
            ∧ r.lever lever = (s.lever lever).setPressType (r.lever lever).pressType
            ∧ ∀ id, id ≠ lever → r.lever id = s.lever id)
      ∧ ((r.lever lever).pressType = "ACTIVE" → s.pressCount ≠ toInt32 (s.fRatio - 1) →
          r = (setPressType (s.emit (Event.call Fn.definePressActivity)) lever
                "ACTIVE").setPressCount (toInt32 (s.pressCount + 1))
            ∧ r.pressCount = toInt32 (s.pressCount + 1)
            ∧ (InInt32 (s.pressCount + 1) → r.pressCount = s.pressCount + 1)
            ∧ r.cs = s.cs ∧ r.pump = s.pump ∧ r.laser = s.laser
            ∧ r.timeoutIntervalStart = s.timeoutIntervalStart
            ∧ r.timeoutIntervalEnd = s.timeoutIntervalEnd
            ∧ r.timeoutIntervalLength = s.timeoutIntervalLength
            ∧ r.lever lever = (s.lever lever).setPressType "ACTIVE"
            ∧ ∀ id, id ≠ lever → r.lever id = s.lever id) := by
  have hTI : ¬ ("TIMEOUT" : String) = "INACTIVE" := by decide
  have hIT : ¬ ("INACTIVE" : String) = "TIMEOUT" := by decide
  have hAT : ¬ ("ACTIVE" : String) = "TIMEOUT" := by decide
  have hAI : ¬ ("ACTIVE" : String) = "INACTIVE" := by decide
  have hTA : ¬ ("TIMEOUT" : String) = "ACTIVE" := by decide
  have hIA : ¬ ("INACTIVE" : String) = "ACTIVE" := by decide
  have hlev : ∀ (x : String),
      (setPressType (s.emit (Event.call Fn.definePressActivity)) lever x).lever lever
          = (s.lever lever).setPressType x
        ∧ ∀ id, id ≠ lever →
          (setPressType (s.emit (Event.call Fn.definePressActivity)) lever x).lever id
            = s.lever id := by
    intro x
    refine ⟨?_, fun id hid => ?_⟩
    · simp only [setPressType, Session.lever_setLever, Session.emit_fields]
    · simp only [setPressType, Session.lever_setLever_of_ne _ _ _ _ hid, Session.emit_fields]
  obtain ⟨r, hr, hcases⟩ :=
    definePressActivity_cases s now programRunning lever cue pump laser
  refine ⟨r, hr, ?_, ?_⟩
  · intro hty
    rcases hcases with ⟨-, h⟩ | ⟨-, -, h⟩ | ⟨-, -, -, h⟩ | ⟨-, -, -, d, hd, h⟩
    · subst h
      simp only [setPressType_fields, Session.emit_fields, and_self, true_and]
      exact hlev _
    · subst h
      simp only [setPressType_fields, Session.emit_fields, and_self, true_and]
      exact hlev _
    · exfalso
      subst h
      simp only [Session.setPressCount_fields, setPressType_fields] at hty
      rcases hty with h | h
      · exact hAT h
      · exact hAI h
    · exfalso
      obtain ⟨d1, hd1, hl, -⟩ := deliverReward_frame
        ((setPressType (s.emit (Event.call Fn.definePressActivity)) lever
          "ACTIVE").setPressCount 0) now pump laser
      rw [hd] at hd1
      cases hd1
      have hA : (r.lever lever).pressType = "ACTIVE" := by
        subst h
        split_ifs <;>
          simp only [advanceTimeout_fields, Session.emit_fields, hl,
            Session.setPressCount_fields, setPressType_fields]
      rw [hA] at hty
      rcases hty with h | h
      · exact hAT h
      · exact hAI h
  · intro hty hk
    rcases hcases with ⟨-, h⟩ | ⟨-, -, h⟩ | ⟨-, -, -, h⟩ | ⟨-, -, hk2, -⟩
    · exfalso
      subst h
      simp only [setPressType_fields] at hty
      exact hIA hty
    · exfalso
      subst h
      simp only [setPressType_fields] at hty
      exact hTA hty
    · subst h
      refine ⟨rfl, ?_, ?_, ?_⟩
      · simp only [Session.setPressCount_fields]
      · intro hin
        simp only [Session.setPressCount_fields]
        exact toInt32_of_inInt32 _ hin
      · simp only [Session.setPressCount_fields, setPressType_fields, Session.emit_fields,
          true_and]
        exact hlev _
    · exact absurd hk2 hk

/-- C34 on the rewarded session (cue window 1000 to 2600, infusion until
5100) with a ratio of 3 and one press counted: the press at 2000 is a TIMEOUT
press and changes nothing but the press type; the press at 6000 is ACTIVE,
delivers no reward and raises the counter to 2. -/
theorem non_qualifying_press_frame_example :
    (∃ r, definePressActivity { rewardedSession with fRatio := 3, pressCount := 1 } 2000 true
          LeverId.RH true true false = some r
        ∧ (r.lever LeverId.RH).pressType = "TIMEOUT"
        ∧ r.pressCount = 1 ∧ r.cs = rewardedSession.cs ∧ r.pump = rewardedSession.pump)
      ∧ ∃ r, definePressActivity { rewardedSession with fRatio := 3, pressCount := 1 } 6000 true
          LeverId.RH true true false = some r
        ∧ (r.lever LeverId.RH).pressType = "ACTIVE"
        ∧ r.pressCount = 2 ∧ r.cs = rewardedSession.cs ∧ r.pump = rewardedSession.pump := by
  refine ⟨?_, ?_⟩
  · obtain ⟨r, hr, h, -⟩ := non_qualifying_press_frame
      { rewardedSession with fRatio := 3, pressCount := 1 } 2000 true LeverId.RH true true false
    have hT : (r.lever LeverId.RH).pressType = "TIMEOUT" := by
      have h0 : (definePressActivity { rewardedSession with fRatio := 3, pressCount := 1 } 2000
          true LeverId.RH true true false).map (fun r => (r.lever LeverId.RH).pressType)
          = some "TIMEOUT" := by decide
      rw [hr] at h0
      exact Option.some.inj h0
    obtain ⟨-, h1, h2, h3, -⟩ := h (Or.inl hT)
    exact ⟨r, hr, hT, h1, h2, h3⟩
  · obtain ⟨r, hr, -, h⟩ := non_qualifying_press_frame
      { rewardedSession with fRatio := 3, pressCount := 1 } 6000 true LeverId.RH true true false
    have hA : (r.lever LeverId.RH).pressType = "ACTIVE" := by
      have h0 : (definePressActivity { rewardedSession with fRatio := 3, pressCount := 1 } 6000
          true LeverId.RH true true false).map (fun r => (r.lever LeverId.RH).pressType)
          = some "ACTIVE" := by decide
      rw [hr] at h0
      exact Option.some.inj h0
    obtain ⟨-, -, h1, h2, h3, -⟩ := h hA (by decide)
    exact ⟨r, hr, hA, h1 (by decide), h2, h3⟩

/-! ## C35: the cue gates every reward -/

/-- Claim C35. The cue gates every reward: every `definePressActivity` call
made with no cue pointer or with the cue unarmed returns with the press
INACTIVE, enters `deliverReward` not at all and leaves `pressCount`, the pump,
the laser and the timeout window unchanged, whatever the armed flags of the
pump and of the laser; and a whole sequence of such calls leaves the pump and
the laser as they were, so neither receives a window. -/
theorem cue_gates_reward (s : Session) (now : Nat) (programRunning : Bool)
    (lever : LeverId) (cue pump laser : Bool) (calls : List PressCall)
    (hcue : cue = false ∨ s.cs.armed = false) :
    (∃ r, definePressActivity s now programRunning lever cue pump laser = some r
        ∧ (r.lever lever).pressType = "INACTIVE"
        ∧ callCount Fn.deliverReward r.out = callCount Fn.deliverReward s.out
        ∧ r.pressCount = s.pressCount
        ∧ r.cs = s.cs ∧ r.pump = s.pump ∧ r.laser = s.laser
        ∧ r.timeoutIntervalStart = s.timeoutIntervalStart
        ∧ r.timeoutIntervalEnd = s.timeoutIntervalEnd)
      ∧ ((s.cs.armed = false ∨ ∀ c ∈ calls, c.cue = false) →
          ∃ r, runPresses s calls = some r
            ∧ callCount Fn.deliverReward r.out = callCount Fn.deliverReward s.out
            ∧ r.pump = s.pump ∧ r.laser = s.laser) := by
  refine ⟨?_, fun h => ?_⟩
  · have hc : (cue && s.cs.armed) = false := by
      rcases hcue with h | h
      · rw [h, Bool.false_and]
      · rw [h, Bool.and_false]
    obtain ⟨r, hr, hcases⟩ :=
      definePressActivity_cases s now programRunning lever cue pump laser
    have hs1 : r = setPressType (s.emit (Event.call Fn.definePressActivity)) lever
        "INACTIVE" := by
      rcases hcases with ⟨-, h⟩ | ⟨h2, -⟩ | ⟨h2, -⟩ | ⟨h2, -⟩
      · exact h
      · rw [hc] at h2
        exact absurd h2 (by decide)
      · rw [hc] at h2
        exact absurd h2 (by decide)
      · rw [hc] at h2
        exact absurd h2 (by decide)
    refine ⟨r, hr, ?_⟩
    rw [hs1]
    simp only [setPressType_fields, Session.emit_fields, and_self, true_and, and_true]
    exact callCount_emit_press s
  · obtain ⟨r, hr, h1, -, h2, h3, -⟩ := runPresses_without_cue calls s h
    exact ⟨r, hr, h1, h2, h3⟩

/-- C35 on the cycle session, where the pump and the laser are armed: a
press handled without a cue pointer is INACTIVE and delivers nothing; and on
the session whose cue was disarmed, three presses with all pointers passed
leave the pump window and the laser untouched. -/
theorem cue_gates_reward_example :
    (∃ r, definePressActivity cycleSession 1000 true LeverId.RH false true true = some r
        ∧ (r.lever LeverId.RH).pressType = "INACTIVE"
        ∧ callCount Fn.deliverReward r.out = 0
        ∧ r.pump = cycleSession.pump ∧ r.laser = cycleSession.laser)
      ∧ ∃ r, runPresses staleCueSession [pressAt 1000, pressAt 8000, pressAt 30000] = some r
        ∧ callCount Fn.deliverReward r.out = 0
        ∧ r.pump = staleCueSession.pump ∧ r.laser = staleCueSession.laser := by
  obtain ⟨⟨r, hr, h1, h2, -, -, h3, h4, -⟩, -⟩ :=
    cue_gates_reward cycleSession 1000 true LeverId.RH false true true [] (Or.inl rfl)
  obtain ⟨-, h⟩ := cue_gates_reward staleCueSession 0 true LeverId.RH true true true
    [pressAt 1000, pressAt 8000, pressAt 30000] (Or.inr (by decide))
  obtain ⟨q, hq, g1, g2, g3⟩ := h (Or.inl (by decide))
  exact ⟨⟨r, hr, h1, h2.trans (by decide), h3, h4⟩, q, hq, g1.trans (by decide), g2, g3⟩

/-! ## C36: shared debounce timer -/

/-- Claim C36. The lever debounce timer is shared: `lastDebounceTime` is one
variable of `monitorPressing` for all levers.  With both levers armed, let a
poll of lever `a` at clock value `t` sample a level different from the
previous sample of `a`.  That poll returns and sets the timer to `t`; and
along every later sequence of polls of either lever whose clock values
(32-bit) do not decrease and stay at `t + 100` or earlier, every poll returns and no lever
commits a transition: the stable level of each lever `b` and the handled
transitions are as before the poll at `t`, whatever the raw level of `b` is
and however long it has differed from its stable level. -/
theorem shared_debounce_timer (s : Session) (a : LeverId) (pa : LeverPoll)
    (polls : List (LeverId × LeverPoll))
    (harmed : ∀ id, (s.lever id).armed = true)
    (hchange : pa.raw ≠ (s.lever a).previousLeverState)
    (hasc : ascendingWithin pa.now (pa.now + leverDebounceDelay) polls = true) :
    ∃ s1 r,
      monitorPressing s pa.now pa.raw pa.programRunning a pa.cue pa.pump pa.laser = some s1
        ∧ s1.leverLastDebounceTime = pa.now
        ∧ runLeverPolls s1 polls = some r
        ∧ (∀ b, (r.lever b).stableLeverState = (s.lever b).stableLeverState)
        ∧ leverTransitions r.out = leverTransitions s.out := by
  have hno : ¬ (subU32 pa.now (if pa.raw ≠ (s.lever a).previousLeverState then pa.now
            else s.leverLastDebounceTime) > leverDebounceDelay
          ∧ pa.raw ≠ (s.lever a).stableLeverState) := by
    rw [if_pos hchange, subU32_self]
    intro h
    exact absurd h.1 (by decide)
  obtain ⟨s1, hs1, ha, -, hstab, hlast, hout⟩ :=
    monitorPressing_no_commit s pa a (harmed a) hno
  obtain ⟨s1', hs1', hothers⟩ := monitorPressing_no_commit_others s pa a (harmed a) hno
  rw [hs1] at hs1'
  cases hs1'
  rw [if_pos hchange] at hlast
  have hlev : ∀ id, (s1.lever id).armed = true
      ∧ (s1.lever id).stableLeverState = (s.lever id).stableLeverState := by
    intro id
    by_cases hid : id = a
    · subst hid
      exact ⟨ha, hstab⟩
    · rw [hothers id hid]
      exact ⟨harmed id, rfl⟩
  obtain ⟨r, hr, hl, ho, -⟩ := runLeverPolls_within pa.now polls s1 pa.now
    (fun id => (hlev id).1) (by rw [hlast]) (by rw [hlast]) hasc
  exact ⟨s1, r, hs1, hlast, hr, fun b => ((hl b).2).trans (hlev b).2, ho.trans hout⟩

/-- C36 on the session whose right lever has read LOW since 1000 without a
committed press: the left lever samples a change at 1150, and the polls of
the right lever at 1160 and 1250 (LOW for 160 and 250 ms) and of the left
lever at 1170 commit nothing.  Had the left lever sampled no change at 1150,
the poll of the right lever at 1160 would have committed the press. -/
theorem shared_debounce_timer_example :
    (∃ s1 r, monitorPressing heldLowSession 1150 false true LeverId.LH true true false = some s1
        ∧ s1.leverLastDebounceTime = 1150
        ∧ runLeverPolls s1 [(LeverId.RH, pollAt 1160 false), (LeverId.LH, pollAt 1170 false),
            (LeverId.RH, pollAt 1250 false)] = some r
        ∧ r.leverRH.stableLeverState = true ∧ leverTransitions r.out = [])
      ∧ (runLeverPolls heldLowSession
            [(LeverId.LH, pollAt 1150 true), (LeverId.RH, pollAt 1160 false)]).map
          (fun r => (r.leverRH.stableLeverState, leverTransitions r.out))
          = some (false, [Transition.pressed]) := by
  obtain ⟨s1, r, h1, h2, h3, h4, h5⟩ := shared_debounce_timer heldLowSession LeverId.LH
    (pollAt 1150 false)
    [(LeverId.RH, pollAt 1160 false), (LeverId.LH, pollAt 1170 false),
      (LeverId.RH, pollAt 1250 false)]
    (fun id => by cases id <;> decide) (by decide) (by decide)
  exact ⟨⟨s1, r, h1, h2, h3, (h4 LeverId.RH).trans (by decide), h5.trans (by decide)⟩,
    by decide⟩

/-! ## C37: CYCLE-mode log content -/

/-- Claim C37. CYCLE-mode log content: with the laser armed in CYCLE mode
and the program running, let a stimulating period (`cycleUp` true) end at the
tick `now` (`now ≥ stimEnd`).  When its record is pending (`logged` false, as
every tick inside the window leaves it), `manageStim` returns, starts the next
period `now` to `now + duration` (in `uint32_t`) with `cycleUp` false before
`stim` runs, and prints exactly one record, whose two fields are `now` and
`now + duration`, each minus `differenceFromStartTime` when that is not 0;
the start field is not the start of the period that ended when that period
was not empty.  After a tick `t0` inside the window (frequency not 0, a
period started) the record is pending, so that tick followed by the tick
`now` prints this one record. -/
theorem cycle_log_content (s : Session) (now : Nat)
    (harmed : s.laser.armed = true) (hrun : s.programIsRunning = true)
    (hmode : s.laser.laserMode = MODE.CYCLE) (hup : s.laser.cycleUp = true)
    (hend : now ≥ s.laser.stimEnd) :
    (s.laser.logged = false →
        ∃ r, manageStim s now = some r
          ∧ r.laser.stimStart = now
          ∧ r.laser.stimEnd = (now + s.laser.duration) % 4294967296
          ∧ r.laser.cycleUp = false ∧ r.laser.logged = true
          ∧ printedLines r.out = printedLines s.out ++
              [if s.differenceFromStartTime ≠ 0 then
                "LASER,STIM," ++ (toString (subU32 now s.differenceFromStartTime) ++ ",")
                  ++ toString (subU32 ((now + s.laser.duration) % 4294967296)
                      s.differenceFromStartTime)
              else
                "LASER,STIM," ++ (toString now ++ ",")
                  ++ toString ((now + s.laser.duration) % 4294967296)]
          ∧ (s.laser.stimStart < s.laser.stimEnd → r.laser.stimStart ≠ s.laser.stimStart))
      ∧ ∀ t0, s.laser.frequency ≠ 0 → s.laser.stimStart ≠ 0 →
          s.laser.stimStart < t0 → t0 < s.laser.stimEnd →
          ∃ r0 r, manageStim s t0 = some r0
            ∧ r0.laser.logged = false
            ∧ printedLines r0.out = printedLines s.out
            ∧ manageStim r0 now = some r
            ∧ printedLines r.out = printedLines s.out ++
                [if s.differenceFromStartTime ≠ 0 then
                  "LASER,STIM," ++ (toString (subU32 now s.differenceFromStartTime) ++ ",")
                    ++ toString (subU32 ((now + s.laser.duration) % 4294967296)
                        s.differenceFromStartTime)
                else
                  "LASER,STIM," ++ (toString now ++ ",")
                    ++ toString ((now + s.laser.duration) % 4294967296)] := by
  refine ⟨fun hlog => ?_, fun t0 hf h0 h1 h2 => ?_⟩
  · obtain ⟨r, hr, a1, a2, a3, a4, -, -, a5⟩ :=
      manageStim_period_end s now harmed hrun hmode hup hlog (Or.inr hend)
    refine ⟨r, hr, a1, a2, a3, a4, a5, fun hne => ?_⟩
    rw [a1]
    omega
  · have hnot : ¬ (s.laser.stimStart = 0 ∨ t0 ≥ s.laser.stimEnd) := by
      intro h
      rcases h with h | h
      · exact h0 h
      · omega
    have hin : (inStimPeriod s t0 && s.laser.cycleUp) = true := by
      simp only [inStimPeriod, hup, Bool.and_true, Bool.and_eq_true, decide_eq_true_eq]
      exact ⟨h1, h2⟩
    obtain ⟨r0, len, hr0, -, hl0, hd0, hp0, hpr0⟩ := stim_in_window s t0 hin hf
    have hm0 : manageStim s t0 = some r0 := by
      simp only [manageStim, harmed, hrun, Bool.and_self, if_true, hmode, if_neg hnot]
      exact hr0
    obtain ⟨f1, f2, f3, f4, -, f6, f7, -, -, -⟩ := stim_frame s r0 t0 hr0
    have hlog0 : r0.laser.logged = false := by
      rw [hl0]
      split_ifs <;> rfl
    obtain ⟨r, hr, -, -, -, -, -, -, a5⟩ :=
      manageStim_period_end r0 now (f7.trans harmed) (hp0.trans hrun) (f6.trans hmode)
        (f3.trans hup) hlog0 (Or.inr (by rw [f2]; exact hend))
    refine ⟨r0, r, hm0, hlog0, hpr0, hr, ?_⟩
    rw [a5, hpr0, hd0, f4]

/-- C37 on the stimulating session (period 1 to 30001, no session offset):
the tick at 30001 ends the period and prints `LASER,STIM,30001,60001`, the
bounds of the resting period it starts, not `1` and `30001`; with the session
offset 1000 the record is `LASER,STIM,29001,59001`; and the tick at 100 inside
the window prints nothing and is followed at 30001 by the same one record. -/
theorem cycle_log_content_example :
    (∃ r, manageStim stimulatingSession 30001 = some r
        ∧ r.laser.stimStart = 30001 ∧ r.laser.stimEnd = 60001 ∧ r.laser.cycleUp = false
        ∧ printedLines r.out = ["LASER,STIM,30001,60001"])
      ∧ (∃ r, manageStim { stimulatingSession with differenceFromStartTime := 1000 } 30001
            = some r
          ∧ printedLines r.out = ["LASER,STIM,29001,59001"])
      ∧ ∃ r0 r, manageStim stimulatingSession 100 = some r0
          ∧ printedLines r0.out = []
          ∧ manageStim r0 30001 = some r
          ∧ printedLines r.out = ["LASER,STIM,30001,60001"] := by
  obtain ⟨r, hr, h1, h2, h3, -, h5, -⟩ := (cycle_log_content stimulatingSession 30001
    (by decide) (by decide) (by decide) (by decide) (by decide)).1 (by decide)
  obtain ⟨q, hq, -, -, -, -, g5, -⟩ := (cycle_log_content
    { stimulatingSession with differenceFromStartTime := 1000 } 30001
    (by decide) (by decide) (by decide) (by decide) (by decide)).1 (by decide)
  obtain ⟨r0, r1, k1, -, k2, k3, k4⟩ := (cycle_log_content stimulatingSession 30001
    (by decide) (by decide) (by decide) (by decide) (by decide)).2 100
    (by decide) (by decide) (by decide) (by decide)
  exact ⟨⟨r, hr, h1, h2.trans (by decide), h3, h5.trans (by decide)⟩,
    ⟨q, hq, g5.trans (by decide)⟩, r0, r1, k1, k2.trans (by decide), k3,
    k4.trans (by decide)⟩

/-! ## C38: laser state and action -/

/-- Claim C38. Laser state/action consistency: a `stim` tick returns when
the frequency is not 0, and after every `stim` tick that returns, from every
prior laser state, `laserState = INACTIVE` implies `laserAction = OFF`; the
tick adds to the trace printed lines only, followed by exactly one write of
the laser pin, whose level is HIGH if and only if `laserAction = ON` after the
tick; and the level is LOW at every tick whose time is outside the stimulation
window or at which `cycleUp` is false. -/
theorem laser_state_action_consistency (s : Session) (t : Nat) :
    (s.laser.frequency ≠ 0 → ∃ r, stim s t = some r)
      ∧ ∀ r, stim s t = some r →
        (r.laser.laserState = STATE.INACTIVE → r.laser.laserAction = ACTION.OFF)
          ∧ ∃ (lines : List String) (level : Bool),
              r.out = s.out ++ lines.map Event.println
                  ++ [Event.digitalWrite s.laser.pin level]
                ∧ (level = true ↔ r.laser.laserAction = ACTION.ON)
                ∧ ((inStimPeriod s t = false ∨ s.laser.cycleUp = false) → level = false) := by
  refine ⟨stim_returns s t, fun r h => ?_⟩
  obtain ⟨x, lines, hr, hout, hpin, hin, hno⟩ := stim_before_manageLaser s r t h
  have hlaser : r.laser = x.laser := by
    rw [hr]
    exact (manageLaser_fields x).1
  have hrout : r.out = s.out ++ lines.map Event.println
      ++ [Event.digitalWrite s.laser.pin
            (decide (x.laser.laserState = STATE.ACTIVE ∧ x.laser.laserAction = ACTION.ON))] := by
    rw [hr, manageLaser_out, hout, hpin]
  cases hw : (inStimPeriod s t && s.laser.cycleUp)
  · obtain ⟨h1, h2⟩ := hno hw
    refine ⟨fun _ => by rw [hlaser]; exact h2, lines, _, hrout, ?_, fun _ => ?_⟩
    · rw [hlaser, h1, h2]
      simp
    · rw [h1]
      simp
  · have h1 := hin hw
    refine ⟨fun hi => ?_, lines, _, hrout, ?_, fun hor => ?_⟩
    · rw [hlaser, h1] at hi
      cases hi
    · rw [hlaser, h1]
      simp
    · exfalso
      rcases hor with h2 | h2 <;> simp [h2] at hw

/-- C38 on the oscillation session (window 7000 to 8000, 5 Hz, action OFF
before the tick): the tick at 7500 leaves the laser ACTIVE and ON and writes
the pin HIGH; the tick at 8000 leaves it INACTIVE and OFF and writes the pin
LOW. -/
theorem laser_state_action_consistency_example :
    (∃ r, stim oscillationSession 7500 = some r
        ∧ r.laser.laserState = STATE.ACTIVE ∧ r.laser.laserAction = ACTION.ON
        ∧ r.out = [Event.digitalWrite 6 true])
      ∧ ∃ r, stim oscillationSession 8000 = some r
        ∧ r.laser.laserState = STATE.INACTIVE ∧ r.laser.laserAction = ACTION.OFF
        ∧ r.out = [Event.digitalWrite 6 false] := by
  obtain ⟨r, hr⟩ := (laser_state_action_consistency oscillationSession 7500).1 (by decide)
  obtain ⟨q, hq⟩ := (laser_state_action_consistency oscillationSession 8000).1 (by decide)
  have h1 : (stim oscillationSession 7500).map
      (fun r => (r.laser.laserState, r.laser.laserAction, r.out))
      = some (STATE.ACTIVE, ACTION.ON, [Event.digitalWrite 6 true]) := by decide
  have h2 : (stim oscillationSession 8000).map
      (fun r => (r.laser.laserState, r.laser.laserAction, r.out))
      = some (STATE.INACTIVE, ACTION.OFF, [Event.digitalWrite 6 false]) := by decide
  rw [hr] at h1
  rw [hq] at h2
  simp only [Option.map_some', Option.some.injEq, Prod.mk.injEq] at h1 h2
  exact ⟨⟨r, hr, h1.1, h1.2.1, h1.2.2⟩, q, hq, h2.1, h2.2.1, h2.2.2⟩

end Reacher
